import Mathlib

/-!
# so24b: the supervisor kernel of the teaching simulator (`so.c`, `processo.c`, `metrica.c`)

A shallow embedding of the kernel and the properties checked on it.

Modelling conventions.

* C `int` is `Int`.  The counters of the kernel (pids, process count, quantum,
  metrics) are far from the 32-bit range in the runs considered and are computed
  exactly; the device address, which `calcular_endereco_dispositivo` computes
  from arguments of any value, is computed modulo 2^32 in two's complement
  (`int32`), as the machine does.
* A `float` is the rational (`ℚ`) its binary32 value denotes.  Each float
  operation is the exact operation followed by `float_arredonda`, the rounding
  of binary32 to the nearest value, ties to even, with gradual underflow.  The
  infinities are not told apart from the finite values: a result of magnitude
  2^128 or more is kept on the grid of the largest binade.  No priority of a
  run comes near that range.
* A pointer to a process descriptor is the position of that descriptor in the
  process table: descriptors are never freed or moved while the kernel runs, and
  the table only grows at its end.  The table is a list; the loops that stop at
  the null sentinel visit the whole list.  The ready queue (a singly linked
  list with head and tail pointers) is the list of its entries, head first.
* `malloc` and `realloc` succeed.
* Dereferencing an absent current process is undefined in C; a handler of the
  model that starts by reading the current descriptor leaves the state unchanged
  there, and the final store of SPAWN into the caller is skipped.  The runs the
  claims speak of only issue a system call while a process is current.
* The collaborators that are not part of the sources (memory, I/O bus, program
  reader, console) are modelled from the spec, each under its own doc comment.
  Console output and the metrics file are not modelled.
* A kernel entry receives the memory and the device registers as the machine
  presents them at that trap, whatever they are; the registers keep their
  readable value during the entry.

Layout: the embedding of the sources, then the predicates and the example
machine the theorems use, then the lemmas, and last the theorems of the claims
(each names its claim in its doc comment).
-/

namespace So24b

/-! ## so.h, processo.h -/

def INTERVALO_INTERRUPCAO : Int := 20
def QUANTUM : Int := 5
def ESCALONADOR : Int := 2
def SO_LE : Int := 1
def SO_ESCR : Int := 2
def SO_CRIA_PROC : Int := 7
def SO_MATA_PROC : Int := 8
def SO_ESPERA_PROC : Int := 9

/-! ## Machine arithmetic -/

/-- The value of a C `int` after an overflow: the given integer modulo 2^32, in
the range from -2^31 to 2^31 - 1. -/
def int32 (x : Int) : Int :=
  (x + 2147483648) % 4294967296 - 2147483648

/-- Rounding of a rational to the nearest integer, ties to the even one. -/
def arredonda_par (x : ℚ) : Int :=
  if x - (⌊x⌋ : ℚ) < 1 / 2 then ⌊x⌋
  else if 1 / 2 < x - (⌊x⌋ : ℚ) then ⌊x⌋ + 1
  else if ⌊x⌋ % 2 = 0 then ⌊x⌋ else ⌊x⌋ + 1

/-- The power of two with the given exponent. -/
def dois_elevado (e : Int) : ℚ :=
  if 0 ≤ e then ((2 ^ e.toNat : Nat) : ℚ) else 1 / ((2 ^ (-e).toNat : Nat) : ℚ)

/-- The search of `float_expoente`: `limite` is `2^(e+1)` and `n` exponents are
left to try. -/
def float_expoente_laco (m : ℚ) : Nat → Int → ℚ → Int
  | 0, e, _ => e
  | n + 1, e, limite =>
    if m < limite then e else float_expoente_laco m n (e + 1) (limite * 2)

/-- The exponent of the binade of binary32 a magnitude `m` falls in: the least
`e` from -126 on with `m < 2^(e+1)` (so -126 for the subnormal magnitudes), and
128 when there is none up to 127. -/
def float_expoente (m : ℚ) : Int :=
  float_expoente_laco m 254 (-126) (dois_elevado (-125))

/-- Rounding of a magnitude to binary32: to the nearest multiple of the unit in
the last place of its binade, `2^(e-23)`, ties to the even multiple. -/
def float_arredonda_pos (m : ℚ) : ℚ :=
  (arredonda_par (m / dois_elevado (float_expoente m - 23)) : ℚ) *
    dois_elevado (float_expoente m - 23)

/-- Rounding of a real (rational) value to binary32, to nearest, ties to even. -/
def float_arredonda (x : ℚ) : ℚ :=
  if x < 0 then -float_arredonda_pos (-x) else float_arredonda_pos x

/-- The conversion of an `int` to `float`. -/
def float_de_int (n : Int) : ℚ := float_arredonda (n : ℚ)

/-- The sum of two floats. -/
def float_soma (a b : ℚ) : ℚ := float_arredonda (a + b)

/-- The quotient of two floats (by a non-zero divisor). -/
def float_div (a b : ℚ) : ℚ := float_arredonda (a / b)

inductive estado_processo_t
  | ESTADO_INICIALIZANDO
  | ESTADO_PRONTO
  | ESTADO_BLOQUEADO
  | ESTADO_TERMINADO
  deriving DecidableEq

inductive motivo_bloq_processo_t
  | BLOQUEIO_POR_LEITURA
  | BLOQUEIO_POR_ESCRITA
  | BLOQUEIO_POR_ESPERA_DE_PROC
  deriving DecidableEq

open estado_processo_t motivo_bloq_processo_t

/-- The integer value of an enumerator of `motivo_bloq_processo_t`. -/
def motivo_bloq_processo_t.codigo : motivo_bloq_processo_t → Nat
  | BLOQUEIO_POR_LEITURA => 0
  | BLOQUEIO_POR_ESCRITA => 1
  | BLOQUEIO_POR_ESPERA_DE_PROC => 2

/-- The enumerator of `estado_processo_t` with a given integer value
(`ESTADO_N = 4` and above name no state). -/
def estado_processo_t.de_codigo : Nat → Option estado_processo_t
  | 0 => some ESTADO_INICIALIZANDO
  | 1 => some ESTADO_PRONTO
  | 2 => some ESTADO_BLOQUEADO
  | 3 => some ESTADO_TERMINADO
  | _ => none

structure metricas_estado_processo_t where
  quantidade : Int
  tempo_total : Int
  deriving DecidableEq

/-- The array `estados[ESTADO_N]` is a function of the state that indexes it. -/
structure processo_metricas_t where
  quantidade_preempcoes : Int
  tempo_retorno : Int
  tempo_resposta : Int
  estados : estado_processo_t → metricas_estado_processo_t

/-- The descriptor; `reg0` and `reg1` are `reg[0]` (A) and `reg[1]` (X). -/
structure processo_t where
  pid : Int
  pc : Int
  estado : estado_processo_t
  motivo_bloqueio : motivo_bloq_processo_t
  reg0 : Int
  reg1 : Int
  prioridade : ℚ
  dado_pendente : Int
  metricas : processo_metricas_t

/-! ## Collaborators -/

/-- Modelled from the spec: `irq.h` is not among the sources. The six IRQ codes:
reset, CPU error, system call, timer, and two reserved ones. -/
inductive irq_t
  | IRQ_RESET
  | IRQ_ERR_CPU
  | IRQ_SISTEMA
  | IRQ_RELOGIO
  | IRQ_RESERVADA_4
  | IRQ_RESERVADA_5
  deriving DecidableEq

open irq_t

/-- Modelled from the spec: `irq.h` is not among the sources. A memory address: one
of the four fixed words of the trap frame, or any other word of the memory. -/
inductive endereco_t
  | IRQ_END_PC
  | IRQ_END_A
  | IRQ_END_X
  | IRQ_END_erro
  | outro (e : Int)
  deriving DecidableEq

open endereco_t

/-- Modelled from the spec: `memoria.c` is not among the sources. The memory offers
read and write of a word; the words of the trap frame are always accessible, any
other address may be invalid (`none`). -/
structure mem_t where
  PC : Int
  A : Int
  X : Int
  erro : Int
  resto : Int → Option Int

/-- Modelled from the spec: `memoria.c` is not among the sources. Read of a word;
`none` is an access error. -/
def mem_le (mem : mem_t) : endereco_t → Option Int
  | IRQ_END_PC => some mem.PC
  | IRQ_END_A => some mem.A
  | IRQ_END_X => some mem.X
  | IRQ_END_erro => some mem.erro
  | outro e => mem.resto e

/-- Modelled from the spec: `memoria.c` is not among the sources. Write of a word;
`none` is an access error, and the memory is then unchanged. -/
def mem_escreve (mem : mem_t) (ender : endereco_t) (valor : Int) : Option mem_t :=
  match ender with
  | IRQ_END_PC => some { mem with PC := valor }
  | IRQ_END_A => some { mem with A := valor }
  | IRQ_END_X => some { mem with X := valor }
  | IRQ_END_erro => some { mem with erro := valor }
  | outro e =>
    match mem.resto e with
    | some _ => some { mem with resto := fun a => if a = e then some valor else mem.resto a }
    | none => none

/-- A write whose result the caller does not test. -/
def mem_escreve_ign (mem : mem_t) (ender : endereco_t) (valor : Int) : mem_t :=
  (mem_escreve mem ender valor).getD mem

/-- Modelled from the spec: `es.c` and `dispositivos.h` are not among the sources.
The I/O bus as the kernel sees it during one kernel entry: the numbers of the
device registers it uses, the word each register presents when read (`none` is
an access error), whether a write is accepted, and the writes accepted so far
(oldest first). The registers keep their readable value for the whole kernel
entry and change between entries. -/
structure es_t where
  D_TERM_A_TECLADO : Int
  D_TERM_A_TECLADO_OK : Int
  D_TERM_A_TELA : Int
  D_TERM_A_TELA_OK : Int
  D_RELOGIO_INSTRUCOES : Int
  D_RELOGIO_TIMER : Int
  D_RELOGIO_INTERRUPCAO : Int
  le : Int → Option Int
  escreve_ok : Int → Int → Bool
  escritas : List (Int × Int)

/-- Modelled from the spec: `es.c` is not among the sources. Read of a device register. -/
def es_le (es : es_t) (dispositivo : Int) : Option Int :=
  es.le dispositivo

/-- Modelled from the spec: `es.c` is not among the sources. Write to a device
register; the flag tells whether the result is `ERR_OK`. -/
def es_escreve (es : es_t) (dispositivo : Int) (valor : Int) : es_t × Bool :=
  if es.escreve_ok dispositivo valor then
    ({ es with escritas := es.escritas ++ [(dispositivo, valor)] }, true)
  else
    (es, false)

/-- A file name, as the list of its bytes (without the final NUL). -/
abbrev nome_t := List Int

/-- Modelled from the spec: `programa.h` is not among the sources. An executable:
the address it declares and the words it holds. -/
structure programa_t where
  end_carga : Int
  dados : List Int

/-- The name of the initial program, "init.maq". -/
def nome_init : nome_t := [105, 110, 105, 116, 46, 109, 97, 113]

/-- The name of the trap handler image, "trata_int.maq". -/
def nome_trata_int : nome_t := [116, 114, 97, 116, 97, 95, 105, 110, 116, 46, 109, 97, 113]

/-! ## The kernel state -/

structure so_metricas_t where
  tempo_total_execucao : Int
  tempo_total_ocioso : Int
  num_interrupcoes : irq_t → Int
  num_preempcoes : Int

/-- The kernel state `so_t`. `mem` and `es` hold the state of the memory and of
the I/O bus the C structure points to; `programas` is what `prog_cria` finds for
each file name (`none` when the reader returns NULL). -/
structure so_t where
  mem : mem_t
  es : es_t
  programas : nome_t → Option programa_t
  erro_interno : Bool
  processo_corrente : Option Nat
  processos : List processo_t
  fila_prontos : List Nat
  quantum_proc : Int
  pid_atual : Int
  metricas : so_metricas_t
  numero_processos : Int
  relogio_atual : Int

/-- Applies `f` to the descriptor at position `i` of the table. -/
def altera_processo (ps : List processo_t) (i : Nat) (f : processo_t → processo_t) :
    List processo_t :=
  match ps[i]? with
  | some p => ps.set i (f p)
  | none => ps

/-- The current descriptor: its position in the table and its contents. -/
def corrente (self : so_t) : Option (Nat × processo_t) :=
  match self.processo_corrente with
  | none => none
  | some c =>
    match self.processos[c]? with
    | some p => some (c, p)
    | none => none

/-- Applies `f` to the current descriptor. -/
def altera_corrente (self : so_t) (f : processo_t → processo_t) : so_t :=
  match self.processo_corrente with
  | none => self
  | some c => { self with processos := altera_processo self.processos c f }

/-! ## processo.c -/

def preemptiu (self : processo_t) (estado : estado_processo_t) : Bool :=
  self.estado = ESTADO_INICIALIZANDO && estado = ESTADO_PRONTO

def metricas_zeradas : processo_metricas_t :=
  { quantidade_preempcoes := 0, tempo_retorno := 0, tempo_resposta := 0,
    estados := fun _ => { quantidade := 0, tempo_total := 0 } }

/-- The descriptor `inicializa_processo` produces. The fields it does not write
(`motivo_bloqueio`, `dado_pendente`) are given a fixed value. -/
def inicializa_processo (pid : Int) (pc : Int) : processo_t :=
  { pid := pid, pc := pc, estado := ESTADO_PRONTO,
    motivo_bloqueio := BLOQUEIO_POR_LEITURA,
    reg0 := 0, reg1 := 0, prioridade := 1 / 2, dado_pendente := 0,
    metricas := { metricas_zeradas with
      estados := Function.update metricas_zeradas.estados ESTADO_PRONTO
        { quantidade := 1, tempo_total := 0 } } }

def proc_muda_estado (proc : processo_t) (estado : estado_processo_t) : processo_t :=
  let m := proc.metricas
  let m1 := if preemptiu proc estado then
      { m with quantidade_preempcoes := m.quantidade_preempcoes + 1 } else m
  let e := m1.estados estado
  let m2 := { m1 with
    estados := Function.update m1.estados estado { e with quantidade := e.quantidade + 1 } }
  { proc with metricas := m2, estado := estado }

/-! ## so.c: metrics -/

def atualiza_metricas_processo (self : processo_t) (dif_tempo : Int) : processo_t :=
  let m := self.metricas
  let m1 := if self.estado ≠ ESTADO_TERMINADO then
      { m with tempo_retorno := m.tempo_retorno + dif_tempo } else m
  let e := m1.estados self.estado
  let m2 := { m1 with
    estados := Function.update m1.estados self.estado
      { e with tempo_total := e.tempo_total + dif_tempo } }
  let pronto := m2.estados ESTADO_PRONTO
  let m3 := if pronto.quantidade > 0 then
      { m2 with tempo_resposta := Int.tdiv pronto.tempo_total pronto.quantidade } else m2
  { self with metricas := m3 }

/-- The loop `for (i = 0; i < n; i++)` over the table: `f` applied to the first
`n` descriptors. -/
def nos_primeiros (n : Int) (f : processo_t → processo_t) (ps : List processo_t) :
    List processo_t :=
  (ps.take n.toNat).map f ++ ps.drop n.toNat

def atualiza_metricas_sistema (self : so_t) (dif_tempo : Int) : so_t :=
  let m := self.metricas
  let m1 := { m with tempo_total_execucao := m.tempo_total_execucao + dif_tempo }
  let m2 := if self.processo_corrente.isNone then
      { m1 with tempo_total_ocioso := m1.tempo_total_ocioso + dif_tempo } else m1
  { self with
    metricas := m2,
    processos := nos_primeiros self.numero_processos
      (fun p => atualiza_metricas_processo p dif_tempo) self.processos }

/-! ## so.c: creation -/

/-- The loop of `so_carrega_programa`: the words are written one after the other
from `ender` on; the flag is false when a write fails (the words before it stay
written). -/
def carrega_palavras (mem : mem_t) : Int → List Int → mem_t × Bool
  | _, [] => (mem, true)
  | ender, d :: ds =>
    match mem_escreve mem (outro ender) d with
    | some mem1 => carrega_palavras mem1 (ender + 1) ds
    | none => (mem, false)

def so_carrega_programa (self : so_t) (nome_do_executavel : nome_t) : so_t × Int :=
  match self.programas nome_do_executavel with
  | none => (self, -1)
  | some prog =>
    match carrega_palavras self.mem prog.end_carga prog.dados with
    | (mem1, true) => ({ self with mem := mem1 }, prog.end_carga)
    | (mem1, false) => ({ self with mem := mem1 }, -1)

def inicializa_metricas (self : so_t) : so_t :=
  { self with metricas :=
      { tempo_total_execucao := 0, tempo_total_ocioso := 0,
        num_interrupcoes := fun _ => 0, num_preempcoes := 0 } }

/-- The trap vector `IRQ_END_TRATADOR` (of `irq.h`, not among the sources) is a
parameter. -/
def cpu_inicializa (IRQ_END_TRATADOR : Int) (self : so_t) : so_t :=
  match so_carrega_programa self nome_trata_int with
  | (self1, ender) =>
    let self2 := if ender ≠ IRQ_END_TRATADOR then { self1 with erro_interno := true } else self1
    match es_escreve self2.es self2.es.D_RELOGIO_TIMER INTERVALO_INTERRUPCAO with
    | (es1, true) => { self2 with es := es1 }
    | (es1, false) => { self2 with es := es1, erro_interno := true }

/-- The kernel `so_cria` returns (`none` for NULL). `so_cria` leaves the pointer to
the process table unset; the table is empty here. -/
def so_cria (IRQ_END_TRATADOR : Int) (mem : mem_t) (es : es_t)
    (programas : nome_t → Option programa_t) : Option so_t :=
  let self : so_t :=
    { mem := mem, es := es, programas := programas, erro_interno := false,
      processo_corrente := none, processos := [], fila_prontos := [],
      quantum_proc := QUANTUM, pid_atual := 1,
      metricas := { tempo_total_execucao := 0, tempo_total_ocioso := 0,
                    num_interrupcoes := fun _ => 0, num_preempcoes := 0 },
      numero_processos := 0, relogio_atual := -1 }
  let self1 := cpu_inicializa IRQ_END_TRATADOR (inicializa_metricas self)
  if self1.erro_interno then none else some self1

/-! ## so.c: interrupt entry, pending work, scheduling, dispatch -/

def finaliza_sistema (self : so_t) : so_t × Int :=
  match es_escreve self.es self.es.D_RELOGIO_TIMER 0 with
  | (es1, e1) =>
    match es_escreve es1 es1.D_RELOGIO_INTERRUPCAO 0 with
    | (es2, e2) =>
      if !e1 || !e2 then ({ self with es := es2, erro_interno := true }, 1)
      else ({ self with es := es2 }, 1)

def atualiza_metricas_com_relogio (self : so_t) : so_t :=
  let r_anterior := self.relogio_atual
  match es_le self.es self.es.D_RELOGIO_INSTRUCOES with
  | none => self
  | some relogio =>
    let self1 := { self with relogio_atual := relogio }
    if r_anterior = -1 then self1
    else atualiza_metricas_sistema self1 (relogio - r_anterior)

def salva_estado_cpu_no_processo (self : so_t) : so_t :=
  altera_corrente self (fun p =>
    let p1 := match mem_le self.mem IRQ_END_PC with
      | some v => { p with pc := v }
      | none => p
    let p2 := match mem_le self.mem IRQ_END_A with
      | some v => { p1 with reg0 := v }
      | none => p1
    match mem_le self.mem IRQ_END_X with
    | some v => { p2 with reg1 := v }
    | none => p2)

/-- The product and the sum are `int` operations. -/
def calcular_endereco_dispositivo (disp : Int) (terminal : Int) : Int :=
  int32 (disp + int32 (terminal * 4))

def obter_terminal_por_pid (pid : Int) : Int :=
  if pid ≤ 0 then -1 else Int.tmod (pid - 1) 4

def insere_na_fila_prontos (self : so_t) (proc : Nat) : so_t :=
  { self with fila_prontos := self.fila_prontos ++ [proc] }

/-- The inner loop of the sweep for `BLOQUEIO_POR_ESPERA_DE_PROC`: whether some
descriptor of the table has the awaited pid and is terminated. -/
def esperado_terminou (ps : List processo_t) (pid : Int) : Bool :=
  match ps with
  | [] => false
  | q :: qs => (q.pid = pid && q.estado = ESTADO_TERMINADO) || esperado_terminou qs pid

/-- The `switch` of the sweep on the block reason of the blocked descriptor `proc`,
found at position `i` of the table. -/
def verifica_desbloqueio (self : so_t) (i : Nat) (proc : processo_t) : so_t :=
  let terminal := obter_terminal_por_pid proc.pid
  let dispositivo_teclado := calcular_endereco_dispositivo self.es.D_TERM_A_TECLADO_OK terminal
  let dispositivo_tela := calcular_endereco_dispositivo self.es.D_TERM_A_TELA_OK terminal
  let pronto (s : so_t) : so_t :=
    { s with processos :=
        altera_processo s.processos i (fun p => proc_muda_estado p ESTADO_PRONTO) }
  match proc.motivo_bloqueio with
  | BLOQUEIO_POR_LEITURA =>
    match es_le self.es dispositivo_teclado with
    | some estado_teclado => if estado_teclado ≠ 0 then pronto self else self
    | none => self
  | BLOQUEIO_POR_ESCRITA =>
    match es_le self.es dispositivo_tela with
    | some estado_tela =>
      if estado_tela ≠ 0 then
        match es_escreve self.es
            (calcular_endereco_dispositivo self.es.D_TERM_A_TELA terminal)
            proc.dado_pendente with
        | (es1, true) => pronto { self with es := es1 }
        | (es1, false) => { self with es := es1 }
      else self
    | none => self
  | BLOQUEIO_POR_ESPERA_DE_PROC =>
    if esperado_terminou self.processos proc.reg0 then pronto self else self

/-- The body of the loop of `so_trata_pendencias` for the descriptor at position `i`. -/
def so_trata_pendencias_proc (self : so_t) (i : Nat) : so_t :=
  match self.processos[i]? with
  | none => self
  | some proc =>
    if proc.estado = ESTADO_BLOQUEADO then
      let self1 := verifica_desbloqueio self i proc
      match self1.processos[i]? with
      | some p => if p.estado = ESTADO_PRONTO then insere_na_fila_prontos self1 i else self1
      | none => self1
    else self

def so_trata_pendencias (self : so_t) : so_t :=
  (List.range self.processos.length).foldl so_trata_pendencias_proc self

def atualiza_estado_processo_corrente (self : so_t) : so_t :=
  altera_corrente self (fun p =>
    if p.estado = ESTADO_PRONTO then { p with estado := ESTADO_INICIALIZANDO } else p)

/-- The amount `(QUANTUM - quantum_proc) / (float)QUANTUM / 2` of
`atualiza_prioridade`: the `int` difference is converted to `float` and the two
divisions are float divisions. -/
def acrescimo_de_prioridade (quantum_proc : Int) : ℚ :=
  float_div (float_div (float_de_int (QUANTUM - quantum_proc)) (float_de_int QUANTUM)) 2

def atualiza_prioridade (self : so_t) : so_t :=
  altera_corrente self (fun p =>
    { p with prioridade := float_soma p.prioridade (acrescimo_de_prioridade self.quantum_proc) })

/-- The first `if` of `so_executa_proc`: a running current process that is not the
chosen one goes to READY and counts as a preemption. -/
def so_executa_proc_preempcao (self : so_t) (proc : Option Nat) : so_t :=
  match corrente self with
  | some (c, pc) =>
    if some c ≠ proc ∧ pc.estado = ESTADO_INICIALIZANDO then
      { self with
        processos := altera_processo self.processos c (fun p => proc_muda_estado p ESTADO_PRONTO),
        metricas := { self.metricas with num_preempcoes := self.metricas.num_preempcoes + 1 } }
    else self
  | none => self

/-- The second `if` of `so_executa_proc`: the chosen process, when it is not yet
running, goes to RUNNING. -/
def so_executa_proc_inicio (self : so_t) (proc : Option Nat) : so_t :=
  match proc with
  | some i =>
    match self.processos[i]? with
    | some p =>
      if p.estado ≠ ESTADO_INICIALIZANDO then
        { self with processos :=
            altera_processo self.processos i (fun q => proc_muda_estado q ESTADO_INICIALIZANDO) }
      else self
    | none => self
  | none => self

def so_executa_proc (self : so_t) (proc : Option Nat) : so_t :=
  let self1 := so_executa_proc_preempcao self proc
  let self2 := so_executa_proc_inicio self1 proc
  { self2 with processo_corrente := proc, quantum_proc := QUANTUM }

/-- The position of the first descriptor of the table in the given state. -/
def obtem_processo_por_estado (ps : List processo_t) (estado : estado_processo_t) : Option Nat :=
  match ps with
  | [] => none
  | p :: resto =>
    if p.estado = estado then some 0
    else (obtem_processo_por_estado resto estado).map (fun k => k + 1)

/-- Whether a current process exists and is in state `ESTADO_INICIALIZANDO`. -/
def corrente_executando (self : so_t) : Bool :=
  match corrente self with
  | some (_, p) => p.estado = ESTADO_INICIALIZANDO
  | none => false

def escalonador_simples (sistema_operacional : so_t) : so_t :=
  if corrente_executando sistema_operacional then sistema_operacional
  else
    match obtem_processo_por_estado sistema_operacional.processos ESTADO_PRONTO with
    | some proximo_processo => so_executa_proc sistema_operacional (some proximo_processo)
    | none =>
      match obtem_processo_por_estado sistema_operacional.processos ESTADO_BLOQUEADO with
      | some _ => { sistema_operacional with processo_corrente := none }
      | none => { sistema_operacional with erro_interno := true }

def remove_primeiro_processo_fila (fila : List Nat) : Option (Nat × List Nat) :=
  match fila with
  | [] => none
  | proc :: resto => some (proc, resto)

/-- The step both queue policies share before choosing: a running current process
whose quantum is spent goes to the tail of the ready queue. -/
def reinsere_corrente (sistema_operacional : so_t) : so_t :=
  if corrente_executando sistema_operacional then
    match sistema_operacional.processo_corrente with
    | some c => insere_na_fila_prontos sistema_operacional c
    | none => sistema_operacional
  else sistema_operacional

def escalonador_round_robin (sistema_operacional : so_t) : so_t :=
  if corrente_executando sistema_operacional && sistema_operacional.quantum_proc > 0 then
    sistema_operacional
  else
    let so1 := reinsere_corrente sistema_operacional
    match remove_primeiro_processo_fila so1.fila_prontos with
    | some (proximo_processo, resto) =>
      so_executa_proc { so1 with fila_prontos := resto } (some proximo_processo)
    | none => { so1 with processo_corrente := none }

/-- The priority of the descriptor a queue node points to. -/
def prioridade_de (ps : List processo_t) (i : Nat) : ℚ :=
  match ps[i]? with
  | some p => p.prioridade
  | none => 0

/-- The scan of `remover_processo_maior_prioridade`: `pos` is the position in the
queue of the node visited, `melhor` the position of the node kept so far. -/
def posicao_maior_prioridade (ps : List processo_t) :
    List Nat → Nat → Nat → ℚ → Nat
  | [], _, melhor, _ => melhor
  | i :: resto, pos, melhor, prio_melhor =>
    if prioridade_de ps i < prio_melhor then
      posicao_maior_prioridade ps resto (pos + 1) pos (prioridade_de ps i)
    else
      posicao_maior_prioridade ps resto (pos + 1) melhor prio_melhor

/-- The descriptor of the node removed and the queue left. -/
def remover_processo_maior_prioridade (ps : List processo_t) (fila : List Nat) :
    Option (Nat × List Nat) :=
  match fila with
  | [] => none
  | i :: _ =>
    let k := posicao_maior_prioridade ps fila 0 0 (prioridade_de ps i)
    match fila[k]? with
    | some j => some (j, fila.eraseIdx k)
    | none => none

def escalonador_prioridade (sistema_operacional : so_t) : so_t :=
  if corrente_executando sistema_operacional && sistema_operacional.quantum_proc > 0 then
    sistema_operacional
  else
    let so1 := reinsere_corrente sistema_operacional
    match remover_processo_maior_prioridade so1.processos so1.fila_prontos with
    | some (nodo_maior_prioridade, resto) =>
      so_executa_proc { so1 with fila_prontos := resto } (some nodo_maior_prioridade)
    | none => { so1 with processo_corrente := none }

def so_escalona (self : so_t) (escalonador : Int) : so_t :=
  let self1 := atualiza_prioridade (atualiza_estado_processo_corrente self)
  if escalonador = 1 then escalonador_prioridade self1
  else if escalonador = 2 then escalonador_round_robin self1
  else if escalonador = 3 then escalonador_simples self1
  else self1

def so_despacha (self : so_t) : so_t × Int :=
  match corrente self with
  | none => (self, 1)
  | some (_, p) =>
    let mem1 := mem_escreve_ign self.mem IRQ_END_PC p.pc
    let mem2 := mem_escreve_ign mem1 IRQ_END_A p.reg0
    let mem3 := mem_escreve_ign mem2 IRQ_END_X p.reg1
    ({ self with mem := mem3 }, 0)

/-! ## so.c: the handler of each IRQ -/

def so_cria_processo (self : so_t) (nome_do_executavel : nome_t) : so_t × Option processo_t :=
  match so_carrega_programa self nome_do_executavel with
  | (self1, pc) =>
    if pc = -1 then (self1, none)
    else
      ({ self1 with pid_atual := self1.pid_atual + 1,
                    numero_processos := self1.numero_processos + 1 },
       some (inicializa_processo self1.pid_atual pc))

/-- The handler allocates a table of one pointer, without the null sentinel; the
table of the model holds exactly the descriptor stored. -/
def so_trata_irq_reset (self : so_t) : so_t :=
  match so_cria_processo self nome_init with
  | (self1, none) => { self1 with erro_interno := true }
  | (self1, some init_proc) =>
    { self1 with
      processos := [init_proc],
      processo_corrente := some 0,
      mem := mem_escreve_ign self1.mem IRQ_END_PC init_proc.pc }

/-- The second argument `pid_morto` is only used in the log message. -/
def verifica_processos_em_espera (sistema_operacional : so_t) (_pid_morto : Int) : so_t :=
  { sistema_operacional with
    processos := sistema_operacional.processos.map (fun processo_atual =>
      if processo_atual.estado = ESTADO_BLOQUEADO then
        { processo_atual with estado := ESTADO_PRONTO }
      else processo_atual) }

/-- The handler stores the enumerator `BLOQUEIO_POR_LEITURA` (a block reason) in
the state field: the state whose integer value is that of the enumerator. -/
def so_trata_irq_err_cpu (self : so_t) : so_t :=
  let self1 :=
    match corrente self with
    | some (c, pc) =>
      let ps1 := altera_processo self.processos c (fun p =>
        { p with estado :=
            (estado_processo_t.de_codigo BLOQUEIO_POR_LEITURA.codigo).getD p.estado })
      let s1 := { self with processos := ps1 }
      let s2 := verifica_processos_em_espera s1 pc.pid
      { s2 with processo_corrente := none }
    | none => self
  { self1 with erro_interno := true }

def so_trata_irq_relogio (self : so_t) : so_t :=
  match es_escreve self.es self.es.D_RELOGIO_INTERRUPCAO 0 with
  | (es1, e1) =>
    match es_escreve es1 es1.D_RELOGIO_TIMER INTERVALO_INTERRUPCAO with
    | (es2, e2) =>
      let self1 := if !e1 || !e2 then { self with es := es2, erro_interno := true }
        else { self with es := es2 }
      if self1.quantum_proc > 0 then { self1 with quantum_proc := self1.quantum_proc - 1 }
      else self1

def so_trata_irq_desconhecida (self : so_t) (_irq : irq_t) : so_t :=
  { self with erro_interno := true }

/-! ## so.c: system calls -/

def so_chamada_le (self : so_t) : so_t :=
  match corrente self with
  | none => self
  | some (c, p) =>
    let terminal := obter_terminal_por_pid p.pid
    let dispositivo := calcular_endereco_dispositivo self.es.D_TERM_A_TECLADO terminal
    let dispositivo_ok := calcular_endereco_dispositivo self.es.D_TERM_A_TECLADO_OK terminal
    match es_le self.es dispositivo_ok with
    | none => { self with erro_interno := true }
    | some estado =>
      if estado = 0 then
        let bloqueia (q : processo_t) : processo_t :=
          { proc_muda_estado q ESTADO_BLOQUEADO with motivo_bloqueio := BLOQUEIO_POR_LEITURA }
        { self with processos := altera_processo self.processos c bloqueia }
      else
        match es_le self.es dispositivo with
        | none => { self with erro_interno := true }
        | some dado => { self with mem := mem_escreve_ign self.mem IRQ_END_A dado }

def so_chamada_escr (self : so_t) : so_t :=
  match corrente self with
  | none => self
  | some (c, p) =>
    let terminal := obter_terminal_por_pid p.pid
    let dispositivo_tela := calcular_endereco_dispositivo self.es.D_TERM_A_TELA terminal
    let dispositivo_tela_ok := calcular_endereco_dispositivo self.es.D_TERM_A_TELA_OK terminal
    match es_le self.es dispositivo_tela_ok with
    | none => { self with erro_interno := true }
    | some estado =>
      if estado = 0 then
        match mem_le self.mem IRQ_END_X with
        | none => { self with erro_interno := true }
        | some x =>
          let bloqueia (q : processo_t) : processo_t :=
            { proc_muda_estado { q with dado_pendente := x } ESTADO_BLOQUEADO with
              motivo_bloqueio := BLOQUEIO_POR_ESCRITA }
          { self with processos := altera_processo self.processos c bloqueia }
      else
        match mem_le self.mem IRQ_END_X with
        | none => { self with erro_interno := true }
        | some dado =>
          match es_escreve self.es dispositivo_tela dado with
          | (es1, false) => { self with es := es1 }
          | (es1, true) => { self with es := es1, mem := mem_escreve_ign self.mem IRQ_END_A 0 }

def adiciona_processo_na_lista (self : so_t) (novo_proc : processo_t) : so_t :=
  { self with processos := self.processos ++ [novo_proc] }

/-- The loop of `copia_str_da_mem`: `restante` iterations are left and `indice_str`
is the index reached; the result is the bytes copied before the NUL. -/
def copia_str_da_mem_laco (mem : mem_t) (ender : Int) : Nat → Int → Option nome_t
  | 0, _ => none
  | restante + 1, indice_str =>
    match mem_le mem (outro (ender + indice_str)) with
    | none => none
    | some caractere =>
      if caractere < 0 ∨ caractere > 255 then none
      else if caractere = 0 then some []
      else (copia_str_da_mem_laco mem ender restante (indice_str + 1)).map
        (fun resto => caractere :: resto)

/-- The string copied (`none` when the function returns false). -/
def copia_str_da_mem (tam : Nat) (mem : mem_t) (ender : Int) : Option nome_t :=
  copia_str_da_mem_laco mem ender tam 0

/-- The new descriptor is appended to the table, so the pointer to it is the
length the table had. -/
def so_chamada_cria_proc (self : so_t) : so_t :=
  match mem_le self.mem IRQ_END_X with
  | none => { self with erro_interno := true, mem := mem_escreve_ign self.mem IRQ_END_A (-1) }
  | some ender_nome =>
    match copia_str_da_mem 100 self.mem ender_nome with
    | none => { self with mem := mem_escreve_ign self.mem IRQ_END_A (-1) }
    | some nome =>
      match so_cria_processo self nome with
      | (self1, none) => { self1 with mem := mem_escreve_ign self1.mem IRQ_END_A (-1) }
      | (self1, some novo_proc) =>
        let self2 := adiciona_processo_na_lista self1 novo_proc
        let self3 := insere_na_fila_prontos self2 self1.processos.length
        altera_corrente self3 (fun p => { p with reg0 := novo_proc.pid })

/-- The queue without its first node whose descriptor has the given pid. -/
def remove_da_fila (ps : List processo_t) (pid : Int) : List Nat → List Nat
  | [] => []
  | atual :: resto =>
    if (ps[atual]?).map (fun p => p.pid) = some pid then resto
    else atual :: remove_da_fila ps pid resto

def remove_processo_da_lista (self : so_t) (pid : Int) : so_t :=
  { self with fila_prontos := remove_da_fila self.processos pid self.fila_prontos }

/-- The position of the first descriptor of the table with the given pid. -/
def encontra_processo_por_pid (ps : List processo_t) (pid : Int) : Option Nat :=
  match ps with
  | [] => none
  | p :: resto =>
    if p.pid = pid then some 0
    else (encontra_processo_por_pid resto pid).map (fun k => k + 1)

def so_chamada_mata_proc (self : so_t) : so_t :=
  match corrente self with
  | none => self
  | some (_, c) =>
    let pid := if c.reg1 = 0 then c.pid else c.reg1
    match encontra_processo_por_pid self.processos pid with
    | some i =>
      let ps1 := altera_processo self.processos i (fun p => proc_muda_estado p ESTADO_TERMINADO)
      let self1 := { self with processos := ps1 }
      let self2 :=
        match corrente self1 with
        | some (_, c1) => if c1.pid = pid then { self1 with processo_corrente := none } else self1
        | none => self1
      let self3 := { self2 with mem := mem_escreve_ign self2.mem IRQ_END_A 0 }
      remove_processo_da_lista self3 pid
    | none => { self with mem := mem_escreve_ign self.mem IRQ_END_A (-1) }

def so_chamada_espera_proc (self : so_t) : so_t :=
  match corrente self with
  | none => self
  | some (c, proc) =>
    let pid := proc.reg1
    if pid = proc.pid then { self with mem := mem_escreve_ign self.mem IRQ_END_A (-1) }
    else
      match encontra_processo_por_pid self.processos pid with
      | none => { self with mem := mem_escreve_ign self.mem IRQ_END_A (-1) }
      | some e =>
        match self.processos[e]? with
        | none => self
        | some proc_esperado =>
          if proc_esperado.estado = ESTADO_TERMINADO then
            { self with mem := mem_escreve_ign self.mem IRQ_END_A 0 }
          else
            let bloqueia (q : processo_t) : processo_t :=
              { proc_muda_estado q ESTADO_BLOQUEADO with
                motivo_bloqueio := BLOQUEIO_POR_ESPERA_DE_PROC, reg0 := pid }
            { self with
              processos := altera_processo self.processos c bloqueia,
              mem := mem_escreve_ign self.mem IRQ_END_A 0 }

def so_trata_irq_chamada_sistema (self : so_t) : so_t :=
  match mem_le self.mem IRQ_END_A with
  | none => { self with erro_interno := true }
  | some id_chamada =>
    if id_chamada = SO_LE then so_chamada_le self
    else if id_chamada = SO_ESCR then so_chamada_escr self
    else if id_chamada = SO_CRIA_PROC then so_chamada_cria_proc self
    else if id_chamada = SO_MATA_PROC then so_chamada_mata_proc self
    else if id_chamada = SO_ESPERA_PROC then so_chamada_espera_proc self
    else so_chamada_mata_proc self

def so_trata_irq (self : so_t) (irq : irq_t) : so_t :=
  match irq with
  | IRQ_RESET => so_trata_irq_reset self
  | IRQ_SISTEMA => so_trata_irq_chamada_sistema self
  | IRQ_ERR_CPU => so_trata_irq_err_cpu self
  | IRQ_RELOGIO => so_trata_irq_relogio self
  | _ => so_trata_irq_desconhecida self irq

/-- The kernel entry with the scheduling policy as a parameter (`ESCALONADOR` in
the source); the result is the state left and the value returned to the stub. -/
def so_trata_interrupcao_com (escalonador : Int) (self : so_t) (irq : irq_t) : so_t × Int :=
  let n := self.metricas.num_interrupcoes irq + 1
  let m1 := { self.metricas with
    num_interrupcoes := Function.update self.metricas.num_interrupcoes irq n }
  let self1 := { self with metricas := m1 }
  let self2 := salva_estado_cpu_no_processo self1
  let self3 := atualiza_metricas_com_relogio self2
  let self4 := so_trata_irq self3 irq
  let self5 := so_trata_pendencias self4
  let self6 := so_escalona self5 escalonador
  let processos_ativos :=
    (self6.processos.take self6.numero_processos.toNat).any
      (fun p => p.estado ≠ ESTADO_TERMINADO)
  if processos_ativos then so_despacha self6 else finaliza_sistema self6

def so_trata_interrupcao (self : so_t) (irq : irq_t) : so_t × Int :=
  so_trata_interrupcao_com ESCALONADOR self irq

/-! ## Runs -/

/-- What the machine presents at a kernel entry: the IRQ code, the memory (with
the trap frame the CPU has just saved) and the device registers. -/
structure trap_t where
  irq : irq_t
  mem : mem_t
  le : Int → Option Int
  escreve_ok : Int → Int → Bool

/-- The kernel state at the moment of the entry. -/
def na_entrada (self : so_t) (t : trap_t) : so_t :=
  { self with mem := t.mem, es := { self.es with le := t.le, escreve_ok := t.escreve_ok } }

/-- One kernel entry under a policy. -/
def entrada (escalonador : Int) (self : so_t) (t : trap_t) : so_t × Int :=
  so_trata_interrupcao_com escalonador (na_entrada self t) t.irq

/-- The state after a sequence of kernel entries. -/
def executa (escalonador : Int) : so_t → List trap_t → so_t
  | self, [] => self
  | self, t :: ts => executa escalonador (entrada escalonador self t).1 ts

/-- A sequence of traps that follows the boot: no further RESET, and a system call
only while a process is current. -/
def admissivel (escalonador : Int) : so_t → List trap_t → Prop
  | _, [] => True
  | self, t :: ts =>
    t.irq ≠ IRQ_RESET ∧ (t.irq = IRQ_SISTEMA → self.processo_corrente ≠ none) ∧
      admissivel escalonador (entrada escalonador self t).1 ts

/-! ## Predicates on kernel states -/

/-- The state of the descriptor at position `i` of a table. -/
def estado_em (ps : List processo_t) (i : Nat) : Option estado_processo_t :=
  (ps[i]?).map (fun p => p.estado)

/-- The wake condition the sweep tests for a blocked descriptor. -/
def acorda (es : es_t) (ps : List processo_t) (proc : processo_t) : Bool :=
  match proc.motivo_bloqueio with
  | BLOQUEIO_POR_LEITURA =>
    match es_le es (calcular_endereco_dispositivo es.D_TERM_A_TECLADO_OK
        (obter_terminal_por_pid proc.pid)) with
    | some estado_teclado => estado_teclado ≠ 0
    | none => false
  | BLOQUEIO_POR_ESCRITA =>
    match es_le es (calcular_endereco_dispositivo es.D_TERM_A_TELA_OK
        (obter_terminal_por_pid proc.pid)) with
    | some estado_tela =>
      estado_tela ≠ 0 &&
        es.escreve_ok (calcular_endereco_dispositivo es.D_TERM_A_TELA
          (obter_terminal_por_pid proc.pid)) proc.dado_pendente
    | none => false
  | BLOQUEIO_POR_ESPERA_DE_PROC => esperado_terminou ps proc.reg0

/-- The pids of the table are 1, 2, ... in table order, and the next pid and the
process count follow the length of the table. -/
def pids_em_ordem (self : so_t) : Prop :=
  (∀ (i : Nat) (p : processo_t), self.processos[i]? = some p → p.pid = (i : Int) + 1) ∧
  self.pid_atual = (self.processos.length : Int) + 1 ∧
  self.numero_processos = (self.processos.length : Int)

/-- The ready queue holds no descriptor twice and only descriptors in state READY. -/
def fila_boa (self : so_t) : Prop :=
  self.fila_prontos.Nodup ∧
  ∀ i ∈ self.fila_prontos, estado_em self.processos i = some ESTADO_PRONTO

/-- The current descriptor, if any, is in state RUNNING. -/
def corrente_executa (self : so_t) : Prop :=
  ∀ c, self.processo_corrente = some c →
    estado_em self.processos c = some ESTADO_INICIALIZANDO

/-- The current descriptor, if any, is in the table and not terminated. -/
def corrente_viva (self : so_t) : Prop :=
  ∀ c, self.processo_corrente = some c →
    ∃ e, estado_em self.processos c = some e ∧ e ≠ ESTADO_TERMINADO

/-- The current descriptor is not in the ready queue. -/
def corrente_fora_da_fila (self : so_t) : Prop :=
  ∀ c, self.processo_corrente = some c → c ∉ self.fila_prontos

/-- A current descriptor that is blocked does not meet its wake condition. -/
def corrente_nao_acorda (self : so_t) : Prop :=
  ∀ c p, self.processo_corrente = some c → self.processos[c]? = some p →
    p.estado = ESTADO_BLOQUEADO → acorda self.es self.processos p = false

/-- What holds between the IRQ handler and the scheduler, whatever the policy. -/
def inv_base_meio (self : so_t) : Prop :=
  pids_em_ordem self ∧ corrente_viva self

/-- What holds of the ready queue between the IRQ handler and the scheduler under
the policies that take the next process from the queue. -/
def inv_fila_meio (self : so_t) : Prop :=
  fila_boa self ∧ corrente_fora_da_fila self ∧ corrente_nao_acorda self

/-- What holds at every kernel exit, whatever the policy. -/
def inv_base_saida (self : so_t) : Prop :=
  pids_em_ordem self ∧ corrente_executa self

/-- The kernel state `so_cria` returns, as far as processes are concerned: no
descriptor, an empty ready queue, no current process, next pid 1. -/
def recem_criado (self : so_t) : Prop :=
  self.processos = [] ∧ self.fila_prontos = [] ∧ self.processo_corrente = none ∧
  self.pid_atual = 1 ∧ self.numero_processos = 0

/-- No trap of the sequence is a RESET. -/
def sem_reset (ts : List trap_t) : Prop :=
  ∀ t ∈ ts, t.irq ≠ IRQ_RESET

/-- The states and the pids of the table, in table order. -/
def pids_estados (ps : List processo_t) : List (Int × estado_processo_t) :=
  ps.map (fun p => (p.pid, p.estado))

/-- The pids of the table, in table order. -/
def pids (self : so_t) : List Int :=
  self.processos.map (fun p => p.pid)

/-- The states of the table, in table order. -/
def estados (self : so_t) : List estado_processo_t :=
  self.processos.map (fun p => p.estado)

instance admissivel_decidivel (escalonador : Int) :
    ∀ (self : so_t) (ts : List trap_t), Decidable (admissivel escalonador self ts)
  | _, [] => isTrue trivial
  | self, t :: ts =>
    have := admissivel_decidivel escalonador (entrada escalonador self t).1 ts
    (inferInstance : Decidable (t.irq ≠ IRQ_RESET ∧
      (t.irq = IRQ_SISTEMA → self.processo_corrente ≠ none) ∧
      admissivel escalonador (entrada escalonador self t).1 ts))

/-! ## An example machine

A memory of 1000 words that holds the file name "a" at address 50, a program
reader that knows `init.maq`, `trata_int.maq` and `a`, and devices that are
always ready. -/

def exemplo_mem (a x : Int) : mem_t :=
  { PC := 100, A := a, X := x, erro := 0,
    resto := fun e => if 0 ≤ e ∧ e < 1000 then some (if e = 50 then 97 else 0) else none }

def exemplo_programas : nome_t → Option programa_t := fun nome =>
  if nome = nome_init then some { end_carga := 100, dados := [0] }
  else if nome = [97] then some { end_carga := 200, dados := [0] }
  else if nome = nome_trata_int then some { end_carga := 10, dados := [0] }
  else none

def exemplo_es : es_t :=
  { D_TERM_A_TECLADO := 0, D_TERM_A_TECLADO_OK := 1, D_TERM_A_TELA := 2, D_TERM_A_TELA_OK := 3,
    D_RELOGIO_INSTRUCOES := 16, D_RELOGIO_TIMER := 18, D_RELOGIO_INTERRUPCAO := 19,
    le := fun _ => some 1, escreve_ok := fun _ _ => true, escritas := [] }

/-- A trap on the example machine with `a` and `x` in the saved registers A and X. -/
def exemplo_trap (irq : irq_t) (a x : Int) : trap_t :=
  { irq := irq, mem := exemplo_mem a x, le := fun _ => some 1, escreve_ok := fun _ _ => true }

/-- A descriptor of the example machine. -/
def exemplo_proc (pid : Int) (estado : estado_processo_t) (reg0 reg1 : Int) : processo_t :=
  { inicializa_processo pid 100 with estado := estado, reg0 := reg0, reg1 := reg1 }

/-- A kernel state of the example machine with the given table, queue, current
process and saved registers A and X in the trap frame. -/
def exemplo_so (processos : List processo_t) (fila : List Nat) (cor : Option Nat)
    (a x : Int) : so_t :=
  { mem := exemplo_mem a x, es := exemplo_es, programas := exemplo_programas,
    erro_interno := false, processo_corrente := cor, processos := processos,
    fila_prontos := fila, quantum_proc := QUANTUM,
    pid_atual := (processos.length : Int) + 1,
    metricas := { tempo_total_execucao := 0, tempo_total_ocioso := 0,
                  num_interrupcoes := fun _ => 0, num_preempcoes := 0 },
    numero_processos := (processos.length : Int), relogio_atual := -1 }

/-- The kernel of the example machine as `so_cria` leaves it. -/
def exemplo_inicial : so_t :=
  exemplo_so [] [] none 0 0

/-- A trap on the example machine at which the keyboard of terminal 1 (the terminal
of pid 2: ready register 5, data register 4) presents `pronto` and `dado`. -/
def exemplo_trap_teclado (irq : irq_t) (a x : Int) (pronto dado : Int) : trap_t :=
  { irq := irq, mem := exemplo_mem a x,
    le := fun d => if d = 5 then some pronto else if d = 4 then some dado else some 1,
    escreve_ok := fun _ _ => true }

/-- The tick counters, the clock reading kept and the number of the instruction
clock are the same in two kernel states. -/
def mesmos_tempos (a b : so_t) : Prop :=
  b.metricas.tempo_total_execucao = a.metricas.tempo_total_execucao ∧
  b.metricas.tempo_total_ocioso = a.metricas.tempo_total_ocioso ∧
  b.relogio_atual = a.relogio_atual ∧
  b.es.D_RELOGIO_INSTRUCOES = a.es.D_RELOGIO_INSTRUCOES

/-- The instruction clock (device `dispositivo`) does not run backwards along a
sequence of traps: every reading is at least the reading before it (`anterior`
for the first one); a failed read is skipped. -/
def relogio_monotono (dispositivo : Int) : Int → List trap_t → Prop
  | _, [] => True
  | anterior, t :: ts =>
    match t.le dispositivo with
    | some r => anterior ≤ r ∧ relogio_monotono dispositivo r ts
    | none => relogio_monotono dispositivo anterior ts

/-- A trap on the example machine at which the instruction clock (device 16)
reads `instrucoes`. -/
def exemplo_trap_relogio (irq : irq_t) (a x : Int) (instrucoes : Int) : trap_t :=
  { irq := irq, mem := exemplo_mem a x,
    le := fun d => if d = 16 then some instrucoes else some 1,
    escreve_ok := fun _ _ => true }

/-- The first step of a kernel entry: the interrupt is counted. -/
def conta_interrupcao (self : so_t) (irq : irq_t) : so_t :=
  let n := self.metricas.num_interrupcoes irq + 1
  let m1 := { self.metricas with
    num_interrupcoes := Function.update self.metricas.num_interrupcoes irq n }
  { self with metricas := m1 }

/-- The first steps of a kernel entry: the interrupt is counted, the CPU state is
saved in the current descriptor and the clock bookkeeping is done. The IRQ
handler receives this state. -/
def prepara_entrada (self : so_t) (irq : irq_t) : so_t :=
  atualiza_metricas_com_relogio (salva_estado_cpu_no_processo (conta_interrupcao self irq))

/-- The kernel `so_cria` returns on the example machine. -/
def exemplo_criado : so_t :=
  (so_cria 10 (exemplo_mem 0 0) exemplo_es exemplo_programas).getD exemplo_inicial

/-- The priorities of the table, in table order. -/
def prioridades (self : so_t) : List ℚ :=
  self.processos.map (fun p => p.prioridade)

/-- A kernel state of the example machine for the priority policy: init (pid 1) is
current and BLOCKED, the processes with pids 2 and 3 are READY and in the ready
queue, with priorities 2 and 1/2. -/
def exemplo_prioridade : so_t :=
  exemplo_so
    [exemplo_proc 1 ESTADO_BLOQUEADO 9 2,
     { exemplo_proc 2 ESTADO_PRONTO 0 0 with prioridade := 2 },
     exemplo_proc 3 ESTADO_PRONTO 0 0]
    [1, 2] (some 0) 9 2

/-- The number of TIMER traps in a sequence of traps. -/
def conta_relogio : List trap_t → Nat
  | [] => 0
  | t :: ts => (if t.irq = IRQ_RELOGIO then 1 else 0) + conta_relogio ts

/-- The number of nodes of the queue ahead of the first node of `r`. -/
def a_frente (r : Nat) : List Nat → Nat
  | [] => 0
  | x :: l => if x = r then 0 else a_frente r l + 1

/-- The wait left to a queued descriptor `r`, in TIMER traps: the quantum the
current process still has, and one full quantum for each node ahead of `r`. -/
def espera_restante (self : so_t) (r : Nat) : Int :=
  self.quantum_proc + QUANTUM * (a_frente r self.fila_prontos : Int)

/-- What holds of the quantum at every kernel exit under round-robin: it is
between 0 and `QUANTUM`, and while the ready queue is not empty a process is
current and has quantum left. -/
def inv_quantum (self : so_t) : Prop :=
  0 ≤ self.quantum_proc ∧ self.quantum_proc ≤ QUANTUM ∧
  (self.fila_prontos ≠ [] → self.processo_corrente ≠ none ∧ 0 < self.quantum_proc)

/-- How a step of a kernel entry may leave the ready queue: nodes are added at its
tail, or the node of one descriptor, TERMINATED afterwards, is taken out. -/
def fila_avanca (a b : so_t) : Prop :=
  (∃ l, b.fila_prontos = a.fila_prontos ++ l) ∨
  (∃ i, b.fila_prontos = a.fila_prontos.erase i ∧
    estado_em b.processos i = some ESTADO_TERMINADO)


/-- A kernel state of the example machine in which init (pid 1) is RUNNING with
its quantum spent and the process with pid 2 is READY and alone in the ready
queue. -/
def exemplo_quantum_esgotado : so_t :=
  { exemplo_so [exemplo_proc 1 ESTADO_INICIALIZANDO 0 0, exemplo_proc 2 ESTADO_PRONTO 0 0]
      [1] (some 0) 0 0 with quantum_proc := 0 }

/-- A kernel state of the example machine in which init (pid 1) is current and
RUNNING and its block reason, left by an earlier WAIT, is
`BLOQUEIO_POR_ESPERA_DE_PROC`. -/
def exemplo_erro_cpu : so_t :=
  exemplo_so
    [{ exemplo_proc 1 ESTADO_INICIALIZANDO 0 0 with
        motivo_bloqueio := BLOQUEIO_POR_ESPERA_DE_PROC }]
    [] (some 0) 0 0

/-- The first traps of scenario S3 on the example machine: the boot RESET, three
SPAWNs by init and WAIT(2) by init. -/
def exemplo_s3 : List trap_t :=
  [exemplo_trap IRQ_RESET 0 0, exemplo_trap IRQ_SISTEMA 7 50, exemplo_trap IRQ_SISTEMA 7 50,
   exemplo_trap IRQ_SISTEMA 7 50, exemplo_trap IRQ_SISTEMA 9 2]

/-- A sequence of `n` TIMER traps on the example machine. -/
def exemplo_relogios (n : Nat) : List trap_t :=
  List.replicate n (exemplo_trap IRQ_RELOGIO 0 0)

/-- The state of a kernel entry after its scheduling step: the interrupt counted,
the CPU state saved, the clock bookkeeping done, the IRQ handled, the sweep run and
the scheduler run. The entry ends with the dispatch or the shutdown in this
state. -/
def apos_escalonar (escalonador : Int) (self : so_t) (irq : irq_t) : so_t :=
  so_escalona (so_trata_pendencias (so_trata_irq (prepara_entrada self irq) irq)) escalonador

/-- The kernel of the example machine after the boot RESET: init (pid 1) is
current and RUNNING. -/
def exemplo_apos_boot : so_t :=
  executa ESCALONADOR exemplo_criado [exemplo_trap IRQ_RESET 0 0]

/-- The priority and the preemption counter of each descriptor, in table order. -/
def contadores (ps : List processo_t) : List (ℚ × Int) :=
  ps.map (fun p => (p.prioridade, p.metricas.quantidade_preempcoes))

/-- The sum of the preemption counters of the descriptors of the table. -/
def soma_preempcoes (ps : List processo_t) : Int :=
  ((contadores ps).map (fun x => x.2)).sum

/-- Whether the sweep wakes the descriptor at position `i`: it is BLOCKED and meets
its wake condition. -/
def desperta (self : so_t) (i : Nat) : Bool :=
  match self.processos[i]? with
  | some p => decide (p.estado = ESTADO_BLOQUEADO) && acorda self.es self.processos p
  | none => false

/-- What the sweep of the state `self` leaves of a descriptor `p`: it is made READY
when it is BLOCKED and meets its wake condition, and is unchanged otherwise. -/
def marca_pronto (self : so_t) (p : processo_t) : processo_t :=
  if p.estado = ESTADO_BLOQUEADO ∧ acorda self.es self.processos p = true then
    proc_muda_estado p ESTADO_PRONTO
  else p

/-- A kernel state of the example machine in which init (pid 1) is BLOCKED waiting
for the process with pid 2, which is TERMINATED; no process is current and the
ready queue is empty. -/
def exemplo_espera : so_t :=
  exemplo_so
    [{ exemplo_proc 1 ESTADO_BLOQUEADO 2 2 with motivo_bloqueio := BLOQUEIO_POR_ESPERA_DE_PROC },
     exemplo_proc 2 ESTADO_TERMINADO 0 0]
    [] none 0 0

/-- A descriptor without its metrics: what the kernel decides on. -/
def sem_metricas (p : processo_t) : processo_t :=
  { p with metricas := metricas_zeradas }

/-- What the end of a kernel entry needs of the handler of a system call for the
caller `c` to stay as the entry saved it: the descriptor of the caller, the
current process, the quantum and the process count are those the handler
received (`x`) in the state it leaves (`r`). -/
def chamador_intacto (x r : so_t) (c : Nat) : Prop :=
  r.processos[c]? = x.processos[c]? ∧ r.processo_corrente = x.processo_corrente ∧
  r.quantum_proc = x.quantum_proc ∧ r.numero_processos = x.numero_processos

/-- The word the handler of a system call leaves in `IRQ_END_A`, before the sweep,
the scheduler and the dispatch of the same kernel entry. -/
def escrito_pelo_tratador (self : so_t) : Option Int :=
  mem_le (so_trata_irq (prepara_entrada self IRQ_SISTEMA) IRQ_SISTEMA).mem IRQ_END_A

/-- A kernel state of the example machine in which init (pid 1) is current and
RUNNING, the process with pid 2 is READY and in the ready queue, and the trap
frame holds the call number of `SO_MATA_PROC` in A and the pid 2 in X. -/
def exemplo_chamada_mata : so_t :=
  exemplo_so [exemplo_proc 1 ESTADO_INICIALIZANDO 0 0, exemplo_proc 2 ESTADO_PRONTO 0 0]
    [1] (some 0) SO_MATA_PROC 2

/-- The kernel state with the internal-error flag replaced. -/
def com_erro (self : so_t) (e : Bool) : so_t :=
  { self with erro_interno := e }

/-- The state the KILL handler receives on the example machine under the simple
policy (policy 3) in this run: init spawns A (pid 2) and waits for it; A spawns B
(pid 3) and waits for it; B kills itself; A, woken by the sweep and queued a
second time, calls KILL with X = 0. -/
def exemplo_fila_repetida : so_t :=
  prepara_entrada
    (na_entrada
      (executa 3 exemplo_criado
        [exemplo_trap IRQ_RESET 0 0, exemplo_trap IRQ_SISTEMA 7 50,
         exemplo_trap IRQ_SISTEMA 9 2, exemplo_trap IRQ_SISTEMA 7 50,
         exemplo_trap IRQ_SISTEMA 9 3, exemplo_trap IRQ_SISTEMA 8 0])
      (exemplo_trap IRQ_SISTEMA 8 0))
    IRQ_SISTEMA

/-- No descriptor of the table is BLOCKED or TERMINATED. -/
def todos_ativos (self : so_t) : Prop :=
  ∀ j e, estado_em self.processos j = some e → e = ESTADO_INICIALIZANDO ∨ e = ESTADO_PRONTO

/-- The program `nome` of the program table `programas` loads into the memory
`mem`: the table has it, every word of it is written, and its load address is not
-1. This is when `so_carrega_programa` returns an address other than -1. -/
def carrega_bem (programas : nome_t → Option programa_t) (mem : mem_t) (nome : nome_t) : Prop :=
  ∃ prog, programas nome = some prog ∧
    (carrega_palavras mem prog.end_carga prog.dados).2 = true ∧ prog.end_carga ≠ -1

/-- A SPAWN trap that succeeds: register A of the trap frame holds `SO_CRIA_PROC`,
register X the address of a file name that is copied, and the program of that name
loads. -/
def trap_cria (programas : nome_t → Option programa_t) (t : trap_t) : Prop :=
  t.irq = IRQ_SISTEMA ∧ t.mem.A = SO_CRIA_PROC ∧
  ∃ nome, copia_str_da_mem 100 t.mem t.mem.X = some nome ∧ carrega_bem programas t.mem nome

/-- What holds at the kernel exits of scenario S3 before the WAIT: init, at position
0, is current and RUNNING, `k` children are READY in the ready queue, no descriptor
is BLOCKED or TERMINATED, and no preemption has been counted. -/
def inv_s3 (programas : nome_t → Option programa_t) (k : Nat) (self : so_t) : Prop :=
  inv_base_saida self ∧ fila_boa self ∧ self.processo_corrente = some 0 ∧
  1 ≤ self.quantum_proc ∧ self.quantum_proc ≤ QUANTUM ∧
  self.metricas.num_preempcoes = 0 ∧ todos_ativos self ∧ self.programas = programas ∧
  self.processos.length = k + 1 ∧ self.fila_prontos.length = k

/-- What holds at the kernel exits of scenario S3 from the WAIT on, `n` TIMER traps
after it: a process is current, the ready queue is not empty, and the TIMER traps
counted are five per preemption plus the part of the quantum used. -/
def inv_rodizio (self : so_t) (n : Nat) : Prop :=
  inv_base_saida self ∧ fila_boa self ∧ self.processo_corrente ≠ none ∧
  self.fila_prontos ≠ [] ∧ 1 ≤ self.quantum_proc ∧ self.quantum_proc ≤ QUANTUM ∧
  QUANTUM * self.metricas.num_preempcoes + (QUANTUM - self.quantum_proc) = (n : Int)

/-! ## Lemmas on the machine arithmetic -/

theorem dois_elevado_eq (e : Int) : dois_elevado e = (2 : ℚ) ^ e := by
  unfold dois_elevado
  split
  · rename_i h
    have e1 : e = ((e.toNat : Nat) : Int) := (Int.toNat_of_nonneg h).symm
    conv_rhs => rw [e1]
    rw [zpow_natCast]
    push_cast
    rfl
  · rename_i h
    have h1 : 0 ≤ -e := by omega
    have e1 : e = -(((-e).toNat : Nat) : Int) := by
      rw [Int.toNat_of_nonneg h1]
      omega
    conv_rhs => rw [e1]
    rw [zpow_neg, zpow_natCast]
    push_cast
    rw [one_div]

theorem dois_elevado_pos (e : Int) : 0 < dois_elevado e := by
  rw [dois_elevado_eq]
  positivity

theorem arredonda_par_intCast (k : Int) : arredonda_par (k : ℚ) = k := by
  unfold arredonda_par
  simp

theorem arredonda_par_limites (x : ℚ) :
    ⌊x⌋ ≤ arredonda_par x ∧ arredonda_par x ≤ ⌊x⌋ + 1 := by
  unfold arredonda_par
  split_ifs <;> omega

theorem arredonda_par_mono {x y : ℚ} (h : x ≤ y) : arredonda_par x ≤ arredonda_par y := by
  have hf : ⌊x⌋ ≤ ⌊y⌋ := Int.floor_mono h
  rcases lt_or_eq_of_le hf with hlt | heq
  · have a := (arredonda_par_limites x).2
    have b := (arredonda_par_limites y).1
    omega
  · unfold arredonda_par
    rw [← heq]
    have hxy : x - (⌊x⌋ : ℚ) ≤ y - (⌊x⌋ : ℚ) := by linarith
    split_ifs <;> first | omega | (exfalso; linarith)

theorem float_expoente_laco_spec (m : ℚ) :
    ∀ (n : Nat) (e : Int) (lim : ℚ), lim = (2 : ℚ) ^ (e + 1) →
      e ≤ float_expoente_laco m n e lim ∧ float_expoente_laco m n e lim ≤ e + n ∧
      (float_expoente_laco m n e lim < e + n →
        m < (2 : ℚ) ^ (float_expoente_laco m n e lim + 1)) ∧
      (e < float_expoente_laco m n e lim → (2 : ℚ) ^ float_expoente_laco m n e lim ≤ m) := by
  intro n
  induction n with
  | zero =>
    intro e lim _
    unfold float_expoente_laco
    refine ⟨le_refl _, by simp, fun h => ?_, fun h => absurd h (lt_irrefl _)⟩
    simp at h
  | succ n ih =>
    intro e lim hlim
    unfold float_expoente_laco
    by_cases h : m < lim
    · rw [if_pos h]
      refine ⟨le_refl _, by push_cast; omega, fun _ => by rw [← hlim]; exact h,
        fun h2 => absurd h2 (lt_irrefl _)⟩
    · rw [if_neg h]
      have hl2 : lim * 2 = (2 : ℚ) ^ (e + 1 + 1) := by
        rw [hlim, zpow_add_one₀ (by norm_num : (2 : ℚ) ≠ 0) (e + 1)]
      obtain ⟨a, b, c, d⟩ := ih (e + 1) (lim * 2) hl2
      refine ⟨by omega, by push_cast; omega, fun h2 => c (by push_cast at h2; omega), fun _ => ?_⟩
      rcases lt_or_eq_of_le a with h3 | h3
      · exact d h3
      · rw [← h3, ← hlim]
        exact not_lt.mp h

theorem float_expoente_spec (m : ℚ) :
    -126 ≤ float_expoente m ∧ float_expoente m ≤ 128 ∧
    (float_expoente m < 128 → m < (2 : ℚ) ^ (float_expoente m + 1)) ∧
    (-126 < float_expoente m → (2 : ℚ) ^ float_expoente m ≤ m) := by
  have h := float_expoente_laco_spec m 254 (-126) (dois_elevado (-125))
    (by rw [dois_elevado_eq]; norm_num)
  unfold float_expoente
  obtain ⟨a, b, c, d⟩ := h
  exact ⟨a, by push_cast at b; omega, fun h2 => c (by push_cast; omega), d⟩

theorem float_expoente_mono {x y : ℚ} (h : x ≤ y) : float_expoente x ≤ float_expoente y := by
  by_contra hc
  push_neg at hc
  obtain ⟨a1, _, _, a4⟩ := float_expoente_spec x
  obtain ⟨b1, b2, b3, _⟩ := float_expoente_spec y
  have h1 := b3 (by omega)
  have h2 := a4 (by omega)
  have h3 : (2 : ℚ) ^ (float_expoente y + 1) ≤ (2 : ℚ) ^ float_expoente x :=
    zpow_le_zpow_right₀ (by norm_num) (by omega)
  linarith

/-- Rounding on the grid of the binade `e`. -/
theorem float_grade_mono (e : Int) {x y : ℚ} (h : x ≤ y) :
    (arredonda_par (x / dois_elevado (e - 23)) : ℚ) * dois_elevado (e - 23) ≤
      (arredonda_par (y / dois_elevado (e - 23)) : ℚ) * dois_elevado (e - 23) := by
  have hp := dois_elevado_pos (e - 23)
  have h1 : x / dois_elevado (e - 23) ≤ y / dois_elevado (e - 23) :=
    div_le_div_of_nonneg_right h hp.le
  have h2 : ((arredonda_par (x / dois_elevado (e - 23)) : Int) : ℚ) ≤
      ((arredonda_par (y / dois_elevado (e - 23)) : Int) : ℚ) :=
    Int.cast_le.mpr (arredonda_par_mono h1)
  exact mul_le_mul_of_nonneg_right h2 hp.le

theorem float_grade_potencia (e j : Int) (hj : e - 23 ≤ j) :
    (arredonda_par ((2 : ℚ) ^ j / dois_elevado (e - 23)) : ℚ) * dois_elevado (e - 23) =
      (2 : ℚ) ^ j := by
  have hk : 0 ≤ j - (e - 23) := by omega
  have e1 : (2 : ℚ) ^ j / dois_elevado (e - 23) =
      (((2 : Int) ^ (j - (e - 23)).toNat : Int) : ℚ) := by
    rw [dois_elevado_eq, ← zpow_sub₀ (by norm_num : (2 : ℚ) ≠ 0)]
    conv_lhs => rw [← Int.toNat_of_nonneg hk]
    rw [zpow_natCast]
    push_cast
    rfl
  rw [e1, arredonda_par_intCast, ← e1, dois_elevado_eq]
  rw [div_mul_cancel₀]
  positivity

theorem float_arredonda_pos_mono {x y : ℚ} (h : x ≤ y) :
    float_arredonda_pos x ≤ float_arredonda_pos y := by
  have he := float_expoente_mono h
  unfold float_arredonda_pos
  rcases lt_or_eq_of_le he with hlt | heq
  · obtain ⟨a1, _, a3, _⟩ := float_expoente_spec x
    obtain ⟨_, b2, _, b4⟩ := float_expoente_spec y
    have hx := a3 (by omega)
    have hy := b4 (by omega)
    have s1 := float_grade_mono (float_expoente x) hx.le
    rw [float_grade_potencia (float_expoente x) (float_expoente x + 1) (by omega)] at s1
    have s2 := float_grade_mono (float_expoente y) hy
    rw [float_grade_potencia (float_expoente y) (float_expoente y) (by omega)] at s2
    have s3 : (2 : ℚ) ^ (float_expoente x + 1) ≤ (2 : ℚ) ^ float_expoente y :=
      zpow_le_zpow_right₀ (by norm_num) (by omega)
    linarith
  · rw [← heq]
    exact float_grade_mono (float_expoente x) h

theorem float_arredonda_zero : float_arredonda 0 = 0 := by decide!

theorem float_arredonda_pos_nonneg {x : ℚ} (h : 0 ≤ x) : 0 ≤ float_arredonda_pos x := by
  have h0 : float_arredonda_pos 0 = 0 := by decide!
  have := float_arredonda_pos_mono h
  rw [h0] at this
  exact this

/-- Rounding to binary32 is monotone. -/
theorem float_arredonda_mono {x y : ℚ} (h : x ≤ y) : float_arredonda x ≤ float_arredonda y := by
  unfold float_arredonda
  by_cases hx : x < 0
  · by_cases hy : y < 0
    · rw [if_pos hx, if_pos hy]
      have := float_arredonda_pos_mono (neg_le_neg h)
      linarith
    · rw [if_pos hx, if_neg hy]
      have a := float_arredonda_pos_nonneg (by linarith : (0 : ℚ) ≤ -x)
      have b := float_arredonda_pos_nonneg (not_lt.mp hy)
      linarith
  · have hy : ¬ y < 0 := by
      intro hy
      exact hx (lt_of_le_of_lt h hy)
    rw [if_neg hx, if_neg hy]
    exact float_arredonda_pos_mono h
/-! ## Lemmas on the table -/

theorem length_altera_processo (ps : List processo_t) (i : Nat) (f : processo_t → processo_t) :
    (altera_processo ps i f).length = ps.length := by
  unfold altera_processo
  cases h : ps[i]? <;> simp

theorem getElem?_altera_processo (ps : List processo_t) (i j : Nat) (f : processo_t → processo_t) :
    (altera_processo ps i f)[j]? = if j = i then (ps[i]?).map f else ps[j]? := by
  unfold altera_processo
  cases h : ps[i]? with
  | none =>
    by_cases hj : j = i
    · subst hj; simp [h]
    · simp [hj]
  | some p =>
    have hi : i < ps.length := by
      rcases List.getElem?_eq_some_iff.mp h with ⟨hi, _⟩
      exact hi
    by_cases hj : j = i
    · subst hj; simp [List.getElem?_set, hi]
    · have hne : i ≠ j := fun e => hj e.symm
      simp [List.getElem?_set, hj, hne]

theorem map_altera_processo {β : Type} (g : processo_t → β) (ps : List processo_t) (i : Nat)
    (f : processo_t → processo_t) (hf : ∀ p, g (f p) = g p) :
    (altera_processo ps i f).map g = ps.map g := by
  apply List.ext_getElem?
  intro j
  simp only [List.getElem?_map, getElem?_altera_processo]
  by_cases hj : j = i
  · subst hj
    cases h : ps[j]? <;> simp [hf]
  · simp [hj]

theorem corrente_eq_some (self : so_t) (i : Nat) (c : processo_t) :
    corrente self = some (i, c) ↔ self.processo_corrente = some i ∧ self.processos[i]? = some c := by
  unfold corrente
  cases h : self.processo_corrente with
  | none => simp
  | some k =>
    dsimp only
    constructor
    · intro e
      cases h2 : self.processos[k]? with
      | none => rw [h2] at e; cases e
      | some p => rw [h2] at e; cases e; exact ⟨rfl, h2⟩
    · rintro ⟨e, h3⟩
      cases e
      rw [h3]

theorem verifica_desbloqueio_casos (self : so_t) (i : Nat) (proc : processo_t) :
    ∃ l, (acorda self.es self.processos proc = true ∧
          verifica_desbloqueio self i proc =
            { self with es := { self.es with escritas := l },
                        processos := altera_processo self.processos i
                          (fun p => proc_muda_estado p ESTADO_PRONTO) }) ∨
         (acorda self.es self.processos proc = false ∧
          verifica_desbloqueio self i proc = { self with es := { self.es with escritas := l } }) := by
  unfold verifica_desbloqueio acorda
  cases hm : proc.motivo_bloqueio with
  | BLOQUEIO_POR_LEITURA =>
    refine ⟨self.es.escritas, ?_⟩
    dsimp only
    cases hl : es_le self.es (calcular_endereco_dispositivo self.es.D_TERM_A_TECLADO_OK
        (obter_terminal_por_pid proc.pid)) with
    | none => exact Or.inr ⟨rfl, rfl⟩
    | some v =>
      dsimp only
      by_cases hv : v ≠ 0
      · rw [if_pos hv]; exact Or.inl ⟨by simp [hv], rfl⟩
      · rw [if_neg hv]; exact Or.inr ⟨by simpa using hv, rfl⟩
  | BLOQUEIO_POR_ESCRITA =>
    dsimp only
    cases hl : es_le self.es (calcular_endereco_dispositivo self.es.D_TERM_A_TELA_OK
        (obter_terminal_por_pid proc.pid)) with
    | none => exact ⟨self.es.escritas, Or.inr ⟨rfl, rfl⟩⟩
    | some v =>
      dsimp only
      by_cases hv : v ≠ 0
      · rw [if_pos hv]
        unfold es_escreve
        by_cases hw : self.es.escreve_ok (calcular_endereco_dispositivo self.es.D_TERM_A_TELA
            (obter_terminal_por_pid proc.pid)) proc.dado_pendente = true
        · rw [if_pos hw]
          exact ⟨_, Or.inl ⟨by simp [hv, hw], rfl⟩⟩
        · rw [if_neg hw]
          exact ⟨self.es.escritas, Or.inr ⟨by simp [hw], rfl⟩⟩
      · rw [if_neg hv]
        exact ⟨self.es.escritas, Or.inr ⟨by simp at hv; simp [hv], rfl⟩⟩
  | BLOQUEIO_POR_ESPERA_DE_PROC =>
    refine ⟨self.es.escritas, ?_⟩
    dsimp only
    by_cases he : esperado_terminou self.processos proc.reg0 = true
    · rw [if_pos he]; exact Or.inl ⟨he, rfl⟩
    · rw [if_neg he]; exact Or.inr ⟨by simpa using he, rfl⟩

theorem so_trata_pendencias_proc_casos (self : so_t) (i : Nat) :
    ∃ l, so_trata_pendencias_proc self i = { self with es := { self.es with escritas := l } } ∨
      (∃ proc, self.processos[i]? = some proc ∧ proc.estado = ESTADO_BLOQUEADO ∧
        acorda self.es self.processos proc = true ∧
        so_trata_pendencias_proc self i =
          { self with es := { self.es with escritas := l },
                      processos := altera_processo self.processos i
                        (fun p => proc_muda_estado p ESTADO_PRONTO),
                      fila_prontos := self.fila_prontos ++ [i] }) := by
  unfold so_trata_pendencias_proc
  cases hi : self.processos[i]? with
  | none => exact ⟨self.es.escritas, Or.inl rfl⟩
  | some proc =>
    dsimp only
    by_cases hb : proc.estado = ESTADO_BLOQUEADO
    · rw [if_pos hb]
      obtain ⟨l, h | h⟩ := verifica_desbloqueio_casos self i proc
      · obtain ⟨ha, he⟩ := h
        refine ⟨l, Or.inr ⟨proc, rfl, hb, ha, ?_⟩⟩
        rw [he]
        simp [getElem?_altera_processo, hi, proc_muda_estado, insere_na_fila_prontos]
      · obtain ⟨ha, he⟩ := h
        refine ⟨l, Or.inl ?_⟩
        rw [he]
        simp [hi, hb]
    · rw [if_neg hb]
      exact ⟨self.es.escritas, Or.inl rfl⟩

theorem esperado_terminou_iff (ps : List processo_t) (pid : Int) :
    esperado_terminou ps pid = true ↔
      ∃ (j : Nat) (q : processo_t), ps[j]? = some q ∧ q.pid = pid ∧ q.estado = ESTADO_TERMINADO := by
  induction ps with
  | nil => simp [esperado_terminou]
  | cons a as ih =>
    simp only [esperado_terminou, Bool.or_eq_true, Bool.and_eq_true, decide_eq_true_eq, ih]
    constructor
    · rintro (⟨h1, h2⟩ | ⟨j, q, hj, h1, h2⟩)
      · exact ⟨0, a, by simp, h1, h2⟩
      · exact ⟨j + 1, q, by simpa using hj, h1, h2⟩
    · rintro ⟨j, q, hj, h1, h2⟩
      cases j with
      | zero =>
        simp only [List.getElem?_cons_zero, Option.some.injEq] at hj
        subst hj
        exact Or.inl ⟨h1, h2⟩
      | succ k => exact Or.inr ⟨k, q, by simpa using hj, h1, h2⟩

/-- Moving a descriptor that is not terminated to READY does not change the answer
of the scan for a terminated awaited process. -/
theorem esperado_terminou_altera (ps : List processo_t) (i : Nat) (proc : processo_t)
    (f : processo_t → processo_t) (pid : Int)
    (hi : ps[i]? = some proc)
    (h1 : proc.estado ≠ ESTADO_TERMINADO) (h2 : (f proc).estado ≠ ESTADO_TERMINADO) :
    esperado_terminou (altera_processo ps i f) pid = esperado_terminou ps pid := by
  rw [Bool.eq_iff_iff, esperado_terminou_iff, esperado_terminou_iff]
  constructor
  · rintro ⟨j, q, hj, hq1, hq2⟩
    rw [getElem?_altera_processo] at hj
    by_cases e : j = i
    · rw [if_pos e, hi] at hj
      simp only [Option.map_some', Option.some.injEq] at hj
      subst hj
      exact absurd hq2 h2
    · rw [if_neg e] at hj
      exact ⟨j, q, hj, hq1, hq2⟩
  · rintro ⟨j, q, hj, hq1, hq2⟩
    have e : j ≠ i := by
      intro e
      subst e
      rw [hi] at hj
      cases hj
      exact h1 hq2
    exact ⟨j, q, by rw [getElem?_altera_processo, if_neg e]; exact hj, hq1, hq2⟩

theorem acorda_escritas (es : es_t) (l : List (Int × Int)) (ps : List processo_t)
    (p : processo_t) : acorda { es with escritas := l } ps p = acorda es ps p := by
  rfl

theorem estado_em_altera_processo (ps : List processo_t) (i j : Nat)
    (f : processo_t → processo_t) :
    estado_em (altera_processo ps i f) j =
      if j = i then (ps[i]?).map (fun p => (f p).estado) else estado_em ps j := by
  unfold estado_em
  rw [getElem?_altera_processo]
  by_cases e : j = i
  · subst e
    cases ps[j]? <;> simp
  · simp [e]

theorem foldl_preserva {α β : Type} (P : α → Prop) (f : α → β → α)
    (h : ∀ a b, P a → P (f a b)) : ∀ (l : List β) (a : α), P a → P (l.foldl f a) := by
  intro l
  induction l with
  | nil => intro a ha; exact ha
  | cons b bs ih => intro a ha; exact ih (f a b) (h a b ha)

theorem pids_em_ordem_de (s r : so_t)
    (hp : r.processos.map (fun p => p.pid) = s.processos.map (fun p => p.pid))
    (h1 : r.pid_atual = s.pid_atual) (h2 : r.numero_processos = s.numero_processos)
    (h : pids_em_ordem s) : pids_em_ordem r := by
  have hlen : r.processos.length = s.processos.length := by
    have := congrArg List.length hp
    simpa using this
  obtain ⟨ha, hb, hc⟩ := h
  refine ⟨?_, by rw [h1, hb, hlen], by rw [h2, hc, hlen]⟩
  intro i p hi
  have h3 : (r.processos.map (fun p => p.pid))[i]? = some p.pid := by
    simp [List.getElem?_map, hi]
  rw [hp, List.getElem?_map] at h3
  cases hs : s.processos[i]? with
  | none => rw [hs] at h3; cases h3
  | some q =>
    rw [hs] at h3
    simp only [Option.map_some', Option.some.injEq] at h3
    rw [← h3]
    exact ha i q hs

theorem so_trata_pendencias_proc_base (s : so_t) (i : Nat) (h : inv_base_meio s) :
    inv_base_meio (so_trata_pendencias_proc s i) := by
  obtain ⟨hp, hv⟩ := h
  obtain ⟨l, he | ⟨proc, hi, hb, _, he⟩⟩ := so_trata_pendencias_proc_casos s i
  · rw [he]
    exact ⟨pids_em_ordem_de s _ rfl rfl rfl hp, hv⟩
  · rw [he]
    refine ⟨pids_em_ordem_de s _ ?_ rfl rfl hp, ?_⟩
    · exact map_altera_processo (fun p => p.pid) s.processos i _ (fun p => rfl)
    · intro c hc
      obtain ⟨e, he1, he2⟩ := hv c hc
      dsimp only at hc ⊢
      rw [estado_em_altera_processo]
      by_cases ec : c = i
      · rw [if_pos ec, hi]
        exact ⟨ESTADO_PRONTO, rfl, by decide⟩
      · rw [if_neg ec]
        exact ⟨e, he1, he2⟩

theorem so_trata_pendencias_proc_fila (s : so_t) (i : Nat) (h : inv_fila_meio s) :
    inv_fila_meio (so_trata_pendencias_proc s i) := by
  obtain ⟨⟨hnd, hpr⟩, hfora, hna⟩ := h
  obtain ⟨l, he | ⟨proc, hi, hb, hac, he⟩⟩ := so_trata_pendencias_proc_casos s i
  · rw [he]
    exact ⟨⟨hnd, hpr⟩, hfora, fun c p hc hp hbl => by
      have := hna c p hc hp hbl
      simpa [acorda_escritas] using this⟩
  · rw [he]
    have hifila : i ∉ s.fila_prontos := by
      intro hm
      have := hpr i hm
      unfold estado_em at this
      rw [hi] at this
      simp only [Option.map_some', Option.some.injEq] at this
      rw [hb] at this
      cases this
    have hic : s.processo_corrente ≠ some i := by
      intro hc
      have := hna i proc hc hi hb
      rw [hac] at this
      cases this
    refine ⟨⟨?_, ?_⟩, ?_, ?_⟩
    · dsimp only
      rw [List.nodup_append]
      refine ⟨hnd, List.nodup_singleton i, ?_⟩
      intro a ha1 ha2
      simp only [List.mem_singleton] at ha2
      subst ha2
      exact hifila ha1
    · intro j hj
      dsimp only at hj ⊢
      rw [estado_em_altera_processo]
      by_cases ej : j = i
      · rw [if_pos ej, hi]; rfl
      · rw [if_neg ej]
        simp only [List.mem_append, List.mem_singleton] at hj
        rcases hj with hj | hj
        · exact hpr j hj
        · exact absurd hj ej
    · intro c hc
      dsimp only at hc ⊢
      simp only [List.mem_append, List.mem_singleton, not_or]
      refine ⟨hfora c hc, ?_⟩
      intro e
      subst e
      exact hic hc
    · intro c p hc hp hbl
      dsimp only at hc hp ⊢
      have ec : c ≠ i := by
        intro e
        subst e
        exact hic hc
      rw [getElem?_altera_processo, if_neg ec] at hp
      rw [acorda_escritas]
      have h0 := hna c p hc hp hbl
      unfold acorda at h0 ⊢
      cases hm : p.motivo_bloqueio with
      | BLOQUEIO_POR_LEITURA => rw [hm] at h0; exact h0
      | BLOQUEIO_POR_ESCRITA => rw [hm] at h0; exact h0
      | BLOQUEIO_POR_ESPERA_DE_PROC =>
        rw [hm] at h0
        dsimp only at h0 ⊢
        rw [esperado_terminou_altera s.processos i proc _ _ hi (by rw [hb]; decide)
          (by simp [proc_muda_estado])]
        exact h0

theorem so_trata_pendencias_base (s : so_t) (h : inv_base_meio s) :
    inv_base_meio (so_trata_pendencias s) :=
  foldl_preserva inv_base_meio so_trata_pendencias_proc so_trata_pendencias_proc_base _ s h

theorem so_trata_pendencias_fila (s : so_t) (h : inv_fila_meio s) :
    inv_fila_meio (so_trata_pendencias s) :=
  foldl_preserva inv_fila_meio so_trata_pendencias_proc so_trata_pendencias_proc_fila _ s h

theorem corrente_eq_none (self : so_t) :
    corrente self = none ↔
      self.processo_corrente = none ∨
        ∃ c, self.processo_corrente = some c ∧ self.processos[c]? = none := by
  unfold corrente
  cases h : self.processo_corrente with
  | none => simp
  | some k =>
    dsimp only
    cases h2 : self.processos[k]? with
    | none => exact ⟨fun _ => Or.inr ⟨k, rfl, h2⟩, fun _ => rfl⟩
    | some p =>
      constructor
      · intro e; cases e
      · rintro (e | ⟨c, e, h3⟩)
        · cases e
        · cases e
          rw [h2] at h3; cases h3

theorem corrente_executando_iff (self : so_t) :
    corrente_executando self = true ↔
      ∃ c, self.processo_corrente = some c ∧
        estado_em self.processos c = some ESTADO_INICIALIZANDO := by
  unfold corrente_executando
  cases h : corrente self with
  | none =>
    simp only [Bool.false_eq_true, false_iff, not_exists, not_and]
    intro c hc he
    rcases (corrente_eq_none self).mp h with h1 | ⟨c1, h1, h2⟩
    · rw [h1] at hc; cases hc
    · rw [h1] at hc; cases hc
      unfold estado_em at he
      rw [h2] at he
      cases he
  | some cp =>
    obtain ⟨c, p⟩ := cp
    obtain ⟨h1, h2⟩ := (corrente_eq_some self c p).mp h
    simp only [decide_eq_true_eq]
    constructor
    · intro he
      exact ⟨c, h1, by unfold estado_em; rw [h2]; simp [he]⟩
    · rintro ⟨c1, hc1, he⟩
      rw [h1] at hc1; cases hc1
      unfold estado_em at he
      rw [h2] at he
      simpa using he

theorem so_executa_proc_inicio_quadro (s : so_t) (proc : Option Nat) :
    (so_executa_proc_inicio s proc).fila_prontos = s.fila_prontos ∧
    (so_executa_proc_inicio s proc).pid_atual = s.pid_atual ∧
    (so_executa_proc_inicio s proc).numero_processos = s.numero_processos := by
  unfold so_executa_proc_inicio
  cases proc with
  | none => exact ⟨rfl, rfl, rfl⟩
  | some i =>
    dsimp only
    cases s.processos[i]? with
    | none => exact ⟨rfl, rfl, rfl⟩
    | some p =>
      dsimp only
      split
      · exact ⟨rfl, rfl, rfl⟩
      · exact ⟨rfl, rfl, rfl⟩

/-- The effect of the execution transition on the states of the table. -/
theorem so_executa_proc_efeito (s : so_t) (h : Nat) (ph : processo_t)
    (hh : s.processos[h]? = some ph) :
    (so_executa_proc s (some h)).processo_corrente = some h ∧
    (so_executa_proc s (some h)).fila_prontos = s.fila_prontos ∧
    (so_executa_proc s (some h)).pid_atual = s.pid_atual ∧
    (so_executa_proc s (some h)).numero_processos = s.numero_processos ∧
    (so_executa_proc s (some h)).quantum_proc = QUANTUM ∧
    (so_executa_proc s (some h)).processos.map (fun p => p.pid) =
      s.processos.map (fun p => p.pid) ∧
    ∀ j, estado_em (so_executa_proc s (some h)).processos j =
      if j = h then some ESTADO_INICIALIZANDO
      else if s.processo_corrente = some j ∧
          estado_em s.processos j = some ESTADO_INICIALIZANDO then some ESTADO_PRONTO
      else estado_em s.processos j := by
  have hcond : ∀ j, (s.processo_corrente = some j ∧
      estado_em s.processos j = some ESTADO_INICIALIZANDO) ↔
      ∃ pj, corrente s = some (j, pj) ∧ pj.estado = ESTADO_INICIALIZANDO := by
    intro j
    constructor
    · rintro ⟨h1, h2⟩
      unfold estado_em at h2
      cases hj : s.processos[j]? with
      | none => rw [hj] at h2; cases h2
      | some pj =>
        rw [hj] at h2
        exact ⟨pj, (corrente_eq_some s j pj).mpr ⟨h1, hj⟩, by simpa using h2⟩
    · rintro ⟨pj, h1, h2⟩
      obtain ⟨h3, h4⟩ := (corrente_eq_some s j pj).mp h1
      exact ⟨h3, by unfold estado_em; rw [h4]; simp [h2]⟩
  have hfim : ∀ s1 : so_t, s1.processos[h]? = some ph →
      (so_executa_proc_inicio s1 (some h)).processos.map (fun p => p.pid) =
        s1.processos.map (fun p => p.pid) ∧
      ∀ j, estado_em (so_executa_proc_inicio s1 (some h)).processos j =
        if j = h then some ESTADO_INICIALIZANDO else estado_em s1.processos j := by
    intro s1 h1
    unfold so_executa_proc_inicio
    dsimp only
    rw [h1]
    dsimp only
    by_cases hr : ph.estado ≠ ESTADO_INICIALIZANDO
    · rw [if_pos hr]
      refine ⟨map_altera_processo (fun p => p.pid) _ _ _ (fun p => rfl), ?_⟩
      intro j
      dsimp only
      rw [estado_em_altera_processo]
      by_cases e : j = h
      · rw [if_pos e, if_pos e, h1]; rfl
      · rw [if_neg e, if_neg e]
    · rw [if_neg hr]
      refine ⟨rfl, ?_⟩
      intro j
      by_cases e : j = h
      · rw [if_pos e, e]
        unfold estado_em
        rw [h1]
        simp only [ne_eq, Decidable.not_not] at hr
        simp [hr]
      · rw [if_neg e]
  unfold so_executa_proc
  by_cases hpre : ∃ c pc, corrente s = some (c, pc) ∧ c ≠ h ∧ pc.estado = ESTADO_INICIALIZANDO
  · obtain ⟨c, pc, hc, hne, hrun⟩ := hpre
    obtain ⟨hc1, hc2⟩ := (corrente_eq_some s c pc).mp hc
    have hne2 : some c ≠ some h := fun e => hne (Option.some.inj e)
    have hs1 : so_executa_proc_preempcao s (some h) = { s with
        processos := altera_processo s.processos c (fun p => proc_muda_estado p ESTADO_PRONTO),
        metricas := { s.metricas with num_preempcoes := s.metricas.num_preempcoes + 1 } } := by
      unfold so_executa_proc_preempcao
      rw [hc]
      dsimp only
      rw [if_pos ⟨hne2, hrun⟩]
    have h1 : (so_executa_proc_preempcao s (some h)).processos[h]? = some ph := by
      rw [hs1]
      dsimp only
      rw [getElem?_altera_processo, if_neg (fun e => hne e.symm)]
      exact hh
    obtain ⟨hm, he⟩ := hfim _ h1
    obtain ⟨hq1, hq2, hq3⟩ := so_executa_proc_inicio_quadro
      (so_executa_proc_preempcao s (some h)) (some h)
    dsimp only
    refine ⟨rfl, ?_, ?_, ?_, rfl, ?_, ?_⟩
    · rw [hq1, hs1]
    · rw [hq2, hs1]
    · rw [hq3, hs1]
    · rw [hm, hs1]
      exact map_altera_processo (fun p => p.pid) _ _ _ (fun p => rfl)
    · intro j
      rw [he j]
      by_cases e : j = h
      · rw [if_pos e, if_pos e]
      · rw [if_neg e, if_neg e, hs1]
        dsimp only
        rw [estado_em_altera_processo]
        by_cases ec : j = c
        · subst ec
          rw [if_pos rfl, hc2, if_pos ((hcond j).mpr ⟨pc, hc, hrun⟩)]
          rfl
        · rw [if_neg ec, if_neg]
          rintro ⟨h3, _⟩
          rw [hc1] at h3
          exact ec (Option.some.inj h3).symm
  · have hs1 : so_executa_proc_preempcao s (some h) = s := by
      unfold so_executa_proc_preempcao
      cases hc : corrente s with
      | none => rfl
      | some cp =>
        obtain ⟨c, pc⟩ := cp
        dsimp only
        rw [if_neg]
        rintro ⟨h1, h2⟩
        exact hpre ⟨c, pc, hc, fun e => h1 (by rw [e]), h2⟩
    rw [hs1]
    obtain ⟨hm, he⟩ := hfim s hh
    obtain ⟨hq1, hq2, hq3⟩ := so_executa_proc_inicio_quadro s (some h)
    dsimp only
    refine ⟨rfl, hq1, hq2, hq3, rfl, hm, ?_⟩
    · intro j
      rw [he j]
      by_cases e : j = h
      · rw [if_pos e, if_pos e]
      · rw [if_neg e, if_neg e, if_neg]
        intro hcj
        obtain ⟨pj, h1, h2⟩ := (hcond j).mp hcj
        exact hpre ⟨j, pj, h1, e, h2⟩

theorem altera_corrente_quadro (s : so_t) (f : processo_t → processo_t)
    (hpid : ∀ p, (f p).pid = p.pid) :
    (altera_corrente s f).processo_corrente = s.processo_corrente ∧
    (altera_corrente s f).fila_prontos = s.fila_prontos ∧
    (altera_corrente s f).pid_atual = s.pid_atual ∧
    (altera_corrente s f).numero_processos = s.numero_processos ∧
    (altera_corrente s f).es = s.es ∧
    (altera_corrente s f).processos.map (fun p => p.pid) = s.processos.map (fun p => p.pid) ∧
    ∀ j, (altera_corrente s f).processos[j]? =
      if s.processo_corrente = some j then (s.processos[j]?).map f else s.processos[j]? := by
  unfold altera_corrente
  cases hc : s.processo_corrente with
  | none =>
    dsimp only
    exact ⟨hc, rfl, rfl, rfl, rfl, rfl, fun j => by simp⟩
  | some c =>
    dsimp only
    refine ⟨rfl, rfl, rfl, rfl, rfl, map_altera_processo (fun p => p.pid) _ _ _ hpid, ?_⟩
    intro j
    rw [getElem?_altera_processo]
    by_cases e : j = c
    · subst e; simp
    · have e2 : ¬ (some c = some j) := fun h => e (Option.some.inj h).symm
      rw [if_neg e, if_neg e2]

theorem estado_em_some {ps : List processo_t} {i : Nat} {e : estado_processo_t}
    (h : estado_em ps i = some e) : ∃ p, ps[i]? = some p ∧ p.estado = e := by
  unfold estado_em at h
  cases hp : ps[i]? with
  | none => rw [hp] at h; cases h
  | some p =>
    rw [hp] at h
    exact ⟨p, rfl, by simpa using h⟩

/-- The first two steps of `so_escalona` keep what the sweep left. -/
theorem antes_da_politica (s : so_t) (hb : inv_base_meio s) :
    inv_base_meio (atualiza_prioridade (atualiza_estado_processo_corrente s)) ∧
    ((fila_boa s ∧ corrente_fora_da_fila s) →
      (fila_boa (atualiza_prioridade (atualiza_estado_processo_corrente s)) ∧
       corrente_fora_da_fila (atualiza_prioridade (atualiza_estado_processo_corrente s)))) := by
  obtain ⟨a1, a2, a3, a4, _, a6, a7⟩ := altera_corrente_quadro s
    (fun p => if p.estado = ESTADO_PRONTO then { p with estado := ESTADO_INICIALIZANDO } else p)
    (fun p => by dsimp only; split <;> rfl)
  obtain ⟨b1, b2, b3, b4, _, b6, b7⟩ := altera_corrente_quadro
    (atualiza_estado_processo_corrente s)
    (fun p => { p with prioridade := float_soma p.prioridade (acrescimo_de_prioridade (atualiza_estado_processo_corrente s).quantum_proc) })
    (fun p => rfl)
  have hs1 : altera_corrente s (fun p =>
      if p.estado = ESTADO_PRONTO then { p with estado := ESTADO_INICIALIZANDO } else p) =
      atualiza_estado_processo_corrente s := rfl
  rw [hs1] at a1 a2 a3 a4 a6 a7
  have hs2 : altera_corrente (atualiza_estado_processo_corrente s) (fun p =>
      { p with prioridade := float_soma p.prioridade (acrescimo_de_prioridade (atualiza_estado_processo_corrente s).quantum_proc) }) =
      atualiza_prioridade (atualiza_estado_processo_corrente s) := rfl
  rw [hs2] at b1 b2 b3 b4 b6 b7
  have hest : ∀ j, estado_em
      (atualiza_prioridade (atualiza_estado_processo_corrente s)).processos j =
      if s.processo_corrente = some j ∧ estado_em s.processos j = some ESTADO_PRONTO
      then some ESTADO_INICIALIZANDO else estado_em s.processos j := by
    intro j
    unfold estado_em
    rw [b7 j, a1, a7 j]
    by_cases hc : s.processo_corrente = some j
    · rw [if_pos hc, if_pos hc]
      cases hj : s.processos[j]? with
      | none => simp
      | some p =>
        by_cases hp : p.estado = ESTADO_PRONTO
        · simp [hp, hc]
        · simp [hp]
    · rw [if_neg hc, if_neg hc, if_neg (fun h => hc h.1)]
  obtain ⟨hp, hv⟩ := hb
  refine ⟨⟨pids_em_ordem_de s _ (by rw [b6, a6]) (by rw [b3, a3]) (by rw [b4, a4]) hp, ?_⟩, ?_⟩
  · intro c hc
    rw [b1, a1] at hc
    obtain ⟨e, he1, he2⟩ := hv c hc
    rw [hest c]
    by_cases h : s.processo_corrente = some c ∧ estado_em s.processos c = some ESTADO_PRONTO
    · rw [if_pos h]; exact ⟨_, rfl, by decide⟩
    · rw [if_neg h]; exact ⟨e, he1, he2⟩
  · rintro ⟨⟨hnd, hpr⟩, hfora⟩
    refine ⟨⟨by rw [b2, a2]; exact hnd, ?_⟩, ?_⟩
    · intro i hi
      rw [b2, a2] at hi
      rw [hest i, if_neg]
      · exact hpr i hi
      · rintro ⟨h1, _⟩
        exact hfora i h1 hi
    · intro c hc
      rw [b1, a1] at hc
      rw [b2, a2]
      exact hfora c hc

theorem reinsere_corrente_casos (s : so_t) :
    (corrente_executando s = false ∧ reinsere_corrente s = s) ∨
    (∃ c, s.processo_corrente = some c ∧
      estado_em s.processos c = some ESTADO_INICIALIZANDO ∧
      reinsere_corrente s = { s with fila_prontos := s.fila_prontos ++ [c] }) := by
  unfold reinsere_corrente
  cases h : corrente_executando s with
  | false => exact Or.inl ⟨rfl, rfl⟩
  | true =>
    obtain ⟨c, hc, he⟩ := (corrente_executando_iff s).mp h
    right
    refine ⟨c, hc, he, ?_⟩
    simp [hc, insere_na_fila_prontos]

/-- The choice both queue policies end with: whatever entry `h` of the queue is
taken out, the execution transition on it leaves a state that satisfies the exit
invariants. -/
theorem escolha_saida (s : so_t) (h : Nat) (resto : List Nat)
    (hb : inv_base_meio s) (hf : fila_boa s) (hfora : corrente_fora_da_fila s)
    (hperm : List.Perm (reinsere_corrente s).fila_prontos (h :: resto)) :
    inv_base_saida (so_executa_proc { reinsere_corrente s with fila_prontos := resto } (some h)) ∧
    fila_boa (so_executa_proc { reinsere_corrente s with fila_prontos := resto } (some h)) := by
  obtain ⟨hp, hv⟩ := hb
  obtain ⟨hnd, hpr⟩ := hf
  -- the queue after the reinsertion
  have hq : ∀ j, j ∈ (reinsere_corrente s).fila_prontos →
      estado_em s.processos j = some ESTADO_PRONTO ∨
      (s.processo_corrente = some j ∧ estado_em s.processos j = some ESTADO_INICIALIZANDO) := by
    intro j hj
    rcases reinsere_corrente_casos s with ⟨_, h1⟩ | ⟨c, hc, he, h1⟩
    · rw [h1] at hj; exact Or.inl (hpr j hj)
    · rw [h1] at hj
      simp only [List.mem_append, List.mem_singleton] at hj
      rcases hj with hj | hj
      · exact Or.inl (hpr j hj)
      · subst hj; exact Or.inr ⟨hc, he⟩
  have hnd1 : (reinsere_corrente s).fila_prontos.Nodup := by
    rcases reinsere_corrente_casos s with ⟨_, h1⟩ | ⟨c, hc, he, h1⟩
    · rw [h1]; exact hnd
    · rw [h1]
      dsimp only
      rw [List.nodup_append]
      refine ⟨hnd, List.nodup_singleton c, ?_⟩
      intro a ha1 ha2
      simp only [List.mem_singleton] at ha2
      subst ha2
      exact hfora a hc ha1
  have hproc : (reinsere_corrente s).processos = s.processos ∧
      (reinsere_corrente s).processo_corrente = s.processo_corrente ∧
      (reinsere_corrente s).pid_atual = s.pid_atual ∧
      (reinsere_corrente s).numero_processos = s.numero_processos := by
    rcases reinsere_corrente_casos s with ⟨_, h1⟩ | ⟨c, hc, he, h1⟩
    · rw [h1]; exact ⟨rfl, rfl, rfl, rfl⟩
    · rw [h1]; exact ⟨rfl, rfl, rfl, rfl⟩
  obtain ⟨hps, hcor, hpa, hnp⟩ := hproc
  have hnd2 : (h :: resto).Nodup := hperm.nodup_iff.mp hnd1
  have hh : h ∈ (reinsere_corrente s).fila_prontos := hperm.mem_iff.mpr (List.mem_cons_self h resto)
  obtain ⟨ph, hph⟩ : ∃ ph, s.processos[h]? = some ph := by
    rcases hq h hh with h1 | ⟨_, h1⟩
    · obtain ⟨p, hp1, _⟩ := estado_em_some h1; exact ⟨p, hp1⟩
    · obtain ⟨p, hp1, _⟩ := estado_em_some h1; exact ⟨p, hp1⟩
  have k1 : ({ reinsere_corrente s with fila_prontos := resto } : so_t).processos =
      s.processos := hps
  have k2 : ({ reinsere_corrente s with fila_prontos := resto } : so_t).processo_corrente =
      s.processo_corrente := hcor
  have k3 : ({ reinsere_corrente s with fila_prontos := resto } : so_t).pid_atual =
      s.pid_atual := hpa
  have k4 : ({ reinsere_corrente s with fila_prontos := resto } : so_t).numero_processos =
      s.numero_processos := hnp
  have k5 : ({ reinsere_corrente s with fila_prontos := resto } : so_t).fila_prontos =
      resto := rfl
  generalize ({ reinsere_corrente s with fila_prontos := resto } : so_t) = s2 at k1 k2 k3 k4 k5 ⊢
  obtain ⟨e1, e2, e3, e4, _, e6, e7⟩ := so_executa_proc_efeito s2 h ph (by rw [k1]; exact hph)
  rw [k1] at e6 e7
  rw [k2] at e7
  rw [k5] at e2
  rw [k3] at e3
  rw [k4] at e4
  refine ⟨⟨pids_em_ordem_de s _ e6 e3 e4 hp, ?_⟩, ?_, ?_⟩
  · intro c hc
    rw [e1] at hc
    cases hc
    rw [e7 h, if_pos rfl]
  · rw [e2]
    exact (List.nodup_cons.mp hnd2).2
  · intro j hj
    rw [e2] at hj
    have hjh : j ≠ h := by
      intro e
      subst e
      exact (List.nodup_cons.mp hnd2).1 hj
    rw [e7 j, if_neg hjh]
    rcases hq j (hperm.mem_iff.mpr (List.mem_cons_of_mem h hj)) with h1 | h1
    · by_cases hc : s.processo_corrente = some j ∧
          estado_em s.processos j = some ESTADO_INICIALIZANDO
      · rw [if_pos hc]
      · rw [if_neg hc]; exact h1
    · rw [if_pos h1]

theorem sem_escolha_saida (s : so_t) (hb : inv_base_meio s)
    (hq : (reinsere_corrente s).fila_prontos = []) :
    inv_base_saida { reinsere_corrente s with processo_corrente := none } ∧
    fila_boa { reinsere_corrente s with processo_corrente := none } := by
  obtain ⟨hp, _⟩ := hb
  have hs : reinsere_corrente s = { s with fila_prontos := (reinsere_corrente s).fila_prontos } := by
    rcases reinsere_corrente_casos s with ⟨_, h1⟩ | ⟨c, _, _, h1⟩
    · rw [h1]
    · rw [h1]
  rw [hs, hq]
  refine ⟨⟨pids_em_ordem_de s _ rfl rfl rfl hp, ?_⟩, ?_, ?_⟩
  · intro c hc; cases hc
  · exact List.nodup_nil
  · intro i hi; cases hi

theorem manter_saida (s : so_t) (hb : inv_base_meio s) (hk : corrente_executando s = true) :
    inv_base_saida s := by
  obtain ⟨hp, _⟩ := hb
  refine ⟨hp, ?_⟩
  intro c hc
  obtain ⟨c1, h1, h2⟩ := (corrente_executando_iff s).mp hk
  rw [hc] at h1
  cases h1
  exact h2

theorem escalonador_round_robin_saida (s : so_t) (hb : inv_base_meio s) (hf : fila_boa s)
    (hfora : corrente_fora_da_fila s) :
    inv_base_saida (escalonador_round_robin s) ∧ fila_boa (escalonador_round_robin s) := by
  unfold escalonador_round_robin
  by_cases hk : (corrente_executando s && decide (s.quantum_proc > 0)) = true
  · rw [if_pos hk]
    simp only [Bool.and_eq_true] at hk
    exact ⟨manter_saida s hb hk.1, hf⟩
  · rw [if_neg hk]
    dsimp only
    cases hq : (reinsere_corrente s).fila_prontos with
    | nil =>
      simp only [remove_primeiro_processo_fila]
      have hsem := sem_escolha_saida s hb hq
      dsimp only at hsem
      rw [hq] at hsem
      exact hsem
    | cons h resto =>
      simp only [remove_primeiro_processo_fila]
      exact escolha_saida s h resto hb hf hfora (by rw [hq])

theorem perm_eraseIdx (l : List Nat) : ∀ (k j : Nat), l[k]? = some j →
    List.Perm l (j :: l.eraseIdx k) := by
  induction l with
  | nil => intro k j h; simp at h
  | cons a as ih =>
    intro k j h
    cases k with
    | zero =>
      simp only [List.getElem?_cons_zero, Option.some.injEq] at h
      subst h
      simp
    | succ k =>
      simp only [List.getElem?_cons_succ] at h
      simp only [List.eraseIdx_cons_succ]
      exact ((ih k j h).cons a).trans (List.Perm.swap j a _)

theorem posicao_maior_prioridade_limite (ps : List processo_t) :
    ∀ (l : List Nat) (pos melhor : Nat) (pm : ℚ),
      posicao_maior_prioridade ps l pos melhor pm = melhor ∨
      (pos ≤ posicao_maior_prioridade ps l pos melhor pm ∧
        posicao_maior_prioridade ps l pos melhor pm < pos + l.length) := by
  intro l
  induction l with
  | nil => intro pos melhor pm; exact Or.inl rfl
  | cons i resto ih =>
    intro pos melhor pm
    unfold posicao_maior_prioridade
    by_cases h : prioridade_de ps i < pm
    · rw [if_pos h]
      right
      rcases ih (pos + 1) pos (prioridade_de ps i) with h1 | ⟨h1, h2⟩
      · rw [h1]; simp
      · refine ⟨by omega, ?_⟩
        simp only [List.length_cons]
        omega
    · rw [if_neg h]
      rcases ih (pos + 1) melhor pm with h1 | ⟨h1, h2⟩
      · exact Or.inl h1
      · right
        refine ⟨by omega, ?_⟩
        simp only [List.length_cons]
        omega

theorem remover_processo_maior_prioridade_casos (ps : List processo_t) (fila : List Nat) :
    (fila = [] ∧ remover_processo_maior_prioridade ps fila = none) ∨
    (∃ j resto, remover_processo_maior_prioridade ps fila = some (j, resto) ∧
      List.Perm fila (j :: resto)) := by
  unfold remover_processo_maior_prioridade
  cases fila with
  | nil => exact Or.inl ⟨rfl, rfl⟩
  | cons i resto =>
    right
    dsimp only
    have hk : posicao_maior_prioridade ps (i :: resto) 0 0 (prioridade_de ps i) <
        (i :: resto).length := by
      rcases posicao_maior_prioridade_limite ps (i :: resto) 0 0 (prioridade_de ps i) with h | h
      · rw [h]; simp
      · have := h.2; omega
    obtain ⟨j, hj⟩ : ∃ j, (i :: resto)[posicao_maior_prioridade ps (i :: resto) 0 0
        (prioridade_de ps i)]? = some j :=
      ⟨_, List.getElem?_eq_getElem hk⟩
    rw [hj]
    exact ⟨j, _, rfl, perm_eraseIdx _ _ _ hj⟩

theorem escalonador_prioridade_saida (s : so_t) (hb : inv_base_meio s) (hf : fila_boa s)
    (hfora : corrente_fora_da_fila s) :
    inv_base_saida (escalonador_prioridade s) ∧ fila_boa (escalonador_prioridade s) := by
  unfold escalonador_prioridade
  by_cases hk : (corrente_executando s && decide (s.quantum_proc > 0)) = true
  · rw [if_pos hk]
    simp only [Bool.and_eq_true] at hk
    exact ⟨manter_saida s hb hk.1, hf⟩
  · rw [if_neg hk]
    dsimp only
    rcases remover_processo_maior_prioridade_casos (reinsere_corrente s).processos
        (reinsere_corrente s).fila_prontos with ⟨hq, hr⟩ | ⟨j, resto, hr, hperm⟩
    · rw [hr]
      exact sem_escolha_saida s hb hq
    · rw [hr]
      exact escolha_saida s j resto hb hf hfora hperm

theorem obtem_processo_por_estado_some (ps : List processo_t) (e : estado_processo_t) :
    ∀ i, obtem_processo_por_estado ps e = some i → ∃ p, ps[i]? = some p ∧ p.estado = e := by
  induction ps with
  | nil => intro i h; simp [obtem_processo_por_estado] at h
  | cons a as ih =>
    intro i h
    unfold obtem_processo_por_estado at h
    by_cases ha : a.estado = e
    · rw [if_pos ha] at h
      cases h
      exact ⟨a, by simp, ha⟩
    · rw [if_neg ha] at h
      cases hr : obtem_processo_por_estado as e with
      | none => rw [hr] at h; cases h
      | some k =>
        rw [hr] at h
        simp only [Option.map_some', Option.some.injEq] at h
        subst h
        obtain ⟨p, hp1, hp2⟩ := ih k hr
        exact ⟨p, by simpa using hp1, hp2⟩

theorem obtem_processo_por_estado_none (ps : List processo_t) (e : estado_processo_t) :
    obtem_processo_por_estado ps e = none → ∀ i, estado_em ps i ≠ some e := by
  induction ps with
  | nil => intro _ i; simp [estado_em]
  | cons a as ih =>
    intro h i
    unfold obtem_processo_por_estado at h
    by_cases ha : a.estado = e
    · rw [if_pos ha] at h; cases h
    · rw [if_neg ha] at h
      cases hr : obtem_processo_por_estado as e with
      | some k => rw [hr] at h; cases h
      | none =>
        cases i with
        | zero => simpa [estado_em] using ha
        | succ k =>
          have := ih hr k
          simpa [estado_em] using this

theorem escalonador_simples_saida (s : so_t) (hb : inv_base_meio s) :
    inv_base_saida (escalonador_simples s) := by
  unfold escalonador_simples
  by_cases hk : corrente_executando s = true
  · rw [if_pos hk]
    exact manter_saida s hb hk
  · rw [if_neg hk]
    obtain ⟨hp, hv⟩ := hb
    cases h1 : obtem_processo_por_estado s.processos ESTADO_PRONTO with
    | some i =>
      dsimp only
      obtain ⟨p, hp1, _⟩ := obtem_processo_por_estado_some _ _ i h1
      obtain ⟨e1, _, e3, e4, _, e6, e7⟩ := so_executa_proc_efeito s i p hp1
      refine ⟨pids_em_ordem_de s _ e6 e3 e4 hp, ?_⟩
      intro c hc
      rw [e1] at hc
      cases hc
      rw [e7 i, if_pos rfl]
    | none =>
      dsimp only
      cases h2 : obtem_processo_por_estado s.processos ESTADO_BLOQUEADO with
      | some _ =>
        dsimp only
        refine ⟨pids_em_ordem_de s _ rfl rfl rfl hp, ?_⟩
        intro c hc; cases hc
      | none =>
        dsimp only
        refine ⟨pids_em_ordem_de s _ rfl rfl rfl hp, ?_⟩
        intro c hc
        dsimp only at hc ⊢
        obtain ⟨e, he1, he2⟩ := hv c hc
        cases e with
        | ESTADO_INICIALIZANDO => exact he1
        | ESTADO_PRONTO => exact absurd he1 (obtem_processo_por_estado_none _ _ h1 c)
        | ESTADO_BLOQUEADO => exact absurd he1 (obtem_processo_por_estado_none _ _ h2 c)
        | ESTADO_TERMINADO => exact absurd rfl he2

/-- The scheduler under the two queue policies: from what the sweep leaves to the
exit invariants. -/
theorem so_escalona_saida_fila (s : so_t) (escalonador : Int)
    (hpol : escalonador = 1 ∨ escalonador = 2)
    (hb : inv_base_meio s) (hf : fila_boa s) (hfora : corrente_fora_da_fila s) :
    inv_base_saida (so_escalona s escalonador) ∧ fila_boa (so_escalona s escalonador) := by
  obtain ⟨h1, h2⟩ := antes_da_politica s hb
  obtain ⟨h3, h4⟩ := h2 ⟨hf, hfora⟩
  unfold so_escalona
  rcases hpol with e | e
  · subst e
    simp only [if_true]
    exact escalonador_prioridade_saida _ h1 h3 h4
  · subst e
    simp only [if_true, show ¬ ((2 : Int) = 1) by decide, if_false]
    exact escalonador_round_robin_saida _ h1 h3 h4

/-- The scheduler under any of the three policies keeps the base invariants. -/
theorem so_escalona_saida_base (s : so_t) (escalonador : Int)
    (hpol : escalonador = 1 ∨ escalonador = 2 ∨ escalonador = 3)
    (hb : inv_base_meio s) (hq : escalonador ≠ 3 → fila_boa s ∧ corrente_fora_da_fila s) :
    inv_base_saida (so_escalona s escalonador) := by
  rcases hpol with e | e | e
  · exact (so_escalona_saida_fila s escalonador (Or.inl e) hb
      (hq (by rw [e]; decide)).1 (hq (by rw [e]; decide)).2).1
  · exact (so_escalona_saida_fila s escalonador (Or.inr e) hb
      (hq (by rw [e]; decide)).1 (hq (by rw [e]; decide)).2).1
  · obtain ⟨h1, _⟩ := antes_da_politica s hb
    unfold so_escalona
    subst e
    simp only [show ¬ ((3 : Int) = 1) by decide, show ¬ ((3 : Int) = 2) by decide, if_false,
      if_true]
    exact escalonador_simples_saida _ h1

theorem estado_em_de_pids_estados {ps qs : List processo_t}
    (h : pids_estados qs = pids_estados ps) (i : Nat) : estado_em qs i = estado_em ps i := by
  have h1 := congrArg (fun l => (l[i]?).map (fun x => x.2)) h
  simpa [pids_estados, estado_em, List.getElem?_map, Option.map_map, Function.comp_def] using h1

theorem pids_de_pids_estados {ps qs : List processo_t}
    (h : pids_estados qs = pids_estados ps) :
    qs.map (fun p => p.pid) = ps.map (fun p => p.pid) := by
  have h1 := congrArg (fun l => l.map (fun x => x.1)) h
  simpa [pids_estados, List.map_map, Function.comp_def] using h1

/-- The exit invariants only depend on the pids and states of the table, the
queue, the current process and the two counters. -/
theorem saida_transfere (s r : so_t)
    (h1 : pids_estados r.processos = pids_estados s.processos)
    (h2 : r.fila_prontos = s.fila_prontos)
    (h3 : r.processo_corrente = s.processo_corrente)
    (h4 : r.pid_atual = s.pid_atual) (h5 : r.numero_processos = s.numero_processos) :
    (inv_base_saida s → inv_base_saida r) ∧ (fila_boa s → fila_boa r) := by
  constructor
  · rintro ⟨hp, hc⟩
    refine ⟨pids_em_ordem_de s r (pids_de_pids_estados h1) h4 h5 hp, ?_⟩
    intro c hcc
    rw [estado_em_de_pids_estados h1]
    exact hc c (h3 ▸ hcc)
  · rintro ⟨hnd, hpr⟩
    refine ⟨h2 ▸ hnd, ?_⟩
    intro i hi
    rw [estado_em_de_pids_estados h1]
    exact hpr i (h2 ▸ hi)

/-- At a kernel exit the state also satisfies what is required between the
handler and the scheduler; this passes to any state with the same table, queue,
current process and counters. -/
theorem saida_para_meio (s r : so_t)
    (h1 : pids_estados r.processos = pids_estados s.processos)
    (h2 : r.fila_prontos = s.fila_prontos)
    (h3 : r.processo_corrente = s.processo_corrente)
    (h4 : r.pid_atual = s.pid_atual) (h5 : r.numero_processos = s.numero_processos)
    (hb : inv_base_saida s) :
    inv_base_meio r ∧ (fila_boa s → inv_fila_meio r) := by
  obtain ⟨t1, t2⟩ := saida_transfere s r h1 h2 h3 h4 h5
  obtain ⟨hp, hc⟩ := t1 hb
  refine ⟨⟨hp, ?_⟩, ?_⟩
  · intro c hcc
    exact ⟨_, hc c hcc, by decide⟩
  · intro hf
    obtain ⟨hnd, hpr⟩ := t2 hf
    refine ⟨⟨hnd, hpr⟩, ?_, ?_⟩
    · intro c hcc hm
      have e1 := hc c hcc
      have e2 := hpr c hm
      rw [e1] at e2
      cases e2
    · intro c p hcc hpc hbl
      have e1 := hc c hcc
      unfold estado_em at e1
      rw [hpc] at e1
      simp only [Option.map_some', Option.some.injEq] at e1
      rw [hbl] at e1
      cases e1

theorem pids_estados_nos_primeiros (n : Int) (f : processo_t → processo_t)
    (ps : List processo_t) (hf : ∀ p, ((f p).pid, (f p).estado) = (p.pid, p.estado)) :
    pids_estados (nos_primeiros n f ps) = pids_estados ps := by
  unfold pids_estados nos_primeiros
  rw [List.map_append, List.map_map]
  have : ((fun p => (p.pid, p.estado)) ∘ f) = (fun p : processo_t => (p.pid, p.estado)) := by
    funext p
    exact hf p
  rw [this, ← List.map_append, List.take_append_drop]

theorem pids_estados_altera (ps : List processo_t) (i : Nat) (f : processo_t → processo_t)
    (hf : ∀ p, ((f p).pid, (f p).estado) = (p.pid, p.estado)) :
    pids_estados (altera_processo ps i f) = pids_estados ps :=
  map_altera_processo (fun p => (p.pid, p.estado)) ps i f hf

theorem pids_estados_altera_corrente (s : so_t) (f : processo_t → processo_t)
    (hf : ∀ p, ((f p).pid, (f p).estado) = (p.pid, p.estado)) :
    pids_estados (altera_corrente s f).processos = pids_estados s.processos := by
  unfold altera_corrente
  cases s.processo_corrente with
  | none => rfl
  | some c => exact pids_estados_altera _ _ _ hf

/-- The steps of the kernel entry that come before the IRQ handler leave the
table, the queue, the current process and the counters as they were. -/
theorem antes_do_tratador (s : so_t) :
    pids_estados (atualiza_metricas_com_relogio (salva_estado_cpu_no_processo s)).processos =
      pids_estados s.processos ∧
    (atualiza_metricas_com_relogio (salva_estado_cpu_no_processo s)).fila_prontos =
      s.fila_prontos ∧
    (atualiza_metricas_com_relogio (salva_estado_cpu_no_processo s)).processo_corrente =
      s.processo_corrente ∧
    (atualiza_metricas_com_relogio (salva_estado_cpu_no_processo s)).pid_atual = s.pid_atual ∧
    (atualiza_metricas_com_relogio (salva_estado_cpu_no_processo s)).numero_processos =
      s.numero_processos := by
  have hsalva : pids_estados (salva_estado_cpu_no_processo s).processos =
        pids_estados s.processos ∧
      (salva_estado_cpu_no_processo s).fila_prontos = s.fila_prontos ∧
      (salva_estado_cpu_no_processo s).processo_corrente = s.processo_corrente ∧
      (salva_estado_cpu_no_processo s).pid_atual = s.pid_atual ∧
      (salva_estado_cpu_no_processo s).numero_processos = s.numero_processos := by
    have hf : ∀ p : processo_t,
        (((fun p : processo_t =>
          let p1 := match mem_le s.mem IRQ_END_PC with
            | some v => { p with pc := v }
            | none => p
          let p2 := match mem_le s.mem IRQ_END_A with
            | some v => { p1 with reg0 := v }
            | none => p1
          match mem_le s.mem IRQ_END_X with
          | some v => { p2 with reg1 := v }
          | none => p2) p).pid,
         ((fun p : processo_t =>
          let p1 := match mem_le s.mem IRQ_END_PC with
            | some v => { p with pc := v }
            | none => p
          let p2 := match mem_le s.mem IRQ_END_A with
            | some v => { p1 with reg0 := v }
            | none => p1
          match mem_le s.mem IRQ_END_X with
          | some v => { p2 with reg1 := v }
          | none => p2) p).estado) = (p.pid, p.estado) := by
      intro p
      simp [mem_le]
    obtain ⟨q1, q2, q3, q4, _, _, _⟩ := altera_corrente_quadro s _
      (fun p => congrArg Prod.fst (hf p))
    exact ⟨pids_estados_altera_corrente s _ hf, q2, q1, q3, q4⟩
  obtain ⟨a1, a2, a3, a4, a5⟩ := hsalva
  generalize salva_estado_cpu_no_processo s = s1 at a1 a2 a3 a4 a5 ⊢
  unfold atualiza_metricas_com_relogio
  cases es_le s1.es s1.es.D_RELOGIO_INSTRUCOES with
  | none => exact ⟨a1, a2, a3, a4, a5⟩
  | some v =>
    dsimp only
    split
    · exact ⟨a1, a2, a3, a4, a5⟩
    · unfold atualiza_metricas_sistema
      refine ⟨?_, a2, a3, a4, a5⟩
      dsimp only
      rw [pids_estados_nos_primeiros, a1]
      intro p
      unfold atualiza_metricas_processo
      rfl

/-- A handler that blocks the current process, with a reason whose wake condition
does not hold, leaves what is required between the handler and the scheduler. -/
theorem bloqueia_corrente_meio (s r : so_t) (c : Nat) (p : processo_t)
    (f : processo_t → processo_t) (hcor : corrente s = some (c, p))
    (hpid : ∀ q, (f q).pid = q.pid) (hest : (f p).estado = ESTADO_BLOQUEADO)
    (h1 : r.processos = altera_processo s.processos c f)
    (h2 : r.fila_prontos = s.fila_prontos) (h3 : r.processo_corrente = s.processo_corrente)
    (h4 : r.pid_atual = s.pid_atual) (h5 : r.numero_processos = s.numero_processos)
    (hac : acorda r.es r.processos (f p) = false) (hb : inv_base_saida s) :
    inv_base_meio r ∧ (fila_boa s → inv_fila_meio r) := by
  obtain ⟨hc1, hc2⟩ := (corrente_eq_some s c p).mp hcor
  obtain ⟨hp, hce⟩ := hb
  have hrc : r.processos[c]? = some (f p) := by
    rw [h1, getElem?_altera_processo, if_pos rfl, hc2]; rfl
  refine ⟨⟨pids_em_ordem_de s r ?_ h4 h5 hp, ?_⟩, ?_⟩
  · rw [h1]; exact map_altera_processo (fun p => p.pid) _ _ _ hpid
  · intro c' hc'
    rw [h3, hc1] at hc'
    cases hc'
    refine ⟨ESTADO_BLOQUEADO, ?_, by decide⟩
    unfold estado_em
    rw [hrc]
    simp [hest]
  · rintro ⟨hnd, hpr⟩
    have hcf : c ∉ s.fila_prontos := by
      intro hm
      have e1 := hce c hc1
      rw [hpr c hm] at e1
      cases e1
    refine ⟨⟨h2 ▸ hnd, ?_⟩, ?_, ?_⟩
    · intro j hj
      rw [h2] at hj
      have hjc : j ≠ c := fun e => hcf (e ▸ hj)
      rw [h1, estado_em_altera_processo, if_neg hjc]
      exact hpr j hj
    · intro c' hc'
      rw [h3, hc1] at hc'
      cases hc'
      rw [h2]
      exact hcf
    · intro c' p' hc' hp' _
      rw [h3, hc1] at hc'
      cases hc'
      rw [hrc] at hp'
      cases hp'
      exact hac

theorem so_chamada_le_meio (s : so_t) (hb : inv_base_saida s) :
    inv_base_meio (so_chamada_le s) ∧ (fila_boa s → inv_fila_meio (so_chamada_le s)) := by
  unfold so_chamada_le
  cases hc : corrente s with
  | none => exact saida_para_meio s s rfl rfl rfl rfl rfl hb
  | some cp =>
    obtain ⟨c, p⟩ := cp
    dsimp only
    cases hl : es_le s.es (calcular_endereco_dispositivo s.es.D_TERM_A_TECLADO_OK
        (obter_terminal_por_pid p.pid)) with
    | none => exact saida_para_meio s _ rfl rfl rfl rfl rfl hb
    | some estado =>
      dsimp only
      by_cases h0 : estado = 0
      · rw [if_pos h0]
        refine bloqueia_corrente_meio s _ c p
          (fun q => { proc_muda_estado q ESTADO_BLOQUEADO with
            motivo_bloqueio := BLOQUEIO_POR_LEITURA })
          hc (fun q => rfl) rfl rfl rfl rfl rfl rfl ?_ hb
        simp [acorda, proc_muda_estado, hl, h0]
      · rw [if_neg h0]
        cases es_le s.es (calcular_endereco_dispositivo s.es.D_TERM_A_TECLADO
            (obter_terminal_por_pid p.pid)) with
        | none => exact saida_para_meio s _ rfl rfl rfl rfl rfl hb
        | some dado => exact saida_para_meio s _ rfl rfl rfl rfl rfl hb

theorem so_chamada_escr_meio (s : so_t) (hb : inv_base_saida s) :
    inv_base_meio (so_chamada_escr s) ∧ (fila_boa s → inv_fila_meio (so_chamada_escr s)) := by
  unfold so_chamada_escr
  cases hc : corrente s with
  | none => exact saida_para_meio s s rfl rfl rfl rfl rfl hb
  | some cp =>
    obtain ⟨c, p⟩ := cp
    dsimp only
    cases hl : es_le s.es (calcular_endereco_dispositivo s.es.D_TERM_A_TELA_OK
        (obter_terminal_por_pid p.pid)) with
    | none => exact saida_para_meio s _ rfl rfl rfl rfl rfl hb
    | some estado =>
      dsimp only
      by_cases h0 : estado = 0
      · rw [if_pos h0]
        cases mem_le s.mem IRQ_END_X with
        | none => exact saida_para_meio s _ rfl rfl rfl rfl rfl hb
        | some x =>
          dsimp only
          refine bloqueia_corrente_meio s _ c p
            (fun q => { proc_muda_estado { q with dado_pendente := x } ESTADO_BLOQUEADO with
              motivo_bloqueio := BLOQUEIO_POR_ESCRITA })
            hc (fun q => rfl) rfl rfl rfl rfl rfl rfl ?_ hb
          simp [acorda, proc_muda_estado, hl, h0]
      · rw [if_neg h0]
        cases mem_le s.mem IRQ_END_X with
        | none => exact saida_para_meio s _ rfl rfl rfl rfl rfl hb
        | some dado =>
          dsimp only
          cases hw : es_escreve s.es (calcular_endereco_dispositivo s.es.D_TERM_A_TELA
              (obter_terminal_por_pid p.pid)) dado with
          | mk es1 b =>
            cases b with
            | false => exact saida_para_meio s _ rfl rfl rfl rfl rfl hb
            | true => exact saida_para_meio s _ rfl rfl rfl rfl rfl hb

theorem encontra_processo_por_pid_some (ps : List processo_t) (pid : Int) :
    ∀ i, encontra_processo_por_pid ps pid = some i →
      ∃ p, ps[i]? = some p ∧ p.pid = pid ∧
        ∀ (k : Nat) (q : processo_t), k < i → ps[k]? = some q → q.pid ≠ pid := by
  induction ps with
  | nil => intro i h; simp [encontra_processo_por_pid] at h
  | cons a as ih =>
    intro i h
    unfold encontra_processo_por_pid at h
    by_cases ha : a.pid = pid
    · rw [if_pos ha] at h
      cases h
      exact ⟨a, by simp, ha, fun k q hk => absurd hk (Nat.not_lt_zero k)⟩
    · rw [if_neg ha] at h
      cases hr : encontra_processo_por_pid as pid with
      | none => rw [hr] at h; cases h
      | some k =>
        rw [hr] at h
        simp only [Option.map_some', Option.some.injEq] at h
        subst h
        obtain ⟨p, hp1, hp2, hp3⟩ := ih k hr
        refine ⟨p, by simpa using hp1, hp2, ?_⟩
        intro j q hj hq
        cases j with
        | zero =>
          simp only [List.getElem?_cons_zero, Option.some.injEq] at hq
          subst hq
          exact ha
        | succ j =>
          simp only [List.getElem?_cons_succ] at hq
          exact hp3 j q (by omega) hq

theorem encontra_processo_por_pid_none (ps : List processo_t) (pid : Int) :
    encontra_processo_por_pid ps pid = none →
      ∀ (i : Nat) (q : processo_t), ps[i]? = some q → q.pid ≠ pid := by
  induction ps with
  | nil => intro _ i q h; simp at h
  | cons a as ih =>
    intro h i q hq
    unfold encontra_processo_por_pid at h
    by_cases ha : a.pid = pid
    · rw [if_pos ha] at h; cases h
    · rw [if_neg ha] at h
      cases hr : encontra_processo_por_pid as pid with
      | some k => rw [hr] at h; cases h
      | none =>
        cases i with
        | zero =>
          simp only [List.getElem?_cons_zero, Option.some.injEq] at hq
          subst hq
          exact ha
        | succ j =>
          simp only [List.getElem?_cons_succ] at hq
          exact ih hr j q hq

/-- In a table whose pids are in order two descriptors with the same pid are at the
same position. -/
theorem pids_em_ordem_inj (s : so_t) (hp : pids_em_ordem s) (i j : Nat) (p q : processo_t)
    (hi : s.processos[i]? = some p) (hj : s.processos[j]? = some q) (h : p.pid = q.pid) :
    i = j := by
  have h1 := hp.1 i p hi
  have h2 := hp.1 j q hj
  omega

theorem so_chamada_espera_proc_meio (s : so_t) (hb : inv_base_saida s) :
    inv_base_meio (so_chamada_espera_proc s) ∧
    (fila_boa s → inv_fila_meio (so_chamada_espera_proc s)) := by
  unfold so_chamada_espera_proc
  cases hc : corrente s with
  | none => exact saida_para_meio s s rfl rfl rfl rfl rfl hb
  | some cp =>
    obtain ⟨c, p⟩ := cp
    dsimp only
    by_cases h0 : p.reg1 = p.pid
    · rw [if_pos h0]
      exact saida_para_meio s _ rfl rfl rfl rfl rfl hb
    · rw [if_neg h0]
      cases he : encontra_processo_por_pid s.processos p.reg1 with
      | none => exact saida_para_meio s _ rfl rfl rfl rfl rfl hb
      | some e =>
        dsimp only
        obtain ⟨pe, hpe1, hpe2, _⟩ := encontra_processo_por_pid_some _ _ e he
        rw [hpe1]
        dsimp only
        by_cases ht : pe.estado = ESTADO_TERMINADO
        · rw [if_pos ht]
          exact saida_para_meio s _ rfl rfl rfl rfl rfl hb
        · rw [if_neg ht]
          obtain ⟨hc1, hc2⟩ := (corrente_eq_some s c p).mp hc
          have hec : e ≠ c := by
            intro e1
            subst e1
            rw [hc2] at hpe1
            cases hpe1
            exact h0 hpe2.symm
          refine bloqueia_corrente_meio s _ c p
            (fun q => { proc_muda_estado q ESTADO_BLOQUEADO with
              motivo_bloqueio := BLOQUEIO_POR_ESPERA_DE_PROC, reg0 := p.reg1 })
            hc (fun q => rfl) rfl rfl rfl rfl rfl rfl ?_ hb
          simp only [acorda]
          rw [← Bool.not_eq_true, esperado_terminou_iff]
          rintro ⟨j, q, hj, hq1, hq2⟩
          rw [getElem?_altera_processo] at hj
          by_cases ejc : j = c
          · rw [if_pos ejc, hc2] at hj
            simp only [Option.map_some', Option.some.injEq] at hj
            subst hj
            simp [proc_muda_estado] at hq2
          · rw [if_neg ejc] at hj
            have := pids_em_ordem_inj s hb.1 j e q pe hj hpe1 (by rw [hq1, hpe2])
            subst this
            rw [hpe1] at hj
            cases hj
            exact ht hq2

theorem remove_da_fila_erase (ps : List processo_t) (pid : Int) (i : Nat)
    (h : ∀ a, (ps[a]?).map (fun p => p.pid) = some pid ↔ a = i) :
    ∀ fila : List Nat, remove_da_fila ps pid fila = fila.erase i := by
  intro fila
  induction fila with
  | nil => rfl
  | cons a resto ih =>
    unfold remove_da_fila
    by_cases ha : (ps[a]?).map (fun p => p.pid) = some pid
    · rw [if_pos ha]
      have := (h a).mp ha
      subst this
      simp
    · rw [if_neg ha, ih]
      have hne : a ≠ i := fun e => ha ((h a).mpr e)
      rw [List.erase_cons_tail]
      simpa using hne

/-- What `so_chamada_mata_proc` does when the target exists: the state it leaves. -/
theorem so_chamada_mata_proc_achou (s : so_t) (c : Nat) (pc : processo_t) (i : Nat)
    (hcor : corrente s = some (c, pc))
    (hi : encontra_processo_por_pid s.processos (if pc.reg1 = 0 then pc.pid else pc.reg1) =
      some i) :
    so_chamada_mata_proc s =
      { s with
        processos := altera_processo s.processos i (fun p => proc_muda_estado p ESTADO_TERMINADO),
        processo_corrente :=
          if pc.pid = (if pc.reg1 = 0 then pc.pid else pc.reg1) then none
          else s.processo_corrente,
        mem := mem_escreve_ign s.mem IRQ_END_A 0,
        fila_prontos := remove_da_fila
          (altera_processo s.processos i (fun p => proc_muda_estado p ESTADO_TERMINADO))
          (if pc.reg1 = 0 then pc.pid else pc.reg1) s.fila_prontos } := by
  obtain ⟨hc1, hc2⟩ := (corrente_eq_some s c pc).mp hcor
  unfold so_chamada_mata_proc
  rw [hcor]
  dsimp only
  rw [hi]
  dsimp only
  have hcor1 : ∃ p1,
      corrente
        { s with
          processos :=
            altera_processo s.processos i (fun p => proc_muda_estado p ESTADO_TERMINADO) } =
        some (c, p1) ∧ p1.pid = pc.pid := by
    by_cases e : c = i
    · refine ⟨proc_muda_estado pc ESTADO_TERMINADO, ?_, rfl⟩
      rw [corrente_eq_some]
      refine ⟨hc1, ?_⟩
      dsimp only
      rw [getElem?_altera_processo, if_pos e, ← e, hc2]
      rfl
    · refine ⟨pc, ?_, rfl⟩
      rw [corrente_eq_some]
      refine ⟨hc1, ?_⟩
      dsimp only
      rw [getElem?_altera_processo, if_neg e, hc2]
  obtain ⟨p1, hp1, hp2⟩ := hcor1
  rw [hp1]
  dsimp only
  rw [hp2]
  by_cases hk : pc.pid = (if pc.reg1 = 0 then pc.pid else pc.reg1)
  · rw [if_pos hk, if_pos hk]
    rfl
  · rw [if_neg hk, if_neg hk]
    rfl

theorem so_chamada_mata_proc_meio (s : so_t) (hb : inv_base_saida s) :
    inv_base_meio (so_chamada_mata_proc s) ∧
    (fila_boa s → inv_fila_meio (so_chamada_mata_proc s)) := by
  cases hc : corrente s with
  | none =>
    have : so_chamada_mata_proc s = s := by
      unfold so_chamada_mata_proc
      rw [hc]
    rw [this]
    exact saida_para_meio s s rfl rfl rfl rfl rfl hb
  | some cp =>
    obtain ⟨c, pc⟩ := cp
    obtain ⟨hc1, hc2⟩ := (corrente_eq_some s c pc).mp hc
    cases hi : encontra_processo_por_pid s.processos
        (if pc.reg1 = 0 then pc.pid else pc.reg1) with
    | none =>
      have : so_chamada_mata_proc s = { s with mem := mem_escreve_ign s.mem IRQ_END_A (-1) } := by
        unfold so_chamada_mata_proc
        rw [hc]
        dsimp only
        rw [hi]
      rw [this]
      exact saida_para_meio s _ rfl rfl rfl rfl rfl hb
    | some i =>
      rw [so_chamada_mata_proc_achou s c pc i hc hi]
      obtain ⟨pi, hpi1, hpi2, _⟩ := encontra_processo_por_pid_some _ _ i hi
      generalize (if pc.reg1 = 0 then pc.pid else pc.reg1) = pid at hi hpi2 ⊢
      obtain ⟨hp, hce⟩ := hb
      have huniq : ∀ a, ((altera_processo s.processos i
          (fun p => proc_muda_estado p ESTADO_TERMINADO))[a]?).map (fun p => p.pid) = some pid ↔
          a = i := by
        intro a
        rw [getElem?_altera_processo]
        constructor
        · intro h
          by_cases e : a = i
          · exact e
          · rw [if_neg e] at h
            cases ha : s.processos[a]? with
            | none => rw [ha] at h; cases h
            | some q =>
              rw [ha] at h
              simp only [Option.map_some', Option.some.injEq] at h
              exact pids_em_ordem_inj s hp a i q pi ha hpi1 (by rw [h, hpi2])
        · intro e
          rw [if_pos e, hpi1]
          simp [proc_muda_estado, hpi2]
      rw [remove_da_fila_erase _ pid i huniq]
      refine ⟨⟨pids_em_ordem_de s _
        (map_altera_processo (fun p => p.pid) _ _ _ (fun p => rfl)) rfl rfl hp, ?_⟩, ?_⟩
      · intro c' hc'
        dsimp only at hc' ⊢
        by_cases hk : pc.pid = pid
        · rw [if_pos hk] at hc'; cases hc'
        · rw [if_neg hk, hc1] at hc'
          cases hc'
          have hci : c ≠ i := by
            intro e
            rw [← e, hc2] at hpi1
            cases hpi1
            exact hk hpi2
          rw [estado_em_altera_processo, if_neg hci]
          exact ⟨_, hce c hc1, by decide⟩
      · rintro ⟨hnd, hpr⟩
        refine ⟨⟨hnd.erase i, ?_⟩, ?_, ?_⟩
        · intro j hj
          dsimp only at hj ⊢
          have hj2 := (List.Nodup.mem_erase_iff hnd).mp hj
          rw [estado_em_altera_processo, if_neg hj2.1]
          exact hpr j hj2.2
        · intro c' hc' hm
          dsimp only at hc' hm
          have hm2 := List.mem_of_mem_erase hm
          by_cases hk : pc.pid = pid
          · rw [if_pos hk] at hc'; cases hc'
          · rw [if_neg hk, hc1] at hc'
            cases hc'
            have e1 := hce c hc1
            rw [hpr c hm2] at e1
            cases e1
        · intro c' p' hc' hp' hbl
          dsimp only at hc' hp'
          by_cases hk : pc.pid = pid
          · rw [if_pos hk] at hc'; cases hc'
          · rw [if_neg hk, hc1] at hc'
            cases hc'
            have hci : c ≠ i := by
              intro e
              rw [← e, hc2] at hpi1
              cases hpi1
              exact hk hpi2
            rw [getElem?_altera_processo, if_neg hci, hc2] at hp'
            cases hp'
            have e1 := hce c hc1
            unfold estado_em at e1
            rw [hc2] at e1
            simp only [Option.map_some', Option.some.injEq] at e1
            rw [hbl] at e1
            cases e1

theorem so_carrega_programa_casos (s : so_t) (nome : nome_t) :
    ∃ m pc, so_carrega_programa s nome = ({ s with mem := m }, pc) := by
  unfold so_carrega_programa
  cases s.programas nome with
  | none => exact ⟨s.mem, -1, rfl⟩
  | some prog =>
    dsimp only
    cases h : carrega_palavras s.mem prog.end_carga prog.dados with
    | mk m b =>
      cases b with
      | true => exact ⟨m, prog.end_carga, rfl⟩
      | false => exact ⟨m, -1, rfl⟩

theorem so_cria_processo_casos (s : so_t) (nome : nome_t) :
    ∃ m, so_cria_processo s nome = ({ s with mem := m }, none) ∨
      ∃ pc, so_cria_processo s nome =
        ({ s with mem := m, pid_atual := s.pid_atual + 1,
                  numero_processos := s.numero_processos + 1 },
         some (inicializa_processo s.pid_atual pc)) := by
  obtain ⟨m, pc, h⟩ := so_carrega_programa_casos s nome
  refine ⟨m, ?_⟩
  unfold so_cria_processo
  rw [h]
  dsimp only
  by_cases e : pc = -1
  · rw [if_pos e]; exact Or.inl rfl
  · rw [if_neg e]; exact Or.inr ⟨pc, rfl⟩

theorem pids_em_ordem_acrescenta (s r : so_t) (novo : processo_t)
    (h1 : pids_estados r.processos = pids_estados (s.processos ++ [novo]))
    (h2 : novo.pid = s.pid_atual) (h3 : r.pid_atual = s.pid_atual + 1)
    (h4 : r.numero_processos = s.numero_processos + 1) (hp : pids_em_ordem s) :
    pids_em_ordem r := by
  obtain ⟨ha, hb, hc⟩ := hp
  have hlen : r.processos.length = s.processos.length + 1 := by
    have := congrArg List.length h1
    simpa [pids_estados] using this
  refine ⟨?_, by rw [h3, hb, hlen]; push_cast; ring, by rw [h4, hc, hlen]; push_cast; ring⟩
  intro i p hi
  have h5 : (pids_estados r.processos)[i]? = some (p.pid, p.estado) := by
    simp [pids_estados, List.getElem?_map, hi]
  rw [h1] at h5
  unfold pids_estados at h5
  rw [List.getElem?_map] at h5
  cases hq : (s.processos ++ [novo])[i]? with
  | none => rw [hq] at h5; cases h5
  | some q =>
    rw [hq] at h5
    simp only [Option.map_some', Option.some.injEq, Prod.mk.injEq] at h5
    rw [← h5.1]
    by_cases hlt : i < s.processos.length
    · rw [List.getElem?_append_left hlt] at hq
      exact ha i q hq
    · have hge : s.processos.length ≤ i := Nat.le_of_not_lt hlt
      rw [List.getElem?_append_right hge] at hq
      have hi0 : i - s.processos.length = 0 := by
        cases hk : i - s.processos.length with
        | zero => rfl
        | succ k => rw [hk] at hq; simp at hq
      rw [hi0] at hq
      simp only [List.getElem?_cons_zero, Option.some.injEq] at hq
      subst hq
      rw [h2, hb]
      have : i = s.processos.length := by omega
      rw [this]

theorem estado_em_lt {ps : List processo_t} {i : Nat} {e : estado_processo_t}
    (h : estado_em ps i = some e) : i < ps.length := by
  obtain ⟨p, hp, _⟩ := estado_em_some h
  exact (List.getElem?_eq_some_iff.mp hp).1

theorem so_chamada_cria_proc_meio (s : so_t) (hb : inv_base_saida s) :
    inv_base_meio (so_chamada_cria_proc s) ∧
    (fila_boa s → inv_fila_meio (so_chamada_cria_proc s)) := by
  unfold so_chamada_cria_proc
  cases mem_le s.mem IRQ_END_X with
  | none => exact saida_para_meio s _ rfl rfl rfl rfl rfl hb
  | some ender_nome =>
    dsimp only
    cases copia_str_da_mem 100 s.mem ender_nome with
    | none => exact saida_para_meio s _ rfl rfl rfl rfl rfl hb
    | some nome =>
      dsimp only
      obtain ⟨m, h | ⟨pc, h⟩⟩ := so_cria_processo_casos s nome
      · rw [h]
        exact saida_para_meio s _ rfl rfl rfl rfl rfl hb
      · rw [h]
        dsimp only
        obtain ⟨q1, q2, q3, q4, _, _, _⟩ := altera_corrente_quadro
          (insere_na_fila_prontos
            (adiciona_processo_na_lista
              { s with mem := m, pid_atual := s.pid_atual + 1,
                       numero_processos := s.numero_processos + 1 }
              (inicializa_processo s.pid_atual pc))
            s.processos.length)
          (fun p => { p with reg0 := (inicializa_processo s.pid_atual pc).pid })
          (fun p => rfl)
        have q5 := pids_estados_altera_corrente
          (insere_na_fila_prontos
            (adiciona_processo_na_lista
              { s with mem := m, pid_atual := s.pid_atual + 1,
                       numero_processos := s.numero_processos + 1 }
              (inicializa_processo s.pid_atual pc))
            s.processos.length)
          (fun p => { p with reg0 := (inicializa_processo s.pid_atual pc).pid })
          (fun p => rfl)
        generalize altera_corrente
          (insere_na_fila_prontos
            (adiciona_processo_na_lista
              { s with mem := m, pid_atual := s.pid_atual + 1,
                       numero_processos := s.numero_processos + 1 }
              (inicializa_processo s.pid_atual pc))
            s.processos.length)
          (fun p => { p with reg0 := (inicializa_processo s.pid_atual pc).pid }) = r
          at q1 q2 q3 q4 q5 ⊢
        simp only [insere_na_fila_prontos, adiciona_processo_na_lista] at q1 q2 q3 q4 q5
        obtain ⟨hp, hce⟩ := hb
        have hest : ∀ j, estado_em r.processos j =
            if j = s.processos.length then some ESTADO_PRONTO else estado_em s.processos j := by
          intro j
          rw [estado_em_de_pids_estados q5]
          unfold estado_em
          by_cases hlt : j < s.processos.length
          · rw [List.getElem?_append_left hlt, if_neg (by omega)]
          · by_cases e : j = s.processos.length
            · rw [if_pos e, e]
              simp [inicializa_processo]
            · rw [if_neg e]
              have h1 : (s.processos ++ [inicializa_processo s.pid_atual pc]).length ≤ j := by
                simp only [List.length_append, List.length_singleton]
                omega
              rw [List.getElem?_eq_none h1, List.getElem?_eq_none (by omega)]
        refine ⟨⟨pids_em_ordem_acrescenta s r _ q5 rfl q3 q4 hp, ?_⟩, ?_⟩
        · intro c hcc
          rw [q1] at hcc
          have e1 := hce c hcc
          rw [hest c, if_neg (by have := estado_em_lt e1; omega)]
          exact ⟨_, e1, by decide⟩
        · rintro ⟨hnd, hpr⟩
          have hnovo : s.processos.length ∉ s.fila_prontos := by
            intro hm
            have := estado_em_lt (hpr _ hm)
            omega
          refine ⟨⟨?_, ?_⟩, ?_, ?_⟩
          · rw [q2, List.nodup_append]
            refine ⟨hnd, List.nodup_singleton _, ?_⟩
            intro a ha1 ha2
            simp only [List.mem_singleton] at ha2
            subst ha2
            exact hnovo ha1
          · intro j hj
            rw [q2] at hj
            simp only [List.mem_append, List.mem_singleton] at hj
            rw [hest j]
            rcases hj with hj | hj
            · rw [if_neg (by have := estado_em_lt (hpr j hj); omega)]
              exact hpr j hj
            · rw [if_pos hj]
          · intro c hcc hm
            rw [q1] at hcc
            rw [q2] at hm
            simp only [List.mem_append, List.mem_singleton] at hm
            have e1 := hce c hcc
            rcases hm with hm | hm
            · rw [hpr c hm] at e1; cases e1
            · have := estado_em_lt e1
              omega
          · intro c p hcc hpc hbl
            rw [q1] at hcc
            have e1 := hce c hcc
            have e2 := hest c
            rw [if_neg (by have := estado_em_lt e1; omega), e1] at e2
            unfold estado_em at e2
            rw [hpc] at e2
            simp only [Option.map_some', Option.some.injEq] at e2
            rw [hbl] at e2
            cases e2

theorem so_trata_irq_err_cpu_meio (s : so_t) (hb : inv_base_saida s) :
    inv_base_meio (so_trata_irq_err_cpu s) ∧
    (fila_boa s → inv_fila_meio (so_trata_irq_err_cpu s)) := by
  unfold so_trata_irq_err_cpu
  cases hc : corrente s with
  | none => exact saida_para_meio s _ rfl rfl rfl rfl rfl hb
  | some cp =>
    obtain ⟨c, pc⟩ := cp
    obtain ⟨hc1, hc2⟩ := (corrente_eq_some s c pc).mp hc
    obtain ⟨hp, hce⟩ := hb
    dsimp only
    unfold verifica_processos_em_espera
    dsimp only
    have hest : ∀ j, estado_em
        ((altera_processo s.processos c (fun p =>
            { p with estado :=
                (estado_processo_t.de_codigo BLOQUEIO_POR_LEITURA.codigo).getD p.estado })).map
          (fun processo_atual =>
            if processo_atual.estado = ESTADO_BLOQUEADO then
              { processo_atual with estado := ESTADO_PRONTO }
            else processo_atual)) j =
        if j = c then some ESTADO_INICIALIZANDO
        else if estado_em s.processos j = some ESTADO_BLOQUEADO then some ESTADO_PRONTO
        else estado_em s.processos j := by
      intro j
      unfold estado_em
      rw [List.getElem?_map, getElem?_altera_processo]
      by_cases e : j = c
      · rw [if_pos e, if_pos e, hc2]
        simp [estado_processo_t.de_codigo, motivo_bloq_processo_t.codigo]
      · rw [if_neg e, if_neg e]
        cases hj : s.processos[j]? with
        | none => simp
        | some q =>
          by_cases hq : q.estado = ESTADO_BLOQUEADO
          · simp [hq]
          · simp [hq]
    refine ⟨⟨pids_em_ordem_de s _ ?_ rfl rfl hp, ?_⟩, ?_⟩
    · dsimp only
      rw [List.map_map]
      have : ((fun p : processo_t => p.pid) ∘ fun processo_atual : processo_t =>
          if processo_atual.estado = ESTADO_BLOQUEADO then
            { processo_atual with estado := ESTADO_PRONTO }
          else processo_atual) = fun p => p.pid := by
        funext p
        simp only [Function.comp]
        split <;> rfl
      rw [this]
      exact map_altera_processo (fun p => p.pid) _ _ _ (fun p => rfl)
    · intro c' hc'
      cases hc'
    · rintro ⟨hnd, hpr⟩
      refine ⟨⟨hnd, ?_⟩, ?_, ?_⟩
      · intro j hj
        dsimp only at hj ⊢
        have hjc : j ≠ c := by
          intro e
          have e1 := hce c hc1
          rw [← e, hpr j hj] at e1
          cases e1
        rw [hest j, if_neg hjc, hpr j hj]
        simp
      · intro c' hc'; cases hc'
      · intro c' p' hc'; cases hc'

theorem so_trata_irq_relogio_meio (s : so_t) (hb : inv_base_saida s) :
    inv_base_meio (so_trata_irq_relogio s) ∧
    (fila_boa s → inv_fila_meio (so_trata_irq_relogio s)) := by
  unfold so_trata_irq_relogio
  cases es_escreve s.es s.es.D_RELOGIO_INTERRUPCAO 0 with
  | mk es1 e1 =>
    dsimp only
    cases es_escreve es1 es1.D_RELOGIO_TIMER INTERVALO_INTERRUPCAO with
    | mk es2 e2 =>
      dsimp only
      split <;> split <;> exact saida_para_meio s _ rfl rfl rfl rfl rfl hb

theorem so_trata_irq_chamada_sistema_meio (s : so_t) (hb : inv_base_saida s) :
    inv_base_meio (so_trata_irq_chamada_sistema s) ∧
    (fila_boa s → inv_fila_meio (so_trata_irq_chamada_sistema s)) := by
  unfold so_trata_irq_chamada_sistema
  cases mem_le s.mem IRQ_END_A with
  | none => exact saida_para_meio s _ rfl rfl rfl rfl rfl hb
  | some id_chamada =>
    dsimp only
    split
    · exact so_chamada_le_meio s hb
    · split
      · exact so_chamada_escr_meio s hb
      · split
        · exact so_chamada_cria_proc_meio s hb
        · split
          · exact so_chamada_mata_proc_meio s hb
          · split
            · exact so_chamada_espera_proc_meio s hb
            · exact so_chamada_mata_proc_meio s hb

/-- Every IRQ handler but the one of RESET takes a state that satisfies the exit
invariants to one that satisfies what the sweep and the scheduler require. -/
theorem so_trata_irq_meio (s : so_t) (irq : irq_t) (hirq : irq ≠ IRQ_RESET)
    (hb : inv_base_saida s) :
    inv_base_meio (so_trata_irq s irq) ∧ (fila_boa s → inv_fila_meio (so_trata_irq s irq)) := by
  cases irq with
  | IRQ_RESET => exact absurd rfl hirq
  | IRQ_ERR_CPU => exact so_trata_irq_err_cpu_meio s hb
  | IRQ_SISTEMA => exact so_trata_irq_chamada_sistema_meio s hb
  | IRQ_RELOGIO => exact so_trata_irq_relogio_meio s hb
  | IRQ_RESERVADA_4 => exact saida_para_meio s _ rfl rfl rfl rfl rfl hb
  | IRQ_RESERVADA_5 => exact saida_para_meio s _ rfl rfl rfl rfl rfl hb

theorem so_despacha_quadro (s : so_t) :
    (so_despacha s).1.processos = s.processos ∧
    (so_despacha s).1.fila_prontos = s.fila_prontos ∧
    (so_despacha s).1.processo_corrente = s.processo_corrente ∧
    (so_despacha s).1.pid_atual = s.pid_atual ∧
    (so_despacha s).1.numero_processos = s.numero_processos := by
  unfold so_despacha
  cases corrente s with
  | none => exact ⟨rfl, rfl, rfl, rfl, rfl⟩
  | some cp => exact ⟨rfl, rfl, rfl, rfl, rfl⟩

theorem finaliza_sistema_quadro (s : so_t) :
    (finaliza_sistema s).1.processos = s.processos ∧
    (finaliza_sistema s).1.fila_prontos = s.fila_prontos ∧
    (finaliza_sistema s).1.processo_corrente = s.processo_corrente ∧
    (finaliza_sistema s).1.pid_atual = s.pid_atual ∧
    (finaliza_sistema s).1.numero_processos = s.numero_processos := by
  unfold finaliza_sistema
  cases es_escreve s.es s.es.D_RELOGIO_TIMER 0 with
  | mk es1 e1 =>
    dsimp only
    cases es_escreve es1 es1.D_RELOGIO_INTERRUPCAO 0 with
    | mk es2 e2 =>
      dsimp only
      split <;> exact ⟨rfl, rfl, rfl, rfl, rfl⟩

/-- From the state the IRQ handler leaves to the kernel exit: sweep, scheduler and
dispatch (or shutdown). -/
theorem fim_da_entrada (escalonador : Int) (s : so_t)
    (hpol : escalonador = 1 ∨ escalonador = 2 ∨ escalonador = 3)
    (hb : inv_base_meio s) (hf : escalonador ≠ 3 → inv_fila_meio s) (r : so_t × Int)
    (hr : r = so_despacha (so_escalona (so_trata_pendencias s) escalonador) ∨
      r = finaliza_sistema (so_escalona (so_trata_pendencias s) escalonador)) :
    inv_base_saida r.1 ∧ (escalonador ≠ 3 → fila_boa r.1) := by
  have h1 := so_trata_pendencias_base s hb
  have h2 : escalonador ≠ 3 → inv_fila_meio (so_trata_pendencias s) :=
    fun h => so_trata_pendencias_fila s (hf h)
  have h3 := so_escalona_saida_base (so_trata_pendencias s) escalonador hpol h1
    (fun h => ⟨(h2 h).1, (h2 h).2.1⟩)
  have h4 : escalonador ≠ 3 → fila_boa (so_escalona (so_trata_pendencias s) escalonador) := by
    intro h
    have hq : escalonador = 1 ∨ escalonador = 2 := by
      rcases hpol with e | e | e
      · exact Or.inl e
      · exact Or.inr e
      · exact absurd e h
    exact (so_escalona_saida_fila _ escalonador hq h1 (h2 h).1 (h2 h).2.1).2
  rcases hr with hr | hr
  · obtain ⟨q1, q2, q3, q4, q5⟩ := so_despacha_quadro
      (so_escalona (so_trata_pendencias s) escalonador)
    rw [← hr] at q1 q2 q3 q4 q5
    obtain ⟨t1, t2⟩ := saida_transfere _ r.1 (by rw [q1]) q2 q3 q4 q5
    exact ⟨t1 h3, fun h => t2 (h4 h)⟩
  · obtain ⟨q1, q2, q3, q4, q5⟩ := finaliza_sistema_quadro
      (so_escalona (so_trata_pendencias s) escalonador)
    rw [← hr] at q1 q2 q3 q4 q5
    obtain ⟨t1, t2⟩ := saida_transfere _ r.1 (by rw [q1]) q2 q3 q4 q5
    exact ⟨t1 h3, fun h => t2 (h4 h)⟩

/-- The kernel entry, cut at the IRQ handler. -/
theorem so_trata_interrupcao_com_eq (escalonador : Int) (s : so_t) (irq : irq_t) :
    ∃ s1 : so_t,
      pids_estados s1.processos = pids_estados s.processos ∧
      s1.fila_prontos = s.fila_prontos ∧ s1.processo_corrente = s.processo_corrente ∧
      s1.pid_atual = s.pid_atual ∧ s1.numero_processos = s.numero_processos ∧
      (so_trata_interrupcao_com escalonador s irq =
          so_despacha (so_escalona (so_trata_pendencias (so_trata_irq s1 irq)) escalonador) ∨
       so_trata_interrupcao_com escalonador s irq =
          finaliza_sistema
            (so_escalona (so_trata_pendencias (so_trata_irq s1 irq)) escalonador)) := by
  obtain ⟨a1, a2, a3, a4, a5⟩ := antes_do_tratador
    { s with metricas := { s.metricas with
        num_interrupcoes := Function.update s.metricas.num_interrupcoes irq
          (s.metricas.num_interrupcoes irq + 1) } }
  refine ⟨_, a1, a2, a3, a4, a5, ?_⟩
  unfold so_trata_interrupcao_com
  dsimp only
  split
  · exact Or.inl rfl
  · exact Or.inr rfl

/-- One kernel entry keeps the exit invariants. -/
theorem entrada_saida (escalonador : Int) (s : so_t) (t : trap_t)
    (hpol : escalonador = 1 ∨ escalonador = 2 ∨ escalonador = 3)
    (hirq : t.irq ≠ IRQ_RESET)
    (hb : inv_base_saida s) (hf : escalonador ≠ 3 → fila_boa s) :
    inv_base_saida (entrada escalonador s t).1 ∧
    (escalonador ≠ 3 → fila_boa (entrada escalonador s t).1) := by
  unfold entrada
  obtain ⟨s1, a1, a2, a3, a4, a5, hr⟩ :=
    so_trata_interrupcao_com_eq escalonador (na_entrada s t) t.irq
  have b1 : pids_estados s1.processos = pids_estados s.processos := a1
  have b2 : s1.fila_prontos = s.fila_prontos := a2
  have b3 : s1.processo_corrente = s.processo_corrente := a3
  have b4 : s1.pid_atual = s.pid_atual := a4
  have b5 : s1.numero_processos = s.numero_processos := a5
  obtain ⟨t1, t2⟩ := saida_transfere s s1 b1 b2 b3 b4 b5
  obtain ⟨m1, m2⟩ := so_trata_irq_meio s1 t.irq hirq (t1 hb)
  exact fim_da_entrada escalonador _ hpol m1 (fun h => m2 (t2 (hf h))) _ hr

/-- A run without RESET keeps the exit invariants. -/
theorem executa_saida (escalonador : Int)
    (hpol : escalonador = 1 ∨ escalonador = 2 ∨ escalonador = 3) :
    ∀ (ts : List trap_t) (s : so_t), sem_reset ts →
      inv_base_saida s → (escalonador ≠ 3 → fila_boa s) →
      inv_base_saida (executa escalonador s ts) ∧
      (escalonador ≠ 3 → fila_boa (executa escalonador s ts)) := by
  intro ts
  induction ts with
  | nil => intro s _ hb hf; exact ⟨hb, hf⟩
  | cons t ts ih =>
    intro s hts hb hf
    obtain ⟨h1, h2⟩ := entrada_saida escalonador s t hpol (hts t (List.mem_cons_self t ts)) hb hf
    exact ih _ (fun u hu => hts u (List.mem_cons_of_mem t hu)) h1 h2

theorem so_cria_recem_criado (IRQ_END_TRATADOR : Int) (mem : mem_t) (es : es_t)
    (programas : nome_t → Option programa_t) (s0 : so_t)
    (h : so_cria IRQ_END_TRATADOR mem es programas = some s0) : recem_criado s0 := by
  unfold so_cria at h
  dsimp only at h
  split at h
  · cases h
  · cases h
    unfold cpu_inicializa inicializa_metricas
    obtain ⟨m, pc, hl⟩ := so_carrega_programa_casos
      { mem := mem, es := es, programas := programas, erro_interno := false,
        processo_corrente := none, processos := [], fila_prontos := [],
        quantum_proc := QUANTUM, pid_atual := 1,
        metricas := { tempo_total_execucao := 0, tempo_total_ocioso := 0,
                      num_interrupcoes := fun _ => 0, num_preempcoes := 0 },
        numero_processos := 0, relogio_atual := -1 } nome_trata_int
    dsimp only at hl ⊢
    rw [hl]
    dsimp only
    split <;> split <;> exact ⟨rfl, rfl, rfl, rfl, rfl⟩

theorem so_trata_irq_reset_meio (s : so_t) (h0 : recem_criado s) :
    inv_base_meio (so_trata_irq_reset s) ∧ inv_fila_meio (so_trata_irq_reset s) := by
  obtain ⟨z1, z2, z3, z4, z5⟩ := h0
  unfold so_trata_irq_reset
  obtain ⟨m, h | ⟨pc, h⟩⟩ := so_cria_processo_casos s nome_init
  · rw [h]
    dsimp only
    refine ⟨⟨⟨?_, ?_, ?_⟩, ?_⟩, ⟨?_, ?_⟩, ?_, ?_⟩
    · intro i p hi; dsimp only at hi; rw [z1] at hi; simp at hi
    · dsimp only; rw [z4, z1]; rfl
    · dsimp only; rw [z5, z1]; rfl
    · intro c hc; dsimp only at hc; rw [z3] at hc; cases hc
    · dsimp only; rw [z2]; exact List.nodup_nil
    · intro i hi; dsimp only at hi; rw [z2] at hi; cases hi
    · intro c hc; dsimp only at hc; rw [z3] at hc; cases hc
    · intro c p hc; dsimp only at hc; rw [z3] at hc; cases hc
  · rw [h]
    dsimp only
    refine ⟨⟨⟨?_, ?_, ?_⟩, ?_⟩, ⟨?_, ?_⟩, ?_, ?_⟩
    · intro i p hi
      dsimp only at hi
      cases i with
      | zero =>
        simp only [List.getElem?_cons_zero, Option.some.injEq] at hi
        subst hi
        simp [inicializa_processo, z4]
      | succ k => simp at hi
    · dsimp only; rw [z4]; rfl
    · dsimp only; rw [z5]; rfl
    · intro c hc
      dsimp only at hc ⊢
      cases hc
      exact ⟨ESTADO_PRONTO, rfl, by decide⟩
    · dsimp only; rw [z2]; exact List.nodup_nil
    · intro i hi; dsimp only at hi; rw [z2] at hi; cases hi
    · intro c hc; dsimp only; rw [z2]; exact List.not_mem_nil c
    · intro c p hc hp hbl
      dsimp only at hc hp
      cases hc
      simp only [List.getElem?_cons_zero, Option.some.injEq] at hp
      subst hp
      simp [inicializa_processo] at hbl

/-- The boot: the RESET entry on the kernel `so_cria` returns leaves a state that
satisfies the exit invariants. -/
theorem entrada_reset_saida (escalonador : Int) (s : so_t) (t : trap_t)
    (hpol : escalonador = 1 ∨ escalonador = 2 ∨ escalonador = 3)
    (hirq : t.irq = IRQ_RESET) (h0 : recem_criado s) :
    inv_base_saida (entrada escalonador s t).1 ∧
    (escalonador ≠ 3 → fila_boa (entrada escalonador s t).1) := by
  unfold entrada
  obtain ⟨s1, a1, a2, a3, a4, a5, hr⟩ :=
    so_trata_interrupcao_com_eq escalonador (na_entrada s t) t.irq
  obtain ⟨z1, z2, z3, z4, z5⟩ := h0
  have b1 : s1.processos = [] := by
    have e : pids_estados s1.processos = pids_estados s.processos := a1
    rw [z1] at e
    simpa [pids_estados] using e
  have hs1 : recem_criado s1 :=
    ⟨b1, a2.trans z2, a3.trans z3, a4.trans z4, a5.trans z5⟩
  rw [hirq]
  rw [hirq] at hr
  obtain ⟨m1, m2⟩ := so_trata_irq_reset_meio s1 hs1
  exact fim_da_entrada escalonador _ hpol m1 (fun _ => m2) _ hr

/-- Every state a run reaches from the kernel `so_cria` returns, by the boot RESET
and then traps other than RESET, satisfies the exit invariants. -/
theorem alcancavel_saida (escalonador : Int)
    (hpol : escalonador = 1 ∨ escalonador = 2 ∨ escalonador = 3)
    (s0 : so_t) (h0 : recem_criado s0) (t0 : trap_t) (ts : List trap_t)
    (hirq : t0.irq = IRQ_RESET) (hts : sem_reset ts) :
    inv_base_saida (executa escalonador s0 (t0 :: ts)) ∧
    (escalonador ≠ 3 → fila_boa (executa escalonador s0 (t0 :: ts))) := by
  obtain ⟨h1, h2⟩ := entrada_reset_saida escalonador s0 t0 hpol hirq h0
  exact executa_saida escalonador hpol ts _ hts h1 h2

/-! The next-pid counter never decreases. -/

theorem so_trata_pendencias_pid_atual (s : so_t) :
    (so_trata_pendencias s).pid_atual = s.pid_atual := by
  apply foldl_preserva (fun r : so_t => r.pid_atual = s.pid_atual) so_trata_pendencias_proc
  · intro a i ha
    obtain ⟨l, he | ⟨proc, _, _, _, he⟩⟩ := so_trata_pendencias_proc_casos a i
    · rw [he]; exact ha
    · rw [he]; exact ha
  · rfl

theorem so_executa_proc_pid_atual (s : so_t) (proc : Option Nat) :
    (so_executa_proc s proc).pid_atual = s.pid_atual := by
  unfold so_executa_proc
  dsimp only
  rw [(so_executa_proc_inicio_quadro _ proc).2.1]
  unfold so_executa_proc_preempcao
  split
  · split <;> rfl
  · rfl

theorem reinsere_corrente_pid_atual (s : so_t) :
    (reinsere_corrente s).pid_atual = s.pid_atual := by
  rcases reinsere_corrente_casos s with ⟨_, h⟩ | ⟨c, _, _, h⟩
  · rw [h]
  · rw [h]

theorem escalonador_round_robin_pid_atual (s : so_t) :
    (escalonador_round_robin s).pid_atual = s.pid_atual := by
  unfold escalonador_round_robin
  split
  · rfl
  · dsimp only
    split
    · rw [so_executa_proc_pid_atual]
      exact reinsere_corrente_pid_atual s
    · exact reinsere_corrente_pid_atual s

theorem escalonador_prioridade_pid_atual (s : so_t) :
    (escalonador_prioridade s).pid_atual = s.pid_atual := by
  unfold escalonador_prioridade
  split
  · rfl
  · dsimp only
    split
    · rw [so_executa_proc_pid_atual]
      exact reinsere_corrente_pid_atual s
    · exact reinsere_corrente_pid_atual s

theorem escalonador_simples_pid_atual (s : so_t) :
    (escalonador_simples s).pid_atual = s.pid_atual := by
  unfold escalonador_simples
  split
  · rfl
  · split
    · rw [so_executa_proc_pid_atual]
    · split <;> rfl

theorem so_escalona_pid_atual (s : so_t) (escalonador : Int) :
    (so_escalona s escalonador).pid_atual = s.pid_atual := by
  have h1 : (atualiza_prioridade (atualiza_estado_processo_corrente s)).pid_atual =
      s.pid_atual := by
    have a := (altera_corrente_quadro s
      (fun p => if p.estado = ESTADO_PRONTO then { p with estado := ESTADO_INICIALIZANDO } else p)
      (fun p => by dsimp only; split <;> rfl)).2.2.1
    have b := (altera_corrente_quadro (atualiza_estado_processo_corrente s)
      (fun p => { p with prioridade := float_soma p.prioridade (acrescimo_de_prioridade (atualiza_estado_processo_corrente s).quantum_proc) })
      (fun p => rfl)).2.2.1
    exact b.trans a
  unfold so_escalona
  dsimp only
  generalize atualiza_prioridade (atualiza_estado_processo_corrente s) = s1 at h1 ⊢
  split
  · rw [escalonador_prioridade_pid_atual]; exact h1
  · split
    · rw [escalonador_round_robin_pid_atual]; exact h1
    · split
      · rw [escalonador_simples_pid_atual]; exact h1
      · exact h1

theorem so_chamada_mata_proc_pid_atual (s : so_t) :
    (so_chamada_mata_proc s).pid_atual = s.pid_atual := by
  cases hc : corrente s with
  | none => unfold so_chamada_mata_proc; rw [hc]
  | some cp =>
    obtain ⟨c, pc⟩ := cp
    cases hi : encontra_processo_por_pid s.processos
        (if pc.reg1 = 0 then pc.pid else pc.reg1) with
    | none => unfold so_chamada_mata_proc; rw [hc]; dsimp only; rw [hi]
    | some i => rw [so_chamada_mata_proc_achou s c pc i hc hi]

theorem so_chamada_le_pid_atual (s : so_t) : (so_chamada_le s).pid_atual = s.pid_atual := by
  unfold so_chamada_le
  split
  · rfl
  · dsimp only
    split
    · rfl
    · split
      · rfl
      · split <;> rfl

theorem so_chamada_escr_pid_atual (s : so_t) : (so_chamada_escr s).pid_atual = s.pid_atual := by
  unfold so_chamada_escr
  split
  · rfl
  · dsimp only
    split
    · rfl
    · split
      · split <;> rfl
      · split
        · rfl
        · split <;> rfl

theorem so_chamada_espera_proc_pid_atual (s : so_t) :
    (so_chamada_espera_proc s).pid_atual = s.pid_atual := by
  unfold so_chamada_espera_proc
  split
  · rfl
  · dsimp only
    split
    · rfl
    · split
      · rfl
      · split
        · rfl
        · split <;> rfl

theorem altera_corrente_pid_atual (s : so_t) (f : processo_t → processo_t) :
    (altera_corrente s f).pid_atual = s.pid_atual := by
  unfold altera_corrente
  split <;> rfl

theorem so_chamada_cria_proc_pid_atual (s : so_t) :
    s.pid_atual ≤ (so_chamada_cria_proc s).pid_atual := by
  unfold so_chamada_cria_proc
  split
  · exact le_refl _
  · split
    · exact le_refl _
    · rename_i nome _
      obtain ⟨m, h | ⟨pc, h⟩⟩ := so_cria_processo_casos s nome
      · rw [h]
      · rw [h]
        dsimp only
        rw [altera_corrente_pid_atual]
        show s.pid_atual ≤ s.pid_atual + 1
        omega

theorem so_trata_irq_pid_atual (s : so_t) (irq : irq_t) (hirq : irq ≠ IRQ_RESET) :
    s.pid_atual ≤ (so_trata_irq s irq).pid_atual := by
  cases irq with
  | IRQ_RESET => exact absurd rfl hirq
  | IRQ_ERR_CPU =>
    show s.pid_atual ≤ (so_trata_irq_err_cpu s).pid_atual
    unfold so_trata_irq_err_cpu
    split <;> exact le_refl _
  | IRQ_SISTEMA =>
    show s.pid_atual ≤ (so_trata_irq_chamada_sistema s).pid_atual
    unfold so_trata_irq_chamada_sistema
    split
    · exact le_refl _
    · split
      · rw [so_chamada_le_pid_atual]
      · split
        · rw [so_chamada_escr_pid_atual]
        · split
          · exact so_chamada_cria_proc_pid_atual s
          · split
            · rw [so_chamada_mata_proc_pid_atual]
            · split
              · rw [so_chamada_espera_proc_pid_atual]
              · rw [so_chamada_mata_proc_pid_atual]
  | IRQ_RELOGIO =>
    show s.pid_atual ≤ (so_trata_irq_relogio s).pid_atual
    unfold so_trata_irq_relogio
    dsimp only
    split <;> split <;> exact le_refl _
  | IRQ_RESERVADA_4 => exact le_refl _
  | IRQ_RESERVADA_5 => exact le_refl _

/-- A kernel entry other than RESET does not decrease the next pid. -/
theorem entrada_pid_atual (escalonador : Int) (s : so_t) (t : trap_t)
    (hirq : t.irq ≠ IRQ_RESET) : s.pid_atual ≤ (entrada escalonador s t).1.pid_atual := by
  unfold entrada
  obtain ⟨s1, _, _, _, a4, _, hr⟩ :=
    so_trata_interrupcao_com_eq escalonador (na_entrada s t) t.irq
  have b4 : s1.pid_atual = s.pid_atual := a4
  have h1 := so_trata_irq_pid_atual s1 t.irq hirq
  have h2 := so_trata_pendencias_pid_atual (so_trata_irq s1 t.irq)
  have h3 := so_escalona_pid_atual (so_trata_pendencias (so_trata_irq s1 t.irq)) escalonador
  rcases hr with hr | hr
  · rw [hr, (so_despacha_quadro _).2.2.2.1, h3, h2, ← b4]
    exact h1
  · rw [hr, (finaliza_sistema_quadro _).2.2.2.1, h3, h2, ← b4]
    exact h1

theorem executa_pid_atual (escalonador : Int) :
    ∀ (ts : List trap_t) (s : so_t), sem_reset ts →
      s.pid_atual ≤ (executa escalonador s ts).pid_atual := by
  intro ts
  induction ts with
  | nil => intro s _; exact le_refl _
  | cons t ts ih =>
    intro s hts
    exact le_trans (entrada_pid_atual escalonador s t (hts t (List.mem_cons_self t ts)))
      (ih _ (fun u hu => hts u (List.mem_cons_of_mem t hu)))

theorem executa_append (escalonador : Int) :
    ∀ (ts1 ts2 : List trap_t) (s : so_t),
      executa escalonador s (ts1 ++ ts2) = executa escalonador (executa escalonador s ts1) ts2 := by
  intro ts1
  induction ts1 with
  | nil => intro ts2 s; rfl
  | cons t ts ih => intro ts2 s; exact ih ts2 _

theorem admissivel_sem_reset (escalonador : Int) :
    ∀ (ts : List trap_t) (s : so_t), admissivel escalonador s ts → sem_reset ts := by
  intro ts
  induction ts with
  | nil => intro s _ t ht; cases ht
  | cons t ts ih =>
    intro s h u hu
    obtain ⟨h1, _, h3⟩ := h
    rcases List.mem_cons.mp hu with e | e
    · rw [e]; exact h1
    · exact ih _ h3 u e

/-! Lemmas for the system-call handlers on tables with pairwise distinct pids. -/

theorem nodup_pids_inj (ps : List processo_t) (h : (ps.map (fun p => p.pid)).Nodup)
    (a b : Nat) (p q : processo_t) (ha : ps[a]? = some p) (hb : ps[b]? = some q)
    (hpq : p.pid = q.pid) : a = b := by
  obtain ⟨ha0, _⟩ := List.getElem?_eq_some_iff.mp ha
  obtain ⟨hb0, _⟩ := List.getElem?_eq_some_iff.mp hb
  have ha1 : a < (ps.map (fun p => p.pid)).length := by simpa using ha0
  have hb1 : b < (ps.map (fun p => p.pid)).length := by simpa using hb0
  have h1 := List.nodup_iff_getElem?_ne_getElem?.mp h
  have ea : (ps.map (fun p => p.pid))[a]? = some p.pid := by
    rw [List.getElem?_map, ha]; rfl
  have eb : (ps.map (fun p => p.pid))[b]? = some q.pid := by
    rw [List.getElem?_map, hb]; rfl
  rcases Nat.lt_trichotomy a b with hlt | heq | hgt
  · exact absurd (by rw [ea, eb, hpq]) (h1 a b hlt hb1)
  · exact heq
  · exact absurd (by rw [ea, eb, hpq]) (h1 b a hgt ha1)

theorem encontra_processo_por_pid_unico (ps : List processo_t)
    (h : (ps.map (fun p => p.pid)).Nodup) (j : Nat) (d : processo_t)
    (hj : ps[j]? = some d) : encontra_processo_por_pid ps d.pid = some j := by
  cases he : encontra_processo_por_pid ps d.pid with
  | none => exact absurd rfl (encontra_processo_por_pid_none ps d.pid he j d hj)
  | some e =>
    obtain ⟨pe, hpe1, hpe2, _⟩ := encontra_processo_por_pid_some ps d.pid e he
    rw [nodup_pids_inj ps h e j pe d hpe1 hj hpe2]

theorem encontra_processo_por_pid_ausente (ps : List processo_t) (pid : Int)
    (h : ∀ d ∈ ps, d.pid ≠ pid) : encontra_processo_por_pid ps pid = none := by
  cases he : encontra_processo_por_pid ps pid with
  | none => rfl
  | some e =>
    obtain ⟨pe, hpe1, hpe2, _⟩ := encontra_processo_por_pid_some ps pid e he
    exact absurd hpe2 (h pe (List.mem_iff_getElem?.mpr ⟨e, hpe1⟩))

/-! ## The terminal of a process -/

theorem obter_terminal_por_pid_positivo (pid : Int) (h : 0 < pid) :
    obter_terminal_por_pid pid = (pid - 1) % 4 := by
  unfold obter_terminal_por_pid
  rw [if_neg (by omega)]
  exact Int.tmod_eq_emod (by omega) (by decide)

/-! ## The copy of a file name -/

/-- The copy fails when, after `k` bytes between 1 and 255, the buffer is full, or
the next word cannot be read, or it is not a byte. -/
theorem copia_str_da_mem_laco_falha (mem : mem_t) (ender : Int) :
    ∀ (n : Nat) (idx : Int) (k : Nat), k ≤ n →
      (∀ j : Nat, j < k →
        ∃ v, mem_le mem (outro (ender + idx + (j : Int))) = some v ∧ 0 < v ∧ v ≤ 255) →
      (k = n ∨ mem_le mem (outro (ender + idx + (k : Int))) = none ∨
        ∃ v, mem_le mem (outro (ender + idx + (k : Int))) = some v ∧ (v < 0 ∨ 255 < v)) →
      copia_str_da_mem_laco mem ender n idx = none := by
  intro n
  induction n with
  | zero =>
    intro idx k _ _ _
    rfl
  | succ n ih =>
    intro idx k hk hpre hcausa
    unfold copia_str_da_mem_laco
    cases k with
    | zero =>
      simp only [Nat.cast_zero, add_zero] at hcausa
      rcases hcausa with h | h | ⟨v, h, hv⟩
      · omega
      · rw [h]
      · rw [h]
        dsimp only
        rw [if_pos (by omega)]
    | succ k =>
      obtain ⟨v, hv, hv0, hv255⟩ := hpre 0 (by omega)
      simp only [Nat.cast_zero, add_zero] at hv
      rw [hv]
      dsimp only
      rw [if_neg (by omega), if_neg (by omega)]
      have e : ∀ j : Nat, ender + (idx + 1) + (j : Int) = ender + idx + ((j + 1 : Nat) : Int) := by
        intro j
        push_cast
        ring
      rw [ih (idx + 1) k (by omega) (fun j hj => by rw [e j]; exact hpre (j + 1) (by omega))
        (by
          rcases hcausa with h | h | h
          · exact Or.inl (by omega)
          · exact Or.inr (Or.inl (by rw [e k]; exact h))
          · exact Or.inr (Or.inr (by rw [e k]; exact h)))]
      rfl

/-! ## Transitions out of RUNNING -/

theorem estado_em_altera_nao_pronto (ps : List processo_t) (i j : Nat)
    (f : processo_t → processo_t)
    (hf : ∀ p, p.estado = ESTADO_INICIALIZANDO → (f p).estado ≠ ESTADO_PRONTO)
    (h : estado_em ps j = some ESTADO_INICIALIZANDO) :
    estado_em (altera_processo ps i f) j ≠ some ESTADO_PRONTO := by
  rw [estado_em_altera_processo]
  obtain ⟨p, hp, he⟩ := estado_em_some h
  by_cases hj : j = i
  · rw [if_pos hj, ← hj, hp]
    intro e
    simp only [Option.map_some', Option.some.injEq] at e
    exact hf p he e
  · rw [if_neg hj, h]
    decide

theorem so_chamada_le_executando (self : so_t) (i : Nat)
    (h : estado_em self.processos i = some ESTADO_INICIALIZANDO) :
    estado_em (so_chamada_le self).processos i ≠ some ESTADO_PRONTO := by
  have hn : estado_em self.processos i ≠ some ESTADO_PRONTO := by rw [h]; decide
  unfold so_chamada_le
  split
  · exact hn
  · dsimp only
    split
    · exact hn
    · split
      · exact estado_em_altera_nao_pronto _ _ _ _ (fun p _ => by simp [proc_muda_estado]) h
      · split <;> exact hn

theorem so_chamada_escr_executando (self : so_t) (i : Nat)
    (h : estado_em self.processos i = some ESTADO_INICIALIZANDO) :
    estado_em (so_chamada_escr self).processos i ≠ some ESTADO_PRONTO := by
  have hn : estado_em self.processos i ≠ some ESTADO_PRONTO := by rw [h]; decide
  unfold so_chamada_escr
  split
  · exact hn
  · dsimp only
    split
    · exact hn
    · split
      · split
        · exact hn
        · exact estado_em_altera_nao_pronto _ _ _ _ (fun p _ => by simp [proc_muda_estado]) h
      · split
        · exact hn
        · split <;> exact hn

theorem so_chamada_espera_proc_executando (self : so_t) (i : Nat)
    (h : estado_em self.processos i = some ESTADO_INICIALIZANDO) :
    estado_em (so_chamada_espera_proc self).processos i ≠ some ESTADO_PRONTO := by
  have hn : estado_em self.processos i ≠ some ESTADO_PRONTO := by rw [h]; decide
  unfold so_chamada_espera_proc
  split
  · exact hn
  · dsimp only
    split
    · exact hn
    · split
      · exact hn
      · split
        · exact hn
        · split
          · exact hn
          · exact estado_em_altera_nao_pronto _ _ _ _ (fun p _ => by simp [proc_muda_estado]) h

theorem so_chamada_mata_proc_executando (self : so_t) (i : Nat)
    (h : estado_em self.processos i = some ESTADO_INICIALIZANDO) :
    estado_em (so_chamada_mata_proc self).processos i ≠ some ESTADO_PRONTO := by
  have hn : estado_em self.processos i ≠ some ESTADO_PRONTO := by rw [h]; decide
  cases hcor : corrente self with
  | none =>
    unfold so_chamada_mata_proc
    rw [hcor]
    exact hn
  | some cp =>
    obtain ⟨c, pc⟩ := cp
    cases he : encontra_processo_por_pid self.processos
        (if pc.reg1 = 0 then pc.pid else pc.reg1) with
    | none =>
      unfold so_chamada_mata_proc
      rw [hcor]
      dsimp only
      rw [he]
      exact hn
    | some j =>
      rw [so_chamada_mata_proc_achou self c pc j hcor he]
      exact estado_em_altera_nao_pronto _ _ _ _ (fun p _ => by simp [proc_muda_estado]) h

theorem estado_em_append (ps : List processo_t) (d : processo_t) (i : Nat)
    (e : estado_processo_t) (h : estado_em ps i = some e) :
    estado_em (ps ++ [d]) i = some e := by
  have hi := estado_em_lt h
  unfold estado_em at h ⊢
  rw [List.getElem?_append_left hi]
  exact h

theorem so_chamada_cria_proc_executando (self : so_t) (i : Nat)
    (h : estado_em self.processos i = some ESTADO_INICIALIZANDO) :
    estado_em (so_chamada_cria_proc self).processos i ≠ some ESTADO_PRONTO := by
  have hn : estado_em self.processos i ≠ some ESTADO_PRONTO := by rw [h]; decide
  unfold so_chamada_cria_proc
  split
  · exact hn
  · split
    · exact hn
    · rename_i nome _
      obtain ⟨m, hm | ⟨pc, hm⟩⟩ := so_cria_processo_casos self nome
      · rw [hm]
        exact hn
      · rw [hm]
        dsimp only
        unfold altera_corrente adiciona_processo_na_lista insere_na_fila_prontos
        dsimp only
        split
        · rw [estado_em_append _ _ _ _ h]
          decide
        · exact estado_em_altera_nao_pronto _ _ _ _ (fun p hp => by rw [hp]; decide)
            (estado_em_append _ _ _ _ h)

theorem so_trata_irq_err_cpu_executando (self : so_t) (i : Nat)
    (h : estado_em self.processos i = some ESTADO_INICIALIZANDO) :
    estado_em (so_trata_irq_err_cpu self).processos i ≠ some ESTADO_PRONTO := by
  have hn : estado_em self.processos i ≠ some ESTADO_PRONTO := by rw [h]; decide
  unfold so_trata_irq_err_cpu
  dsimp only
  split
  · rename_i c pc _
    unfold verifica_processos_em_espera
    dsimp only
    have h1 : estado_em (altera_processo self.processos c (fun p =>
        { p with estado :=
            (estado_processo_t.de_codigo BLOQUEIO_POR_LEITURA.codigo).getD p.estado })) i =
        some ESTADO_INICIALIZANDO := by
      rw [estado_em_altera_processo]
      by_cases hj : i = c
      · obtain ⟨p, hp, _⟩ := estado_em_some h
        rw [if_pos hj, ← hj, hp]
        rfl
      · rw [if_neg hj, h]
    obtain ⟨q, hq, hqe⟩ := estado_em_some h1
    unfold estado_em
    rw [List.getElem?_map, hq]
    simp [hqe]
  · exact hn

theorem so_trata_irq_executando (self : so_t) (irq : irq_t) (i : Nat)
    (hirq : irq ≠ IRQ_RESET)
    (h : estado_em self.processos i = some ESTADO_INICIALIZANDO) :
    estado_em (so_trata_irq self irq).processos i ≠ some ESTADO_PRONTO := by
  have hn : estado_em self.processos i ≠ some ESTADO_PRONTO := by rw [h]; decide
  cases irq with
  | IRQ_RESET => exact absurd rfl hirq
  | IRQ_ERR_CPU => exact so_trata_irq_err_cpu_executando self i h
  | IRQ_SISTEMA =>
    show estado_em (so_trata_irq_chamada_sistema self).processos i ≠ some ESTADO_PRONTO
    unfold so_trata_irq_chamada_sistema
    split
    · exact hn
    · split
      · exact so_chamada_le_executando self i h
      · split
        · exact so_chamada_escr_executando self i h
        · split
          · exact so_chamada_cria_proc_executando self i h
          · split
            · exact so_chamada_mata_proc_executando self i h
            · split
              · exact so_chamada_espera_proc_executando self i h
              · exact so_chamada_mata_proc_executando self i h
  | IRQ_RELOGIO =>
    show estado_em (so_trata_irq_relogio self).processos i ≠ some ESTADO_PRONTO
    unfold so_trata_irq_relogio
    dsimp only
    split_ifs <;> exact hn
  | IRQ_RESERVADA_4 => exact hn
  | IRQ_RESERVADA_5 => exact hn

theorem so_trata_pendencias_proc_executando (self : so_t) (k i : Nat)
    (h : estado_em self.processos i = some ESTADO_INICIALIZANDO) :
    estado_em (so_trata_pendencias_proc self k).processos i = some ESTADO_INICIALIZANDO := by
  obtain ⟨l, h1 | ⟨proc, hk, hb, _, h2⟩⟩ := so_trata_pendencias_proc_casos self k
  · rw [h1]
    exact h
  · rw [h2]
    dsimp only
    rw [estado_em_altera_processo]
    by_cases hj : i = k
    · exfalso
      obtain ⟨p, hp, he⟩ := estado_em_some h
      rw [hj, hk] at hp
      cases hp
      rw [hb] at he
      cases he
    · rw [if_neg hj]
      exact h

theorem so_trata_pendencias_executando (self : so_t) (i : Nat)
    (h : estado_em self.processos i = some ESTADO_INICIALIZANDO) :
    estado_em (so_trata_pendencias self).processos i = some ESTADO_INICIALIZANDO :=
  foldl_preserva (fun s => estado_em s.processos i = some ESTADO_INICIALIZANDO)
    so_trata_pendencias_proc (fun a b ha => so_trata_pendencias_proc_executando a b i ha)
    _ self h

theorem so_executa_proc_inicio_pronto (y : so_t) (proc : Option Nat) (j : Nat)
    (hp : estado_em (so_executa_proc_inicio y proc).processos j = some ESTADO_PRONTO) :
    (so_executa_proc_inicio y proc).processos[j]? = y.processos[j]? ∧
    estado_em y.processos j = some ESTADO_PRONTO := by
  cases proc with
  | none => exact ⟨rfl, hp⟩
  | some h =>
    cases hh : y.processos[h]? with
    | none =>
      have e : so_executa_proc_inicio y (some h) = y := by
        unfold so_executa_proc_inicio
        dsimp only
        rw [hh]
      rw [e] at hp ⊢
      exact ⟨rfl, hp⟩
    | some p =>
      by_cases hr : p.estado ≠ ESTADO_INICIALIZANDO
      · have e : so_executa_proc_inicio y (some h) =
            { y with
              processos := altera_processo y.processos h
                (fun q => proc_muda_estado q ESTADO_INICIALIZANDO) } := by
          unfold so_executa_proc_inicio
          dsimp only
          rw [hh]
          dsimp only
          rw [if_pos hr]
        rw [e] at hp ⊢
        dsimp only at hp ⊢
        rw [estado_em_altera_processo] at hp
        by_cases e1 : j = h
        · rw [if_pos e1, hh] at hp
          simp [proc_muda_estado] at hp
        · rw [if_neg e1] at hp
          rw [getElem?_altera_processo, if_neg e1]
          exact ⟨rfl, hp⟩
      · have e : so_executa_proc_inicio y (some h) = y := by
          unfold so_executa_proc_inicio
          dsimp only
          rw [hh]
          dsimp only
          rw [if_neg hr]
        rw [e] at hp ⊢
        exact ⟨rfl, hp⟩

theorem so_executa_proc_inicio_metricas (y : so_t) (proc : Option Nat) :
    (so_executa_proc_inicio y proc).metricas = y.metricas := by
  unfold so_executa_proc_inicio
  split
  · split
    · split <;> rfl
    · rfl
  · rfl

theorem so_executa_proc_para_pronto (x : so_t) (proc : Option Nat) (i : Nat)
    (h : estado_em x.processos i = some ESTADO_INICIALIZANDO)
    (hp : estado_em (so_executa_proc x proc).processos i = some ESTADO_PRONTO) :
    x.processo_corrente = some i ∧ (so_executa_proc x proc).processo_corrente ≠ some i ∧
    (so_executa_proc x proc).processos[i]? =
      (x.processos[i]?).map (fun p => proc_muda_estado p ESTADO_PRONTO) ∧
    (so_executa_proc x proc).metricas.num_preempcoes = x.metricas.num_preempcoes + 1 := by
  have hp1 : estado_em (so_executa_proc_inicio (so_executa_proc_preempcao x proc) proc).processos i
      = some ESTADO_PRONTO := hp
  obtain ⟨h1, h2⟩ := so_executa_proc_inicio_pronto _ _ _ hp1
  have hm := so_executa_proc_inicio_metricas (so_executa_proc_preempcao x proc) proc
  have hproc : (so_executa_proc x proc).processos =
      (so_executa_proc_inicio (so_executa_proc_preempcao x proc) proc).processos := rfl
  have hmet : (so_executa_proc x proc).metricas =
      (so_executa_proc_inicio (so_executa_proc_preempcao x proc) proc).metricas := rfl
  have hcor : (so_executa_proc x proc).processo_corrente = proc := rfl
  rw [hproc, hmet, hcor, h1, hm]
  have hcontra : estado_em x.processos i ≠ some ESTADO_PRONTO := by rw [h]; decide
  unfold so_executa_proc_preempcao at h2 ⊢
  cases hc : corrente x with
  | none =>
    rw [hc] at h2
    exact absurd h2 hcontra
  | some cp =>
    obtain ⟨c, pc⟩ := cp
    obtain ⟨hc1, hc2⟩ := (corrente_eq_some x c pc).mp hc
    rw [hc] at h2
    dsimp only at h2 ⊢
    by_cases hcond : some c ≠ proc ∧ pc.estado = ESTADO_INICIALIZANDO
    · rw [if_pos hcond] at h2 ⊢
      dsimp only at h2 ⊢
      rw [estado_em_altera_processo] at h2
      by_cases e : i = c
      · subst e
        refine ⟨hc1, fun hh => hcond.1 hh.symm, ?_, rfl⟩
        rw [getElem?_altera_processo, if_pos rfl]
      · rw [if_neg e] at h2
        exact absurd h2 hcontra
    · rw [if_neg hcond] at h2
      exact absurd h2 hcontra

theorem escalonador_round_robin_formas (s : so_t) :
    (escalonador_round_robin s).processos = s.processos ∨
    ∃ x h, escalonador_round_robin s = so_executa_proc x (some h) ∧
      x.processos = s.processos ∧ x.processo_corrente = s.processo_corrente ∧
      x.metricas = s.metricas := by
  have hr : (reinsere_corrente s).processos = s.processos ∧
      (reinsere_corrente s).processo_corrente = s.processo_corrente ∧
      (reinsere_corrente s).metricas = s.metricas := by
    rcases reinsere_corrente_casos s with ⟨_, e⟩ | ⟨c, _, _, e⟩ <;> rw [e] <;> exact ⟨rfl, rfl, rfl⟩
  unfold escalonador_round_robin
  split
  · exact Or.inl rfl
  · dsimp only
    split
    · rename_i h resto _
      exact Or.inr ⟨_, h, rfl, hr.1, hr.2.1, hr.2.2⟩
    · exact Or.inl hr.1

theorem escalonador_prioridade_formas (s : so_t) :
    (escalonador_prioridade s).processos = s.processos ∨
    ∃ x h, escalonador_prioridade s = so_executa_proc x (some h) ∧
      x.processos = s.processos ∧ x.processo_corrente = s.processo_corrente ∧
      x.metricas = s.metricas := by
  have hr : (reinsere_corrente s).processos = s.processos ∧
      (reinsere_corrente s).processo_corrente = s.processo_corrente ∧
      (reinsere_corrente s).metricas = s.metricas := by
    rcases reinsere_corrente_casos s with ⟨_, e⟩ | ⟨c, _, _, e⟩ <;> rw [e] <;> exact ⟨rfl, rfl, rfl⟩
  unfold escalonador_prioridade
  split
  · exact Or.inl rfl
  · dsimp only
    split
    · rename_i h resto _
      exact Or.inr ⟨_, h, rfl, hr.1, hr.2.1, hr.2.2⟩
    · exact Or.inl hr.1

theorem escalonador_simples_formas (s : so_t) :
    (escalonador_simples s).processos = s.processos ∨
    ∃ x h, escalonador_simples s = so_executa_proc x (some h) ∧
      x.processos = s.processos ∧ x.processo_corrente = s.processo_corrente ∧
      x.metricas = s.metricas := by
  unfold escalonador_simples
  split
  · exact Or.inl rfl
  · split
    · rename_i h _
      exact Or.inr ⟨s, h, rfl, rfl, rfl, rfl⟩
    · split <;> exact Or.inl rfl

theorem so_escalona_formas (self : so_t) (escalonador : Int) :
    (so_escalona self escalonador).processos =
      (atualiza_prioridade (atualiza_estado_processo_corrente self)).processos ∨
    ∃ x h, so_escalona self escalonador = so_executa_proc x (some h) ∧
      x.processos = (atualiza_prioridade (atualiza_estado_processo_corrente self)).processos ∧
      x.processo_corrente =
        (atualiza_prioridade (atualiza_estado_processo_corrente self)).processo_corrente ∧
      x.metricas = (atualiza_prioridade (atualiza_estado_processo_corrente self)).metricas := by
  unfold so_escalona
  dsimp only
  split
  · exact escalonador_prioridade_formas _
  · split
    · exact escalonador_round_robin_formas _
    · split
      · exact escalonador_simples_formas _
      · exact Or.inl rfl

theorem altera_corrente_resto (s : so_t) (f : processo_t → processo_t) :
    (altera_corrente s f).processo_corrente = s.processo_corrente ∧
    (altera_corrente s f).metricas = s.metricas ∧
    (altera_corrente s f).fila_prontos = s.fila_prontos ∧
    (altera_corrente s f).quantum_proc = s.quantum_proc ∧
    (altera_corrente s f).relogio_atual = s.relogio_atual ∧
    (altera_corrente s f).numero_processos = s.numero_processos ∧
    (altera_corrente s f).es = s.es ∧
    (altera_corrente s f).mem = s.mem ∧
    (altera_corrente s f).processos.length = s.processos.length ∧
    ∀ j, (altera_corrente s f).processos[j]? =
      if s.processo_corrente = some j then (s.processos[j]?).map f else s.processos[j]? := by
  unfold altera_corrente
  split
  · rename_i h
    refine ⟨rfl, rfl, rfl, rfl, rfl, rfl, rfl, rfl, rfl, fun j => ?_⟩
    rw [h]
    simp
  · rename_i c h
    refine ⟨rfl, rfl, rfl, rfl, rfl, rfl, rfl, rfl, length_altera_processo _ _ _, fun j => ?_⟩
    dsimp only
    rw [getElem?_altera_processo, h]
    by_cases e : j = c
    · rw [if_pos e, if_pos (by rw [e]), e]
    · rw [if_neg e, if_neg (fun hh => e (Option.some.inj hh).symm)]

theorem antes_da_politica_quadro (self : so_t) :
    (atualiza_prioridade (atualiza_estado_processo_corrente self)).processo_corrente =
      self.processo_corrente ∧
    (atualiza_prioridade (atualiza_estado_processo_corrente self)).metricas = self.metricas ∧
    (atualiza_prioridade (atualiza_estado_processo_corrente self)).fila_prontos =
      self.fila_prontos ∧
    (atualiza_prioridade (atualiza_estado_processo_corrente self)).quantum_proc =
      self.quantum_proc ∧
    ∀ (i : Nat) (p : processo_t), self.processos[i]? = some p →
      ∃ p1, (atualiza_prioridade (atualiza_estado_processo_corrente self)).processos[i]? =
          some p1 ∧
        p1.metricas = p.metricas ∧
        (p.estado = ESTADO_INICIALIZANDO → p1.estado = ESTADO_INICIALIZANDO) ∧
        (self.processo_corrente ≠ some i → p1 = p) := by
  obtain ⟨a1, a2, a3, a4, _, _, _, _, _, a5⟩ := altera_corrente_resto self (fun p =>
    if p.estado = ESTADO_PRONTO then { p with estado := ESTADO_INICIALIZANDO } else p)
  obtain ⟨b1, b2, b3, b4, _, _, _, _, _, b5⟩ :=
    altera_corrente_resto (atualiza_estado_processo_corrente self) (fun p =>
      { p with prioridade := float_soma p.prioridade (acrescimo_de_prioridade (atualiza_estado_processo_corrente self).quantum_proc) })
  have ea : atualiza_estado_processo_corrente self = altera_corrente self (fun p =>
    if p.estado = ESTADO_PRONTO then { p with estado := ESTADO_INICIALIZANDO } else p) := rfl
  have eb : atualiza_prioridade (atualiza_estado_processo_corrente self) =
      altera_corrente (atualiza_estado_processo_corrente self) (fun p =>
      { p with prioridade := float_soma p.prioridade (acrescimo_de_prioridade (atualiza_estado_processo_corrente self).quantum_proc) }) := rfl
  rw [← ea] at a1 a2 a3 a4 a5
  rw [← eb] at b1 b2 b3 b4 b5
  refine ⟨b1.trans a1, b2.trans a2, b3.trans a3, b4.trans a4, fun i p hp => ?_⟩
  rw [b5 i, a5 i, a1]
  by_cases e : self.processo_corrente = some i
  · rw [if_pos e, if_pos e, hp]
    refine ⟨_, rfl, ?_, ?_, fun h => absurd e h⟩
    · dsimp only
      split <;> rfl
    · intro hr
      dsimp only
      rw [if_neg (by rw [hr]; decide)]
      exact hr
  · rw [if_neg e, if_neg e, hp]
    exact ⟨p, rfl, rfl, fun h => h, fun _ => rfl⟩

theorem so_escalona_para_pronto (self : so_t) (escalonador : Int) (i : Nat)
    (h : estado_em self.processos i = some ESTADO_INICIALIZANDO)
    (hp : estado_em (so_escalona self escalonador).processos i = some ESTADO_PRONTO) :
    self.processo_corrente = some i ∧
    (so_escalona self escalonador).processo_corrente ≠ some i ∧
    (∃ p q, self.processos[i]? = some p ∧
      (so_escalona self escalonador).processos[i]? = some q ∧
      q.metricas.quantidade_preempcoes = p.metricas.quantidade_preempcoes + 1) ∧
    (so_escalona self escalonador).metricas.num_preempcoes =
      self.metricas.num_preempcoes + 1 := by
  obtain ⟨p, hpi, hpe⟩ := estado_em_some h
  obtain ⟨q1, q2, _, _, q5⟩ := antes_da_politica_quadro self
  obtain ⟨p1, hp1, hp1m, hp1e, _⟩ := q5 i p hpi
  have hp1r := hp1e hpe
  have h1 : estado_em (atualiza_prioridade
      (atualiza_estado_processo_corrente self)).processos i = some ESTADO_INICIALIZANDO := by
    unfold estado_em
    rw [hp1]
    simp [hp1r]
  rcases so_escalona_formas self escalonador with e | ⟨x, hh, e, ex1, ex2, ex3⟩
  · rw [e, h1] at hp
    cases hp
  · rw [e] at hp ⊢
    rw [← ex1] at h1 hp1
    obtain ⟨r1, r2, r3, r4⟩ := so_executa_proc_para_pronto x (some hh) i h1 hp
    refine ⟨?_, r2, ⟨p, proc_muda_estado p1 ESTADO_PRONTO, hpi, ?_, ?_⟩, ?_⟩
    · rw [← q1, ← ex2]
      exact r1
    · rw [r3, hp1]
      rfl
    · simp [proc_muda_estado, preemptiu, hp1r, hp1m]
    · rw [r4, ex3, q2]

/-! ## Tick accounting -/

theorem mesmos_tempos_refl (a : so_t) : mesmos_tempos a a :=
  ⟨rfl, rfl, rfl, rfl⟩

theorem mesmos_tempos_trans {a b c : so_t} (h1 : mesmos_tempos a b) (h2 : mesmos_tempos b c) :
    mesmos_tempos a c :=
  ⟨h2.1.trans h1.1, h2.2.1.trans h1.2.1, h2.2.2.1.trans h1.2.2.1, h2.2.2.2.trans h1.2.2.2⟩

theorem es_escreve_relogio (es : es_t) (d v : Int) :
    (es_escreve es d v).1.D_RELOGIO_INSTRUCOES = es.D_RELOGIO_INSTRUCOES := by
  unfold es_escreve
  split <;> rfl

theorem altera_corrente_tempos (s : so_t) (f : processo_t → processo_t) :
    mesmos_tempos s (altera_corrente s f) := by
  obtain ⟨_, a2, _, _, a5, _, a7, _⟩ := altera_corrente_resto s f
  exact ⟨by rw [a2], by rw [a2], a5, by rw [a7]⟩

theorem so_chamada_le_tempos (self : so_t) : mesmos_tempos self (so_chamada_le self) := by
  unfold so_chamada_le
  split
  · exact ⟨rfl, rfl, rfl, rfl⟩
  · dsimp only
    split
    · exact ⟨rfl, rfl, rfl, rfl⟩
    · split
      · exact ⟨rfl, rfl, rfl, rfl⟩
      · split <;> exact ⟨rfl, rfl, rfl, rfl⟩

theorem so_chamada_escr_tempos (self : so_t) : mesmos_tempos self (so_chamada_escr self) := by
  unfold so_chamada_escr
  split
  · exact ⟨rfl, rfl, rfl, rfl⟩
  · dsimp only
    split
    · exact ⟨rfl, rfl, rfl, rfl⟩
    · split
      · split <;> exact ⟨rfl, rfl, rfl, rfl⟩
      · split
        · exact ⟨rfl, rfl, rfl, rfl⟩
        · rename_i dado _
          split
          · rename_i es1 e
            have h : es1.D_RELOGIO_INSTRUCOES = self.es.D_RELOGIO_INSTRUCOES := by
              have h1 := congrArg (fun r => r.1.D_RELOGIO_INSTRUCOES) e
              exact h1.symm.trans (es_escreve_relogio _ _ _)
            exact ⟨rfl, rfl, rfl, h⟩
          · rename_i es1 e
            have h : es1.D_RELOGIO_INSTRUCOES = self.es.D_RELOGIO_INSTRUCOES := by
              have h1 := congrArg (fun r => r.1.D_RELOGIO_INSTRUCOES) e
              exact h1.symm.trans (es_escreve_relogio _ _ _)
            exact ⟨rfl, rfl, rfl, h⟩

theorem so_chamada_espera_proc_tempos (self : so_t) :
    mesmos_tempos self (so_chamada_espera_proc self) := by
  unfold so_chamada_espera_proc
  split
  · exact ⟨rfl, rfl, rfl, rfl⟩
  · dsimp only
    split
    · exact ⟨rfl, rfl, rfl, rfl⟩
    · split
      · exact ⟨rfl, rfl, rfl, rfl⟩
      · split
        · exact ⟨rfl, rfl, rfl, rfl⟩
        · split <;> exact ⟨rfl, rfl, rfl, rfl⟩

theorem so_chamada_mata_proc_tempos (self : so_t) :
    mesmos_tempos self (so_chamada_mata_proc self) := by
  cases hcor : corrente self with
  | none =>
    unfold so_chamada_mata_proc
    rw [hcor]
    exact ⟨rfl, rfl, rfl, rfl⟩
  | some cp =>
    obtain ⟨c, pc⟩ := cp
    cases he : encontra_processo_por_pid self.processos
        (if pc.reg1 = 0 then pc.pid else pc.reg1) with
    | none =>
      unfold so_chamada_mata_proc
      rw [hcor]
      dsimp only
      rw [he]
      exact ⟨rfl, rfl, rfl, rfl⟩
    | some j =>
      rw [so_chamada_mata_proc_achou self c pc j hcor he]
      exact ⟨rfl, rfl, rfl, rfl⟩

theorem so_chamada_cria_proc_tempos (self : so_t) :
    mesmos_tempos self (so_chamada_cria_proc self) := by
  unfold so_chamada_cria_proc
  split
  · exact ⟨rfl, rfl, rfl, rfl⟩
  · split
    · exact ⟨rfl, rfl, rfl, rfl⟩
    · rename_i nome _
      obtain ⟨m, hm | ⟨pc, hm⟩⟩ := so_cria_processo_casos self nome
      · rw [hm]
        exact ⟨rfl, rfl, rfl, rfl⟩
      · rw [hm]
        dsimp only
        exact mesmos_tempos_trans ⟨rfl, rfl, rfl, rfl⟩ (altera_corrente_tempos _ _)

theorem so_trata_irq_tempos (self : so_t) (irq : irq_t) :
    mesmos_tempos self (so_trata_irq self irq) := by
  cases irq with
  | IRQ_RESET =>
    show mesmos_tempos self (so_trata_irq_reset self)
    unfold so_trata_irq_reset
    obtain ⟨m, hm | ⟨pc, hm⟩⟩ := so_cria_processo_casos self nome_init
    · rw [hm]
      exact ⟨rfl, rfl, rfl, rfl⟩
    · rw [hm]
      exact ⟨rfl, rfl, rfl, rfl⟩
  | IRQ_ERR_CPU =>
    show mesmos_tempos self (so_trata_irq_err_cpu self)
    unfold so_trata_irq_err_cpu verifica_processos_em_espera
    dsimp only
    split <;> exact ⟨rfl, rfl, rfl, rfl⟩
  | IRQ_SISTEMA =>
    show mesmos_tempos self (so_trata_irq_chamada_sistema self)
    unfold so_trata_irq_chamada_sistema
    split
    · exact ⟨rfl, rfl, rfl, rfl⟩
    · split
      · exact so_chamada_le_tempos self
      · split
        · exact so_chamada_escr_tempos self
        · split
          · exact so_chamada_cria_proc_tempos self
          · split
            · exact so_chamada_mata_proc_tempos self
            · split
              · exact so_chamada_espera_proc_tempos self
              · exact so_chamada_mata_proc_tempos self
  | IRQ_RELOGIO =>
    show mesmos_tempos self (so_trata_irq_relogio self)
    have h1 := es_escreve_relogio self.es self.es.D_RELOGIO_INTERRUPCAO 0
    have h2 := es_escreve_relogio (es_escreve self.es self.es.D_RELOGIO_INTERRUPCAO 0).1
      (es_escreve self.es self.es.D_RELOGIO_INTERRUPCAO 0).1.D_RELOGIO_TIMER INTERVALO_INTERRUPCAO
    unfold so_trata_irq_relogio
    dsimp only
    split_ifs <;> exact ⟨rfl, rfl, rfl, h2.trans h1⟩
  | IRQ_RESERVADA_4 => exact ⟨rfl, rfl, rfl, rfl⟩
  | IRQ_RESERVADA_5 => exact ⟨rfl, rfl, rfl, rfl⟩

theorem so_trata_pendencias_proc_tempos (self : so_t) (i : Nat) :
    mesmos_tempos self (so_trata_pendencias_proc self i) := by
  obtain ⟨l, h1 | ⟨proc, _, _, _, h2⟩⟩ := so_trata_pendencias_proc_casos self i
  · rw [h1]
    exact ⟨rfl, rfl, rfl, rfl⟩
  · rw [h2]
    exact ⟨rfl, rfl, rfl, rfl⟩

theorem so_trata_pendencias_tempos (self : so_t) :
    mesmos_tempos self (so_trata_pendencias self) :=
  foldl_preserva (fun s => mesmos_tempos self s) so_trata_pendencias_proc
    (fun a b ha => mesmos_tempos_trans ha (so_trata_pendencias_proc_tempos a b))
    _ self (mesmos_tempos_refl self)

theorem so_executa_proc_tempos (x : so_t) (proc : Option Nat) :
    mesmos_tempos x (so_executa_proc x proc) := by
  have h1 : mesmos_tempos x (so_executa_proc_preempcao x proc) := by
    unfold so_executa_proc_preempcao
    split
    · split <;> exact ⟨rfl, rfl, rfl, rfl⟩
    · exact ⟨rfl, rfl, rfl, rfl⟩
  have h2 : ∀ y : so_t, mesmos_tempos y (so_executa_proc_inicio y proc) := by
    intro y
    unfold so_executa_proc_inicio
    split
    · split
      · split <;> exact ⟨rfl, rfl, rfl, rfl⟩
      · exact ⟨rfl, rfl, rfl, rfl⟩
    · exact ⟨rfl, rfl, rfl, rfl⟩
  exact mesmos_tempos_trans (mesmos_tempos_trans h1 (h2 _)) ⟨rfl, rfl, rfl, rfl⟩

theorem reinsere_corrente_tempos (s : so_t) : mesmos_tempos s (reinsere_corrente s) := by
  rcases reinsere_corrente_casos s with ⟨_, e⟩ | ⟨c, _, _, e⟩ <;> rw [e] <;>
    exact ⟨rfl, rfl, rfl, rfl⟩

theorem so_escalona_tempos (self : so_t) (escalonador : Int) :
    mesmos_tempos self (so_escalona self escalonador) := by
  have h0 : mesmos_tempos self (atualiza_prioridade (atualiza_estado_processo_corrente self)) :=
    mesmos_tempos_trans (altera_corrente_tempos _ _) (altera_corrente_tempos _ _)
  unfold so_escalona
  dsimp only
  refine mesmos_tempos_trans h0 ?_
  generalize atualiza_prioridade (atualiza_estado_processo_corrente self) = s
  have hrr : mesmos_tempos s (escalonador_round_robin s) := by
    unfold escalonador_round_robin
    split
    · exact mesmos_tempos_refl s
    · dsimp only
      split
      · exact mesmos_tempos_trans (reinsere_corrente_tempos s)
          (mesmos_tempos_trans ⟨rfl, rfl, rfl, rfl⟩ (so_executa_proc_tempos _ _))
      · exact mesmos_tempos_trans (reinsere_corrente_tempos s) ⟨rfl, rfl, rfl, rfl⟩
  have hpr : mesmos_tempos s (escalonador_prioridade s) := by
    unfold escalonador_prioridade
    split
    · exact mesmos_tempos_refl s
    · dsimp only
      split
      · exact mesmos_tempos_trans (reinsere_corrente_tempos s)
          (mesmos_tempos_trans ⟨rfl, rfl, rfl, rfl⟩ (so_executa_proc_tempos _ _))
      · exact mesmos_tempos_trans (reinsere_corrente_tempos s) ⟨rfl, rfl, rfl, rfl⟩
  have hsi : mesmos_tempos s (escalonador_simples s) := by
    unfold escalonador_simples
    split
    · exact mesmos_tempos_refl s
    · split
      · exact so_executa_proc_tempos _ _
      · split <;> exact ⟨rfl, rfl, rfl, rfl⟩
  show mesmos_tempos s
    (if escalonador = 1 then escalonador_prioridade s
      else if escalonador = 2 then escalonador_round_robin s
      else if escalonador = 3 then escalonador_simples s
      else s)
  split
  · exact hpr
  · split
    · exact hrr
    · split
      · exact hsi
      · exact mesmos_tempos_refl s

theorem so_despacha_tempos (s : so_t) : mesmos_tempos s (so_despacha s).1 := by
  unfold so_despacha
  split <;> exact ⟨rfl, rfl, rfl, rfl⟩

theorem finaliza_sistema_tempos (s : so_t) : mesmos_tempos s (finaliza_sistema s).1 := by
  have h1 := es_escreve_relogio s.es s.es.D_RELOGIO_TIMER 0
  have h2 := es_escreve_relogio (es_escreve s.es s.es.D_RELOGIO_TIMER 0).1
    (es_escreve s.es s.es.D_RELOGIO_TIMER 0).1.D_RELOGIO_INTERRUPCAO 0
  unfold finaliza_sistema
  dsimp only
  split_ifs <;> exact ⟨rfl, rfl, rfl, h2.trans h1⟩

/-- What the clock bookkeeping does to the tick counters. -/
theorem atualiza_metricas_com_relogio_efeito (x : so_t) :
    (atualiza_metricas_com_relogio x).es = x.es ∧
    (es_le x.es x.es.D_RELOGIO_INSTRUCOES = none →
      mesmos_tempos x (atualiza_metricas_com_relogio x)) ∧
    (∀ r, es_le x.es x.es.D_RELOGIO_INSTRUCOES = some r →
      (atualiza_metricas_com_relogio x).relogio_atual = r ∧
      (x.relogio_atual = -1 →
        (atualiza_metricas_com_relogio x).metricas.tempo_total_execucao =
          x.metricas.tempo_total_execucao ∧
        (atualiza_metricas_com_relogio x).metricas.tempo_total_ocioso =
          x.metricas.tempo_total_ocioso) ∧
      (x.relogio_atual ≠ -1 →
        (atualiza_metricas_com_relogio x).metricas.tempo_total_execucao =
          x.metricas.tempo_total_execucao + (r - x.relogio_atual) ∧
        (x.processo_corrente = none →
          (atualiza_metricas_com_relogio x).metricas.tempo_total_ocioso =
            x.metricas.tempo_total_ocioso + (r - x.relogio_atual)) ∧
        (x.processo_corrente ≠ none →
          (atualiza_metricas_com_relogio x).metricas.tempo_total_ocioso =
            x.metricas.tempo_total_ocioso))) := by
  unfold atualiza_metricas_com_relogio
  dsimp only
  cases hle : es_le x.es x.es.D_RELOGIO_INSTRUCOES with
  | none =>
    exact ⟨rfl, fun _ => ⟨rfl, rfl, rfl, rfl⟩, fun r hr => by cases hr⟩
  | some relogio =>
    dsimp only
    by_cases hv : x.relogio_atual = -1
    · rw [if_pos hv]
      refine ⟨rfl, fun h => (by cases h), fun r hr => ?_⟩
      cases hr
      exact ⟨rfl, fun _ => ⟨rfl, rfl⟩, fun h => absurd hv h⟩
    · rw [if_neg hv]
      refine ⟨rfl, fun h => (by cases h), fun r hr => ?_⟩
      cases hr
      refine ⟨rfl, fun h => absurd h hv, fun _ => ⟨?_, ?_, ?_⟩⟩
      · unfold atualiza_metricas_sistema
        dsimp only
        split <;> rfl
      · intro hc
        unfold atualiza_metricas_sistema
        dsimp only
        rw [hc]
        rfl
      · intro hc
        unfold atualiza_metricas_sistema
        dsimp only
        cases hcc : x.processo_corrente with
        | none => exact absurd hcc hc
        | some c => rfl

theorem so_trata_interrupcao_com_forma (escalonador : Int) (self : so_t) (irq : irq_t) :
    so_trata_interrupcao_com escalonador self irq =
        so_despacha (so_escalona (so_trata_pendencias
          (so_trata_irq (prepara_entrada self irq) irq)) escalonador) ∨
    so_trata_interrupcao_com escalonador self irq =
        finaliza_sistema (so_escalona (so_trata_pendencias
          (so_trata_irq (prepara_entrada self irq) irq)) escalonador) := by
  unfold so_trata_interrupcao_com prepara_entrada conta_interrupcao
  dsimp only
  split
  · exact Or.inl rfl
  · exact Or.inr rfl

theorem so_trata_interrupcao_com_tempos (escalonador : Int) (self : so_t) (irq : irq_t) :
    mesmos_tempos (prepara_entrada self irq) (so_trata_interrupcao_com escalonador self irq).1 := by
  have h := mesmos_tempos_trans (mesmos_tempos_trans
    (so_trata_irq_tempos (prepara_entrada self irq) irq) (so_trata_pendencias_tempos _))
    (so_escalona_tempos _ escalonador)
  rcases so_trata_interrupcao_com_forma escalonador self irq with e | e
  · rw [e]
    exact mesmos_tempos_trans h (so_despacha_tempos _)
  · rw [e]
    exact mesmos_tempos_trans h (finaliza_sistema_tempos _)

theorem salva_estado_cpu_no_processo_quadro (x : so_t) :
    (salva_estado_cpu_no_processo x).processo_corrente = x.processo_corrente ∧
    (salva_estado_cpu_no_processo x).metricas = x.metricas ∧
    (salva_estado_cpu_no_processo x).relogio_atual = x.relogio_atual ∧
    (salva_estado_cpu_no_processo x).es = x.es ∧
    (salva_estado_cpu_no_processo x).fila_prontos = x.fila_prontos ∧
    (salva_estado_cpu_no_processo x).quantum_proc = x.quantum_proc := by
  unfold salva_estado_cpu_no_processo
  exact ⟨(altera_corrente_resto x _).1, (altera_corrente_resto x _).2.1,
    (altera_corrente_resto x _).2.2.2.2.1, (altera_corrente_resto x _).2.2.2.2.2.2.1,
    (altera_corrente_resto x _).2.2.1, (altera_corrente_resto x _).2.2.2.1⟩

/-- What one kernel entry does to the tick counters and to the clock reading kept. -/
theorem entrada_tempos (escalonador : Int) (s : so_t) (t : trap_t) :
    (entrada escalonador s t).1.es.D_RELOGIO_INSTRUCOES = s.es.D_RELOGIO_INSTRUCOES ∧
    (t.le s.es.D_RELOGIO_INSTRUCOES = none →
      (entrada escalonador s t).1.relogio_atual = s.relogio_atual ∧
      (entrada escalonador s t).1.metricas.tempo_total_execucao =
        s.metricas.tempo_total_execucao ∧
      (entrada escalonador s t).1.metricas.tempo_total_ocioso =
        s.metricas.tempo_total_ocioso) ∧
    (∀ r, t.le s.es.D_RELOGIO_INSTRUCOES = some r →
      (entrada escalonador s t).1.relogio_atual = r ∧
      (s.relogio_atual = -1 →
        (entrada escalonador s t).1.metricas.tempo_total_execucao =
          s.metricas.tempo_total_execucao ∧
        (entrada escalonador s t).1.metricas.tempo_total_ocioso =
          s.metricas.tempo_total_ocioso) ∧
      (s.relogio_atual ≠ -1 →
        (entrada escalonador s t).1.metricas.tempo_total_execucao =
          s.metricas.tempo_total_execucao + (r - s.relogio_atual) ∧
        (s.processo_corrente = none →
          (entrada escalonador s t).1.metricas.tempo_total_ocioso =
            s.metricas.tempo_total_ocioso + (r - s.relogio_atual)) ∧
        (s.processo_corrente ≠ none →
          (entrada escalonador s t).1.metricas.tempo_total_ocioso =
            s.metricas.tempo_total_ocioso))) := by
  obtain ⟨f1, f2, f3, f4⟩ := so_trata_interrupcao_com_tempos escalonador (na_entrada s t) t.irq
  obtain ⟨a1, a2, a3, a4, _⟩ :=
    salva_estado_cpu_no_processo_quadro (conta_interrupcao (na_entrada s t) t.irq)
  have ex : prepara_entrada (na_entrada s t) t.irq = atualiza_metricas_com_relogio
      (salva_estado_cpu_no_processo (conta_interrupcao (na_entrada s t) t.irq)) := rfl
  generalize salva_estado_cpu_no_processo (conta_interrupcao (na_entrada s t) t.irq) = x
    at a1 a2 a3 a4 ex
  have x1 : x.es = (na_entrada s t).es := a4
  have x2 : x.relogio_atual = s.relogio_atual := a3
  have x3 : x.metricas.tempo_total_execucao = s.metricas.tempo_total_execucao := by
    rw [a2]
    rfl
  have x4 : x.metricas.tempo_total_ocioso = s.metricas.tempo_total_ocioso := by
    rw [a2]
    rfl
  have x5 : x.processo_corrente = s.processo_corrente := a1
  obtain ⟨g1, g2, g3⟩ := atualiza_metricas_com_relogio_efeito x
  have hdev : x.es.D_RELOGIO_INSTRUCOES = s.es.D_RELOGIO_INSTRUCOES := by rw [x1]; rfl
  have hle : es_le x.es x.es.D_RELOGIO_INSTRUCOES = t.le s.es.D_RELOGIO_INSTRUCOES := by
    rw [hdev, x1]
    rfl
  unfold entrada
  rw [ex] at f1 f2 f3 f4
  rw [f1, f2, f3, f4, g1, hdev]
  refine ⟨rfl, fun hn => ?_, fun r hr => ?_⟩
  · obtain ⟨k1, k2, k3, _⟩ := g2 (hle.trans hn)
    exact ⟨k3.trans x2, k1.trans x3, k2.trans x4⟩
  · obtain ⟨k1, k2, k3⟩ := g3 r (hle.trans hr)
    rw [x2, x3, x4] at k2
    rw [x2, x3, x4, x5] at k3
    exact ⟨k1, k2, k3⟩

theorem so_cria_inicio (IRQ_END_TRATADOR : Int) (mem : mem_t) (es : es_t)
    (programas : nome_t → Option programa_t) (s0 : so_t)
    (h : so_cria IRQ_END_TRATADOR mem es programas = some s0) :
    s0.metricas.tempo_total_execucao = 0 ∧ s0.metricas.tempo_total_ocioso = 0 ∧
    s0.relogio_atual = -1 ∧ s0.quantum_proc = QUANTUM := by
  unfold so_cria at h
  dsimp only at h
  split at h
  · cases h
  · cases h
    unfold cpu_inicializa inicializa_metricas
    obtain ⟨m, pc, hl⟩ := so_carrega_programa_casos
      { mem := mem, es := es, programas := programas, erro_interno := false,
        processo_corrente := none, processos := [], fila_prontos := [],
        quantum_proc := QUANTUM, pid_atual := 1,
        metricas := { tempo_total_execucao := 0, tempo_total_ocioso := 0,
                      num_interrupcoes := fun _ => 0, num_preempcoes := 0 },
        numero_processos := 0, relogio_atual := -1 } nome_trata_int
    dsimp only at hl ⊢
    rw [hl]
    dsimp only
    split <;> split <;> exact ⟨rfl, rfl, rfl, rfl⟩

/-- With a clock that does not run backwards, a run keeps the idle ticks between 0
and the total ticks. -/
theorem executa_tempos (escalonador : Int) :
    ∀ (ts : List trap_t) (s : so_t),
      0 ≤ s.metricas.tempo_total_ocioso →
      s.metricas.tempo_total_ocioso ≤ s.metricas.tempo_total_execucao →
      relogio_monotono s.es.D_RELOGIO_INSTRUCOES s.relogio_atual ts →
      0 ≤ (executa escalonador s ts).metricas.tempo_total_ocioso ∧
      (executa escalonador s ts).metricas.tempo_total_ocioso ≤
        (executa escalonador s ts).metricas.tempo_total_execucao := by
  intro ts
  induction ts with
  | nil =>
    intro s h1 h2 _
    exact ⟨h1, h2⟩
  | cons t ts ih =>
    intro s h1 h2 hm
    obtain ⟨e1, e2, e3⟩ := entrada_tempos escalonador s t
    show 0 ≤ (executa escalonador (entrada escalonador s t).1 ts).metricas.tempo_total_ocioso ∧ _
    unfold relogio_monotono at hm
    cases hle : t.le s.es.D_RELOGIO_INSTRUCOES with
    | none =>
      rw [hle] at hm
      obtain ⟨k1, k2, k3⟩ := e2 hle
      apply ih
      · rw [k3]; exact h1
      · rw [k3, k2]; exact h2
      · rw [e1, k1]; exact hm
    | some r =>
      rw [hle] at hm
      obtain ⟨hm1, hm2⟩ := hm
      obtain ⟨k1, k2, k3⟩ := e3 r hle
      by_cases hv : s.relogio_atual = -1
      · obtain ⟨k4, k5⟩ := k2 hv
        apply ih
        · rw [k5]; exact h1
        · rw [k5, k4]; exact h2
        · rw [e1, k1]; exact hm2
      · obtain ⟨k4, k5, k6⟩ := k3 hv
        by_cases hc : s.processo_corrente = none
        · have k7 := k5 hc
          apply ih
          · rw [k7]; omega
          · rw [k7, k4]; omega
          · rw [e1, k1]; exact hm2
        · have k7 := k6 hc
          apply ih
          · rw [k7]; exact h1
          · rw [k7, k4]; omega
          · rw [e1, k1]; exact hm2

/-! ## The choice of the priority policy -/

/-- The scan keeps the node it holds when no node left has a smaller priority. -/
theorem posicao_maior_prioridade_mantem (ps : List processo_t) :
    ∀ (l : List Nat) (pos melhor : Nat) (pm : ℚ),
      (∀ i ∈ l, pm ≤ prioridade_de ps i) →
      posicao_maior_prioridade ps l pos melhor pm = melhor := by
  intro l
  induction l with
  | nil =>
    intro pos melhor pm _
    rfl
  | cons x l ih =>
    intro pos melhor pm h
    unfold posicao_maior_prioridade
    have hx := h x (List.mem_cons_self x l)
    rw [if_neg (not_lt.mpr hx)]
    exact ih _ _ _ (fun i hi => h i (List.mem_cons_of_mem x hi))

/-- The scan ends on the node of `j` when the nodes before it have a larger
priority and the nodes after it do not have a smaller one. -/
theorem posicao_maior_prioridade_escolhe (ps : List processo_t) (j : Nat) (b : List Nat)
    (hb : ∀ i ∈ b, prioridade_de ps j ≤ prioridade_de ps i) :
    ∀ (a : List Nat) (pos melhor : Nat) (pm : ℚ),
      prioridade_de ps j < pm →
      (∀ i ∈ a, prioridade_de ps j < prioridade_de ps i) →
      posicao_maior_prioridade ps (a ++ j :: b) pos melhor pm = pos + a.length := by
  intro a
  induction a with
  | nil =>
    intro pos melhor pm hpm _
    show posicao_maior_prioridade ps (j :: b) pos melhor pm = pos + 0
    unfold posicao_maior_prioridade
    rw [if_pos hpm]
    exact posicao_maior_prioridade_mantem ps b _ _ _ hb
  | cons x a ih =>
    intro pos melhor pm hpm ha
    show posicao_maior_prioridade ps (x :: (a ++ j :: b)) pos melhor pm = pos + (a.length + 1)
    unfold posicao_maior_prioridade
    have hx := ha x (List.mem_cons_self x a)
    have ha1 : ∀ i ∈ a, prioridade_de ps j < prioridade_de ps i :=
      fun i hi => ha i (List.mem_cons_of_mem x hi)
    by_cases h : prioridade_de ps x < pm
    · rw [if_pos h, ih _ _ _ hx ha1]
      omega
    · rw [if_neg h, ih _ _ _ hpm ha1]
      omega

theorem remover_processo_maior_prioridade_escolhe (ps : List processo_t) (j : Nat)
    (a b : List Nat)
    (ha : ∀ i ∈ a, prioridade_de ps j < prioridade_de ps i)
    (hb : ∀ i ∈ b, prioridade_de ps j ≤ prioridade_de ps i) :
    remover_processo_maior_prioridade ps (a ++ j :: b) = some (j, a ++ b) := by
  have hk : ∀ x l, a ++ j :: b = x :: l →
      posicao_maior_prioridade ps (a ++ j :: b) 0 0 (prioridade_de ps x) = a.length := by
    intro x l hxl
    cases a with
    | nil =>
      simp only [List.nil_append, List.cons.injEq] at hxl
      obtain ⟨e, _⟩ := hxl
      subst e
      show posicao_maior_prioridade ps (j :: b) 0 0 (prioridade_de ps j) = 0
      unfold posicao_maior_prioridade
      rw [if_neg (lt_irrefl _)]
      exact posicao_maior_prioridade_mantem ps b _ _ _ hb
    | cons y a1 =>
      simp only [List.cons_append, List.cons.injEq] at hxl
      obtain ⟨e, _⟩ := hxl
      subst e
      have := posicao_maior_prioridade_escolhe ps j b hb (y :: a1) 0 0 (prioridade_de ps y)
        (ha y (List.mem_cons_self y a1)) ha
      rw [this]
      omega
  unfold remover_processo_maior_prioridade
  cases hl : a ++ j :: b with
  | nil => simp at hl
  | cons x l =>
    dsimp only
    rw [← hl, hk x l hl]
    have h1 : (a ++ j :: b)[a.length]? = some j := by
      rw [List.getElem?_append_right (le_refl _)]
      simp
    have h2 : (a ++ j :: b).eraseIdx a.length = a ++ b := by
      rw [List.eraseIdx_append_of_length_le (le_refl _)]
      simp
    rw [h1, h2]

theorem escalonador_prioridade_toma_o_menor (s1 : so_t) (j : Nat) (pj : processo_t) (a b : List Nat)
    (hj : s1.processos[j]? = some pj) (hf : s1.fila_prontos = a ++ j :: b)
    (ha : ∀ i ∈ a, prioridade_de s1.processos j < prioridade_de s1.processos i)
    (hb : ∀ i ∈ b, prioridade_de s1.processos j ≤ prioridade_de s1.processos i)
    (hq : corrente_executando s1 = true → s1.quantum_proc ≤ 0 ∧
      ∀ c, s1.processo_corrente = some c →
        prioridade_de s1.processos j ≤ prioridade_de s1.processos c) :
    (escalonador_prioridade s1).processo_corrente = some j ∧
    estado_em (escalonador_prioridade s1).processos j = some ESTADO_INICIALIZANDO := by
  have hcond : (corrente_executando s1 && decide (s1.quantum_proc > 0)) = false := by
    cases he : corrente_executando s1 with
    | false => rfl
    | true =>
      have := (hq he).1
      simp only [Bool.true_and, decide_eq_false_iff_not, not_lt]
      exact this
  unfold escalonador_prioridade
  rw [if_neg (by rw [hcond]; decide)]
  dsimp only
  have hrem : ∃ resto, (reinsere_corrente s1).processos = s1.processos ∧
      remover_processo_maior_prioridade (reinsere_corrente s1).processos
        (reinsere_corrente s1).fila_prontos = some (j, resto) := by
    rcases reinsere_corrente_casos s1 with ⟨_, e⟩ | ⟨c, hc, hce, e⟩
    · rw [e, hf]
      exact ⟨_, rfl, remover_processo_maior_prioridade_escolhe _ j a b ha hb⟩
    · rw [e]
      dsimp only
      have he : corrente_executando s1 = true :=
        (corrente_executando_iff s1).mpr ⟨c, hc, hce⟩
      have hbc : ∀ i ∈ b ++ [c], prioridade_de s1.processos j ≤ prioridade_de s1.processos i := by
        intro i hi
        rcases List.mem_append.mp hi with h | h
        · exact hb i h
        · rw [List.mem_singleton.mp h]
          exact (hq he).2 c hc
      refine ⟨a ++ (b ++ [c]), rfl, ?_⟩
      rw [hf, List.append_assoc, List.cons_append]
      exact remover_processo_maior_prioridade_escolhe _ j a (b ++ [c]) ha hbc
  obtain ⟨resto, hps, hr⟩ := hrem
  rw [hr]
  dsimp only
  have hj1 : ({ reinsere_corrente s1 with fila_prontos := resto } : so_t).processos[j]? =
      some pj := by
    show (reinsere_corrente s1).processos[j]? = some pj
    rw [hps]
    exact hj
  obtain ⟨e1, _, _, _, _, _, e7⟩ := so_executa_proc_efeito _ j pj hj1
  refine ⟨e1, ?_⟩
  rw [e7 j, if_pos rfl]

theorem antes_da_politica_tabela (self : so_t) (i : Nat) :
    (atualiza_prioridade (atualiza_estado_processo_corrente self)).processos[i]? =
      if self.processo_corrente = some i then
        (self.processos[i]?).map (fun q =>
          { (if q.estado = ESTADO_PRONTO then { q with estado := ESTADO_INICIALIZANDO } else q)
            with prioridade :=
              float_soma (if q.estado = ESTADO_PRONTO then { q with estado := ESTADO_INICIALIZANDO } else q).prioridade (acrescimo_de_prioridade self.quantum_proc) })
      else self.processos[i]? := by
  obtain ⟨a1, _, _, a4, _, _, _, _, _, a5⟩ := altera_corrente_resto self (fun p =>
    if p.estado = ESTADO_PRONTO then { p with estado := ESTADO_INICIALIZANDO } else p)
  obtain ⟨_, _, _, _, _, _, _, _, _, b5⟩ :=
    altera_corrente_resto (atualiza_estado_processo_corrente self) (fun p =>
      { p with prioridade := float_soma p.prioridade (acrescimo_de_prioridade (atualiza_estado_processo_corrente self).quantum_proc) })
  have ea : atualiza_estado_processo_corrente self = altera_corrente self (fun p =>
    if p.estado = ESTADO_PRONTO then { p with estado := ESTADO_INICIALIZANDO } else p) := rfl
  have eb : atualiza_prioridade (atualiza_estado_processo_corrente self) =
      altera_corrente (atualiza_estado_processo_corrente self) (fun p =>
      { p with prioridade := float_soma p.prioridade (acrescimo_de_prioridade (atualiza_estado_processo_corrente self).quantum_proc) }) := rfl
  rw [← ea] at a1 a4 a5
  rw [← eb] at b5
  rw [b5 i, a5 i, a1, a4]
  by_cases h : self.processo_corrente = some i
  · rw [if_pos h, if_pos h, if_pos h]
    cases self.processos[i]? <;> rfl
  · rw [if_neg h, if_neg h, if_neg h]

/-! ## Waiting in the ready queue under round-robin -/

theorem a_frente_append (r : Nat) (l1 l2 : List Nat) (h : r ∈ l1) :
    a_frente r (l1 ++ l2) = a_frente r l1 := by
  induction l1 with
  | nil => cases h
  | cons x l ih =>
    show (if x = r then 0 else a_frente r (l ++ l2) + 1) =
      (if x = r then 0 else a_frente r l + 1)
    by_cases e : x = r
    · rw [if_pos e, if_pos e]
    · rw [if_neg e, if_neg e]
      rcases List.mem_cons.mp h with h1 | h1
      · exact absurd h1.symm e
      · rw [ih h1]

theorem a_frente_erase (r i : Nat) (hne : r ≠ i) :
    ∀ l : List Nat, r ∈ l → r ∈ l.erase i ∧ a_frente r (l.erase i) ≤ a_frente r l := by
  intro l
  induction l with
  | nil => intro h; cases h
  | cons x l ih =>
    intro h
    by_cases e : x = i
    · subst e
      rw [List.erase_cons_head]
      have hr : r ∈ l := by
        rcases List.mem_cons.mp h with h1 | h1
        · exact absurd h1 hne
        · exact h1
      refine ⟨hr, ?_⟩
      show a_frente r l ≤ (if x = r then 0 else a_frente r l + 1)
      rw [if_neg (fun e1 => hne e1.symm)]
      omega
    · rw [List.erase_cons_tail (by simpa using e)]
      by_cases e1 : x = r
      · refine ⟨by rw [e1]; exact List.mem_cons_self _ _, ?_⟩
        show (if x = r then 0 else a_frente r (l.erase i) + 1) ≤
          (if x = r then 0 else a_frente r l + 1)
        rw [if_pos e1, if_pos e1]
      · have hr : r ∈ l := by
          rcases List.mem_cons.mp h with h1 | h1
          · exact absurd h1.symm e1
          · exact h1
        obtain ⟨k1, k2⟩ := ih hr
        refine ⟨List.mem_cons_of_mem _ k1, ?_⟩
        show (if x = r then 0 else a_frente r (l.erase i) + 1) ≤
          (if x = r then 0 else a_frente r l + 1)
        rw [if_neg e1, if_neg e1]
        omega

theorem a_frente_cauda (r h : Nat) (resto : List Nat) (hr : r ∈ h :: resto) (hne : h ≠ r) :
    r ∈ resto ∧ a_frente r (h :: resto) = a_frente r resto + 1 := by
  constructor
  · rcases List.mem_cons.mp hr with h1 | h1
    · exact absurd h1.symm hne
    · exact h1
  · show (if h = r then 0 else a_frente r resto + 1) = a_frente r resto + 1
    rw [if_neg hne]

theorem a_frente_getElem (r : Nat) : ∀ (l : List Nat) (k : Nat), l[k]? = some r →
    r ∈ l ∧ a_frente r l ≤ k := by
  intro l
  induction l with
  | nil => intro k h; simp at h
  | cons x l ih =>
    intro k h
    cases k with
    | zero =>
      simp only [List.getElem?_cons_zero, Option.some.injEq] at h
      subst h
      refine ⟨List.mem_cons_self _ _, ?_⟩
      show (if x = x then 0 else a_frente x l + 1) ≤ 0
      rw [if_pos rfl]
    | succ k =>
      simp only [List.getElem?_cons_succ] at h
      obtain ⟨k1, k2⟩ := ih k h
      refine ⟨List.mem_cons_of_mem _ k1, ?_⟩
      show (if x = r then 0 else a_frente r l + 1) ≤ k + 1
      split
      · omega
      · omega

/-- A waiting descriptor keeps or improves its place across a step that leaves the
queue as `fila_avanca` says, unless the step killed it. -/
theorem fila_avanca_espera (a b : so_t) (r : Nat) (h : fila_avanca a b)
    (hr : r ∈ a.fila_prontos) :
    (r ∈ b.fila_prontos ∧ a_frente r b.fila_prontos ≤ a_frente r a.fila_prontos) ∨
    estado_em b.processos r = some ESTADO_TERMINADO := by
  rcases h with ⟨l, hl⟩ | ⟨i, hi, ht⟩
  · left
    rw [hl]
    exact ⟨List.mem_append_left _ hr, le_of_eq (a_frente_append r _ _ hr)⟩
  · by_cases e : r = i
    · right
      rw [e]
      exact ht
    · left
      rw [hi]
      exact a_frente_erase r i e _ hr

theorem so_chamada_le_quantum (self : so_t) :
    (so_chamada_le self).fila_prontos = self.fila_prontos ∧
    (so_chamada_le self).quantum_proc = self.quantum_proc := by
  unfold so_chamada_le
  split
  · exact ⟨rfl, rfl⟩
  · dsimp only
    split
    · exact ⟨rfl, rfl⟩
    · split
      · exact ⟨rfl, rfl⟩
      · split <;> exact ⟨rfl, rfl⟩

theorem so_chamada_escr_quantum (self : so_t) :
    (so_chamada_escr self).fila_prontos = self.fila_prontos ∧
    (so_chamada_escr self).quantum_proc = self.quantum_proc := by
  unfold so_chamada_escr
  split
  · exact ⟨rfl, rfl⟩
  · dsimp only
    split
    · exact ⟨rfl, rfl⟩
    · split
      · split <;> exact ⟨rfl, rfl⟩
      · split
        · exact ⟨rfl, rfl⟩
        · split <;> exact ⟨rfl, rfl⟩

theorem so_chamada_espera_proc_quantum (self : so_t) :
    (so_chamada_espera_proc self).fila_prontos = self.fila_prontos ∧
    (so_chamada_espera_proc self).quantum_proc = self.quantum_proc := by
  unfold so_chamada_espera_proc
  split
  · exact ⟨rfl, rfl⟩
  · dsimp only
    split
    · exact ⟨rfl, rfl⟩
    · split
      · exact ⟨rfl, rfl⟩
      · split
        · exact ⟨rfl, rfl⟩
        · split <;> exact ⟨rfl, rfl⟩

theorem so_chamada_cria_proc_quantum (self : so_t) :
    (∃ l, (so_chamada_cria_proc self).fila_prontos = self.fila_prontos ++ l) ∧
    (so_chamada_cria_proc self).quantum_proc = self.quantum_proc := by
  unfold so_chamada_cria_proc
  split
  · exact ⟨⟨[], by simp⟩, rfl⟩
  · split
    · exact ⟨⟨[], by simp⟩, rfl⟩
    · rename_i nome _
      obtain ⟨m, hm | ⟨pc, hm⟩⟩ := so_cria_processo_casos self nome
      · rw [hm]
        exact ⟨⟨[], by simp⟩, rfl⟩
      · rw [hm]
        dsimp only
        obtain ⟨_, _, a3, a4, _⟩ := altera_corrente_resto
          (insere_na_fila_prontos (adiciona_processo_na_lista
            { self with mem := m, pid_atual := self.pid_atual + 1,
                        numero_processos := self.numero_processos + 1 }
            (inicializa_processo self.pid_atual pc)) self.processos.length)
          (fun p => { p with reg0 := (inicializa_processo self.pid_atual pc).pid })
        exact ⟨⟨[self.processos.length], a3⟩, a4⟩

theorem so_chamada_mata_proc_quantum (s : so_t) (hp : pids_em_ordem s) :
    fila_avanca s (so_chamada_mata_proc s) ∧
    (so_chamada_mata_proc s).quantum_proc = s.quantum_proc := by
  cases hc : corrente s with
  | none =>
    have : so_chamada_mata_proc s = s := by
      unfold so_chamada_mata_proc
      rw [hc]
    rw [this]
    exact ⟨Or.inl ⟨[], by simp⟩, rfl⟩
  | some cp =>
    obtain ⟨c, pc⟩ := cp
    cases hi : encontra_processo_por_pid s.processos
        (if pc.reg1 = 0 then pc.pid else pc.reg1) with
    | none =>
      have : so_chamada_mata_proc s = { s with mem := mem_escreve_ign s.mem IRQ_END_A (-1) } := by
        unfold so_chamada_mata_proc
        rw [hc]
        dsimp only
        rw [hi]
      rw [this]
      exact ⟨Or.inl ⟨[], by simp⟩, rfl⟩
    | some i =>
      rw [so_chamada_mata_proc_achou s c pc i hc hi]
      obtain ⟨pi, hpi1, hpi2, _⟩ := encontra_processo_por_pid_some _ _ i hi
      generalize (if pc.reg1 = 0 then pc.pid else pc.reg1) = pid at hi hpi2 ⊢
      have huniq : ∀ a, ((altera_processo s.processos i
          (fun p => proc_muda_estado p ESTADO_TERMINADO))[a]?).map (fun p => p.pid) = some pid ↔
          a = i := by
        intro a
        rw [getElem?_altera_processo]
        constructor
        · intro h
          by_cases e : a = i
          · exact e
          · rw [if_neg e] at h
            cases ha : s.processos[a]? with
            | none => rw [ha] at h; cases h
            | some q =>
              rw [ha] at h
              simp only [Option.map_some', Option.some.injEq] at h
              exact pids_em_ordem_inj s hp a i q pi ha hpi1 (by rw [h, hpi2])
        · intro e
          rw [if_pos e, hpi1]
          simp [proc_muda_estado, hpi2]
      rw [remove_da_fila_erase _ pid i huniq]
      refine ⟨Or.inr ⟨i, rfl, ?_⟩, rfl⟩
      dsimp only
      rw [estado_em_altera_processo, if_pos rfl, hpi1]
      rfl

theorem so_trata_irq_quantum (s : so_t) (irq : irq_t) (hirq : irq ≠ IRQ_RESET)
    (hp : pids_em_ordem s) :
    fila_avanca s (so_trata_irq s irq) ∧
    (irq ≠ IRQ_RELOGIO → (so_trata_irq s irq).quantum_proc = s.quantum_proc) ∧
    (irq = IRQ_RELOGIO → (so_trata_irq s irq).quantum_proc =
      if s.quantum_proc > 0 then s.quantum_proc - 1 else s.quantum_proc) := by
  have mesma : ∀ x : so_t, x.fila_prontos = s.fila_prontos ∧ x.quantum_proc = s.quantum_proc →
      fila_avanca s x ∧ x.quantum_proc = s.quantum_proc :=
    fun x h => ⟨Or.inl ⟨[], by rw [h.1]; simp⟩, h.2⟩
  cases irq with
  | IRQ_RESET => exact absurd rfl hirq
  | IRQ_ERR_CPU =>
    have h : fila_avanca s (so_trata_irq_err_cpu s) ∧
        (so_trata_irq_err_cpu s).quantum_proc = s.quantum_proc := by
      apply mesma
      unfold so_trata_irq_err_cpu verifica_processos_em_espera
      dsimp only
      split <;> exact ⟨rfl, rfl⟩
    exact ⟨h.1, fun _ => h.2, fun e => by cases e⟩
  | IRQ_SISTEMA =>
    have h : fila_avanca s (so_trata_irq_chamada_sistema s) ∧
        (so_trata_irq_chamada_sistema s).quantum_proc = s.quantum_proc := by
      unfold so_trata_irq_chamada_sistema
      split
      · exact mesma _ ⟨rfl, rfl⟩
      · split
        · exact mesma _ (so_chamada_le_quantum s)
        · split
          · exact mesma _ (so_chamada_escr_quantum s)
          · split
            · exact ⟨Or.inl (so_chamada_cria_proc_quantum s).1, (so_chamada_cria_proc_quantum s).2⟩
            · split
              · exact so_chamada_mata_proc_quantum s hp
              · split
                · exact mesma _ (so_chamada_espera_proc_quantum s)
                · exact so_chamada_mata_proc_quantum s hp
    exact ⟨h.1, fun _ => h.2, fun e => by cases e⟩
  | IRQ_RELOGIO =>
    have h : (so_trata_irq_relogio s).fila_prontos = s.fila_prontos ∧
        (so_trata_irq_relogio s).quantum_proc =
          if s.quantum_proc > 0 then s.quantum_proc - 1 else s.quantum_proc := by
      unfold so_trata_irq_relogio
      dsimp only
      split_ifs <;> exact ⟨rfl, rfl⟩
    exact ⟨Or.inl ⟨[], by rw [show (so_trata_irq s IRQ_RELOGIO).fila_prontos =
      s.fila_prontos from h.1]; simp⟩, fun e => absurd rfl e, fun _ => h.2⟩
  | IRQ_RESERVADA_4 =>
    exact ⟨Or.inl ⟨[], by show s.fila_prontos = _; simp⟩, fun _ => rfl, fun e => by cases e⟩
  | IRQ_RESERVADA_5 =>
    exact ⟨Or.inl ⟨[], by show s.fila_prontos = _; simp⟩, fun _ => rfl, fun e => by cases e⟩

theorem so_trata_pendencias_proc_espera (a : so_t) (i r : Nat) :
    (∃ l, (so_trata_pendencias_proc a i).fila_prontos = a.fila_prontos ++ l) ∧
    (so_trata_pendencias_proc a i).quantum_proc = a.quantum_proc ∧
    (estado_em a.processos r = some ESTADO_TERMINADO →
      estado_em (so_trata_pendencias_proc a i).processos r = some ESTADO_TERMINADO) := by
  obtain ⟨l, h1 | ⟨proc, hk, hb, _, h2⟩⟩ := so_trata_pendencias_proc_casos a i
  · rw [h1]
    exact ⟨⟨[], by simp⟩, rfl, fun h => h⟩
  · rw [h2]
    refine ⟨⟨[i], rfl⟩, rfl, fun h => ?_⟩
    dsimp only
    rw [estado_em_altera_processo]
    by_cases e : r = i
    · exfalso
      obtain ⟨p, hp, he⟩ := estado_em_some h
      rw [e, hk] at hp
      cases hp
      rw [hb] at he
      cases he
    · rw [if_neg e]
      exact h

theorem so_trata_pendencias_espera (x : so_t) (r : Nat) :
    (∃ l, (so_trata_pendencias x).fila_prontos = x.fila_prontos ++ l) ∧
    (so_trata_pendencias x).quantum_proc = x.quantum_proc ∧
    (estado_em x.processos r = some ESTADO_TERMINADO →
      estado_em (so_trata_pendencias x).processos r = some ESTADO_TERMINADO) := by
  apply foldl_preserva (fun s => (∃ l, s.fila_prontos = x.fila_prontos ++ l) ∧
    s.quantum_proc = x.quantum_proc ∧
    (estado_em x.processos r = some ESTADO_TERMINADO →
      estado_em s.processos r = some ESTADO_TERMINADO)) so_trata_pendencias_proc
  · intro a i ⟨⟨l, hl⟩, hq, ht⟩
    obtain ⟨⟨l1, hl1⟩, hq1, ht1⟩ := so_trata_pendencias_proc_espera a i r
    refine ⟨⟨l ++ l1, ?_⟩, hq1.trans hq, fun h => ht1 (ht h)⟩
    rw [hl1, hl, List.append_assoc]
  · exact ⟨⟨[], by simp⟩, rfl, fun h => h⟩

theorem so_executa_proc_fila (s : so_t) (proc : Option Nat) :
    (so_executa_proc s proc).fila_prontos = s.fila_prontos ∧
    (so_executa_proc s proc).quantum_proc = QUANTUM ∧
    (so_executa_proc s proc).processo_corrente = proc := by
  refine ⟨?_, rfl, rfl⟩
  show (so_executa_proc_inicio (so_executa_proc_preempcao s proc) proc).fila_prontos =
    s.fila_prontos
  rw [(so_executa_proc_inicio_quadro _ _).1]
  unfold so_executa_proc_preempcao
  split
  · split <;> rfl
  · rfl

theorem reinsere_corrente_quantum (s : so_t) :
    (reinsere_corrente s).quantum_proc = s.quantum_proc ∧
    (reinsere_corrente s).processos = s.processos ∧
    (reinsere_corrente s).processo_corrente = s.processo_corrente := by
  rcases reinsere_corrente_casos s with ⟨_, e⟩ | ⟨c, _, _, e⟩ <;> rw [e] <;>
    exact ⟨rfl, rfl, rfl⟩

/-- The quantum at the exit of the round-robin policy. -/
theorem escalonador_round_robin_quantum (s1 : so_t) (h0 : 0 ≤ s1.quantum_proc)
    (h5 : s1.quantum_proc ≤ QUANTUM) : inv_quantum (escalonador_round_robin s1) := by
  unfold escalonador_round_robin
  split
  · rename_i hk
    simp only [Bool.and_eq_true, decide_eq_true_eq] at hk
    obtain ⟨c, hc, _⟩ := (corrente_executando_iff s1).mp hk.1
    exact ⟨h0, h5, fun _ => ⟨by rw [hc]; exact Option.some_ne_none c, hk.2⟩⟩
  · dsimp only
    split
    · rename_i h resto _
      obtain ⟨_, k2, k3⟩ := so_executa_proc_fila
        { reinsere_corrente s1 with fila_prontos := resto } (some h)
      refine ⟨by rw [k2]; decide, by rw [k2], fun _ => ⟨by rw [k3]; exact Option.some_ne_none h,
        by rw [k2]; decide⟩⟩
    · rename_i hn
      have hvazia : (reinsere_corrente s1).fila_prontos = [] := by
        cases hl : (reinsere_corrente s1).fila_prontos with
        | nil => rfl
        | cons a l =>
          rw [hl] at hn
          cases hn
      refine ⟨?_, ?_, fun h => absurd hvazia h⟩
      · show 0 ≤ (reinsere_corrente s1).quantum_proc
        rw [(reinsere_corrente_quantum s1).1]
        exact h0
      · show (reinsere_corrente s1).quantum_proc ≤ QUANTUM
        rw [(reinsere_corrente_quantum s1).1]
        exact h5

/-- What the round-robin policy does to a waiting descriptor and to a TERMINATED one. -/
theorem escalonador_round_robin_espera (s1 : so_t) (r : Nat) (hf : fila_boa s1)
    (h0 : 0 ≤ s1.quantum_proc) :
    (r ∈ s1.fila_prontos →
      ((escalonador_round_robin s1).processo_corrente = some r ∧
        estado_em (escalonador_round_robin s1).processos r = some ESTADO_INICIALIZANDO) ∨
      (r ∈ (escalonador_round_robin s1).fila_prontos ∧
        a_frente r (escalonador_round_robin s1).fila_prontos ≤ a_frente r s1.fila_prontos ∧
        espera_restante (escalonador_round_robin s1) r ≤ espera_restante s1 r)) ∧
    (estado_em s1.processos r = some ESTADO_TERMINADO →
      estado_em (escalonador_round_robin s1).processos r = some ESTADO_TERMINADO) := by
  by_cases hk : (corrente_executando s1 && decide (s1.quantum_proc > 0)) = true
  · have e : escalonador_round_robin s1 = s1 := by
      unfold escalonador_round_robin
      rw [if_pos hk]
    rw [e]
    exact ⟨fun hr => Or.inr ⟨hr, le_refl _, le_refl _⟩, fun h => h⟩
  · have hso : ∃ l, (reinsere_corrente s1).fila_prontos = s1.fila_prontos ++ l ∧
        ∀ h ∈ (reinsere_corrente s1).fila_prontos,
          ∃ e, estado_em s1.processos h = some e ∧ e ≠ ESTADO_TERMINADO := by
      rcases reinsere_corrente_casos s1 with ⟨_, e⟩ | ⟨c, _, hce, e⟩
      · rw [e]
        exact ⟨[], by simp, fun h hh => ⟨_, hf.2 h hh, by decide⟩⟩
      · rw [e]
        refine ⟨[c], rfl, fun h hh => ?_⟩
        rcases List.mem_append.mp hh with h1 | h1
        · exact ⟨_, hf.2 h h1, by decide⟩
        · rw [List.mem_singleton.mp h1]
          exact ⟨_, hce, by decide⟩
    obtain ⟨l, hl, hval⟩ := hso
    obtain ⟨rq, rp, rc⟩ := reinsere_corrente_quantum s1
    cases hfila : (reinsere_corrente s1).fila_prontos with
    | nil =>
      have e : escalonador_round_robin s1 =
          { reinsere_corrente s1 with processo_corrente := none } := by
        unfold escalonador_round_robin
        rw [if_neg hk]
        dsimp only
        rw [hfila]
        rfl
      rw [e]
      constructor
      · intro hr
        exfalso
        have : r ∈ (reinsere_corrente s1).fila_prontos := by
          rw [hl]
          exact List.mem_append_left _ hr
        rw [hfila] at this
        cases this
      · intro h
        show estado_em (reinsere_corrente s1).processos r = some ESTADO_TERMINADO
        rw [rp]
        exact h
    | cons h resto =>
      have e : escalonador_round_robin s1 =
          so_executa_proc { reinsere_corrente s1 with fila_prontos := resto } (some h) := by
        unfold escalonador_round_robin
        rw [if_neg hk]
        dsimp only
        rw [hfila]
        rfl
      rw [e]
      obtain ⟨eh, heh, hnt⟩ := hval h (by rw [hfila]; exact List.mem_cons_self _ _)
      obtain ⟨ph, hph, _⟩ := estado_em_some heh
      have hph1 : ({ reinsere_corrente s1 with fila_prontos := resto } : so_t).processos[h]? =
          some ph := by
        show (reinsere_corrente s1).processos[h]? = some ph
        rw [rp]
        exact hph
      obtain ⟨e1, e2, _, _, e5, _, e7⟩ := so_executa_proc_efeito _ h ph hph1
      constructor
      · intro hr
        have hr1 : r ∈ h :: resto := by
          rw [← hfila, hl]
          exact List.mem_append_left _ hr
        by_cases ehr : h = r
        · left
          rw [← ehr]
          refine ⟨e1, ?_⟩
          rw [e7 h, if_pos rfl]
        · right
          obtain ⟨c1, c2⟩ := a_frente_cauda r h resto hr1 ehr
          have c3 : a_frente r (h :: resto) = a_frente r s1.fila_prontos := by
            rw [← hfila, hl]
            exact a_frente_append r _ _ hr
          rw [e2]
          refine ⟨c1, by show a_frente r resto ≤ _; omega, ?_⟩
          unfold espera_restante
          rw [e2, e5]
          show QUANTUM + QUANTUM * (a_frente r resto : Int) ≤ _
          have c4 : (a_frente r s1.fila_prontos : Int) = (a_frente r resto : Int) + 1 := by
            rw [← c3, c2]
            push_cast
            rfl
          rw [c4]
          unfold QUANTUM
          omega
      · intro ht
        have hne : r ≠ h := by
          intro ehr
          rw [ehr, heh] at ht
          cases ht
          exact hnt rfl
        rw [e7 r, if_neg hne]
        have ht1 : estado_em ({ reinsere_corrente s1 with fila_prontos := resto } : so_t).processos
            r = some ESTADO_TERMINADO := by
          show estado_em (reinsere_corrente s1).processos r = some ESTADO_TERMINADO
          rw [rp]
          exact ht
        rw [if_neg (by rw [ht1]; rintro ⟨_, h2⟩; cases h2)]
        exact ht1

theorem so_escalona_espera (x : so_t) (r : Nat) (hb : inv_base_meio x) (hf : fila_boa x)
    (hfora : corrente_fora_da_fila x) (h0 : 0 ≤ x.quantum_proc) (h5 : x.quantum_proc ≤ QUANTUM) :
    (r ∈ x.fila_prontos →
      ((so_escalona x 2).processo_corrente = some r ∧
        estado_em (so_escalona x 2).processos r = some ESTADO_INICIALIZANDO) ∨
      (r ∈ (so_escalona x 2).fila_prontos ∧
        a_frente r (so_escalona x 2).fila_prontos ≤ a_frente r x.fila_prontos ∧
        espera_restante (so_escalona x 2) r ≤ espera_restante x r)) ∧
    (estado_em x.processos r = some ESTADO_TERMINADO →
      estado_em (so_escalona x 2).processos r = some ESTADO_TERMINADO) ∧
    inv_quantum (so_escalona x 2) := by
  obtain ⟨_, _, q3, q4, _⟩ := antes_da_politica_quadro x
  obtain ⟨_, hf1⟩ := antes_da_politica x hb
  obtain ⟨hf2, _⟩ := hf1 ⟨hf, hfora⟩
  have htab := antes_da_politica_tabela x r
  have hsched : so_escalona x 2 =
      escalonador_round_robin (atualiza_prioridade (atualiza_estado_processo_corrente x)) := by
    unfold so_escalona
    dsimp only
    rw [if_neg (by decide), if_pos rfl]
  rw [hsched]
  obtain ⟨k1, k2⟩ := escalonador_round_robin_espera _ r hf2 (by rw [q4]; exact h0)
  have hesp : espera_restante (atualiza_prioridade (atualiza_estado_processo_corrente x)) r =
      espera_restante x r := by
    unfold espera_restante
    rw [q3, q4]
  rw [q3, hesp] at k1
  refine ⟨k1, fun ht => k2 ?_,
    escalonador_round_robin_quantum _ (by rw [q4]; exact h0) (by rw [q4]; exact h5)⟩
  obtain ⟨p, hp, hpe⟩ := estado_em_some ht
  unfold estado_em
  rw [htab, hp]
  split
  · simp only [Option.map_some', Option.some.injEq]
    rw [if_neg (by rw [hpe]; decide)]
    exact hpe
  · simp only [Option.map_some', Option.some.injEq]
    exact hpe

theorem atualiza_metricas_com_relogio_quantum (x : so_t) :
    (atualiza_metricas_com_relogio x).quantum_proc = x.quantum_proc := by
  unfold atualiza_metricas_com_relogio
  dsimp only
  split
  · rfl
  · split
    · rfl
    · rfl

theorem prepara_entrada_quadro (x : so_t) (irq : irq_t) :
    pids_estados (prepara_entrada x irq).processos = pids_estados x.processos ∧
    (prepara_entrada x irq).fila_prontos = x.fila_prontos ∧
    (prepara_entrada x irq).processo_corrente = x.processo_corrente ∧
    (prepara_entrada x irq).pid_atual = x.pid_atual ∧
    (prepara_entrada x irq).numero_processos = x.numero_processos ∧
    (prepara_entrada x irq).quantum_proc = x.quantum_proc := by
  obtain ⟨a1, a2, a3, a4, a5⟩ := antes_do_tratador (conta_interrupcao x irq)
  refine ⟨a1, a2, a3, a4, a5, ?_⟩
  show (atualiza_metricas_com_relogio
    (salva_estado_cpu_no_processo (conta_interrupcao x irq))).quantum_proc = x.quantum_proc
  rw [atualiza_metricas_com_relogio_quantum,
    (salva_estado_cpu_no_processo_quadro (conta_interrupcao x irq)).2.2.2.2.2]
  rfl

theorem fim_da_entrada_quadro (x : so_t) (res : so_t × Int)
    (h : res = so_despacha x ∨ res = finaliza_sistema x) :
    res.1.processos = x.processos ∧ res.1.fila_prontos = x.fila_prontos ∧
    res.1.processo_corrente = x.processo_corrente ∧ res.1.quantum_proc = x.quantum_proc := by
  rcases h with e | e
  · rw [e]
    obtain ⟨a1, a2, a3, _⟩ := so_despacha_quadro x
    refine ⟨a1, a2, a3, ?_⟩
    unfold so_despacha
    split <;> rfl
  · rw [e]
    obtain ⟨a1, a2, a3, _⟩ := finaliza_sistema_quadro x
    refine ⟨a1, a2, a3, ?_⟩
    unfold finaliza_sistema
    dsimp only
    split_ifs <;> rfl

theorem so_chamada_mata_proc_so_quantum (s : so_t) :
    (so_chamada_mata_proc s).quantum_proc = s.quantum_proc := by
  cases hcor : corrente s with
  | none =>
    unfold so_chamada_mata_proc
    rw [hcor]
  | some cp =>
    obtain ⟨c, pc⟩ := cp
    cases he : encontra_processo_por_pid s.processos
        (if pc.reg1 = 0 then pc.pid else pc.reg1) with
    | none =>
      unfold so_chamada_mata_proc
      rw [hcor]
      dsimp only
      rw [he]
    | some j =>
      rw [so_chamada_mata_proc_achou s c pc j hcor he]

theorem so_trata_irq_limites (s : so_t) (irq : irq_t) (h0 : 0 ≤ s.quantum_proc)
    (h5 : s.quantum_proc ≤ QUANTUM) :
    0 ≤ (so_trata_irq s irq).quantum_proc ∧ (so_trata_irq s irq).quantum_proc ≤ QUANTUM := by
  have mesmo : ∀ x : so_t, x.quantum_proc = s.quantum_proc →
      0 ≤ x.quantum_proc ∧ x.quantum_proc ≤ QUANTUM :=
    fun x h => by rw [h]; exact ⟨h0, h5⟩
  cases irq with
  | IRQ_RESET =>
    apply mesmo
    show (so_trata_irq_reset s).quantum_proc = s.quantum_proc
    unfold so_trata_irq_reset
    obtain ⟨m, hm | ⟨pc, hm⟩⟩ := so_cria_processo_casos s nome_init
    · rw [hm]
    · rw [hm]
  | IRQ_ERR_CPU =>
    apply mesmo
    show (so_trata_irq_err_cpu s).quantum_proc = s.quantum_proc
    unfold so_trata_irq_err_cpu verifica_processos_em_espera
    dsimp only
    split <;> rfl
  | IRQ_SISTEMA =>
    apply mesmo
    show (so_trata_irq_chamada_sistema s).quantum_proc = s.quantum_proc
    unfold so_trata_irq_chamada_sistema
    split
    · rfl
    · split
      · exact (so_chamada_le_quantum s).2
      · split
        · exact (so_chamada_escr_quantum s).2
        · split
          · exact (so_chamada_cria_proc_quantum s).2
          · split
            · exact so_chamada_mata_proc_so_quantum s
            · split
              · exact (so_chamada_espera_proc_quantum s).2
              · exact so_chamada_mata_proc_so_quantum s
  | IRQ_RELOGIO =>
    have h : (so_trata_irq_relogio s).quantum_proc =
        if s.quantum_proc > 0 then s.quantum_proc - 1 else s.quantum_proc := by
      unfold so_trata_irq_relogio
      dsimp only
      split_ifs <;> rfl
    show 0 ≤ (so_trata_irq_relogio s).quantum_proc ∧ (so_trata_irq_relogio s).quantum_proc ≤ QUANTUM
    rw [h]
    split <;> constructor <;> omega
  | IRQ_RESERVADA_4 => exact ⟨h0, h5⟩
  | IRQ_RESERVADA_5 => exact ⟨h0, h5⟩

theorem so_escalona_quantum (x : so_t) (h0 : 0 ≤ x.quantum_proc) (h5 : x.quantum_proc ≤ QUANTUM) :
    inv_quantum (so_escalona x 2) := by
  obtain ⟨_, _, _, q4, _⟩ := antes_da_politica_quadro x
  have hsched : so_escalona x 2 =
      escalonador_round_robin (atualiza_prioridade (atualiza_estado_processo_corrente x)) := by
    unfold so_escalona
    dsimp only
    rw [if_neg (by decide), if_pos rfl]
  rw [hsched]
  exact escalonador_round_robin_quantum _ (by rw [q4]; exact h0) (by rw [q4]; exact h5)

/-- Under round-robin every kernel entry leaves the quantum as `inv_quantum` says. -/
theorem entrada_quantum (s : so_t) (t : trap_t) (h0 : 0 ≤ s.quantum_proc)
    (h5 : s.quantum_proc ≤ QUANTUM) : inv_quantum (entrada 2 s t).1 := by
  obtain ⟨_, _, _, _, _, p6⟩ := prepara_entrada_quadro (na_entrada s t) t.irq
  have p6a : (prepara_entrada (na_entrada s t) t.irq).quantum_proc = s.quantum_proc := p6
  obtain ⟨l0, l5⟩ := so_trata_irq_limites (prepara_entrada (na_entrada s t) t.irq) t.irq
    (by rw [p6a]; exact h0) (by rw [p6a]; exact h5)
  obtain ⟨_, sq, _⟩ := so_trata_pendencias_espera
    (so_trata_irq (prepara_entrada (na_entrada s t) t.irq) t.irq) 0
  obtain ⟨i0, i5, i3⟩ := so_escalona_quantum
    (so_trata_pendencias (so_trata_irq (prepara_entrada (na_entrada s t) t.irq) t.irq))
    (by rw [sq]; exact l0) (by rw [sq]; exact l5)
  obtain ⟨_, f2, f3, f4⟩ := fim_da_entrada_quadro _ _
    (so_trata_interrupcao_com_forma 2 (na_entrada s t) t.irq)
  unfold inv_quantum entrada
  rw [f2, f3, f4]
  exact ⟨i0, i5, i3⟩

/-- One kernel entry under round-robin, seen from a descriptor `r` that waits in the
ready queue: it is dispatched, or it was killed, or it still waits, no further
from the head, and the wait left to it has not grown and is one less after a
TIMER trap. -/
theorem entrada_espera (s : so_t) (t : trap_t) (r : Nat) (hirq : t.irq ≠ IRQ_RESET)
    (hb : inv_base_saida s) (hf : fila_boa s) (hq : inv_quantum s)
    (hr : r ∈ s.fila_prontos) :
    ((entrada 2 s t).1.processo_corrente = some r ∧
      estado_em (entrada 2 s t).1.processos r = some ESTADO_INICIALIZANDO) ∨
    estado_em (entrada 2 s t).1.processos r = some ESTADO_TERMINADO ∨
    (r ∈ (entrada 2 s t).1.fila_prontos ∧
      a_frente r (entrada 2 s t).1.fila_prontos ≤ a_frente r s.fila_prontos ∧
      espera_restante (entrada 2 s t).1 r + (if t.irq = IRQ_RELOGIO then 1 else 0) ≤
        espera_restante s r) := by
  obtain ⟨q0, q5, q3⟩ := hq
  obtain ⟨_, qpos⟩ := q3 (List.ne_nil_of_mem hr)
  obtain ⟨p1, p2, p3, p4, p5, p6⟩ := prepara_entrada_quadro (na_entrada s t) t.irq
  have p1a : pids_estados (prepara_entrada (na_entrada s t) t.irq).processos =
      pids_estados s.processos := p1
  have p2a : (prepara_entrada (na_entrada s t) t.irq).fila_prontos = s.fila_prontos := p2
  have p6a : (prepara_entrada (na_entrada s t) t.irq).quantum_proc = s.quantum_proc := p6
  obtain ⟨t1, t2⟩ := saida_transfere s (prepara_entrada (na_entrada s t) t.irq) p1a p2a p3 p4 p5
  have hforma := so_trata_interrupcao_com_forma 2 (na_entrada s t) t.irq
  generalize prepara_entrada (na_entrada s t) t.irq = x1 at p2a p6a t1 t2 hforma
  have hb1 := t1 hb
  have hf1 := t2 hf
  obtain ⟨m1, m2⟩ := so_trata_irq_meio x1 t.irq hirq hb1
  obtain ⟨hfm1, hfm2, hfm3⟩ := so_trata_pendencias_fila _ (m2 hf1)
  have hbm := so_trata_pendencias_base _ m1
  obtain ⟨ha, hqn, hqr⟩ := so_trata_irq_quantum x1 t.irq hirq hb1.1
  obtain ⟨⟨l, sl⟩, sq, st⟩ := so_trata_pendencias_espera (so_trata_irq x1 t.irq) r
  have hq2 : (so_trata_irq x1 t.irq).quantum_proc +
      (if t.irq = IRQ_RELOGIO then 1 else 0) = s.quantum_proc := by
    by_cases e : t.irq = IRQ_RELOGIO
    · rw [hqr e, if_pos e, p6a, if_pos qpos]
      omega
    · rw [hqn e, if_neg e, p6a]
      omega
  have hq2a : 0 ≤ (so_trata_irq x1 t.irq).quantum_proc ∧
      (so_trata_irq x1 t.irq).quantum_proc ≤ QUANTUM := by
    by_cases e : t.irq = IRQ_RELOGIO
    · rw [hqr e, p6a, if_pos qpos]
      constructor <;> omega
    · rw [hqn e, p6a]
      exact ⟨q0, q5⟩
  obtain ⟨e1, e2, _⟩ := so_escalona_espera
    (so_trata_pendencias (so_trata_irq x1 t.irq)) r hbm hfm1 hfm2
    (by rw [sq]; exact hq2a.1) (by rw [sq]; exact hq2a.2)
  obtain ⟨f1, f2, f3, f4⟩ := fim_da_entrada_quadro _ _ hforma
  have fesp : espera_restante (so_trata_interrupcao_com 2 (na_entrada s t) t.irq).1 r =
      espera_restante (so_escalona (so_trata_pendencias (so_trata_irq x1 t.irq)) 2) r := by
    unfold espera_restante
    rw [f2, f4]
  unfold entrada
  rw [f1, f2, f3, fesp]
  rcases fila_avanca_espera x1 (so_trata_irq x1 t.irq) r ha (by rw [p2a]; exact hr) with
    ⟨hr2, hr2a⟩ | hterm
  · have hr3 : r ∈ (so_trata_pendencias (so_trata_irq x1 t.irq)).fila_prontos := by
      rw [sl]
      exact List.mem_append_left _ hr2
    have ha3 : a_frente r (so_trata_pendencias (so_trata_irq x1 t.irq)).fila_prontos =
        a_frente r (so_trata_irq x1 t.irq).fila_prontos := by
      rw [sl]
      exact a_frente_append r _ _ hr2
    rcases e1 hr3 with hd | ⟨w1, w2, w3⟩
    · exact Or.inl hd
    · right
      right
      rw [p2a] at hr2a
      refine ⟨w1, by omega, ?_⟩
      have w4 : espera_restante (so_trata_pendencias (so_trata_irq x1 t.irq)) r +
          (if t.irq = IRQ_RELOGIO then 1 else 0) ≤ espera_restante s r := by
        unfold espera_restante
        rw [sq, ha3]
        have c1 : (a_frente r (so_trata_irq x1 t.irq).fila_prontos : Int) ≤
            (a_frente r s.fila_prontos : Int) := by
          exact_mod_cast hr2a
        unfold QUANTUM
        omega
      omega
  · exact Or.inr (Or.inl (e2 (st hterm)))

theorem espera_restante_positiva (s : so_t) (r : Nat) (hq : inv_quantum s)
    (hr : r ∈ s.fila_prontos) : 1 ≤ espera_restante s r := by
  obtain ⟨_, hpos⟩ := hq.2.2 (List.ne_nil_of_mem hr)
  unfold espera_restante QUANTUM
  have : (0 : Int) ≤ (a_frente r s.fila_prontos : Int) := Int.ofNat_nonneg _
  omega

/-- Along a run under round-robin, a descriptor that waits in the ready queue is
dispatched or killed at a point reached with no more TIMER traps than the wait
left to it, or fewer TIMER traps than that have been handled. -/
theorem executa_espera (r : Nat) :
    ∀ (ts : List trap_t) (s : so_t), sem_reset ts →
      inv_base_saida s → fila_boa s → inv_quantum s → r ∈ s.fila_prontos →
      (∃ ts1 ts2, ts = ts1 ++ ts2 ∧ (conta_relogio ts1 : Int) ≤ espera_restante s r ∧
        (((executa 2 s ts1).processo_corrente = some r ∧
            estado_em (executa 2 s ts1).processos r = some ESTADO_INICIALIZANDO) ∨
          estado_em (executa 2 s ts1).processos r = some ESTADO_TERMINADO)) ∨
      ((conta_relogio ts : Int) < espera_restante s r ∧ r ∈ (executa 2 s ts).fila_prontos) := by
  intro ts
  induction ts with
  | nil =>
    intro s _ _ _ hq hr
    right
    have := espera_restante_positiva s r hq hr
    exact ⟨by show ((0 : Nat) : Int) < _; omega, hr⟩
  | cons t ts ih =>
    intro s hts hb hf hq hr
    have hirq : t.irq ≠ IRQ_RESET := hts t (List.mem_cons_self _ _)
    have hts1 : sem_reset ts := fun u hu => hts u (List.mem_cons_of_mem _ hu)
    have hpos := espera_restante_positiva s r hq hr
    have hconta : (conta_relogio (t :: ts) : Int) =
        (if t.irq = IRQ_RELOGIO then 1 else 0) + (conta_relogio ts : Int) := by
      show (((if t.irq = IRQ_RELOGIO then 1 else 0) + conta_relogio ts : Nat) : Int) = _
      split <;> push_cast <;> rfl
    have hum : (conta_relogio [t] : Int) ≤ 1 := by
      show (((if t.irq = IRQ_RELOGIO then 1 else 0) + 0 : Nat) : Int) ≤ 1
      split <;> simp
    obtain ⟨hb1, hf1⟩ := entrada_saida 2 s t (Or.inr (Or.inl rfl)) hirq hb (fun _ => hf)
    have hq1 := entrada_quantum s t hq.1 hq.2.1
    rcases entrada_espera s t r hirq hb hf hq hr with hd | hterm | ⟨w1, _, w3⟩
    · exact Or.inl ⟨[t], ts, rfl, by omega, Or.inl hd⟩
    · exact Or.inl ⟨[t], ts, rfl, by omega, Or.inr hterm⟩
    · rcases ih (entrada 2 s t).1 hts1 hb1 (hf1 (by decide)) hq1 w1 with
        ⟨ts1, ts2, e, hc, hg⟩ | ⟨hc, hw⟩
      · refine Or.inl ⟨t :: ts1, ts2, by rw [e]; rfl, ?_, hg⟩
        have : (conta_relogio (t :: ts1) : Int) =
            (if t.irq = IRQ_RELOGIO then 1 else 0) + (conta_relogio ts1 : Int) := by
          show (((if t.irq = IRQ_RELOGIO then 1 else 0) + conta_relogio ts1 : Nat) : Int) = _
          split <;> push_cast <;> rfl
        rw [this]
        omega
      · refine Or.inr ⟨?_, hw⟩
        rw [hconta]
        omega

theorem executa_quantum : ∀ (ts : List trap_t) (s : so_t), inv_quantum s →
    inv_quantum (executa 2 s ts) := by
  intro ts
  induction ts with
  | nil => intro s h; exact h
  | cons t ts ih =>
    intro s h
    exact ih _ (entrada_quantum s t h.1 h.2.1)


/-! ## The first smallest entry of a queue -/

/-- Every non-empty queue splits at the first of its entries of smallest value. -/
theorem primeiro_minimo (f : Nat → ℚ) : ∀ (l : List Nat), l ≠ [] →
    ∃ (a : List Nat) (j : Nat) (b : List Nat), l = a ++ j :: b ∧
      (∀ x ∈ a, f j < f x) ∧ (∀ x ∈ b, f j ≤ f x) := by
  intro l
  induction l with
  | nil => intro h; exact absurd rfl h
  | cons x l ih =>
    intro _
    cases l with
    | nil =>
      exact ⟨[], x, [], rfl, fun y hy => (by cases hy), fun y hy => (by cases hy)⟩
    | cons y l1 =>
      obtain ⟨a, j, b, e, ha, hb⟩ := ih (by simp)
      by_cases hx : f x ≤ f j
      · refine ⟨[], x, y :: l1, rfl, fun z hz => (by cases hz), ?_⟩
        intro z hz
        rw [e] at hz
        rcases List.mem_append.mp hz with hz | hz
        · exact le_trans hx (le_of_lt (ha z hz))
        · rcases List.mem_cons.mp hz with hz | hz
          · rw [hz]; exact hx
          · exact le_trans hx (hb z hz)
      · refine ⟨x :: a, j, b, by rw [e]; rfl, ?_, hb⟩
        intro z hz
        rcases List.mem_cons.mp hz with hz | hz
        · rw [hz]; exact not_le.mp hx
        · exact ha z hz

/-! ## The copy of a file name, characterised -/

/-- The loop of the copy returns the list `l` exactly when `l` is shorter than the
number of iterations left, the words from the index reached on are the entries of
`l`, all between 1 and 255, and the word after them is 0. -/
theorem copia_str_da_mem_laco_iff (mem : mem_t) (ender : Int) :
    ∀ (n : Nat) (idx : Int) (l : nome_t),
      copia_str_da_mem_laco mem ender n idx = some l ↔
        (l.length < n ∧
         (∀ (i : Nat) (v : Int), l[i]? = some v →
            mem_le mem (outro (ender + idx + i)) = some v ∧ 1 ≤ v ∧ v ≤ 255) ∧
         mem_le mem (outro (ender + idx + l.length)) = some 0) := by
  intro n
  induction n with
  | zero =>
    intro idx l
    simp [copia_str_da_mem_laco]
  | succ n ih =>
    intro idx l
    have e0 : ender + idx + ((0 : Nat) : Int) = ender + idx := by simp
    cases l with
    | nil =>
      unfold copia_str_da_mem_laco
      simp only [List.length_nil, e0]
      cases hm : mem_le mem (outro (ender + idx)) with
      | none => simp
      | some c =>
        dsimp only
        by_cases h1 : c < 0 ∨ c > 255
        · rw [if_pos h1]
          simp
          intro h; rw [h] at h1; omega
        · rw [if_neg h1]
          by_cases h2 : c = 0
          · rw [if_pos h2]; simp [h2]
          · rw [if_neg h2]
            simp [h2]
    | cons x r =>
      have hih := ih (idx + 1) r
      have e1 : ∀ i : Nat, ender + idx + ((i + 1 : Nat) : Int) = ender + (idx + 1) + (i : Int) := by
        intro i; push_cast; ring
      unfold copia_str_da_mem_laco
      constructor
      · intro h
        cases hm : mem_le mem (outro (ender + idx)) with
        | none => rw [hm] at h; simp at h
        | some c =>
          rw [hm] at h
          dsimp only at h
          by_cases h1 : c < 0 ∨ c > 255
          · rw [if_pos h1] at h; simp at h
          · rw [if_neg h1] at h
            by_cases h2 : c = 0
            · rw [if_pos h2] at h; simp at h
            · rw [if_neg h2] at h
              cases hr : copia_str_da_mem_laco mem ender n (idx + 1) with
              | none => rw [hr] at h; simp at h
              | some r1 =>
                rw [hr] at h
                simp only [Option.map_some', Option.some.injEq, List.cons.injEq] at h
                obtain ⟨hx, hr1⟩ := h
                subst hx; subst hr1
                obtain ⟨k1, k2, k3⟩ := hih.mp hr
                refine ⟨by simp only [List.length_cons]; omega, ?_, ?_⟩
                · intro i v hi
                  cases i with
                  | zero =>
                    simp only [List.getElem?_cons_zero, Option.some.injEq] at hi
                    subst hi
                    rw [e0]
                    exact ⟨hm, by omega, by omega⟩
                  | succ i =>
                    simp only [List.getElem?_cons_succ] at hi
                    rw [e1]
                    exact k2 i v hi
                · rw [List.length_cons, e1]
                  exact k3
      · intro ⟨k1, k2, k3⟩
        have hx := k2 0 x (by simp)
        rw [e0] at hx
        rw [hx.1]
        dsimp only
        rw [if_neg (by omega), if_neg (by omega)]
        have hr : copia_str_da_mem_laco mem ender n (idx + 1) = some r := by
          refine hih.mpr ⟨by simp only [List.length_cons] at k1; omega, ?_, ?_⟩
          · intro i v hi
            have := k2 (i + 1) v (by simpa using hi)
            rw [e1] at this
            exact this
          · rw [List.length_cons, e1] at k3
            exact k3
        rw [hr]
        rfl

/-- The copy succeeds when `k` bytes between 1 and 255 are followed by a 0 and
`k` is smaller than the size of the buffer; `k` bytes are then copied. -/
theorem copia_str_da_mem_sucede (tam : Nat) (mem : mem_t) (ender : Int) (k : Nat) (hk : k < tam)
    (hb : ∀ i : Nat, i < k →
      ∃ v, mem_le mem (outro (ender + (i : Int))) = some v ∧ 1 ≤ v ∧ v ≤ 255)
    (hz : mem_le mem (outro (ender + (k : Int))) = some 0) :
    ∃ l : nome_t, copia_str_da_mem tam mem ender = some l ∧ l.length = k := by
  refine ⟨(List.range k).map (fun (i : Nat) => (mem_le mem (outro (ender + (i : Int)))).getD 0), ?_, by simp⟩
  unfold copia_str_da_mem
  rw [copia_str_da_mem_laco_iff]
  simp only [List.length_map, List.length_range, add_zero]
  refine ⟨hk, ?_, hz⟩
  intro i v hi
  rw [List.getElem?_map] at hi
  have hik : i < k := by
    by_contra hc
    rw [List.getElem?_eq_none (by simp; omega)] at hi
    simp at hi
  rw [List.getElem?_range hik] at hi
  simp only [Option.map_some', Option.some.injEq] at hi
  obtain ⟨w, hw, h1, h2⟩ := hb i hik
  rw [hw] at hi
  simp only [Option.getD_some] at hi
  subst hi
  exact ⟨hw, h1, h2⟩

/-! ## A TIMER trap while the current process has quantum left -/

theorem atualiza_metricas_com_relogio_preempcoes (x : so_t) :
    (atualiza_metricas_com_relogio x).metricas.num_preempcoes = x.metricas.num_preempcoes ∧
    (atualiza_metricas_com_relogio x).erro_interno = x.erro_interno := by
  unfold atualiza_metricas_com_relogio
  dsimp only
  split
  · exact ⟨rfl, rfl⟩
  · split
    · exact ⟨rfl, rfl⟩
    · unfold atualiza_metricas_sistema
      dsimp only
      split <;> exact ⟨rfl, rfl⟩

theorem prepara_entrada_preempcoes (x : so_t) (irq : irq_t) :
    (prepara_entrada x irq).metricas.num_preempcoes = x.metricas.num_preempcoes ∧
    (prepara_entrada x irq).erro_interno = x.erro_interno := by
  unfold prepara_entrada
  obtain ⟨h1, h2⟩ := atualiza_metricas_com_relogio_preempcoes
    (salva_estado_cpu_no_processo (conta_interrupcao x irq))
  have h3 := (salva_estado_cpu_no_processo_quadro (conta_interrupcao x irq)).2.1
  have h4 : (salva_estado_cpu_no_processo (conta_interrupcao x irq)).erro_interno =
      x.erro_interno := by
    unfold salva_estado_cpu_no_processo altera_corrente
    split <;> rfl
  rw [h1, h2, h3, h4]
  exact ⟨rfl, rfl⟩

/-- The sweep changes neither the current process, nor the counters of the
kernel, nor the quantum, nor the internal-error flag. -/
theorem so_trata_pendencias_quadro (x : so_t) :
    (so_trata_pendencias x).processo_corrente = x.processo_corrente ∧
    (so_trata_pendencias x).metricas = x.metricas ∧
    (so_trata_pendencias x).quantum_proc = x.quantum_proc ∧
    (so_trata_pendencias x).erro_interno = x.erro_interno ∧
    (so_trata_pendencias x).numero_processos = x.numero_processos ∧
    (so_trata_pendencias x).processos.length = x.processos.length := by
  refine foldl_preserva (fun s => s.processo_corrente = x.processo_corrente ∧
      s.metricas = x.metricas ∧ s.quantum_proc = x.quantum_proc ∧
      s.erro_interno = x.erro_interno ∧ s.numero_processos = x.numero_processos ∧
      s.processos.length = x.processos.length)
    so_trata_pendencias_proc ?_ _ x ⟨rfl, rfl, rfl, rfl, rfl, rfl⟩
  intro a b ⟨h1, h2, h3, h4, h5, h6⟩
  obtain ⟨l, e | ⟨proc, _, _, _, e⟩⟩ := so_trata_pendencias_proc_casos a b
  · rw [e]
    exact ⟨h1, h2, h3, h4, h5, h6⟩
  · rw [e]
    exact ⟨h1, h2, h3, h4, h5, by
      show (altera_processo a.processos b _).length = _
      rw [length_altera_processo]; exact h6⟩

/-- Dispatch and shutdown change neither the counters nor the table. -/
theorem fim_da_entrada_metricas (x : so_t) (res : so_t × Int)
    (h : res = so_despacha x ∨ res = finaliza_sistema x) :
    res.1.metricas = x.metricas ∧ res.1.numero_processos = x.numero_processos := by
  rcases h with h | h
  · rw [h]
    unfold so_despacha
    split <;> exact ⟨rfl, rfl⟩
  · rw [h]
    unfold finaliza_sistema
    dsimp only
    split <;> exact ⟨rfl, rfl⟩

/-- A TIMER trap taken under round-robin while the current process is RUNNING and
has more than one tick of quantum left: the process stays current and RUNNING, the
quantum loses one tick, and nothing is preempted. -/
theorem entrada_relogio_sem_preempcao (s : so_t) (t : trap_t) (ht : t.irq = IRQ_RELOGIO)
    (hc : corrente_executando s = true) (hq : 1 < s.quantum_proc) :
    (entrada 2 s t).1.metricas.num_preempcoes = s.metricas.num_preempcoes ∧
    (entrada 2 s t).1.processo_corrente = s.processo_corrente ∧
    (entrada 2 s t).1.quantum_proc = s.quantum_proc - 1 ∧
    corrente_executando (entrada 2 s t).1 = true := by
  obtain ⟨c, hc1, hc2⟩ := (corrente_executando_iff s).mp hc
  have ee : entrada 2 s t = so_trata_interrupcao_com 2 (na_entrada s t) IRQ_RELOGIO := by
    unfold entrada
    rw [ht]
  rw [ee]
  have f0 := so_trata_interrupcao_com_forma 2 (na_entrada s t) IRQ_RELOGIO
  obtain ⟨f1, _, f2, f3⟩ := fim_da_entrada_quadro _ _ f0
  obtain ⟨f4, _⟩ := fim_da_entrada_metricas _ _ f0
  generalize so_trata_interrupcao_com 2 (na_entrada s t) IRQ_RELOGIO = res at f1 f2 f3 f4 ⊢
  clear f0
  obtain ⟨p1, p2, p3, p4, p5, p6⟩ := prepara_entrada_quadro (na_entrada s t) IRQ_RELOGIO
  have p7 := (prepara_entrada_preempcoes (na_entrada s t) IRQ_RELOGIO).1
  have p8 : estado_em (prepara_entrada (na_entrada s t) IRQ_RELOGIO).processos c =
      some ESTADO_INICIALIZANDO := by
    rw [estado_em_de_pids_estados p1 c]
    exact hc2
  generalize prepara_entrada (na_entrada s t) IRQ_RELOGIO = P at p3 p6 p7 p8 f1 f2 f3 f4
  -- the handler
  have r1 : (so_trata_irq P IRQ_RELOGIO).processos = P.processos ∧
      (so_trata_irq P IRQ_RELOGIO).processo_corrente = P.processo_corrente ∧
      (so_trata_irq P IRQ_RELOGIO).metricas = P.metricas ∧
      (so_trata_irq P IRQ_RELOGIO).quantum_proc = P.quantum_proc - 1 := by
    have er : so_trata_irq P IRQ_RELOGIO = so_trata_irq_relogio P := rfl
    rw [er]
    have hq1 : P.quantum_proc > 0 := by
      rw [p6]
      show 0 < s.quantum_proc
      omega
    unfold so_trata_irq_relogio
    dsimp only
    split_ifs
    all_goals exact ⟨rfl, rfl, rfl, rfl⟩
  obtain ⟨r1a, r1b, r1c, r1d⟩ := r1
  have r1e : estado_em (so_trata_irq P IRQ_RELOGIO).processos c = some ESTADO_INICIALIZANDO := by
    rw [r1a]
    exact p8
  generalize so_trata_irq P IRQ_RELOGIO = H at r1b r1c r1d r1e f1 f2 f3 f4
  -- the sweep
  obtain ⟨s1, s2, s3, _, _, _⟩ := so_trata_pendencias_quadro H
  have s4 := so_trata_pendencias_executando H c r1e
  generalize so_trata_pendencias H = S at s1 s2 s3 s4 f1 f2 f3 f4
  -- the scheduler
  obtain ⟨a1, a2, _, a4, a5⟩ := antes_da_politica_quadro S
  obtain ⟨q, hq1, hq2⟩ := estado_em_some s4
  obtain ⟨q1, hq3, _, hq4, _⟩ := a5 c q hq1
  have a6 : estado_em (atualiza_prioridade (atualiza_estado_processo_corrente S)).processos c =
      some ESTADO_INICIALIZANDO := by
    unfold estado_em
    rw [hq3]
    simp [hq4 hq2]
  have e1 : so_escalona S 2 = atualiza_prioridade (atualiza_estado_processo_corrente S) := by
    unfold so_escalona
    dsimp only
    rw [if_neg (by decide), if_pos rfl]
    unfold escalonador_round_robin
    have hk : corrente_executando (atualiza_prioridade (atualiza_estado_processo_corrente S)) =
        true :=
      (corrente_executando_iff _).mpr ⟨c, by rw [a1, s1, r1b, p3]; exact hc1, a6⟩
    have hk2 : (atualiza_prioridade (atualiza_estado_processo_corrente S)).quantum_proc > 0 := by
      rw [a4, s3, r1d, p6]
      show 0 < s.quantum_proc - 1
      omega
    rw [if_pos (by simp [hk, hk2])]
  -- the exit
  rw [e1] at f1 f2 f3 f4
  refine ⟨?_, ?_, ?_, ?_⟩
  · rw [f4, a2, s2, r1c, p7]
    rfl
  · rw [f2, a1, s1, r1b, p3]
    rfl
  · rw [f3, a4, s3, r1d, p6]
    rfl
  · refine (corrente_executando_iff _).mpr ⟨c, ?_, ?_⟩
    · rw [f2, a1, s1, r1b, p3]
      exact hc1
    · rw [f1]
      exact a6

/-! ## The end of a kernel entry -/

/-- The kernel entry ends with the shutdown when none of the first
`numero_processos` descriptors is alive after the scheduling step, and with the
dispatch otherwise. -/
theorem so_trata_interrupcao_com_fim (escalonador : Int) (self : so_t) (irq : irq_t) :
    so_trata_interrupcao_com escalonador self irq =
      if ((apos_escalonar escalonador self irq).processos.take
            (apos_escalonar escalonador self irq).numero_processos.toNat).any
          (fun p => p.estado ≠ ESTADO_TERMINADO) = true
      then so_despacha (apos_escalonar escalonador self irq)
      else finaliza_sistema (apos_escalonar escalonador self irq) := by
  unfold so_trata_interrupcao_com apos_escalonar prepara_entrada conta_interrupcao
  rfl

/-- The writes of the shutdown: a 0 to the timer register, then a 0 to the
interrupt-signal register; the value returned is 1. -/
theorem finaliza_sistema_efeito (x : so_t) :
    (finaliza_sistema x).2 = 1 ∧
    (finaliza_sistema x).1.es.escritas = x.es.escritas ++
      (if x.es.escreve_ok x.es.D_RELOGIO_TIMER 0 = true
        then [(x.es.D_RELOGIO_TIMER, 0)] else []) ++
      (if x.es.escreve_ok x.es.D_RELOGIO_INTERRUPCAO 0 = true
        then [(x.es.D_RELOGIO_INTERRUPCAO, 0)] else []) ∧
    ((finaliza_sistema x).1.erro_interno = true ↔
      (x.erro_interno = true ∨ x.es.escreve_ok x.es.D_RELOGIO_TIMER 0 = false ∨
        x.es.escreve_ok x.es.D_RELOGIO_INTERRUPCAO 0 = false)) := by
  unfold finaliza_sistema es_escreve
  by_cases h1 : x.es.escreve_ok x.es.D_RELOGIO_TIMER 0 = true
  · by_cases h2 : x.es.escreve_ok x.es.D_RELOGIO_INTERRUPCAO 0 = true
    · simp [h1, h2]
    · simp [h1, h2]
  · by_cases h2 : x.es.escreve_ok x.es.D_RELOGIO_INTERRUPCAO 0 = true
    · simp [h1, h2]
    · simp [h1, h2]

/-- When the exit invariants hold at the end of a kernel entry (as they do at every
exit of a run that starts with the boot, `alcancavel_saida`), the state after the
scheduling step of that entry has a process count equal to the length of the table
and a current process, if any, in the table. -/
theorem apos_escalonar_de_saida (escalonador : Int) (x : so_t) (irq : irq_t)
    (h : inv_base_saida (so_trata_interrupcao_com escalonador x irq).1) :
    (apos_escalonar escalonador x irq).numero_processos =
      ((apos_escalonar escalonador x irq).processos.length : Int) ∧
    ∀ c, (apos_escalonar escalonador x irq).processo_corrente = some c →
      c < (apos_escalonar escalonador x irq).processos.length := by
  have f0 : so_trata_interrupcao_com escalonador x irq =
        so_despacha (apos_escalonar escalonador x irq) ∨
      so_trata_interrupcao_com escalonador x irq =
        finaliza_sistema (apos_escalonar escalonador x irq) :=
    so_trata_interrupcao_com_forma escalonador x irq
  obtain ⟨f1, _, f2, _⟩ := fim_da_entrada_quadro _ _ f0
  obtain ⟨_, f3⟩ := fim_da_entrada_metricas _ _ f0
  obtain ⟨⟨_, _, h3⟩, h4⟩ := h
  rw [f1, f3] at h3
  refine ⟨h3, ?_⟩
  intro c hc
  have h5 := h4 c (f2.trans hc)
  rw [f1] at h5
  obtain ⟨p, hp, _⟩ := estado_em_some h5
  exact (List.getElem?_eq_some_iff.mp hp).1

/-! ## The entry of a CPU error -/

/-- What `so_trata_irq_err_cpu` does to the current descriptor: it is left RUNNING
(`ESTADO_INICIALIZANDO`), with the block reason it had; no process is current and
the internal-error flag is set afterwards. -/
theorem so_trata_irq_err_cpu_efeito (self : so_t) (c : Nat) (p : processo_t)
    (hc : self.processo_corrente = some c) (hp : self.processos[c]? = some p) :
    (∃ q : processo_t, (so_trata_irq_err_cpu self).processos[c]? = some q ∧
      q.estado = ESTADO_INICIALIZANDO ∧ q.motivo_bloqueio = p.motivo_bloqueio) ∧
    (so_trata_irq_err_cpu self).erro_interno = true ∧
    (so_trata_irq_err_cpu self).processo_corrente = none ∧
    (so_trata_irq_err_cpu self).numero_processos = self.numero_processos := by
  have e : corrente self = some (c, p) := (corrente_eq_some self c p).mpr ⟨hc, hp⟩
  unfold so_trata_irq_err_cpu
  rw [e]
  unfold verifica_processos_em_espera
  dsimp only
  rw [List.getElem?_map, getElem?_altera_processo, if_pos rfl, hp]
  exact ⟨⟨_, rfl, rfl, rfl⟩, rfl, rfl, rfl⟩

theorem so_executa_proc_numero (s : so_t) (proc : Option Nat) :
    (so_executa_proc s proc).numero_processos = s.numero_processos ∧
    (so_executa_proc s proc).erro_interno = s.erro_interno := by
  have h1 : (so_executa_proc_preempcao s proc).numero_processos = s.numero_processos ∧
      (so_executa_proc_preempcao s proc).erro_interno = s.erro_interno := by
    unfold so_executa_proc_preempcao
    split
    · split <;> exact ⟨rfl, rfl⟩
    · exact ⟨rfl, rfl⟩
  have h2 : ∀ y : so_t, (so_executa_proc_inicio y proc).numero_processos = y.numero_processos ∧
      (so_executa_proc_inicio y proc).erro_interno = y.erro_interno := by
    intro y
    unfold so_executa_proc_inicio
    split
    · split
      · split <;> exact ⟨rfl, rfl⟩
      · exact ⟨rfl, rfl⟩
    · exact ⟨rfl, rfl⟩
  obtain ⟨a, b⟩ := h2 (so_executa_proc_preempcao s proc)
  exact ⟨a.trans h1.1, b.trans h1.2⟩

/-- The scheduler keeps the process count, and never clears the internal-error
flag. -/
theorem so_escalona_numero (x : so_t) (escalonador : Int) :
    (so_escalona x escalonador).numero_processos = x.numero_processos ∧
    (x.erro_interno = true → (so_escalona x escalonador).erro_interno = true) := by
  have h0 : ∀ (y : so_t) (f : processo_t → processo_t),
      (altera_corrente y f).numero_processos = y.numero_processos ∧
      (altera_corrente y f).erro_interno = y.erro_interno := by
    intro y f
    unfold altera_corrente
    split <;> exact ⟨rfl, rfl⟩
  have h1 : (atualiza_prioridade (atualiza_estado_processo_corrente x)).numero_processos =
        x.numero_processos ∧
      (atualiza_prioridade (atualiza_estado_processo_corrente x)).erro_interno =
        x.erro_interno := by
    unfold atualiza_prioridade
    obtain ⟨a, b⟩ := h0 (atualiza_estado_processo_corrente x) (fun p =>
      { p with prioridade := float_soma p.prioridade (acrescimo_de_prioridade (atualiza_estado_processo_corrente x).quantum_proc) })
    rw [a, b]
    unfold atualiza_estado_processo_corrente
    exact h0 x _
  unfold so_escalona
  dsimp only
  generalize atualiza_prioridade (atualiza_estado_processo_corrente x) = s at h1 ⊢
  have hre : (reinsere_corrente s).numero_processos = s.numero_processos ∧
      (reinsere_corrente s).erro_interno = s.erro_interno := by
    rcases reinsere_corrente_casos s with ⟨_, h⟩ | ⟨c, _, _, h⟩
    · rw [h]; exact ⟨rfl, rfl⟩
    · rw [h]; exact ⟨rfl, rfl⟩
  have hrr : (escalonador_round_robin s).numero_processos = s.numero_processos ∧
      (escalonador_round_robin s).erro_interno = s.erro_interno := by
    unfold escalonador_round_robin
    split
    · exact ⟨rfl, rfl⟩
    · dsimp only
      split
      · exact ⟨(so_executa_proc_numero _ _).1.trans hre.1,
          (so_executa_proc_numero _ _).2.trans hre.2⟩
      · exact hre
  have hpr : (escalonador_prioridade s).numero_processos = s.numero_processos ∧
      (escalonador_prioridade s).erro_interno = s.erro_interno := by
    unfold escalonador_prioridade
    split
    · exact ⟨rfl, rfl⟩
    · dsimp only
      split
      · exact ⟨(so_executa_proc_numero _ _).1.trans hre.1,
          (so_executa_proc_numero _ _).2.trans hre.2⟩
      · exact hre
  have hsi : (escalonador_simples s).numero_processos = s.numero_processos ∧
      (s.erro_interno = true → (escalonador_simples s).erro_interno = true) := by
    unfold escalonador_simples
    split
    · exact ⟨rfl, fun h => h⟩
    · split
      · exact ⟨(so_executa_proc_numero _ _).1, fun h => (so_executa_proc_numero _ _).2.trans h⟩
      · split
        · exact ⟨rfl, fun h => h⟩
        · exact ⟨rfl, fun _ => rfl⟩
  split
  · exact ⟨hpr.1.trans h1.1, fun h => hpr.2.trans (h1.2.trans h)⟩
  · split
    · exact ⟨hrr.1.trans h1.1, fun h => hrr.2.trans (h1.2.trans h)⟩
    · split
      · exact ⟨hsi.1.trans h1.1, fun h => hsi.2 (h1.2.trans h)⟩
      · exact ⟨h1.1, fun h => h1.2.trans h⟩

/-- While no process is current, the scheduler leaves RUNNING every descriptor
that is RUNNING. -/
theorem so_escalona_sem_corrente (x : so_t) (escalonador : Int) (i : Nat)
    (hc : x.processo_corrente = none)
    (h : estado_em x.processos i = some ESTADO_INICIALIZANDO) :
    estado_em (so_escalona x escalonador).processos i = some ESTADO_INICIALIZANDO := by
  obtain ⟨a1, _, _, _, a5⟩ := antes_da_politica_quadro x
  obtain ⟨q, hq1, hq2⟩ := estado_em_some h
  obtain ⟨q1, hq3, _, hq4, _⟩ := a5 i q hq1
  have a6 : estado_em (atualiza_prioridade (atualiza_estado_processo_corrente x)).processos i =
      some ESTADO_INICIALIZANDO := by
    unfold estado_em
    rw [hq3]
    simp [hq4 hq2]
  rcases so_escalona_formas x escalonador with e | ⟨y, k, e, e1, e2, _⟩
  · rw [e]
    exact a6
  · rw [e]
    have hy : y.processo_corrente = none := by rw [e2, a1, hc]
    rw [← e1] at a6
    cases hk : y.processos[k]? with
    | some pk =>
      rw [(so_executa_proc_efeito y k pk hk).2.2.2.2.2.2 i]
      by_cases hik : i = k
      · rw [if_pos hik]
      · rw [if_neg hik, if_neg (by rw [hy]; simp)]
        exact a6
    | none =>
      have e3 : (so_executa_proc y (some k)).processos = y.processos := by
        have c0 : corrente y = none := by unfold corrente; rw [hy]
        unfold so_executa_proc so_executa_proc_preempcao so_executa_proc_inicio
        simp only [c0, hk]
      rw [e3]
      exact a6

/-! ## Kernel entries on a table of one descriptor -/

theorem prepara_entrada_mem (x : so_t) (irq : irq_t) :
    (prepara_entrada x irq).mem = x.mem ∧ (prepara_entrada x irq).es = x.es ∧
    (prepara_entrada x irq).programas = x.programas := by
  have h1 : ∀ y : so_t, (atualiza_metricas_com_relogio y).mem = y.mem ∧
      (atualiza_metricas_com_relogio y).es = y.es ∧
      (atualiza_metricas_com_relogio y).programas = y.programas := by
    intro y
    unfold atualiza_metricas_com_relogio
    dsimp only
    split
    · exact ⟨rfl, rfl, rfl⟩
    · split
      · exact ⟨rfl, rfl, rfl⟩
      · exact ⟨rfl, rfl, rfl⟩
  have h2 : ∀ y : so_t, (salva_estado_cpu_no_processo y).mem = y.mem ∧
      (salva_estado_cpu_no_processo y).es = y.es ∧
      (salva_estado_cpu_no_processo y).programas = y.programas := by
    intro y
    unfold salva_estado_cpu_no_processo altera_corrente
    split <;> exact ⟨rfl, rfl, rfl⟩
  unfold prepara_entrada
  obtain ⟨a1, a2, a3⟩ := h1 (salva_estado_cpu_no_processo (conta_interrupcao x irq))
  obtain ⟨b1, b2, b3⟩ := h2 (conta_interrupcao x irq)
  exact ⟨a1.trans b1, a2.trans b2, a3.trans b3⟩

theorem altera_corrente_unico (x : so_t) (p : processo_t) (f : processo_t → processo_t)
    (hps : x.processos = [p]) (hc : x.processo_corrente = some 0) :
    altera_corrente x f = { x with processos := [f p] } := by
  unfold altera_corrente
  rw [hc]
  dsimp only
  unfold altera_processo
  rw [hps]
  rfl

/-- The first steps of a kernel entry, when the table holds one descriptor and it
is current: the saved X is stored in the descriptor; its pid, state and preemption
counter are kept. -/
theorem prepara_entrada_unico (x : so_t) (p : processo_t) (irq : irq_t)
    (hps : x.processos = [p]) (hc : x.processo_corrente = some 0)
    (hn : x.numero_processos = 1) :
    ∃ q : processo_t, (prepara_entrada x irq).processos = [q] ∧ q.pid = p.pid ∧
      q.estado = p.estado ∧
      q.metricas.quantidade_preempcoes = p.metricas.quantidade_preempcoes ∧
      q.reg1 = x.mem.X := by
  have e1 : salva_estado_cpu_no_processo (conta_interrupcao x irq) =
      { conta_interrupcao x irq with
        processos := [{ p with pc := x.mem.PC, reg0 := x.mem.A, reg1 := x.mem.X }] } := by
    unfold salva_estado_cpu_no_processo
    rw [altera_corrente_unico (conta_interrupcao x irq) p _ hps hc]
    rfl
  unfold prepara_entrada
  rw [e1]
  unfold atualiza_metricas_com_relogio
  dsimp only
  split
  · exact ⟨_, rfl, rfl, rfl, rfl, rfl⟩
  · split
    · exact ⟨_, rfl, rfl, rfl, rfl, rfl⟩
    · unfold atualiza_metricas_sistema
      dsimp only
      have hn1 : (conta_interrupcao x irq).numero_processos = 1 := hn
      rw [hn1]
      refine ⟨_, rfl, rfl, rfl, ?_, rfl⟩
      unfold atualiza_metricas_processo
      dsimp only
      split <;> split <;> rfl

/-- KILL(0) issued by the only descriptor of the table: the descriptor goes to
TERMINATED and no process is current. -/
theorem so_trata_irq_mata_unico (x : so_t) (p : processo_t)
    (hps : x.processos = [p]) (hc : x.processo_corrente = some 0)
    (hA : x.mem.A = 8) (hX : p.reg1 = 0) (hf : x.fila_prontos = []) :
    so_trata_irq x IRQ_SISTEMA =
      { x with processos := [proc_muda_estado p ESTADO_TERMINADO],
               processo_corrente := none,
               mem := mem_escreve_ign x.mem IRQ_END_A 0 } := by
  have e0 : corrente x = some (0, p) := (corrente_eq_some x 0 p).mpr ⟨hc, by rw [hps]; rfl⟩
  show so_trata_irq_chamada_sistema x = _
  unfold so_trata_irq_chamada_sistema
  have e1 : mem_le x.mem IRQ_END_A = some 8 := by
    show some x.mem.A = some 8
    rw [hA]
  rw [e1]
  dsimp only
  rw [if_neg (by decide), if_neg (by decide), if_neg (by decide), if_pos (by decide)]
  unfold so_chamada_mata_proc
  rw [e0]
  dsimp only
  rw [if_pos hX]
  have e2 : encontra_processo_por_pid x.processos p.pid = some 0 := by
    rw [hps]
    unfold encontra_processo_por_pid
    rw [if_pos rfl]
  rw [e2]
  dsimp only
  have e3 : altera_processo x.processos 0 (fun p => proc_muda_estado p ESTADO_TERMINADO) =
      [proc_muda_estado p ESTADO_TERMINADO] := by
    unfold altera_processo
    rw [hps]
    rfl
  rw [e3]
  have e4 : corrente { x with processos := [proc_muda_estado p ESTADO_TERMINADO] } =
      some (0, proc_muda_estado p ESTADO_TERMINADO) :=
    (corrente_eq_some _ 0 _).mpr ⟨hc, rfl⟩
  rw [e4]
  dsimp only
  have e5 : (proc_muda_estado p ESTADO_TERMINADO).pid = p.pid := rfl
  simp only [e5, if_true]
  unfold remove_processo_da_lista
  dsimp only
  rw [hf]
  unfold remove_da_fila
  cases x
  dsimp only at hf
  subst hf
  rfl

/-- The sweep does nothing on a table of one descriptor that is not BLOCKED. -/
theorem so_trata_pendencias_unico (x : so_t) (p : processo_t) (hps : x.processos = [p])
    (he : p.estado ≠ ESTADO_BLOQUEADO) : so_trata_pendencias x = x := by
  unfold so_trata_pendencias
  rw [hps]
  show so_trata_pendencias_proc x 0 = x
  unfold so_trata_pendencias_proc
  rw [hps]
  show (if p.estado = ESTADO_BLOQUEADO then _ else x) = x
  rw [if_neg he]

/-- Round-robin with no current process and an empty ready queue: nothing is
chosen. -/
theorem so_escalona_vazio (x : so_t) (hc : x.processo_corrente = none)
    (hf : x.fila_prontos = []) : so_escalona x 2 = x := by
  have e1 : ∀ f, altera_corrente x f = x := by
    intro f
    unfold altera_corrente
    rw [hc]
  have e2 : atualiza_prioridade (atualiza_estado_processo_corrente x) = x := by
    unfold atualiza_estado_processo_corrente
    rw [e1]
    unfold atualiza_prioridade
    rw [e1]
  unfold so_escalona
  dsimp only
  rw [e2, if_neg (by decide), if_pos rfl]
  have e3 : corrente x = none := by unfold corrente; rw [hc]
  have e4 : corrente_executando x = false := by
    unfold corrente_executando
    rw [e3]
  unfold escalonador_round_robin reinsere_corrente
  rw [e4]
  simp only [Bool.false_and, Bool.false_eq_true, if_false]
  rw [hf]
  unfold remove_primeiro_processo_fila
  dsimp only
  cases x
  dsimp only at hc hf
  subst hc hf
  rfl

/-- The entry of KILL(0) issued by the only descriptor of the table, under
round-robin: the descriptor is TERMINATED at the exit, with the preemption counter
it had, and the entry is the shutdown. -/
theorem entrada_mata_unico (s : so_t) (t : trap_t) (p : processo_t)
    (hps : s.processos = [p]) (hc : s.processo_corrente = some 0)
    (hf : s.fila_prontos = []) (hn : s.numero_processos = 1)
    (ht : t.irq = IRQ_SISTEMA) (hA : t.mem.A = 8) (hX : t.mem.X = 0) :
    (∃ q : processo_t, (entrada 2 s t).1.processos = [q] ∧ q.pid = p.pid ∧
      q.estado = ESTADO_TERMINADO ∧
      q.metricas.quantidade_preempcoes = p.metricas.quantidade_preempcoes) ∧
    (entrada 2 s t).2 = 1 ∧
    (entrada 2 s t).1.es.escritas = s.es.escritas ++
      (if t.escreve_ok s.es.D_RELOGIO_TIMER 0 = true
        then [(s.es.D_RELOGIO_TIMER, 0)] else []) ++
      (if t.escreve_ok s.es.D_RELOGIO_INTERRUPCAO 0 = true
        then [(s.es.D_RELOGIO_INTERRUPCAO, 0)] else []) := by
  have x1 : (na_entrada s t).processos = [p] := hps
  have x2 : (na_entrada s t).processo_corrente = some 0 := hc
  have x3 : (na_entrada s t).fila_prontos = [] := hf
  have x4 : (na_entrada s t).numero_processos = 1 := hn
  have x5 : (na_entrada s t).mem = t.mem := rfl
  have x6 : (na_entrada s t).es =
      { s.es with le := t.le, escreve_ok := t.escreve_ok } := rfl
  have ee : entrada 2 s t = so_trata_interrupcao_com 2 (na_entrada s t) IRQ_SISTEMA := by
    unfold entrada
    rw [ht]
  rw [ee, so_trata_interrupcao_com_fim]
  unfold apos_escalonar
  generalize na_entrada s t = x at x1 x2 x3 x4 x5 x6
  obtain ⟨q0, h1, h2, _, h4, h5⟩ := prepara_entrada_unico x p IRQ_SISTEMA x1 x2 x4
  obtain ⟨_, p2, p3, _, p5, _⟩ := prepara_entrada_quadro x IRQ_SISTEMA
  obtain ⟨m1, m2, _⟩ := prepara_entrada_mem x IRQ_SISTEMA
  rw [x5, hX] at h5
  have hk := so_trata_irq_mata_unico (prepara_entrada x IRQ_SISTEMA) q0 h1 (p3.trans x2)
    (by rw [m1, x5]; exact hA) h5 (p2.trans x3)
  rw [hk]
  have hs := so_trata_pendencias_unico
    { prepara_entrada x IRQ_SISTEMA with
      processos := [proc_muda_estado q0 ESTADO_TERMINADO],
      processo_corrente := none,
      mem := mem_escreve_ign (prepara_entrada x IRQ_SISTEMA).mem IRQ_END_A 0 }
    (proc_muda_estado q0 ESTADO_TERMINADO) rfl (by show ESTADO_TERMINADO ≠ ESTADO_BLOQUEADO; decide)
  rw [hs]
  have hv := so_escalona_vazio
    { prepara_entrada x IRQ_SISTEMA with
      processos := [proc_muda_estado q0 ESTADO_TERMINADO],
      processo_corrente := none,
      mem := mem_escreve_ign (prepara_entrada x IRQ_SISTEMA).mem IRQ_END_A 0 }
    rfl (p2.trans x3)
  rw [hv]
  have k1 : ({ prepara_entrada x IRQ_SISTEMA with
      processos := [proc_muda_estado q0 ESTADO_TERMINADO],
      processo_corrente := none,
      mem := mem_escreve_ign (prepara_entrada x IRQ_SISTEMA).mem IRQ_END_A 0 } : so_t).processos =
      [proc_muda_estado q0 ESTADO_TERMINADO] := rfl
  have k2 : ({ prepara_entrada x IRQ_SISTEMA with
      processos := [proc_muda_estado q0 ESTADO_TERMINADO],
      processo_corrente := none,
      mem := mem_escreve_ign (prepara_entrada x IRQ_SISTEMA).mem IRQ_END_A 0 } : so_t).numero_processos =
      1 := p5.trans x4
  have k3 : ({ prepara_entrada x IRQ_SISTEMA with
      processos := [proc_muda_estado q0 ESTADO_TERMINADO],
      processo_corrente := none,
      mem := mem_escreve_ign (prepara_entrada x IRQ_SISTEMA).mem IRQ_END_A 0 } : so_t).es =
      { s.es with le := t.le, escreve_ok := t.escreve_ok } := m2.trans x6
  generalize ({ prepara_entrada x IRQ_SISTEMA with
      processos := [proc_muda_estado q0 ESTADO_TERMINADO],
      processo_corrente := none,
      mem := mem_escreve_ign (prepara_entrada x IRQ_SISTEMA).mem IRQ_END_A 0 } : so_t) = H
    at k1 k2 k3 ⊢
  have hany : ¬ (H.processos.take H.numero_processos.toNat).any
      (fun p => p.estado ≠ ESTADO_TERMINADO) = true := by
    rw [k1, k2]
    show ¬ ([proc_muda_estado q0 ESTADO_TERMINADO].any
      (fun p => decide (p.estado ≠ ESTADO_TERMINADO)) = true)
    simp [proc_muda_estado]
  rw [if_neg hany]
  obtain ⟨f1, f2, _⟩ := finaliza_sistema_efeito H
  obtain ⟨g1, _⟩ := finaliza_sistema_quadro H
  refine ⟨⟨proc_muda_estado q0 ESTADO_TERMINADO, g1.trans k1, h2, rfl, ?_⟩, f1, ?_⟩
  · rw [← h4]
    simp [proc_muda_estado, preemptiu]
  · rw [f2, k3]

/-- The RESET handler when `init.maq` loads: the table holds the descriptor of
init alone, and init is current. -/
theorem so_trata_irq_reset_efeito (x : so_t) (prog : programa_t)
    (hprog : x.programas nome_init = some prog)
    (hcar : (carrega_palavras x.mem prog.end_carga prog.dados).2 = true)
    (hend : prog.end_carga ≠ -1) :
    (so_trata_irq_reset x).processos = [inicializa_processo x.pid_atual prog.end_carga] ∧
    (so_trata_irq_reset x).processo_corrente = some 0 ∧
    (so_trata_irq_reset x).fila_prontos = x.fila_prontos ∧
    (so_trata_irq_reset x).numero_processos = x.numero_processos + 1 ∧
    (so_trata_irq_reset x).quantum_proc = x.quantum_proc ∧
    (so_trata_irq_reset x).es = x.es := by
  unfold so_trata_irq_reset so_cria_processo so_carrega_programa
  rw [hprog]
  dsimp only
  cases hc : carrega_palavras x.mem prog.end_carga prog.dados with
  | mk m b =>
    rw [hc] at hcar
    dsimp only at hcar
    subst hcar
    dsimp only
    rw [if_neg hend]
    exact ⟨rfl, rfl, rfl, rfl, rfl, rfl⟩

/-- Round-robin on a table of one descriptor that is current, READY and has quantum
left: the descriptor is made RUNNING and stays current. -/
theorem so_escalona_unico_pronto (x : so_t) (p : processo_t) (hps : x.processos = [p])
    (hc : x.processo_corrente = some 0) (he : p.estado = ESTADO_PRONTO)
    (hq : 0 < x.quantum_proc) :
    (∃ q : processo_t, (so_escalona x 2).processos = [q] ∧ q.pid = p.pid ∧
      q.estado = ESTADO_INICIALIZANDO ∧ q.metricas = p.metricas) ∧
    (so_escalona x 2).processo_corrente = some 0 ∧
    (so_escalona x 2).fila_prontos = x.fila_prontos ∧
    (so_escalona x 2).numero_processos = x.numero_processos ∧
    (so_escalona x 2).es = x.es := by
  have e1 : atualiza_estado_processo_corrente x =
      { x with processos := [{ p with estado := ESTADO_INICIALIZANDO }] } := by
    unfold atualiza_estado_processo_corrente
    rw [altera_corrente_unico x p _ hps hc, if_pos he]
  have e2 : ∃ q : processo_t, q.pid = p.pid ∧ q.estado = ESTADO_INICIALIZANDO ∧
      q.metricas = p.metricas ∧
      atualiza_prioridade (atualiza_estado_processo_corrente x) =
        { x with processos := [q] } := by
    rw [e1]
    unfold atualiza_prioridade
    rw [altera_corrente_unico { x with processos := [{ p with estado := ESTADO_INICIALIZANDO }] }
      { p with estado := ESTADO_INICIALIZANDO } _ rfl hc]
    exact ⟨{ p with
      estado := ESTADO_INICIALIZANDO,
      prioridade := float_soma p.prioridade (acrescimo_de_prioridade x.quantum_proc) },
      rfl, rfl, rfl, rfl⟩
  obtain ⟨q, q1, q2, q3, e3⟩ := e2
  unfold so_escalona
  dsimp only
  rw [e3, if_neg (by decide), if_pos rfl]
  have e4 : corrente_executando { x with processos := [q] } = true :=
    (corrente_executando_iff _).mpr ⟨0, hc, by
      show estado_em [q] 0 = some ESTADO_INICIALIZANDO
      unfold estado_em
      rw [← q2]
      rfl⟩
  unfold escalonador_round_robin
  rw [if_pos (by
    rw [e4]
    simp only [Bool.true_and, decide_eq_true_eq]
    exact hq)]
  exact ⟨⟨q, rfl, q1, q2, q3⟩, hc, rfl, rfl, rfl⟩

/-- The boot entry under round-robin, from a freshly created kernel and with an
`init.maq` that loads: at the exit the table holds init alone (pid 1), RUNNING and
current, with the metrics `inicializa_processo` gave it, and the entry returns 0. -/
theorem entrada_boot (s0 : so_t) (t : trap_t) (prog : programa_t)
    (h0 : recem_criado s0) (hq : s0.quantum_proc = QUANTUM) (ht : t.irq = IRQ_RESET)
    (hprog : s0.programas nome_init = some prog)
    (hcar : (carrega_palavras t.mem prog.end_carga prog.dados).2 = true)
    (hend : prog.end_carga ≠ -1) :
    (∃ p : processo_t, (entrada 2 s0 t).1.processos = [p] ∧ p.pid = 1 ∧
      p.estado = ESTADO_INICIALIZANDO ∧
      p.metricas = (inicializa_processo 1 prog.end_carga).metricas) ∧
    (entrada 2 s0 t).1.processo_corrente = some 0 ∧
    (entrada 2 s0 t).1.fila_prontos = [] ∧
    (entrada 2 s0 t).1.numero_processos = 1 ∧
    (entrada 2 s0 t).2 = 0 := by
  obtain ⟨a1, a2, a3, a4, a5⟩ := h0
  have ee : entrada 2 s0 t = so_trata_interrupcao_com 2 (na_entrada s0 t) IRQ_RESET := by
    unfold entrada
    rw [ht]
  rw [ee, so_trata_interrupcao_com_fim]
  unfold apos_escalonar
  -- the state the handler receives
  obtain ⟨p1, p2, p3, p4, p5, p6⟩ := prepara_entrada_quadro (na_entrada s0 t) IRQ_RESET
  obtain ⟨m1, _, m3⟩ := prepara_entrada_mem (na_entrada s0 t) IRQ_RESET
  -- the handler
  obtain ⟨r1, r2, r3, r4, r5, _⟩ := so_trata_irq_reset_efeito
    (prepara_entrada (na_entrada s0 t) IRQ_RESET) prog (by rw [m3]; exact hprog)
    (by rw [m1]; exact hcar) hend
  have r1a : (so_trata_irq (prepara_entrada (na_entrada s0 t) IRQ_RESET) IRQ_RESET).processos =
      [inicializa_processo 1 prog.end_carga] := by
    rw [← a4]
    exact r1.trans (by rw [p4]; rfl)
  have r2a : (so_trata_irq (prepara_entrada (na_entrada s0 t) IRQ_RESET)
      IRQ_RESET).processo_corrente = some 0 := r2
  have r3a : (so_trata_irq (prepara_entrada (na_entrada s0 t) IRQ_RESET)
      IRQ_RESET).fila_prontos = [] := r3.trans (p2.trans a2)
  have r4a : (so_trata_irq (prepara_entrada (na_entrada s0 t) IRQ_RESET)
      IRQ_RESET).numero_processos = 1 := by
    refine r4.trans ?_
    rw [p5]
    show s0.numero_processos + 1 = 1
    rw [a5]
    rfl
  have r5a : (so_trata_irq (prepara_entrada (na_entrada s0 t) IRQ_RESET)
      IRQ_RESET).quantum_proc = QUANTUM := r5.trans (p6.trans hq)
  generalize so_trata_irq (prepara_entrada (na_entrada s0 t) IRQ_RESET) IRQ_RESET = H
    at r1a r2a r3a r4a r5a
  -- the sweep and the scheduler
  rw [so_trata_pendencias_unico H _ r1a (by show ESTADO_PRONTO ≠ ESTADO_BLOQUEADO; decide)]
  obtain ⟨⟨q, q1, q2, q3, q4⟩, c1, c2, c3, _⟩ := so_escalona_unico_pronto H _ r1a r2a rfl
    (by rw [r5a]; decide)
  generalize so_escalona H 2 = X at q1 c1 c2 c3
  have hany : (X.processos.take X.numero_processos.toNat).any
      (fun p => p.estado ≠ ESTADO_TERMINADO) = true := by
    rw [q1, c3, r4a]
    show [q].any (fun p => decide (p.estado ≠ ESTADO_TERMINADO)) = true
    simp [q3]
  rw [if_pos hany]
  have e0 : corrente X = some (0, q) := (corrente_eq_some X 0 q).mpr ⟨c1, by rw [q1]; rfl⟩
  unfold so_despacha
  rw [e0]
  dsimp only
  exact ⟨⟨q, q1, q2, q3, q4⟩, c1, c2.trans r3a, c3.trans r4a, rfl⟩

theorem so_cria_programas (IRQ_END_TRATADOR : Int) (mem : mem_t) (es : es_t)
    (programas : nome_t → Option programa_t) (s0 : so_t)
    (h : so_cria IRQ_END_TRATADOR mem es programas = some s0) : s0.programas = programas := by
  unfold so_cria at h
  dsimp only at h
  split at h
  · cases h
  · cases h
    unfold cpu_inicializa inicializa_metricas
    obtain ⟨m, pc, hl⟩ := so_carrega_programa_casos
      { mem := mem, es := es, programas := programas, erro_interno := false,
        processo_corrente := none, processos := [], fila_prontos := [],
        quantum_proc := QUANTUM, pid_atual := 1,
        metricas := { tempo_total_execucao := 0, tempo_total_ocioso := 0,
                      num_interrupcoes := fun _ => 0, num_preempcoes := 0 },
        numero_processos := 0, relogio_atual := -1 } nome_trata_int
    dsimp only at hl ⊢
    rw [hl]
    dsimp only
    split <;> split <;> rfl

/-! ## The bounds of the quantum under every policy -/

/-- The scheduler leaves the quantum between 0 and `QUANTUM`; under the two queue
policies a process it leaves current has quantum left. -/
theorem so_escalona_limites (x : so_t) (escalonador : Int) (h0 : 0 ≤ x.quantum_proc)
    (h5 : x.quantum_proc ≤ QUANTUM) :
    0 ≤ (so_escalona x escalonador).quantum_proc ∧
    (so_escalona x escalonador).quantum_proc ≤ QUANTUM ∧
    ((escalonador = 1 ∨ escalonador = 2) →
      (so_escalona x escalonador).processo_corrente ≠ none →
      1 ≤ (so_escalona x escalonador).quantum_proc) := by
  obtain ⟨_, _, _, q4, _⟩ := antes_da_politica_quadro x
  unfold so_escalona
  dsimp only
  have a0 : 0 ≤ (atualiza_prioridade (atualiza_estado_processo_corrente x)).quantum_proc := by
    rw [q4]; exact h0
  have a5 : (atualiza_prioridade (atualiza_estado_processo_corrente x)).quantum_proc ≤
      QUANTUM := by
    rw [q4]; exact h5
  generalize atualiza_prioridade (atualiza_estado_processo_corrente x) = s at a0 a5
  have hq : (0 : Int) ≤ QUANTUM ∧ (1 : Int) ≤ QUANTUM := by decide
  have hrr : 0 ≤ (escalonador_round_robin s).quantum_proc ∧
      (escalonador_round_robin s).quantum_proc ≤ QUANTUM ∧
      ((escalonador_round_robin s).processo_corrente ≠ none →
        1 ≤ (escalonador_round_robin s).quantum_proc) := by
    unfold escalonador_round_robin
    split
    · rename_i hk
      simp only [Bool.and_eq_true, decide_eq_true_eq] at hk
      exact ⟨a0, a5, fun _ => hk.2⟩
    · dsimp only
      split
      · rw [(so_executa_proc_fila _ _).2.1]
        exact ⟨hq.1, le_refl _, fun _ => hq.2⟩
      · refine ⟨?_, ?_, fun h => absurd rfl h⟩
        · show 0 ≤ (reinsere_corrente s).quantum_proc
          rw [(reinsere_corrente_quantum s).1]
          exact a0
        · show (reinsere_corrente s).quantum_proc ≤ QUANTUM
          rw [(reinsere_corrente_quantum s).1]
          exact a5
  have hpr : 0 ≤ (escalonador_prioridade s).quantum_proc ∧
      (escalonador_prioridade s).quantum_proc ≤ QUANTUM ∧
      ((escalonador_prioridade s).processo_corrente ≠ none →
        1 ≤ (escalonador_prioridade s).quantum_proc) := by
    unfold escalonador_prioridade
    split
    · rename_i hk
      simp only [Bool.and_eq_true, decide_eq_true_eq] at hk
      exact ⟨a0, a5, fun _ => hk.2⟩
    · dsimp only
      split
      · rw [(so_executa_proc_fila _ _).2.1]
        exact ⟨hq.1, le_refl _, fun _ => hq.2⟩
      · refine ⟨?_, ?_, fun h => absurd rfl h⟩
        · show 0 ≤ (reinsere_corrente s).quantum_proc
          rw [(reinsere_corrente_quantum s).1]
          exact a0
        · show (reinsere_corrente s).quantum_proc ≤ QUANTUM
          rw [(reinsere_corrente_quantum s).1]
          exact a5
  have hsi : 0 ≤ (escalonador_simples s).quantum_proc ∧
      (escalonador_simples s).quantum_proc ≤ QUANTUM := by
    unfold escalonador_simples
    split
    · exact ⟨a0, a5⟩
    · split
      · rw [(so_executa_proc_fila _ _).2.1]
        exact ⟨hq.1, le_refl _⟩
      · split <;> exact ⟨a0, a5⟩
  split
  · exact ⟨hpr.1, hpr.2.1, fun _ => hpr.2.2⟩
  · split
    · exact ⟨hrr.1, hrr.2.1, fun _ => hrr.2.2⟩
    · rename_i h1 h2
      split
      · exact ⟨hsi.1, hsi.2, fun h => by rcases h with h | h <;> contradiction⟩
      · exact ⟨a0, a5, fun h => by rcases h with h | h <;> contradiction⟩

/-- Every kernel entry, under every policy, leaves the quantum between 0 and
`QUANTUM`, and at least 1 under the two queue policies when a process is current
at the exit. -/
theorem entrada_limites (escalonador : Int) (s : so_t) (t : trap_t) (h0 : 0 ≤ s.quantum_proc)
    (h5 : s.quantum_proc ≤ QUANTUM) :
    0 ≤ (entrada escalonador s t).1.quantum_proc ∧
    (entrada escalonador s t).1.quantum_proc ≤ QUANTUM ∧
    ((escalonador = 1 ∨ escalonador = 2) →
      (entrada escalonador s t).1.processo_corrente ≠ none →
      1 ≤ (entrada escalonador s t).1.quantum_proc) := by
  obtain ⟨_, _, _, _, _, p6⟩ := prepara_entrada_quadro (na_entrada s t) t.irq
  have p6a : (prepara_entrada (na_entrada s t) t.irq).quantum_proc = s.quantum_proc := p6
  obtain ⟨l0, l5⟩ := so_trata_irq_limites (prepara_entrada (na_entrada s t) t.irq) t.irq
    (by rw [p6a]; exact h0) (by rw [p6a]; exact h5)
  obtain ⟨_, _, sq, _⟩ := so_trata_pendencias_quadro
    (so_trata_irq (prepara_entrada (na_entrada s t) t.irq) t.irq)
  obtain ⟨i0, i5, i3⟩ := so_escalona_limites
    (so_trata_pendencias (so_trata_irq (prepara_entrada (na_entrada s t) t.irq) t.irq))
    escalonador (by rw [sq]; exact l0) (by rw [sq]; exact l5)
  obtain ⟨_, _, f3, f4⟩ := fim_da_entrada_quadro _ _
    (so_trata_interrupcao_com_forma escalonador (na_entrada s t) t.irq)
  unfold entrada
  rw [f3, f4]
  exact ⟨i0, i5, i3⟩

theorem executa_limites (escalonador : Int) : ∀ (ts : List trap_t) (s : so_t),
    0 ≤ s.quantum_proc → s.quantum_proc ≤ QUANTUM →
    0 ≤ (executa escalonador s ts).quantum_proc ∧
    (executa escalonador s ts).quantum_proc ≤ QUANTUM := by
  intro ts
  induction ts with
  | nil => intro s h0 h5; exact ⟨h0, h5⟩
  | cons t ts ih =>
    intro s h0 h5
    obtain ⟨l0, l5, _⟩ := entrada_limites escalonador s t h0 h5
    exact ih _ l0 l5

/-- The quantum is between 0 and `QUANTUM` when the scheduler runs, if it was at
the entry. -/
theorem antes_de_escalonar_limites (s : so_t) (irq : irq_t) (h0 : 0 ≤ s.quantum_proc)
    (h5 : s.quantum_proc ≤ QUANTUM) :
    0 ≤ (so_trata_pendencias (so_trata_irq (prepara_entrada s irq) irq)).quantum_proc ∧
    (so_trata_pendencias (so_trata_irq (prepara_entrada s irq) irq)).quantum_proc ≤ QUANTUM := by
  obtain ⟨_, _, _, _, _, p6⟩ := prepara_entrada_quadro s irq
  obtain ⟨l0, l5⟩ := so_trata_irq_limites (prepara_entrada s irq) irq
    (by rw [p6]; exact h0) (by rw [p6]; exact h5)
  obtain ⟨_, _, sq, _⟩ := so_trata_pendencias_quadro (so_trata_irq (prepara_entrada s irq) irq)
  rw [sq]
  exact ⟨l0, l5⟩

/-! ## Priorities and preemption counters along a kernel entry -/

theorem contadores_altera (ps : List processo_t) (i : Nat) (f : processo_t → processo_t)
    (hf : ∀ p, ps[i]? = some p →
      ((f p).prioridade, (f p).metricas.quantidade_preempcoes) =
        (p.prioridade, p.metricas.quantidade_preempcoes)) :
    contadores (altera_processo ps i f) = contadores ps := by
  unfold contadores
  apply List.ext_getElem?
  intro j
  simp only [List.getElem?_map, getElem?_altera_processo]
  by_cases hj : j = i
  · subst hj
    rw [if_pos rfl]
    cases h : ps[j]? with
    | none => rfl
    | some p =>
      simp only [Option.map_some']
      rw [hf p h]
  · rw [if_neg hj]

theorem contadores_altera_corrente (s : so_t) (f : processo_t → processo_t)
    (hf : ∀ p, ((f p).prioridade, (f p).metricas.quantidade_preempcoes) =
      (p.prioridade, p.metricas.quantidade_preempcoes)) :
    contadores (altera_corrente s f).processos = contadores s.processos := by
  unfold altera_corrente
  cases s.processo_corrente with
  | none => rfl
  | some c => exact contadores_altera _ _ _ (fun p _ => hf p)

theorem contadores_nos_primeiros (n : Int) (f : processo_t → processo_t)
    (ps : List processo_t)
    (hf : ∀ p, ((f p).prioridade, (f p).metricas.quantidade_preempcoes) =
      (p.prioridade, p.metricas.quantidade_preempcoes)) :
    contadores (nos_primeiros n f ps) = contadores ps := by
  unfold contadores nos_primeiros
  rw [List.map_append, List.map_map]
  have : ((fun p => (p.prioridade, p.metricas.quantidade_preempcoes)) ∘ f) =
      (fun p : processo_t => (p.prioridade, p.metricas.quantidade_preempcoes)) := by
    funext p
    exact hf p
  rw [this, ← List.map_append, List.take_append_drop]

/-- A change of state other than RUNNING to READY keeps the priority and the
preemption counter. -/
theorem proc_muda_estado_contadores (p : processo_t) (e : estado_processo_t)
    (h : p.estado ≠ ESTADO_INICIALIZANDO ∨ e ≠ ESTADO_PRONTO) :
    ((proc_muda_estado p e).prioridade, (proc_muda_estado p e).metricas.quantidade_preempcoes) =
      (p.prioridade, p.metricas.quantidade_preempcoes) := by
  have hp : preemptiu p e = false := by
    unfold preemptiu
    rcases h with h | h <;> simp [h]
  unfold proc_muda_estado
  simp [hp]

/-- The steps before the IRQ handler keep the priorities and the preemption
counters. -/
theorem prepara_entrada_contadores (x : so_t) (irq : irq_t) :
    contadores (prepara_entrada x irq).processos = contadores x.processos := by
  have h2 : contadores (salva_estado_cpu_no_processo (conta_interrupcao x irq)).processos =
      contadores x.processos := by
    unfold salva_estado_cpu_no_processo
    exact contadores_altera_corrente (conta_interrupcao x irq) _ (fun p => rfl)
  have h1 : ∀ y : so_t, contadores (atualiza_metricas_com_relogio y).processos =
      contadores y.processos := by
    intro y
    unfold atualiza_metricas_com_relogio
    dsimp only
    split
    · rfl
    · split
      · rfl
      · unfold atualiza_metricas_sistema
        dsimp only
        apply contadores_nos_primeiros
        intro p
        unfold atualiza_metricas_processo
        dsimp only
        split <;> split <;> rfl
  unfold prepara_entrada
  rw [h1, h2]

theorem so_chamada_le_contadores (s : so_t) :
    contadores (so_chamada_le s).processos = contadores s.processos ∧
    (so_chamada_le s).metricas = s.metricas := by
  unfold so_chamada_le
  split
  · exact ⟨rfl, rfl⟩
  · dsimp only
    split
    · exact ⟨rfl, rfl⟩
    · split
      · refine ⟨contadores_altera _ _ _ (fun p _ => ?_), rfl⟩
        exact proc_muda_estado_contadores p ESTADO_BLOQUEADO (Or.inr (by decide))
      · split <;> exact ⟨rfl, rfl⟩

theorem so_chamada_escr_contadores (s : so_t) :
    contadores (so_chamada_escr s).processos = contadores s.processos ∧
    (so_chamada_escr s).metricas = s.metricas := by
  unfold so_chamada_escr
  split
  · exact ⟨rfl, rfl⟩
  · dsimp only
    split
    · exact ⟨rfl, rfl⟩
    · split
      · split
        · exact ⟨rfl, rfl⟩
        · rename_i x _
          refine ⟨contadores_altera _ _ _ (fun p _ => ?_), rfl⟩
          exact proc_muda_estado_contadores { p with dado_pendente := x } ESTADO_BLOQUEADO
            (Or.inr (by decide))
      · split
        · exact ⟨rfl, rfl⟩
        · split <;> exact ⟨rfl, rfl⟩

theorem so_chamada_espera_proc_contadores (s : so_t) :
    contadores (so_chamada_espera_proc s).processos = contadores s.processos ∧
    (so_chamada_espera_proc s).metricas = s.metricas := by
  unfold so_chamada_espera_proc
  split
  · exact ⟨rfl, rfl⟩
  · dsimp only
    split
    · exact ⟨rfl, rfl⟩
    · split
      · exact ⟨rfl, rfl⟩
      · split
        · exact ⟨rfl, rfl⟩
        · split
          · exact ⟨rfl, rfl⟩
          · refine ⟨contadores_altera _ _ _ (fun p _ => ?_), rfl⟩
            exact proc_muda_estado_contadores p ESTADO_BLOQUEADO (Or.inr (by decide))

theorem so_chamada_mata_proc_contadores (s : so_t) :
    contadores (so_chamada_mata_proc s).processos = contadores s.processos ∧
    (so_chamada_mata_proc s).metricas = s.metricas := by
  cases hc : corrente s with
  | none =>
    unfold so_chamada_mata_proc
    rw [hc]
    exact ⟨rfl, rfl⟩
  | some cp =>
    obtain ⟨c, pc⟩ := cp
    cases hi : encontra_processo_por_pid s.processos
        (if pc.reg1 = 0 then pc.pid else pc.reg1) with
    | none =>
      unfold so_chamada_mata_proc
      rw [hc]
      dsimp only
      rw [hi]
      exact ⟨rfl, rfl⟩
    | some i =>
      rw [so_chamada_mata_proc_achou s c pc i hc hi]
      refine ⟨contadores_altera _ _ _ (fun p _ => ?_), rfl⟩
      exact proc_muda_estado_contadores p ESTADO_TERMINADO (Or.inr (by decide))

theorem so_chamada_cria_proc_contadores (s : so_t) :
    (contadores (so_chamada_cria_proc s).processos = contadores s.processos ∨
      contadores (so_chamada_cria_proc s).processos = contadores s.processos ++ [(1 / 2, 0)]) ∧
    (so_chamada_cria_proc s).metricas = s.metricas := by
  unfold so_chamada_cria_proc
  split
  · exact ⟨Or.inl rfl, rfl⟩
  · split
    · exact ⟨Or.inl rfl, rfl⟩
    · rename_i nome _
      obtain ⟨m, h | ⟨pc, h⟩⟩ := so_cria_processo_casos s nome
      · rw [h]
        exact ⟨Or.inl rfl, rfl⟩
      · rw [h]
        dsimp only
        refine ⟨Or.inr ?_, ?_⟩
        · refine Eq.trans (contadores_altera_corrente _ _ (fun p => rfl)) ?_
          unfold insere_na_fila_prontos adiciona_processo_na_lista contadores
          dsimp only
          rw [List.map_append]
          rfl
        · exact (altera_corrente_resto _ _).2.1

theorem so_trata_irq_contadores (s : so_t) (irq : irq_t) (hirq : irq ≠ IRQ_RESET) :
    (contadores (so_trata_irq s irq).processos = contadores s.processos ∨
      contadores (so_trata_irq s irq).processos = contadores s.processos ++ [(1 / 2, 0)]) ∧
    (so_trata_irq s irq).metricas = s.metricas := by
  cases irq with
  | IRQ_RESET => exact absurd rfl hirq
  | IRQ_ERR_CPU =>
    show (contadores (so_trata_irq_err_cpu s).processos = _ ∨
      contadores (so_trata_irq_err_cpu s).processos = _) ∧ (so_trata_irq_err_cpu s).metricas = _
    unfold so_trata_irq_err_cpu verifica_processos_em_espera
    dsimp only
    split
    · refine ⟨Or.inl ?_, rfl⟩
      dsimp only
      have h1 : ∀ ps : List processo_t,
          contadores (ps.map (fun processo_atual =>
            if processo_atual.estado = ESTADO_BLOQUEADO then
              { processo_atual with estado := ESTADO_PRONTO }
            else processo_atual)) = contadores ps := by
        intro ps
        unfold contadores
        rw [List.map_map]
        congr 1
        funext p
        by_cases h : p.estado = ESTADO_BLOQUEADO <;> simp [h]
      rw [h1]
      exact contadores_altera _ _ _ (fun p _ => rfl)
    · exact ⟨Or.inl rfl, rfl⟩
  | IRQ_SISTEMA =>
    show (contadores (so_trata_irq_chamada_sistema s).processos = _ ∨
      contadores (so_trata_irq_chamada_sistema s).processos = _) ∧
      (so_trata_irq_chamada_sistema s).metricas = _
    unfold so_trata_irq_chamada_sistema
    split
    · exact ⟨Or.inl rfl, rfl⟩
    · split
      · exact ⟨Or.inl (so_chamada_le_contadores s).1, (so_chamada_le_contadores s).2⟩
      · split
        · exact ⟨Or.inl (so_chamada_escr_contadores s).1, (so_chamada_escr_contadores s).2⟩
        · split
          · exact so_chamada_cria_proc_contadores s
          · split
            · exact ⟨Or.inl (so_chamada_mata_proc_contadores s).1,
                (so_chamada_mata_proc_contadores s).2⟩
            · split
              · exact ⟨Or.inl (so_chamada_espera_proc_contadores s).1,
                  (so_chamada_espera_proc_contadores s).2⟩
              · exact ⟨Or.inl (so_chamada_mata_proc_contadores s).1,
                  (so_chamada_mata_proc_contadores s).2⟩
  | IRQ_RELOGIO =>
    show (contadores (so_trata_irq_relogio s).processos = _ ∨
      contadores (so_trata_irq_relogio s).processos = _) ∧ (so_trata_irq_relogio s).metricas = _
    unfold so_trata_irq_relogio
    dsimp only
    split <;> split <;> exact ⟨Or.inl rfl, rfl⟩
  | IRQ_RESERVADA_4 => exact ⟨Or.inl rfl, rfl⟩
  | IRQ_RESERVADA_5 => exact ⟨Or.inl rfl, rfl⟩

/-- The sweep keeps the priorities and the preemption counters: the descriptors
it makes READY were BLOCKED, not RUNNING. -/
theorem so_trata_pendencias_contadores (x : so_t) :
    contadores (so_trata_pendencias x).processos = contadores x.processos := by
  refine foldl_preserva (fun s => contadores s.processos = contadores x.processos)
    so_trata_pendencias_proc ?_ _ x rfl
  intro a b ha
  obtain ⟨l, e | ⟨proc, hp, hb, _, e⟩⟩ := so_trata_pendencias_proc_casos a b
  · rw [e]
    exact ha
  · rw [e]
    refine Eq.trans (contadores_altera _ _ _ (fun p hp1 => ?_)) ha
    rw [hp] at hp1
    cases hp1
    exact proc_muda_estado_contadores proc ESTADO_PRONTO (Or.inl (by rw [hb]; decide))

theorem so_escalona_formas_metricas (self : so_t) (escalonador : Int) :
    ((so_escalona self escalonador).processos =
        (atualiza_prioridade (atualiza_estado_processo_corrente self)).processos ∧
      (so_escalona self escalonador).metricas =
        (atualiza_prioridade (atualiza_estado_processo_corrente self)).metricas) ∨
    ∃ x h, so_escalona self escalonador = so_executa_proc x (some h) ∧
      x.processos = (atualiza_prioridade (atualiza_estado_processo_corrente self)).processos ∧
      x.processo_corrente =
        (atualiza_prioridade (atualiza_estado_processo_corrente self)).processo_corrente ∧
      x.metricas = (atualiza_prioridade (atualiza_estado_processo_corrente self)).metricas := by
  unfold so_escalona
  dsimp only
  generalize atualiza_prioridade (atualiza_estado_processo_corrente self) = s
  have hr : (reinsere_corrente s).processos = s.processos ∧
      (reinsere_corrente s).processo_corrente = s.processo_corrente ∧
      (reinsere_corrente s).metricas = s.metricas := by
    rcases reinsere_corrente_casos s with ⟨_, e⟩ | ⟨c, _, _, e⟩ <;> rw [e] <;> exact ⟨rfl, rfl, rfl⟩
  split
  · unfold escalonador_prioridade
    split
    · exact Or.inl ⟨rfl, rfl⟩
    · dsimp only
      split
      · rename_i h resto _
        exact Or.inr ⟨_, h, rfl, hr.1, hr.2.1, hr.2.2⟩
      · exact Or.inl ⟨hr.1, hr.2.2⟩
  · split
    · unfold escalonador_round_robin
      split
      · exact Or.inl ⟨rfl, rfl⟩
      · dsimp only
        split
        · rename_i h resto _
          exact Or.inr ⟨_, h, rfl, hr.1, hr.2.1, hr.2.2⟩
        · exact Or.inl ⟨hr.1, hr.2.2⟩
    · split
      · unfold escalonador_simples
        split
        · exact Or.inl ⟨rfl, rfl⟩
        · split
          · rename_i h _
            exact Or.inr ⟨s, h, rfl, rfl, rfl, rfl⟩
          · split <;> exact Or.inl ⟨rfl, rfl⟩
      · exact Or.inl ⟨rfl, rfl⟩

/-- The execution transition changes no priority. -/
theorem so_executa_proc_prioridades (y : so_t) (proc : Option Nat) :
    (so_executa_proc y proc).processos.map (fun p => p.prioridade) =
      y.processos.map (fun p => p.prioridade) := by
  have h1 : (so_executa_proc_preempcao y proc).processos.map (fun p => p.prioridade) =
      y.processos.map (fun p => p.prioridade) := by
    unfold so_executa_proc_preempcao
    split
    · split
      · exact map_altera_processo (fun p => p.prioridade) _ _ _ (fun p => rfl)
      · rfl
    · rfl
  have h2 : ∀ z : so_t, (so_executa_proc_inicio z proc).processos.map (fun p => p.prioridade) =
      z.processos.map (fun p => p.prioridade) := by
    intro z
    unfold so_executa_proc_inicio
    split
    · split
      · split
        · exact map_altera_processo (fun p => p.prioridade) _ _ _ (fun p => rfl)
        · rfl
      · rfl
    · rfl
  exact (h2 _).trans h1

theorem soma_preempcoes_set : ∀ (ps : List processo_t) (c : Nat) (p q : processo_t),
    ps[c]? = some p →
    soma_preempcoes (ps.set c q) = soma_preempcoes ps +
      (q.metricas.quantidade_preempcoes - p.metricas.quantidade_preempcoes) := by
  intro ps
  induction ps with
  | nil => intro c p q h; simp at h
  | cons x xs ih =>
    intro c p q h
    cases c with
    | zero =>
      simp only [List.getElem?_cons_zero, Option.some.injEq] at h
      subst h
      simp only [soma_preempcoes, contadores, List.set_cons_zero, List.map_cons, List.sum_cons]
      ring
    | succ c =>
      simp only [List.getElem?_cons_succ] at h
      have := ih c p q h
      simp only [soma_preempcoes, contadores, List.set_cons_succ, List.map_cons,
        List.sum_cons] at this ⊢
      rw [this]
      ring

theorem soma_preempcoes_de_contadores {ps qs : List processo_t}
    (h : contadores qs = contadores ps) : soma_preempcoes qs = soma_preempcoes ps := by
  unfold soma_preempcoes
  rw [h]

/-- The execution transition adds as much to the global preemption counter as to
the preemption counters of the table. -/
theorem so_executa_proc_saldo (y : so_t) (proc : Option Nat) :
    (so_executa_proc y proc).metricas.num_preempcoes -
        soma_preempcoes (so_executa_proc y proc).processos =
      y.metricas.num_preempcoes - soma_preempcoes y.processos := by
  have h1 : (so_executa_proc_preempcao y proc).metricas.num_preempcoes -
        soma_preempcoes (so_executa_proc_preempcao y proc).processos =
      y.metricas.num_preempcoes - soma_preempcoes y.processos := by
    unfold so_executa_proc_preempcao
    cases hc : corrente y with
    | none => rfl
    | some cp =>
      obtain ⟨c, pc⟩ := cp
      obtain ⟨_, hp⟩ := (corrente_eq_some y c pc).mp hc
      dsimp only
      split
      · rename_i hk
        dsimp only
        have e : altera_processo y.processos c (fun p => proc_muda_estado p ESTADO_PRONTO) =
            y.processos.set c (proc_muda_estado pc ESTADO_PRONTO) := by
          unfold altera_processo
          rw [hp]
        rw [e, soma_preempcoes_set y.processos c pc _ hp]
        have hq : (proc_muda_estado pc ESTADO_PRONTO).metricas.quantidade_preempcoes =
            pc.metricas.quantidade_preempcoes + 1 := by
          unfold proc_muda_estado preemptiu
          simp [hk.2]
        rw [hq]
        ring
      · rfl
  have h2 : ∀ z : so_t, (so_executa_proc_inicio z proc).metricas = z.metricas ∧
      contadores (so_executa_proc_inicio z proc).processos = contadores z.processos := by
    intro z
    unfold so_executa_proc_inicio
    split
    · split
      · split
        · refine ⟨rfl, contadores_altera _ _ _ (fun p _ => ?_)⟩
          exact proc_muda_estado_contadores p ESTADO_INICIALIZANDO (Or.inr (by decide))
        · exact ⟨rfl, rfl⟩
      · exact ⟨rfl, rfl⟩
    · exact ⟨rfl, rfl⟩
  obtain ⟨a, b⟩ := h2 (so_executa_proc_preempcao y proc)
  show (so_executa_proc_inicio (so_executa_proc_preempcao y proc) proc).metricas.num_preempcoes -
    soma_preempcoes (so_executa_proc_inicio (so_executa_proc_preempcao y proc) proc).processos = _
  rw [a, soma_preempcoes_de_contadores b]
  exact h1

theorem prioridades_de_contadores {ps qs : List processo_t}
    (h : contadores qs = contadores ps) :
    qs.map (fun p => p.prioridade) = ps.map (fun p => p.prioridade) := by
  have h1 := congrArg (fun l => l.map (fun x : ℚ × Int => x.1)) h
  simpa [contadores, List.map_map, Function.comp_def] using h1

/-- The priorities after the scheduler are those after its priority update: the
policy changes none. -/
theorem so_escalona_prioridades (x : so_t) (escalonador : Int) :
    (so_escalona x escalonador).processos.map (fun p => p.prioridade) =
      (atualiza_prioridade (atualiza_estado_processo_corrente x)).processos.map
        (fun p => p.prioridade) := by
  rcases so_escalona_formas_metricas x escalonador with ⟨e, _⟩ | ⟨y, h, e, e1, _, _⟩
  · rw [e]
  · rw [e, so_executa_proc_prioridades, e1]

/-- The scheduler adds as much to the global preemption counter as to the
preemption counters of the table. -/
theorem so_escalona_saldo (x : so_t) (escalonador : Int) :
    (so_escalona x escalonador).metricas.num_preempcoes -
        soma_preempcoes (so_escalona x escalonador).processos =
      x.metricas.num_preempcoes - soma_preempcoes x.processos := by
  have a1 : contadores (atualiza_estado_processo_corrente x).processos =
      contadores x.processos := by
    unfold atualiza_estado_processo_corrente
    exact contadores_altera_corrente x _ (fun p => by split <;> rfl)
  have a2 : soma_preempcoes (atualiza_prioridade (atualiza_estado_processo_corrente x)).processos =
      soma_preempcoes (atualiza_estado_processo_corrente x).processos := by
    have h : ∀ (s : so_t) (f : processo_t → processo_t),
        (∀ p, (f p).metricas = p.metricas) →
        soma_preempcoes (altera_corrente s f).processos = soma_preempcoes s.processos := by
      intro s f hf
      unfold soma_preempcoes contadores
      rw [List.map_map, List.map_map]
      have e := map_altera_processo (fun p => p.metricas.quantidade_preempcoes)
      unfold altera_corrente
      cases s.processo_corrente with
      | none => rfl
      | some c =>
        exact congrArg List.sum (e s.processos c f (fun p => by rw [hf p]))
    unfold atualiza_prioridade
    exact h _ _ (fun p => rfl)
  have a3 := (antes_da_politica_quadro x).2.1
  have a4 : soma_preempcoes (atualiza_prioridade (atualiza_estado_processo_corrente x)).processos =
      soma_preempcoes x.processos := a2.trans (soma_preempcoes_de_contadores a1)
  rcases so_escalona_formas_metricas x escalonador with ⟨e1, e2⟩ | ⟨y, h, e, e1, _, e3⟩
  · rw [e1, e2, a3, a4]
  · rw [e, so_executa_proc_saldo, e1, e3, a3, a4]

theorem so_trata_irq_reset_contadores (s : so_t) :
    (contadores (so_trata_irq_reset s).processos = contadores s.processos ∨
      contadores (so_trata_irq_reset s).processos = [(1 / 2, 0)]) ∧
    (so_trata_irq_reset s).metricas = s.metricas := by
  unfold so_trata_irq_reset
  obtain ⟨m, h | ⟨pc, h⟩⟩ := so_cria_processo_casos s nome_init
  · rw [h]
    exact ⟨Or.inl rfl, rfl⟩
  · rw [h]
    exact ⟨Or.inr rfl, rfl⟩

/-- A kernel entry other than RESET, under any policy, adds as much to the global
preemption counter as to the preemption counters of the table; so does a RESET
entry taken while the table is empty. -/
theorem entrada_saldo (escalonador : Int) (s : so_t) (t : trap_t)
    (hirq : t.irq ≠ IRQ_RESET ∨ s.processos = []) :
    (entrada escalonador s t).1.metricas.num_preempcoes -
        soma_preempcoes (entrada escalonador s t).1.processos =
      s.metricas.num_preempcoes - soma_preempcoes s.processos := by
  have p1 : contadores (prepara_entrada (na_entrada s t) t.irq).processos =
      contadores s.processos := prepara_entrada_contadores (na_entrada s t) t.irq
  have p2 : (prepara_entrada (na_entrada s t) t.irq).metricas.num_preempcoes =
      s.metricas.num_preempcoes := (prepara_entrada_preempcoes (na_entrada s t) t.irq).1
  have f0 := so_trata_interrupcao_com_forma escalonador (na_entrada s t) t.irq
  obtain ⟨f1, _, _, _⟩ := fim_da_entrada_quadro _ _ f0
  obtain ⟨f2, _⟩ := fim_da_entrada_metricas _ _ f0
  unfold entrada
  rw [f1, f2, so_escalona_saldo,
    soma_preempcoes_de_contadores (so_trata_pendencias_contadores _),
    (so_trata_pendencias_quadro _).2.1]
  generalize prepara_entrada (na_entrada s t) t.irq = P at p1 p2
  have hs : soma_preempcoes (so_trata_irq P t.irq).processos = soma_preempcoes s.processos ∧
      (so_trata_irq P t.irq).metricas = P.metricas := by
    by_cases hr : t.irq = IRQ_RESET
    · have hv : s.processos = [] := by
        rcases hirq with h | h
        · exact absurd hr h
        · exact h
      rw [hr]
      obtain ⟨h1, h2⟩ := so_trata_irq_reset_contadores P
      refine ⟨?_, h2⟩
      rcases h1 with h1 | h1
      · exact soma_preempcoes_de_contadores (h1.trans p1)
      · show soma_preempcoes (so_trata_irq_reset P).processos = _
        unfold soma_preempcoes
        rw [h1, hv]
        rfl
    · obtain ⟨h1, h2⟩ := so_trata_irq_contadores P t.irq hr
      refine ⟨?_, h2⟩
      rcases h1 with h1 | h1
      · exact soma_preempcoes_de_contadores (h1.trans p1)
      · unfold soma_preempcoes
        rw [h1, p1]
        simp
  rw [hs.1, hs.2, p2]

theorem so_cria_preempcoes (IRQ_END_TRATADOR : Int) (mem : mem_t) (es : es_t)
    (programas : nome_t → Option programa_t) (s0 : so_t)
    (h : so_cria IRQ_END_TRATADOR mem es programas = some s0) :
    s0.metricas.num_preempcoes = 0 := by
  unfold so_cria at h
  dsimp only at h
  split at h
  · cases h
  · cases h
    unfold cpu_inicializa inicializa_metricas
    obtain ⟨m, pc, hl⟩ := so_carrega_programa_casos
      { mem := mem, es := es, programas := programas, erro_interno := false,
        processo_corrente := none, processos := [], fila_prontos := [],
        quantum_proc := QUANTUM, pid_atual := 1,
        metricas := { tempo_total_execucao := 0, tempo_total_ocioso := 0,
                      num_interrupcoes := fun _ => 0, num_preempcoes := 0 },
        numero_processos := 0, relogio_atual := -1 } nome_trata_int
    dsimp only at hl ⊢
    rw [hl]
    dsimp only
    split <;> split <;> rfl

/-- A run without RESET keeps the difference between the global preemption
counter and the sum of the preemption counters of the table. -/
theorem executa_saldo (escalonador : Int) : ∀ (ts : List trap_t) (s : so_t), sem_reset ts →
    (executa escalonador s ts).metricas.num_preempcoes -
        soma_preempcoes (executa escalonador s ts).processos =
      s.metricas.num_preempcoes - soma_preempcoes s.processos := by
  intro ts
  induction ts with
  | nil => intro s _; rfl
  | cons t ts ih =>
    intro s hts
    show (executa escalonador (entrada escalonador s t).1 ts).metricas.num_preempcoes -
      soma_preempcoes (executa escalonador (entrada escalonador s t).1 ts).processos = _
    rw [ih _ (fun u hu => hts u (List.mem_cons_of_mem _ hu))]
    exact entrada_saldo escalonador s t (Or.inl (hts t (List.mem_cons_self _ _)))

/-! ## The priorities along a run -/

theorem float_arredonda_nonneg {x : ℚ} (h : 0 ≤ x) : 0 ≤ float_arredonda x := by
  have := float_arredonda_mono h
  rw [float_arredonda_zero] at this
  exact this

theorem float_arredonda_meio : float_arredonda (1 / 2) = 1 / 2 := by decide!

theorem float_arredonda_um : float_arredonda 1 = 1 := by decide!

theorem float_arredonda_quantum : float_de_int QUANTUM = 5 := by decide!

theorem float_arredonda_teto : float_arredonda (16777216 + 1 / 2) = 16777216 := by decide!

theorem acrescimo_de_prioridade_limites (q : Int) :
    (q ≤ QUANTUM → 0 ≤ acrescimo_de_prioridade q) ∧
    (0 ≤ q → acrescimo_de_prioridade q ≤ 1 / 2) ∧
    acrescimo_de_prioridade QUANTUM = 0 ∧ acrescimo_de_prioridade 0 = 1 / 2 := by
  refine ⟨?_, ?_, by decide!, by decide!⟩
  · intro h
    unfold acrescimo_de_prioridade float_div
    rw [float_arredonda_quantum]
    have h1 : (0 : ℚ) ≤ ((QUANTUM - q : Int) : ℚ) := by
      exact_mod_cast (by omega : (0 : Int) ≤ QUANTUM - q)
    have h2 : 0 ≤ float_de_int (QUANTUM - q) := float_arredonda_nonneg h1
    have h3 : 0 ≤ float_arredonda (float_de_int (QUANTUM - q) / 5) :=
      float_arredonda_nonneg (by positivity)
    exact float_arredonda_nonneg (by positivity)
  · intro h
    unfold acrescimo_de_prioridade float_div
    rw [float_arredonda_quantum]
    have h1 : ((QUANTUM - q : Int) : ℚ) ≤ 5 := by
      have : (QUANTUM - q : Int) ≤ 5 := by unfold QUANTUM; omega
      exact_mod_cast this
    have h2 : float_de_int (QUANTUM - q) ≤ 5 := by
      have := float_arredonda_mono h1
      have e : float_arredonda 5 = 5 := float_arredonda_quantum
      rw [e] at this
      exact this
    have h3 : float_arredonda (float_de_int (QUANTUM - q) / 5) ≤ 1 := by
      have := float_arredonda_mono (by linarith : float_de_int (QUANTUM - q) / 5 ≤ (1 : ℚ))
      rw [float_arredonda_um] at this
      exact this
    have := float_arredonda_mono
      (by linarith : float_arredonda (float_de_int (QUANTUM - q) / 5) / 2 ≤ (1 : ℚ) / 2)
    rw [float_arredonda_meio] at this
    exact this

/-- The float sum of a priority between 1/2 and 2^24 and an amount between 0 and
1/2 is again between 1/2 and 2^24. -/
theorem float_soma_limites {p a : ℚ} (hp1 : 1 / 2 ≤ p) (hp2 : p ≤ 16777216) (ha1 : 0 ≤ a)
    (ha2 : a ≤ 1 / 2) : 1 / 2 ≤ float_soma p a ∧ float_soma p a ≤ 16777216 := by
  unfold float_soma
  have h1 := float_arredonda_mono (by linarith : (1 : ℚ) / 2 ≤ p + a)
  have h2 := float_arredonda_mono (by linarith : p + a ≤ (16777216 : ℚ) + 1 / 2)
  rw [float_arredonda_meio] at h1
  rw [float_arredonda_teto] at h2
  exact ⟨h1, h2⟩

/-- The priorities after the first two steps of the scheduler: that of the current
process is the float sum of the old one and `acrescimo_de_prioridade`, the others
are as they were. -/
theorem antes_da_politica_prioridade (x : so_t) (j : Nat) :
    ((atualiza_prioridade (atualiza_estado_processo_corrente x)).processos[j]?).map
        (fun p => p.prioridade) =
      if x.processo_corrente = some j then
        (x.processos[j]?).map
          (fun p => float_soma p.prioridade (acrescimo_de_prioridade x.quantum_proc))
      else (x.processos[j]?).map (fun p => p.prioridade) := by
  rw [antes_da_politica_tabela]
  by_cases h : x.processo_corrente = some j
  · rw [if_pos h, if_pos h]
    cases x.processos[j]? with
    | none => rfl
    | some p =>
      simp only [Option.map_some', Option.some.injEq]
      split <;> rfl
  · rw [if_neg h, if_neg h]

/-- The priorities after the scheduler, under any policy. -/
theorem so_escalona_prioridade (x : so_t) (escalonador : Int) (j : Nat) :
    ((so_escalona x escalonador).processos[j]?).map (fun p => p.prioridade) =
      if x.processo_corrente = some j then
        (x.processos[j]?).map
          (fun p => float_soma p.prioridade (acrescimo_de_prioridade x.quantum_proc))
      else (x.processos[j]?).map (fun p => p.prioridade) := by
  have h := congrArg (fun l : List ℚ => l[j]?) (so_escalona_prioridades x escalonador)
  simp only [List.getElem?_map] at h
  rw [h]
  exact antes_da_politica_prioridade x j

theorem prioridades_de_contadores_so {a b : so_t}
    (h : contadores b.processos = contadores a.processos) : prioridades b = prioridades a :=
  prioridades_de_contadores h

theorem so_trata_irq_prioridades (x : so_t) (irq : irq_t)
    (hp : ∀ r ∈ prioridades x, 1 / 2 ≤ r ∧ r ≤ 16777216) :
    ∀ r ∈ prioridades (so_trata_irq x irq), 1 / 2 ≤ r ∧ r ≤ 16777216 := by
  have h : contadores (so_trata_irq x irq).processos = contadores x.processos ∨
      contadores (so_trata_irq x irq).processos = contadores x.processos ++ [(1 / 2, 0)] ∨
      contadores (so_trata_irq x irq).processos = [(1 / 2, 0)] := by
    by_cases hr : irq = IRQ_RESET
    · rw [hr]
      rcases (so_trata_irq_reset_contadores x).1 with h | h
      · exact Or.inl h
      · exact Or.inr (Or.inr h)
    · rcases (so_trata_irq_contadores x irq hr).1 with h | h
      · exact Or.inl h
      · exact Or.inr (Or.inl h)
  have e : ∀ s : so_t, prioridades s = (contadores s.processos).map (fun y => y.1) := by
    intro s
    unfold prioridades contadores
    rw [List.map_map]
    rfl
  intro r hr
  rw [e] at hr
  rcases h with h | h | h
  · rw [h, ← e] at hr
    exact hp r hr
  · rw [h, List.map_append, ← e] at hr
    rcases List.mem_append.mp hr with hr | hr
    · exact hp r hr
    · simp at hr
      rw [hr]
      norm_num
  · rw [h] at hr
    simp at hr
    rw [hr]
    norm_num

/-- The scheduler keeps every priority between 1/2 and 2^24 when the quantum left
is between 0 and `QUANTUM`. -/
theorem so_escalona_prioridades_limitadas (x : so_t) (escalonador : Int)
    (h0 : 0 ≤ x.quantum_proc) (h5 : x.quantum_proc ≤ QUANTUM)
    (hp : ∀ r ∈ prioridades x, 1 / 2 ≤ r ∧ r ≤ 16777216) :
    ∀ r ∈ prioridades (so_escalona x escalonador), 1 / 2 ≤ r ∧ r ≤ 16777216 := by
  intro r hr
  unfold prioridades at hr
  obtain ⟨j, hj⟩ := List.mem_iff_getElem?.mp hr
  rw [List.getElem?_map, so_escalona_prioridade] at hj
  have hmem : ∀ p, x.processos[j]? = some p → 1 / 2 ≤ p.prioridade ∧ p.prioridade ≤ 16777216 := by
    intro p hpj
    apply hp
    unfold prioridades
    exact List.mem_map.mpr ⟨p, List.mem_iff_getElem?.mpr ⟨j, hpj⟩, rfl⟩
  cases hx : x.processos[j]? with
  | none =>
    rw [hx] at hj
    split at hj <;> simp at hj
  | some p =>
    rw [hx] at hj
    have h1 := hmem p hx
    have h2 := (acrescimo_de_prioridade_limites x.quantum_proc).1 h5
    have h3 := (acrescimo_de_prioridade_limites x.quantum_proc).2.1 h0
    split at hj
    · simp only [Option.map_some', Option.some.injEq] at hj
      rw [← hj]
      exact float_soma_limites h1.1 h1.2 h2 h3
    · simp only [Option.map_some', Option.some.injEq] at hj
      rw [← hj]
      exact h1

/-- A kernel entry, under any policy and for any trap, keeps every priority between
1/2 and 2^24 when the quantum is between 0 and `QUANTUM` at the entry. -/
theorem entrada_prioridades_limitadas (escalonador : Int) (s : so_t) (t : trap_t)
    (h0 : 0 ≤ s.quantum_proc) (h5 : s.quantum_proc ≤ QUANTUM)
    (hp : ∀ r ∈ prioridades s, 1 / 2 ≤ r ∧ r ≤ 16777216) :
    ∀ r ∈ prioridades (entrada escalonador s t).1, 1 / 2 ≤ r ∧ r ≤ 16777216 := by
  have p1 : prioridades (prepara_entrada (na_entrada s t) t.irq) = prioridades s :=
    prioridades_de_contadores (prepara_entrada_contadores (na_entrada s t) t.irq)
  obtain ⟨_, _, _, _, _, p6⟩ := prepara_entrada_quadro (na_entrada s t) t.irq
  have p6a : (prepara_entrada (na_entrada s t) t.irq).quantum_proc = s.quantum_proc := p6
  obtain ⟨l0, l5⟩ := so_trata_irq_limites (prepara_entrada (na_entrada s t) t.irq) t.irq
    (by rw [p6a]; exact h0) (by rw [p6a]; exact h5)
  have h1 := so_trata_irq_prioridades (prepara_entrada (na_entrada s t) t.irq) t.irq
    (by rw [p1]; exact hp)
  have h2 : prioridades (so_trata_pendencias
      (so_trata_irq (prepara_entrada (na_entrada s t) t.irq) t.irq)) =
      prioridades (so_trata_irq (prepara_entrada (na_entrada s t) t.irq) t.irq) :=
    prioridades_de_contadores (so_trata_pendencias_contadores _)
  obtain ⟨_, _, sq, _⟩ := so_trata_pendencias_quadro
    (so_trata_irq (prepara_entrada (na_entrada s t) t.irq) t.irq)
  have h3 := so_escalona_prioridades_limitadas
    (so_trata_pendencias (so_trata_irq (prepara_entrada (na_entrada s t) t.irq) t.irq))
    escalonador (by rw [sq]; exact l0) (by rw [sq]; exact l5) (by rw [h2]; exact h1)
  obtain ⟨f1, _, _, _⟩ := fim_da_entrada_quadro _ _
    (so_trata_interrupcao_com_forma escalonador (na_entrada s t) t.irq)
  have f1a : prioridades (entrada escalonador s t).1 =
      prioridades (so_escalona (so_trata_pendencias
        (so_trata_irq (prepara_entrada (na_entrada s t) t.irq) t.irq)) escalonador) := by
    unfold prioridades entrada
    rw [f1]
  rw [f1a]
  exact h3

/-! ## The execution transition, descriptor by descriptor -/

theorem so_executa_proc_preempcao_tabela (self : so_t) (proc : Option Nat) (j : Nat) :
    (so_executa_proc_preempcao self proc).processos[j]? =
      (if self.processo_corrente = some j ∧ some j ≠ proc then
        (self.processos[j]?).map (fun pc =>
          if pc.estado = ESTADO_INICIALIZANDO then proc_muda_estado pc ESTADO_PRONTO else pc)
      else self.processos[j]?) ∧
    (so_executa_proc_preempcao self proc).processo_corrente = self.processo_corrente := by
  unfold so_executa_proc_preempcao
  cases hc : corrente self with
  | none =>
    refine ⟨?_, rfl⟩
    dsimp only
    split
    · rename_i hk
      rcases (corrente_eq_none self).mp hc with h1 | ⟨c1, h1, h2⟩
      · rw [h1] at hk
        exact absurd hk.1 (by simp)
      · rw [h1] at hk
        have e : c1 = j := by simpa using hk.1
        subst e
        rw [h2]
        rfl
    · rfl
  | some cp =>
    obtain ⟨c, pc⟩ := cp
    obtain ⟨h1, h2⟩ := (corrente_eq_some self c pc).mp hc
    dsimp only
    by_cases hk : some c ≠ proc ∧ pc.estado = ESTADO_INICIALIZANDO
    · rw [if_pos hk]
      refine ⟨?_, rfl⟩
      dsimp only
      rw [getElem?_altera_processo]
      by_cases hj : j = c
      · subst hj
        rw [if_pos rfl, if_pos ⟨h1, hk.1⟩, h2]
        simp [hk.2]
      · rw [if_neg hj, if_neg (by rw [h1]; simp; intro e; exact absurd e.symm hj)]
    · rw [if_neg hk]
      refine ⟨?_, rfl⟩
      split
      · rename_i hk2
        rw [h1] at hk2
        have e : c = j := by simpa using hk2.1
        subst e
        rw [h2]
        have hne : pc.estado ≠ ESTADO_INICIALIZANDO := fun he => hk ⟨hk2.2, he⟩
        simp [hne]
      · rfl

theorem so_executa_proc_inicio_tabela (self : so_t) (h : Nat) (j : Nat) :
    (so_executa_proc_inicio self (some h)).processos[j]? =
      if j = h then
        (self.processos[j]?).map (fun p =>
          if p.estado ≠ ESTADO_INICIALIZANDO then proc_muda_estado p ESTADO_INICIALIZANDO else p)
      else self.processos[j]? := by
  unfold so_executa_proc_inicio
  dsimp only
  cases hp : self.processos[h]? with
  | none =>
    dsimp only
    by_cases hj : j = h
    · subst hj
      rw [if_pos rfl, hp]
      rfl
    · rw [if_neg hj]
  | some p =>
    dsimp only
    by_cases he : p.estado ≠ ESTADO_INICIALIZANDO
    · rw [if_pos he]
      dsimp only
      rw [getElem?_altera_processo]
      by_cases hj : j = h
      · subst hj
        rw [if_pos rfl, if_pos rfl, hp]
        simp [he]
      · rw [if_neg hj, if_neg hj]
    · rw [if_neg he]
      by_cases hj : j = h
      · subst hj
        rw [if_pos rfl, hp]
        have he1 : p.estado = ESTADO_INICIALIZANDO := not_not.mp he
        simp [he1]
      · rw [if_neg hj]

/-! ## The sweep, descriptor by descriptor -/

/-- One step of the sweep, with the reason of its outcome. -/
theorem so_trata_pendencias_proc_exato (self : so_t) (i : Nat) :
    ∃ l, so_trata_pendencias_proc self i =
      if desperta self i = true then
        { self with es := { self.es with escritas := l },
                    processos := altera_processo self.processos i
                      (fun p => proc_muda_estado p ESTADO_PRONTO),
                    fila_prontos := self.fila_prontos ++ [i] }
      else { self with es := { self.es with escritas := l } } := by
  unfold so_trata_pendencias_proc desperta
  cases hi : self.processos[i]? with
  | none => exact ⟨self.es.escritas, rfl⟩
  | some proc =>
    dsimp only
    by_cases hb : proc.estado = ESTADO_BLOQUEADO
    · rw [if_pos hb]
      obtain ⟨l, h | h⟩ := verifica_desbloqueio_casos self i proc
      · obtain ⟨ha, he⟩ := h
        refine ⟨l, ?_⟩
        rw [he, if_pos (by simp [hb, ha])]
        simp [getElem?_altera_processo, hi, proc_muda_estado, insere_na_fila_prontos]
      · obtain ⟨ha, he⟩ := h
        refine ⟨l, ?_⟩
        rw [he, if_neg (by simp [ha])]
        simp [hi, hb]
    · refine ⟨self.es.escritas, ?_⟩
      rw [if_neg hb, if_neg (by simp [hb])]

/-- The wake condition only depends on the device registers and on which pids are
TERMINATED. -/
theorem acorda_mesmo (es : es_t) (l : List (Int × Int)) (ps qs : List processo_t)
    (p : processo_t) (h : ∀ pid, esperado_terminou qs pid = esperado_terminou ps pid) :
    acorda { es with escritas := l } qs p = acorda es ps p := by
  unfold acorda
  cases p.motivo_bloqueio with
  | BLOQUEIO_POR_LEITURA => rfl
  | BLOQUEIO_POR_ESCRITA => rfl
  | BLOQUEIO_POR_ESPERA_DE_PROC => exact h p.reg0

theorem desperta_marca (x : so_t) (k : Nat) (p : processo_t) (hp : x.processos[k]? = some p) :
    (desperta x k = true → marca_pronto x p = proc_muda_estado p ESTADO_PRONTO ∧
      p.estado = ESTADO_BLOQUEADO) ∧
    (desperta x k = false → marca_pronto x p = p) := by
  unfold desperta marca_pronto
  rw [hp]
  dsimp only
  constructor
  · intro h
    simp only [Bool.and_eq_true, decide_eq_true_eq] at h
    rw [if_pos h]
    exact ⟨rfl, h.1⟩
  · intro h
    rw [if_neg]
    intro hh
    simp [hh.1, hh.2] at h

/-- The sweep after its first `k` steps: the first `k` descriptors are as the whole
sweep leaves them, the others are untouched, and the descriptors woken so far are
at the tail of the ready queue, in table order. -/
theorem so_trata_pendencias_prefixo (x : so_t) : ∀ k : Nat,
    (∀ j, ((List.range k).foldl so_trata_pendencias_proc x).processos[j]? =
      if j < k then (x.processos[j]?).map (marca_pronto x) else x.processos[j]?) ∧
    ((List.range k).foldl so_trata_pendencias_proc x).fila_prontos =
      x.fila_prontos ++ (List.range k).filter (desperta x) ∧
    (∃ l, ((List.range k).foldl so_trata_pendencias_proc x).es =
      { x.es with escritas := l }) ∧
    (∀ pid, esperado_terminou ((List.range k).foldl so_trata_pendencias_proc x).processos pid =
      esperado_terminou x.processos pid) := by
  intro k
  induction k with
  | zero =>
    refine ⟨fun j => ?_, by simp, ⟨x.es.escritas, rfl⟩, fun pid => rfl⟩
    simp
  | succ k ih =>
    obtain ⟨i1, i2, ⟨l, i3⟩, i4⟩ := ih
    rw [List.range_succ, List.foldl_append]
    simp only [List.foldl_cons, List.foldl_nil]
    generalize (List.range k).foldl so_trata_pendencias_proc x = r at i1 i2 i3 i4
    have hk : r.processos[k]? = x.processos[k]? := by
      rw [i1 k, if_neg (lt_irrefl k)]
    have hd : desperta r k = desperta x k := by
      unfold desperta
      rw [hk]
      cases x.processos[k]? with
      | none => rfl
      | some p =>
        dsimp only
        rw [i3, acorda_mesmo x.es l x.processos r.processos p i4]
    obtain ⟨l1, e⟩ := so_trata_pendencias_proc_exato r k
    rw [hd] at e
    have hfil : ∀ b : Bool, desperta x k = b →
        (List.range k ++ [k]).filter (desperta x) =
          (List.range k).filter (desperta x) ++ (if b = true then [k] else []) := by
      intro b hb
      rw [List.filter_append]
      cases b <;> simp [List.filter, hb]
    cases hx : desperta x k with
    | true =>
      rw [hx, if_pos rfl] at e
      rw [e]
      dsimp only
      refine ⟨fun j => ?_, ?_, ⟨l1, ?_⟩, fun pid => ?_⟩
      · rw [getElem?_altera_processo]
        by_cases hj : j = k
        · subst hj
          rw [if_pos rfl, if_pos (Nat.lt_succ_self j), hk]
          cases hp : x.processos[j]? with
          | none => rfl
          | some p =>
            simp only [Option.map_some']
            rw [((desperta_marca x j p hp).1 hx).1]
        · rw [if_neg hj, i1 j]
          by_cases hlt : j < k
          · rw [if_pos hlt, if_pos (by omega)]
          · rw [if_neg hlt, if_neg (by omega)]
      · rw [i2, hfil true hx, if_pos rfl, List.append_assoc]
      · rw [i3]
      · cases hp : r.processos[k]? with
        | none =>
          have e2 : altera_processo r.processos k (fun p => proc_muda_estado p ESTADO_PRONTO) =
              r.processos := by
            unfold altera_processo
            rw [hp]
          rw [e2]
          exact i4 pid
        | some p =>
          have hb := ((desperta_marca x k p (hk ▸ hp)).1 hx).2
          rw [esperado_terminou_altera r.processos k p _ pid hp (by rw [hb]; decide)
            (by show ESTADO_PRONTO ≠ ESTADO_TERMINADO; decide)]
          exact i4 pid
    | false =>
      rw [hx, if_neg (by simp)] at e
      rw [e]
      dsimp only
      refine ⟨fun j => ?_, ?_, ⟨l1, ?_⟩, i4⟩
      · rw [i1 j]
        by_cases hj : j = k
        · subst hj
          rw [if_neg (lt_irrefl j), if_pos (Nat.lt_succ_self j)]
          cases hp : x.processos[j]? with
          | none => rfl
          | some p =>
            simp only [Option.map_some']
            rw [(desperta_marca x j p hp).2 hx]
        · by_cases hlt : j < k
          · rw [if_pos hlt, if_pos (by omega)]
          · rw [if_neg hlt, if_neg (by omega)]
      · rw [i2, hfil false hx]
        simp
      · rw [i3]

/-- The sweep: every descriptor that is BLOCKED and meets its wake condition as
the sweep finds the kernel is made READY, the others are unchanged, and the
descriptors made READY are appended to the ready queue in table order. -/
theorem so_trata_pendencias_exato (x : so_t) :
    (so_trata_pendencias x).processos = x.processos.map (marca_pronto x) ∧
    (so_trata_pendencias x).fila_prontos =
      x.fila_prontos ++ (List.range x.processos.length).filter (desperta x) := by
  obtain ⟨h1, h2, _, _⟩ := so_trata_pendencias_prefixo x x.processos.length
  refine ⟨?_, h2⟩
  apply List.ext_getElem?
  intro j
  show ((List.range x.processos.length).foldl so_trata_pendencias_proc x).processos[j]? = _
  rw [h1 j, List.getElem?_map]
  by_cases hj : j < x.processos.length
  · rw [if_pos hj]
  · rw [if_neg hj, List.getElem?_eq_none (by omega)]
    rfl

/-! ## A process woken by the sweep and dispatched in the same entry -/

theorem esperado_terminou_de_pids_estados {ps qs : List processo_t}
    (h : pids_estados qs = pids_estados ps) (pid : Int) :
    esperado_terminou qs pid = esperado_terminou ps pid := by
  have aux : ∀ (as bs : List processo_t), pids_estados bs = pids_estados as →
      esperado_terminou as pid = true → esperado_terminou bs pid = true := by
    intro as bs hab ha
    obtain ⟨j, q, hj, h1, h2⟩ := (esperado_terminou_iff as pid).mp ha
    have e := congrArg (fun l : List (Int × estado_processo_t) => l[j]?) hab
    simp only [pids_estados, List.getElem?_map, hj, Option.map_some'] at e
    cases hb : bs[j]? with
    | none => rw [hb] at e; cases e
    | some r =>
      rw [hb] at e
      simp only [Option.map_some', Option.some.injEq, Prod.mk.injEq] at e
      exact (esperado_terminou_iff bs pid).mpr ⟨j, r, hb, e.1.trans h1, e.2.trans h2⟩
  rw [Bool.eq_iff_iff]
  exact ⟨aux qs ps h.symm, aux ps qs h⟩

theorem pids_estados_de_sem_metricas {ps qs : List processo_t}
    (h : qs.map sem_metricas = ps.map sem_metricas) : pids_estados qs = pids_estados ps := by
  have h1 := congrArg (fun l : List processo_t => l.map (fun p => (p.pid, p.estado))) h
  simpa [pids_estados, List.map_map, Function.comp_def, sem_metricas] using h1

/-- Whether the sweep wakes a descriptor does not depend on the metrics of the
table nor on the writes recorded on the bus. -/
theorem desperta_de_sem_metricas (a b : so_t)
    (hps : b.processos.map sem_metricas = a.processos.map sem_metricas)
    (hes : ∃ l, b.es = { a.es with escritas := l }) (j : Nat) :
    desperta b j = desperta a j := by
  obtain ⟨l, hl⟩ := hes
  have he := esperado_terminou_de_pids_estados (pids_estados_de_sem_metricas hps)
  have hj := congrArg (fun l : List processo_t => l[j]?) hps
  simp only [List.getElem?_map] at hj
  unfold desperta
  cases ha : a.processos[j]? with
  | none =>
    rw [ha] at hj
    cases hb : b.processos[j]? with
    | none => rfl
    | some pb => rw [hb] at hj; cases hj
  | some pa =>
    rw [ha] at hj
    cases hb : b.processos[j]? with
    | none => rw [hb] at hj; cases hj
    | some pb =>
      rw [hb] at hj
      simp only [Option.map_some', Option.some.injEq] at hj
      have f1 : pb.estado = pa.estado := congrArg (fun p => p.estado) hj
      have f2 : pb.motivo_bloqueio = pa.motivo_bloqueio := congrArg (fun p => p.motivo_bloqueio) hj
      have f3 : pb.pid = pa.pid := congrArg (fun p => p.pid) hj
      have f4 : pb.reg0 = pa.reg0 := congrArg (fun p => p.reg0) hj
      have f5 : pb.dado_pendente = pa.dado_pendente := congrArg (fun p => p.dado_pendente) hj
      dsimp only
      rw [f1, hl]
      congr 1
      unfold acorda
      rw [f2, f3, f4, f5, he]
      rfl

/-- The steps before the IRQ handler only touch the metrics of the descriptors when
no process is current. -/
theorem prepara_entrada_sem_metricas (x : so_t) (irq : irq_t)
    (hc : x.processo_corrente = none) :
    (prepara_entrada x irq).processos.map sem_metricas = x.processos.map sem_metricas := by
  have h2 : salva_estado_cpu_no_processo (conta_interrupcao x irq) = conta_interrupcao x irq := by
    unfold salva_estado_cpu_no_processo altera_corrente
    have : (conta_interrupcao x irq).processo_corrente = none := hc
    rw [this]
  unfold prepara_entrada
  rw [h2]
  unfold atualiza_metricas_com_relogio
  dsimp only
  split
  · rfl
  · split
    · rfl
    · unfold atualiza_metricas_sistema nos_primeiros
      dsimp only
      rw [List.map_append, List.map_map]
      have : (sem_metricas ∘ fun p => atualiza_metricas_processo p
          (‹Int› - (conta_interrupcao x irq).relogio_atual)) = sem_metricas := by
        funext p
        rfl
      rw [this, ← List.map_append, List.take_append_drop]
      rfl

/-- The handlers of the timer and of the unknown IRQs leave the table, the ready
queue, the current process and the process count, and on the bus only record
writes. -/
theorem so_trata_irq_sem_chamada (x : so_t) (irq : irq_t)
    (h1 : irq ≠ IRQ_RESET) (h2 : irq ≠ IRQ_SISTEMA) (h3 : irq ≠ IRQ_ERR_CPU) :
    (so_trata_irq x irq).processos = x.processos ∧
    (so_trata_irq x irq).fila_prontos = x.fila_prontos ∧
    (so_trata_irq x irq).processo_corrente = x.processo_corrente ∧
    (so_trata_irq x irq).numero_processos = x.numero_processos ∧
    ∃ l, (so_trata_irq x irq).es = { x.es with escritas := l } := by
  cases irq with
  | IRQ_RESET => exact absurd rfl h1
  | IRQ_SISTEMA => exact absurd rfl h2
  | IRQ_ERR_CPU => exact absurd rfl h3
  | IRQ_RESERVADA_4 => exact ⟨rfl, rfl, rfl, rfl, _, rfl⟩
  | IRQ_RESERVADA_5 => exact ⟨rfl, rfl, rfl, rfl, _, rfl⟩
  | IRQ_RELOGIO =>
    have er : so_trata_irq x IRQ_RELOGIO = so_trata_irq_relogio x := rfl
    rw [er]
    unfold so_trata_irq_relogio es_escreve
    dsimp only
    split_ifs
    all_goals exact ⟨rfl, rfl, rfl, rfl, _, rfl⟩

/-- The positions a predicate selects among the first `n`, when `i` is the first
one selected. -/
theorem filtra_range_primeiro (d : Nat → Bool) (i : Nat) (hp : ∀ j, j < i → d j = false)
    (hi : d i = true) : ∀ n, i < n → ∃ resto, (List.range n).filter d = i :: resto := by
  intro n
  induction n with
  | zero => intro h; exact absurd h (Nat.not_lt_zero _)
  | succ n ih =>
    intro h
    rw [List.range_succ, List.filter_append]
    rcases Nat.lt_succ_iff_lt_or_eq.mp h with h1 | h1
    · obtain ⟨r, hr⟩ := ih h1
      exact ⟨r ++ List.filter d [n], by rw [hr]; rfl⟩
    · subst h1
      have e : (List.range i).filter d = [] := by
        rw [List.filter_eq_nil_iff]
        intro a ha
        rw [hp a (List.mem_range.mp ha)]
        decide
      rw [e]
      exact ⟨[], by simp [hi]⟩

/-- Round-robin with no current process and a non-empty ready queue: the head of
the queue is put to run. -/
theorem so_escalona_sem_corrente_fila (x : so_t) (h : Nat) (resto : List Nat)
    (hc : x.processo_corrente = none) (hf : x.fila_prontos = h :: resto) :
    so_escalona x 2 = so_executa_proc { x with fila_prontos := resto } (some h) := by
  have e1 : ∀ f, altera_corrente x f = x := by
    intro f
    unfold altera_corrente
    rw [hc]
  have e2 : atualiza_prioridade (atualiza_estado_processo_corrente x) = x := by
    unfold atualiza_estado_processo_corrente
    rw [e1]
    unfold atualiza_prioridade
    rw [e1]
  unfold so_escalona
  dsimp only
  rw [e2, if_neg (by decide), if_pos rfl]
  have e3 : corrente x = none := by unfold corrente; rw [hc]
  have e4 : corrente_executando x = false := by
    unfold corrente_executando
    rw [e3]
  unfold escalonador_round_robin reinsere_corrente
  rw [e4]
  simp only [Bool.false_and, Bool.false_eq_true, if_false]
  rw [hf]
  rfl

/-- Putting a READY descriptor to run when no process is current: the descriptor
chosen goes to RUNNING through `proc_muda_estado` and becomes current. -/
theorem so_executa_proc_sem_corrente (x : so_t) (h : Nat) (p : processo_t)
    (hc : x.processo_corrente = none) (hp : x.processos[h]? = some p)
    (he : p.estado ≠ ESTADO_INICIALIZANDO) :
    (so_executa_proc x (some h)).processos[h]? =
      some (proc_muda_estado p ESTADO_INICIALIZANDO) ∧
    (so_executa_proc x (some h)).processo_corrente = some h ∧
    (so_executa_proc x (some h)).numero_processos = x.numero_processos ∧
    (so_executa_proc x (some h)).mem = x.mem := by
  have e1 : so_executa_proc_preempcao x (some h) = x := by
    unfold so_executa_proc_preempcao
    have : corrente x = none := by unfold corrente; rw [hc]
    rw [this]
  have e2 := so_executa_proc_inicio_tabela x h h
  rw [if_pos rfl, hp] at e2
  have e3 : (so_executa_proc_inicio x (some h)).numero_processos = x.numero_processos ∧
      (so_executa_proc_inicio x (some h)).mem = x.mem := by
    unfold so_executa_proc_inicio
    dsimp only
    rw [hp]
    dsimp only
    rw [if_pos he]
    exact ⟨rfl, rfl⟩
  unfold so_executa_proc
  dsimp only
  rw [e1]
  refine ⟨?_, rfl, e3.1, e3.2⟩
  rw [e2]
  simp [he]

/-- The scheduling step of an entry with the timer or an unknown IRQ, under
round-robin, when no process is current, the ready queue is empty and `b`, at
position `i`, is the first descriptor the sweep wakes: `b` is put to run. -/
theorem apos_escalonar_desperta (self : so_t) (irq : irq_t) (i : Nat) (b : processo_t)
    (h1 : irq ≠ IRQ_RESET) (h2 : irq ≠ IRQ_SISTEMA) (h3 : irq ≠ IRQ_ERR_CPU)
    (hc : self.processo_corrente = none) (hf : self.fila_prontos = [])
    (hb : self.processos[i]? = some b) (hbl : b.estado = ESTADO_BLOQUEADO)
    (ha : acorda self.es self.processos b = true)
    (hp : ∀ j, j < i → desperta self j = false) :
    (apos_escalonar 2 self irq).processo_corrente = some i ∧
    (apos_escalonar 2 self irq).numero_processos = self.numero_processos ∧
    ∃ b1, (apos_escalonar 2 self irq).processos[i]? = some b1 ∧
      b1.estado = ESTADO_INICIALIZANDO ∧ b1.pid = b.pid ∧ b1.pc = b.pc ∧
      b1.reg0 = b.reg0 ∧ b1.reg1 = b.reg1 := by
  obtain ⟨_, p2, p3, _, p5, _⟩ := prepara_entrada_quadro self irq
  have p1 := prepara_entrada_sem_metricas self irq hc
  have p6 := (prepara_entrada_mem self irq).2.1
  obtain ⟨q1, q2, q3, q4, l, q5⟩ :=
    so_trata_irq_sem_chamada (prepara_entrada self irq) irq h1 h2 h3
  rw [p6] at q5
  rw [p2, hf] at q2
  rw [p3, hc] at q3
  rw [p5] at q4
  have q6 : (so_trata_irq (prepara_entrada self irq) irq).processos.map sem_metricas =
      self.processos.map sem_metricas := by rw [q1]; exact p1
  unfold apos_escalonar
  generalize so_trata_irq (prepara_entrada self irq) irq = H at q2 q3 q4 q5 q6 ⊢
  have d : ∀ j, desperta H j = desperta self j :=
    fun j => desperta_de_sem_metricas self H q6 ⟨l, q5⟩ j
  have hdi : desperta self i = true := by
    unfold desperta
    rw [hb]
    simp [hbl, ha]
  have hH : ∃ bH, H.processos[i]? = some bH ∧ sem_metricas bH = sem_metricas b := by
    have e := congrArg (fun l : List processo_t => l[i]?) q6
    simp only [List.getElem?_map, hb, Option.map_some'] at e
    cases hh : H.processos[i]? with
    | none => rw [hh] at e; cases e
    | some bH =>
      rw [hh] at e
      exact ⟨bH, rfl, by simpa using e⟩
  obtain ⟨bH, hbH, hsm⟩ := hH
  obtain ⟨s1, s2⟩ := so_trata_pendencias_exato H
  obtain ⟨s3, _, _, _, s5, _⟩ := so_trata_pendencias_quadro H
  have ilt : i < H.processos.length := by
    by_contra hn
    rw [List.getElem?_eq_none (by omega)] at hbH
    cases hbH
  obtain ⟨resto, hr⟩ := filtra_range_primeiro (desperta H) i
    (fun j hj => (d j).trans (hp j hj)) ((d i).trans hdi) _ ilt
  rw [q2, hr, List.nil_append] at s2
  rw [q3] at s3
  rw [q4] at s5
  have tS : (so_trata_pendencias H).processos[i]? =
      some (proc_muda_estado bH ESTADO_PRONTO) := by
    rw [s1, List.getElem?_map, hbH]
    show some (marca_pronto H bH) = _
    rw [((desperta_marca H i bH hbH).1 ((d i).trans hdi)).1]
  generalize so_trata_pendencias H = S at s2 s3 s5 tS ⊢
  rw [so_escalona_sem_corrente_fila S i resto s3 s2]
  obtain ⟨e1, e2, e3, _⟩ := so_executa_proc_sem_corrente { S with fila_prontos := resto } i
    (proc_muda_estado bH ESTADO_PRONTO) s3 tS (by show ESTADO_PRONTO ≠ ESTADO_INICIALIZANDO; decide)
  refine ⟨e2, e3.trans s5, _, e1, rfl, ?_, ?_, ?_, ?_⟩
  · have k := congrArg (fun p : processo_t => p.pid) hsm
    exact k
  · have k := congrArg (fun p : processo_t => p.pc) hsm
    exact k
  · have k := congrArg (fun p : processo_t => p.reg0) hsm
    exact k
  · have k := congrArg (fun p : processo_t => p.reg1) hsm
    exact k

/-! ## The caller of a system call that stays current -/

theorem atualiza_metricas_com_relogio_sem_metricas (y : so_t) :
    (atualiza_metricas_com_relogio y).processos.map sem_metricas =
      y.processos.map sem_metricas := by
  unfold atualiza_metricas_com_relogio
  dsimp only
  split
  · rfl
  · split
    · rfl
    · unfold atualiza_metricas_sistema nos_primeiros
      dsimp only
      rw [List.map_append, List.map_map]
      have : (sem_metricas ∘ fun p => atualiza_metricas_processo p
          (‹Int› - y.relogio_atual)) = sem_metricas := by
        funext p
        rfl
      rw [this, ← List.map_append, List.take_append_drop]

/-- The descriptor of the current process as the IRQ handler receives it: its
reg[0] and reg[1] are the words A and X of the trap frame at the entry. -/
theorem prepara_entrada_chamador (self : so_t) (irq : irq_t) (c : Nat) (p : processo_t)
    (hc : self.processo_corrente = some c) (hp : self.processos[c]? = some p) :
    ∃ p1, (prepara_entrada self irq).processos[c]? = some p1 ∧ p1.estado = p.estado ∧
      p1.pid = p.pid ∧ p1.reg0 = self.mem.A ∧ p1.reg1 = self.mem.X := by
  have e1 : (salva_estado_cpu_no_processo (conta_interrupcao self irq)).processos[c]? =
      some { p with pc := self.mem.PC, reg0 := self.mem.A, reg1 := self.mem.X } := by
    unfold salva_estado_cpu_no_processo
    rw [(altera_corrente_resto (conta_interrupcao self irq) _).2.2.2.2.2.2.2.2.2 c]
    have hc1 : (conta_interrupcao self irq).processo_corrente = some c := hc
    have hp1 : (conta_interrupcao self irq).processos[c]? = some p := hp
    rw [if_pos hc1, hp1]
    rfl
  have e2 := congrArg (fun l : List processo_t => l[c]?)
    (atualiza_metricas_com_relogio_sem_metricas
      (salva_estado_cpu_no_processo (conta_interrupcao self irq)))
  simp only [List.getElem?_map, e1, Option.map_some'] at e2
  unfold prepara_entrada
  cases h : (atualiza_metricas_com_relogio
      (salva_estado_cpu_no_processo (conta_interrupcao self irq))).processos[c]? with
  | none => rw [h] at e2; cases e2
  | some p1 =>
    rw [h] at e2
    simp only [Option.map_some', Option.some.injEq] at e2
    have k1 := congrArg (fun q : processo_t => q.estado) e2
    have k2 := congrArg (fun q : processo_t => q.pid) e2
    have k3 := congrArg (fun q : processo_t => q.reg0) e2
    have k4 := congrArg (fun q : processo_t => q.reg1) e2
    exact ⟨p1, rfl, k1, k2, k3, k4⟩

theorem encontra_processo_por_pid_de_pids (pid : Int) :
    ∀ (ps qs : List processo_t), ps.map (fun p => p.pid) = qs.map (fun p => p.pid) →
      encontra_processo_por_pid ps pid = encontra_processo_por_pid qs pid := by
  intro ps
  induction ps with
  | nil =>
    intro qs h
    cases qs with
    | nil => rfl
    | cons b bs => cases h
  | cons a as ih =>
    intro qs h
    cases qs with
    | nil => cases h
    | cons b bs =>
      simp only [List.map_cons, List.cons.injEq] at h
      unfold encontra_processo_por_pid
      rw [h.1, ih bs h.2]

/-- The system call chosen by the word in A. -/
theorem so_trata_irq_chamada (x : so_t) :
    (x.mem.A = SO_LE → so_trata_irq x IRQ_SISTEMA = so_chamada_le x) ∧
    (x.mem.A = SO_ESCR → so_trata_irq x IRQ_SISTEMA = so_chamada_escr x) ∧
    (x.mem.A = SO_CRIA_PROC → so_trata_irq x IRQ_SISTEMA = so_chamada_cria_proc x) ∧
    (x.mem.A = SO_MATA_PROC → so_trata_irq x IRQ_SISTEMA = so_chamada_mata_proc x) ∧
    (x.mem.A = SO_ESPERA_PROC → so_trata_irq x IRQ_SISTEMA = so_chamada_espera_proc x) := by
  have e : so_trata_irq x IRQ_SISTEMA = so_trata_irq_chamada_sistema x := rfl
  have f : mem_le x.mem IRQ_END_A = some x.mem.A := rfl
  rw [e]
  unfold so_trata_irq_chamada_sistema
  rw [f]
  dsimp only
  refine ⟨?_, ?_, ?_, ?_, ?_⟩ <;> intro h <;> rw [h] <;> rfl

/-- READ with a ready keyboard leaves the caller as it was. -/
theorem so_chamada_le_pronto (x : so_t) (c : Nat) (p1 : processo_t) (e : Int)
    (hcor : corrente x = some (c, p1))
    (hok : es_le x.es (calcular_endereco_dispositivo x.es.D_TERM_A_TECLADO_OK
      (obter_terminal_por_pid p1.pid)) = some e) (hne : e ≠ 0) :
    chamador_intacto x (so_chamada_le x) c ∧
    ∀ dado, es_le x.es (calcular_endereco_dispositivo x.es.D_TERM_A_TECLADO
        (obter_terminal_por_pid p1.pid)) = some dado →
      mem_le (so_chamada_le x).mem IRQ_END_A = some dado := by
  unfold so_chamada_le chamador_intacto
  rw [hcor]
  dsimp only
  rw [hok]
  dsimp only
  rw [if_neg hne]
  cases es_le x.es (calcular_endereco_dispositivo x.es.D_TERM_A_TECLADO
      (obter_terminal_por_pid p1.pid)) with
  | none => exact ⟨⟨rfl, rfl, rfl, rfl⟩, fun d h => by cases h⟩
  | some d => exact ⟨⟨rfl, rfl, rfl, rfl⟩, fun d h => by cases h; rfl⟩

/-- WRITE with a ready screen leaves the caller as it was. -/
theorem so_chamada_escr_pronto (x : so_t) (c : Nat) (p1 : processo_t) (e : Int)
    (hcor : corrente x = some (c, p1))
    (hok : es_le x.es (calcular_endereco_dispositivo x.es.D_TERM_A_TELA_OK
      (obter_terminal_por_pid p1.pid)) = some e) (hne : e ≠ 0) :
    chamador_intacto x (so_chamada_escr x) c ∧
    (x.es.escreve_ok (calcular_endereco_dispositivo x.es.D_TERM_A_TELA
        (obter_terminal_por_pid p1.pid)) x.mem.X = true →
      mem_le (so_chamada_escr x).mem IRQ_END_A = some 0) := by
  have f : mem_le x.mem IRQ_END_X = some x.mem.X := rfl
  unfold so_chamada_escr chamador_intacto
  rw [hcor]
  dsimp only
  rw [hok]
  dsimp only
  rw [if_neg hne, f]
  dsimp only
  unfold es_escreve
  by_cases hw : x.es.escreve_ok (calcular_endereco_dispositivo x.es.D_TERM_A_TELA
        (obter_terminal_por_pid p1.pid)) x.mem.X = true
  · rw [if_pos hw]
    exact ⟨⟨rfl, rfl, rfl, rfl⟩, fun _ => rfl⟩
  · rw [if_neg hw]
    exact ⟨⟨rfl, rfl, rfl, rfl⟩, fun h => absurd h hw⟩

/-- KILL of another process leaves the caller as it was. -/
theorem so_chamada_mata_proc_outro (x : so_t) (c : Nat) (p1 : processo_t)
    (hcor : corrente x = some (c, p1)) (h0 : p1.reg1 ≠ 0) (hne : p1.reg1 ≠ p1.pid) :
    chamador_intacto x (so_chamada_mata_proc x) c ∧
    (mem_le (so_chamada_mata_proc x).mem IRQ_END_A = some 0 ∨
      mem_le (so_chamada_mata_proc x).mem IRQ_END_A = some (-1)) := by
  obtain ⟨hc1, hc2⟩ := (corrente_eq_some x c p1).mp hcor
  have e : (if p1.reg1 = 0 then p1.pid else p1.reg1) = p1.reg1 := if_neg h0
  cases hi : encontra_processo_por_pid x.processos p1.reg1 with
  | none =>
    unfold so_chamada_mata_proc chamador_intacto
    rw [hcor]
    dsimp only
    rw [e, hi]
    exact ⟨⟨rfl, rfl, rfl, rfl⟩, Or.inr rfl⟩
  | some i =>
    obtain ⟨q, hq, hqp, _⟩ := encontra_processo_por_pid_some x.processos p1.reg1 i hi
    have hci : c ≠ i := by
      intro h
      rw [← h, hc2] at hq
      cases hq
      exact hne hqp.symm
    rw [so_chamada_mata_proc_achou x c p1 i hcor (by rw [e]; exact hi)]
    unfold chamador_intacto
    dsimp only
    rw [e, if_neg (fun h => hne h.symm), getElem?_altera_processo, if_neg hci]
    exact ⟨⟨rfl, rfl, rfl, rfl⟩, Or.inl rfl⟩

/-- WAIT that does not block leaves the caller as it was. -/
theorem so_chamada_espera_proc_sem_bloqueio (x : so_t) (c : Nat) (p1 : processo_t)
    (hcor : corrente x = some (c, p1))
    (h : p1.reg1 = p1.pid ∨ encontra_processo_por_pid x.processos p1.reg1 = none ∨
      ∃ e, encontra_processo_por_pid x.processos p1.reg1 = some e ∧
        estado_em x.processos e = some ESTADO_TERMINADO) :
    chamador_intacto x (so_chamada_espera_proc x) c ∧
    (mem_le (so_chamada_espera_proc x).mem IRQ_END_A = some 0 ∨
      mem_le (so_chamada_espera_proc x).mem IRQ_END_A = some (-1)) := by
  unfold so_chamada_espera_proc chamador_intacto
  rw [hcor]
  dsimp only
  by_cases h1 : p1.reg1 = p1.pid
  · rw [if_pos h1]
    exact ⟨⟨rfl, rfl, rfl, rfl⟩, Or.inr rfl⟩
  · rw [if_neg h1]
    rcases h with h | h | ⟨e, h2, h3⟩
    · exact absurd h h1
    · rw [h]
      exact ⟨⟨rfl, rfl, rfl, rfl⟩, Or.inr rfl⟩
    · rw [h2]
      dsimp only
      obtain ⟨q, hq, hqe⟩ := estado_em_some h3
      rw [hq]
      dsimp only
      rw [if_pos hqe]
      exact ⟨⟨rfl, rfl, rfl, rfl⟩, Or.inl rfl⟩

/-- SPAWN that fails leaves the caller as it was and writes -1. -/
theorem so_chamada_cria_proc_sem_efeito (x : so_t) (c : Nat)
    (h : copia_str_da_mem 100 x.mem x.mem.X = none ∨
      ∃ nome, copia_str_da_mem 100 x.mem x.mem.X = some nome ∧
        (so_carrega_programa x nome).2 = -1) :
    chamador_intacto x (so_chamada_cria_proc x) c ∧
    mem_le (so_chamada_cria_proc x).mem IRQ_END_A = some (-1) := by
  have f : mem_le x.mem IRQ_END_X = some x.mem.X := rfl
  unfold so_chamada_cria_proc chamador_intacto
  rw [f]
  dsimp only
  rcases h with h | ⟨nome, h, h2⟩
  · rw [h]
    exact ⟨⟨rfl, rfl, rfl, rfl⟩, rfl⟩
  · rw [h]
    dsimp only
    obtain ⟨m, pc, hm⟩ := so_carrega_programa_casos x nome
    rw [hm] at h2
    dsimp only at h2
    unfold so_cria_processo
    rw [hm]
    dsimp only
    rw [if_pos h2]
    exact ⟨⟨rfl, rfl, rfl, rfl⟩, rfl⟩

/-- Whether the loader fails only depends on the memory and on the programs. -/
theorem so_carrega_programa_de_mem (a b : so_t) (nome : nome_t) (hm : a.mem = b.mem)
    (hp : a.programas = b.programas) :
    (so_carrega_programa a nome).2 = (so_carrega_programa b nome).2 := by
  unfold so_carrega_programa
  rw [hm, hp]
  cases b.programas nome with
  | none => rfl
  | some prog =>
    dsimp only
    cases carrega_palavras b.mem prog.end_carga prog.dados with
    | mk m ok => cases ok <;> rfl

/-- The end of a kernel entry when the current descriptor is alive and among the
first `numero_processos`: the dispatch of that descriptor. -/
theorem fim_com_corrente_vivo (x : so_t) (c : Nat) (p : processo_t)
    (hc : x.processo_corrente = some c) (hp : x.processos[c]? = some p)
    (he : p.estado ≠ ESTADO_TERMINADO) (hn : (c : Int) < x.numero_processos) :
    (if (x.processos.take x.numero_processos.toNat).any
          (fun p => p.estado ≠ ESTADO_TERMINADO) = true
      then so_despacha x else finaliza_sistema x) =
      ({ x with mem := mem_escreve_ign (mem_escreve_ign (mem_escreve_ign x.mem IRQ_END_PC p.pc)
          IRQ_END_A p.reg0) IRQ_END_X p.reg1 }, 0) := by
  have hv : (x.processos.take x.numero_processos.toNat).any
      (fun p => p.estado ≠ ESTADO_TERMINADO) = true := by
    rw [List.any_eq_true]
    refine ⟨p, ?_, ?_⟩
    · rw [List.mem_iff_getElem?]
      refine ⟨c, ?_⟩
      rw [List.getElem?_take_of_lt (by omega)]
      exact hp
    · simpa using he
  rw [if_pos hv]
  have hcor : corrente x = some (c, p) := (corrente_eq_some x c p).mpr ⟨hc, hp⟩
  unfold so_despacha
  rw [hcor]

/-- The sweep and round-robin leave a RUNNING current process with a positive
quantum in place, with its reg[0]. -/
theorem apos_escalonar_com_chamador (x : so_t) (c : Nat) (p1 : processo_t)
    (hc : x.processo_corrente = some c) (hp : x.processos[c]? = some p1)
    (he : p1.estado = ESTADO_INICIALIZANDO) (hq : 0 < x.quantum_proc) :
    (so_escalona (so_trata_pendencias x) 2).processo_corrente = some c ∧
    (so_escalona (so_trata_pendencias x) 2).numero_processos = x.numero_processos ∧
    ∃ p2, (so_escalona (so_trata_pendencias x) 2).processos[c]? = some p2 ∧
      p2.estado = ESTADO_INICIALIZANDO ∧ p2.reg0 = p1.reg0 := by
  obtain ⟨s1, _⟩ := so_trata_pendencias_exato x
  obtain ⟨s3, _, s4, _, s5, _⟩ := so_trata_pendencias_quadro x
  have tS : (so_trata_pendencias x).processos[c]? = some p1 := by
    have e : marca_pronto x p1 = p1 := by
      unfold marca_pronto
      rw [if_neg]
      intro h
      rw [he] at h
      exact absurd h.1 (by decide)
    rw [s1, List.getElem?_map, hp]
    show some (marca_pronto x p1) = some p1
    rw [e]
  rw [hc] at s3
  generalize so_trata_pendencias x = S at s3 s4 s5 tS ⊢
  obtain ⟨q1, _, _, q4, _⟩ := antes_da_politica_quadro S
  have t := antes_da_politica_tabela S c
  have hne : ¬ p1.estado = ESTADO_PRONTO := by rw [he]; decide
  rw [if_pos s3, tS] at t
  simp only [Option.map_some', if_neg hne] at t
  have n := (so_escalona_numero S 2).1
  have cor := (corrente_eq_some _ c _).mpr ⟨q1.trans s3, t⟩
  have ce : corrente_executando
      (atualiza_prioridade (atualiza_estado_processo_corrente S)) = true := by
    unfold corrente_executando
    rw [cor]
    simpa using he
  have esc : so_escalona S 2 = atualiza_prioridade (atualiza_estado_processo_corrente S) := by
    unfold so_escalona
    dsimp only
    rw [if_neg (by decide), if_pos rfl]
    unfold escalonador_round_robin
    rw [if_pos]
    rw [ce, q4, s4]
    simpa using hq
  rw [esc] at n ⊢
  exact ⟨q1.trans s3, n.trans s5, _, t, he, rfl⟩

/-- A system-call entry under round-robin whose handler leaves the RUNNING caller
as the entry saved it, with a positive quantum: the caller is dispatched and the
word A of the trap frame at the exit is the one of the entry. -/
theorem entrada_com_chamador_intacto (self : so_t) (c : Nat) (p : processo_t)
    (hc : self.processo_corrente = some c) (hp : self.processos[c]? = some p)
    (he : p.estado = ESTADO_INICIALIZANDO) (hn : (c : Int) < self.numero_processos)
    (hq : 0 < self.quantum_proc)
    (hint : chamador_intacto (prepara_entrada self IRQ_SISTEMA)
      (so_trata_irq (prepara_entrada self IRQ_SISTEMA) IRQ_SISTEMA) c) :
    (so_trata_interrupcao_com 2 self IRQ_SISTEMA).2 = 0 ∧
    (so_trata_interrupcao_com 2 self IRQ_SISTEMA).1.processo_corrente = some c ∧
    mem_le (so_trata_interrupcao_com 2 self IRQ_SISTEMA).1.mem IRQ_END_A = some self.mem.A := by
  obtain ⟨p1, k1, k2, _, k4, _⟩ := prepara_entrada_chamador self IRQ_SISTEMA c p hc hp
  obtain ⟨_, _, p3, _, p5, p6⟩ := prepara_entrada_quadro self IRQ_SISTEMA
  obtain ⟨i1, i2, i3, i4⟩ := hint
  rw [k1] at i1
  rw [p3, hc] at i2
  rw [p6] at i3
  rw [p5] at i4
  obtain ⟨a1, a2, p2, a3, a4, a5⟩ := apos_escalonar_com_chamador _ c p1 i2 i1 (k2.trans he)
    (by rw [i3]; exact hq)
  rw [i4] at a2
  rw [so_trata_interrupcao_com_fim]
  unfold apos_escalonar
  rw [fim_com_corrente_vivo _ c p2 a1 a3 (by rw [a4]; decide) (by rw [a2]; exact hn)]
  refine ⟨rfl, a1, ?_⟩
  show some p2.reg0 = some self.mem.A
  rw [a5, k4]

/-! ## The internal-error flag does not steer a kernel entry -/

theorem corrente_com_erro (s : so_t) (e : Bool) : corrente (com_erro s e) = corrente s := rfl

theorem altera_corrente_com_erro (s : so_t) (f : processo_t → processo_t) :
    altera_corrente (com_erro s true) f = com_erro (altera_corrente s f) true := by
  cases s
  unfold altera_corrente com_erro
  dsimp only
  split <;> rfl

theorem conta_interrupcao_com_erro (s : so_t) (irq : irq_t) :
    conta_interrupcao (com_erro s true) irq = com_erro (conta_interrupcao s irq) true := rfl

theorem salva_estado_cpu_no_processo_com_erro (s : so_t) :
    salva_estado_cpu_no_processo (com_erro s true) =
      com_erro (salva_estado_cpu_no_processo s) true := by
  unfold salva_estado_cpu_no_processo
  exact altera_corrente_com_erro s _

theorem atualiza_metricas_com_relogio_com_erro (s : so_t) :
    atualiza_metricas_com_relogio (com_erro s true) =
      com_erro (atualiza_metricas_com_relogio s) true := by
  cases s
  unfold atualiza_metricas_com_relogio com_erro
  dsimp only
  repeat' split
  all_goals rfl

theorem so_chamada_le_com_erro (s : so_t) :
    so_chamada_le (com_erro s true) = com_erro (so_chamada_le s) true := by
  cases s
  unfold so_chamada_le
  rw [corrente_com_erro]
  unfold com_erro
  dsimp only
  repeat' split
  all_goals rfl

theorem so_chamada_escr_com_erro (s : so_t) :
    so_chamada_escr (com_erro s true) = com_erro (so_chamada_escr s) true := by
  cases s
  unfold so_chamada_escr
  rw [corrente_com_erro]
  unfold com_erro
  dsimp only
  repeat' split
  all_goals rfl

theorem so_chamada_espera_proc_com_erro (s : so_t) :
    so_chamada_espera_proc (com_erro s true) = com_erro (so_chamada_espera_proc s) true := by
  cases s
  unfold so_chamada_espera_proc
  rw [corrente_com_erro]
  unfold com_erro
  dsimp only
  repeat' split
  all_goals rfl

theorem so_chamada_mata_proc_com_erro (s : so_t) :
    so_chamada_mata_proc (com_erro s true) = com_erro (so_chamada_mata_proc s) true := by
  cases s
  unfold so_chamada_mata_proc
  rw [corrente_com_erro]
  unfold com_erro remove_processo_da_lista corrente
  dsimp only
  repeat' split
  all_goals rfl

theorem so_carrega_programa_com_erro (s : so_t) (nome : nome_t) :
    so_carrega_programa (com_erro s true) nome =
      (com_erro (so_carrega_programa s nome).1 true, (so_carrega_programa s nome).2) := by
  cases s
  unfold so_carrega_programa com_erro
  dsimp only
  repeat' split
  all_goals rfl

theorem so_cria_processo_com_erro (s : so_t) (nome : nome_t) :
    so_cria_processo (com_erro s true) nome =
      (com_erro (so_cria_processo s nome).1 true, (so_cria_processo s nome).2) := by
  unfold so_cria_processo
  rw [so_carrega_programa_com_erro]
  cases so_carrega_programa s nome with
  | mk s1 pc =>
    dsimp only
    split <;> rfl

theorem so_chamada_cria_proc_com_erro (s : so_t) :
    so_chamada_cria_proc (com_erro s true) = com_erro (so_chamada_cria_proc s) true := by
  unfold so_chamada_cria_proc
  have e : (com_erro s true).mem = s.mem := rfl
  rw [e]
  cases mem_le s.mem IRQ_END_X with
  | none => rfl
  | some ender =>
    dsimp only
    cases copia_str_da_mem 100 s.mem ender with
    | none => rfl
    | some nome =>
      dsimp only
      rw [so_cria_processo_com_erro]
      cases so_cria_processo s nome with
      | mk s1 o =>
        cases o with
        | none => rfl
        | some novo =>
          exact altera_corrente_com_erro
            (insere_na_fila_prontos (adiciona_processo_na_lista s1 novo) s1.processos.length) _

theorem so_trata_irq_com_erro (s : so_t) (irq : irq_t) :
    so_trata_irq (com_erro s true) irq = com_erro (so_trata_irq s irq) true := by
  cases irq with
  | IRQ_RESET =>
    show so_trata_irq_reset (com_erro s true) = com_erro (so_trata_irq_reset s) true
    unfold so_trata_irq_reset
    rw [so_cria_processo_com_erro]
    cases so_cria_processo s nome_init with
    | mk s1 o => cases o <;> rfl
  | IRQ_SISTEMA =>
    show so_trata_irq_chamada_sistema (com_erro s true) =
      com_erro (so_trata_irq_chamada_sistema s) true
    unfold so_trata_irq_chamada_sistema
    have e : (com_erro s true).mem = s.mem := rfl
    rw [e]
    cases mem_le s.mem IRQ_END_A with
    | none => rfl
    | some id =>
      dsimp only
      rw [so_chamada_le_com_erro, so_chamada_escr_com_erro, so_chamada_cria_proc_com_erro,
        so_chamada_mata_proc_com_erro, so_chamada_espera_proc_com_erro]
      split_ifs <;> rfl
  | IRQ_ERR_CPU =>
    show so_trata_irq_err_cpu (com_erro s true) = com_erro (so_trata_irq_err_cpu s) true
    unfold so_trata_irq_err_cpu
    rw [corrente_com_erro]
    cases corrente s with
    | none => rfl
    | some cp => rfl
  | IRQ_RELOGIO =>
    show so_trata_irq_relogio (com_erro s true) = com_erro (so_trata_irq_relogio s) true
    cases s
    unfold so_trata_irq_relogio com_erro es_escreve
    dsimp only
    split_ifs <;> rfl
  | IRQ_RESERVADA_4 => rfl
  | IRQ_RESERVADA_5 => rfl

theorem so_trata_pendencias_proc_com_erro (s : so_t) (i : Nat) :
    so_trata_pendencias_proc (com_erro s true) i =
      com_erro (so_trata_pendencias_proc s i) true := by
  have v : ∀ p, verifica_desbloqueio (com_erro s true) i p =
      com_erro (verifica_desbloqueio s i p) true := by
    intro p
    cases s
    unfold verifica_desbloqueio com_erro es_escreve
    dsimp only
    repeat' split
    all_goals rfl
  unfold so_trata_pendencias_proc
  have e : (com_erro s true).processos = s.processos := rfl
  rw [e]
  cases s.processos[i]? with
  | none => rfl
  | some proc =>
    dsimp only
    split
    · rw [v]
      have e1 : (com_erro (verifica_desbloqueio s i proc) true).processos =
          (verifica_desbloqueio s i proc).processos := rfl
      rw [e1]
      cases (verifica_desbloqueio s i proc).processos[i]? with
      | none => rfl
      | some p =>
        dsimp only
        split <;> rfl
    · rfl

theorem so_trata_pendencias_com_erro (s : so_t) :
    so_trata_pendencias (com_erro s true) = com_erro (so_trata_pendencias s) true := by
  have h : ∀ (l : List Nat) (x : so_t), l.foldl so_trata_pendencias_proc (com_erro x true) =
      com_erro (l.foldl so_trata_pendencias_proc x) true := by
    intro l
    induction l with
    | nil => intro x; rfl
    | cons a as ih =>
      intro x
      rw [List.foldl_cons, List.foldl_cons, so_trata_pendencias_proc_com_erro, ih]
  exact h _ s

theorem so_executa_proc_com_erro (s : so_t) (proc : Option Nat) :
    so_executa_proc (com_erro s true) proc = com_erro (so_executa_proc s proc) true := by
  have h1 : so_executa_proc_preempcao (com_erro s true) proc =
      com_erro (so_executa_proc_preempcao s proc) true := by
    unfold so_executa_proc_preempcao
    rw [corrente_com_erro]
    cases corrente s with
    | none => rfl
    | some cp =>
      dsimp only
      split <;> rfl
  have h2 : ∀ x : so_t, so_executa_proc_inicio (com_erro x true) proc =
      com_erro (so_executa_proc_inicio x proc) true := by
    intro x
    unfold so_executa_proc_inicio
    cases proc with
    | none => rfl
    | some i =>
      dsimp only
      have e : (com_erro x true).processos = x.processos := rfl
      rw [e]
      cases x.processos[i]? with
      | none => rfl
      | some p =>
        dsimp only
        split <;> rfl
  unfold so_executa_proc
  dsimp only
  rw [h1, h2]
  rfl

theorem reinsere_corrente_com_erro (s : so_t) :
    reinsere_corrente (com_erro s true) = com_erro (reinsere_corrente s) true := by
  cases s
  unfold reinsere_corrente
  have e : ∀ x : so_t, corrente_executando (com_erro x true) = corrente_executando x :=
    fun _ => rfl
  rw [e]
  unfold com_erro
  dsimp only
  repeat' split
  all_goals rfl

theorem so_escalona_com_erro (s : so_t) (escalonador : Int) :
    so_escalona (com_erro s true) escalonador = com_erro (so_escalona s escalonador) true := by
  have a1 : atualiza_estado_processo_corrente (com_erro s true) =
      com_erro (atualiza_estado_processo_corrente s) true := by
    unfold atualiza_estado_processo_corrente
    exact altera_corrente_com_erro s _
  have a2 : ∀ x : so_t, atualiza_prioridade (com_erro x true) =
      com_erro (atualiza_prioridade x) true := by
    intro x
    unfold atualiza_prioridade
    exact altera_corrente_com_erro x _
  have ce : ∀ x : so_t, corrente_executando (com_erro x true) = corrente_executando x :=
    fun _ => rfl
  have q : ∀ x : so_t, (com_erro x true).quantum_proc = x.quantum_proc := fun _ => rfl
  have f : ∀ x : so_t, (com_erro x true).fila_prontos = x.fila_prontos := fun _ => rfl
  have ps : ∀ x : so_t, (com_erro x true).processos = x.processos := fun _ => rfl
  unfold so_escalona
  dsimp only
  rw [a1, a2]
  generalize atualiza_prioridade (atualiza_estado_processo_corrente s) = x
  split_ifs
  · unfold escalonador_prioridade
    rw [ce, q]
    split
    · rfl
    · dsimp only
      rw [reinsere_corrente_com_erro, f, ps]
      cases remover_processo_maior_prioridade (reinsere_corrente x).processos
          (reinsere_corrente x).fila_prontos with
      | none => rfl
      | some jr =>
        obtain ⟨j, r⟩ := jr
        exact so_executa_proc_com_erro { reinsere_corrente x with fila_prontos := r } (some j)
  · unfold escalonador_round_robin
    rw [ce, q]
    split
    · rfl
    · dsimp only
      rw [reinsere_corrente_com_erro, f]
      cases remove_primeiro_processo_fila (reinsere_corrente x).fila_prontos with
      | none => rfl
      | some jr =>
        obtain ⟨j, r⟩ := jr
        exact so_executa_proc_com_erro { reinsere_corrente x with fila_prontos := r } (some j)
  · unfold escalonador_simples
    rw [ce, ps]
    split
    · rfl
    · cases obtem_processo_por_estado x.processos ESTADO_PRONTO with
      | some j => exact so_executa_proc_com_erro x (some j)
      | none =>
        dsimp only
        cases obtem_processo_por_estado x.processos ESTADO_BLOQUEADO <;> rfl
  · rfl

theorem so_despacha_com_erro (s : so_t) :
    so_despacha (com_erro s true) = (com_erro (so_despacha s).1 true, (so_despacha s).2) := by
  unfold so_despacha
  rw [corrente_com_erro]
  cases corrente s <;> rfl

theorem finaliza_sistema_com_erro (s : so_t) :
    finaliza_sistema (com_erro s true) =
      (com_erro (finaliza_sistema s).1 true, (finaliza_sistema s).2) := by
  cases s
  unfold finaliza_sistema com_erro es_escreve
  dsimp only
  split_ifs <;> rfl

/-- A kernel entry on a state whose internal-error flag is set does what it does
on the state with the flag as it was, and leaves the flag set. -/
theorem so_trata_interrupcao_com_erro (escalonador : Int) (s : so_t) (irq : irq_t) :
    so_trata_interrupcao_com escalonador (com_erro s true) irq =
      (com_erro (so_trata_interrupcao_com escalonador s irq).1 true,
        (so_trata_interrupcao_com escalonador s irq).2) := by
  have h : apos_escalonar escalonador (com_erro s true) irq =
      com_erro (apos_escalonar escalonador s irq) true := by
    unfold apos_escalonar prepara_entrada
    rw [conta_interrupcao_com_erro, salva_estado_cpu_no_processo_com_erro,
      atualiza_metricas_com_relogio_com_erro, so_trata_irq_com_erro,
      so_trata_pendencias_com_erro, so_escalona_com_erro]
  rw [so_trata_interrupcao_com_fim, so_trata_interrupcao_com_fim, h]
  generalize apos_escalonar escalonador s irq = x
  have e1 : (com_erro x true).processos = x.processos := rfl
  have e2 : (com_erro x true).numero_processos = x.numero_processos := rfl
  rw [e1, e2]
  split
  · exact so_despacha_com_erro x
  · exact finaliza_sistema_com_erro x

/-- A kernel entry compared with the entry on the state with the flag cleared. -/
theorem so_trata_interrupcao_sem_erro (escalonador : Int) (a : so_t) (irq : irq_t) :
    (so_trata_interrupcao_com escalonador a irq).2 =
      (so_trata_interrupcao_com escalonador (com_erro a false) irq).2 ∧
    com_erro (so_trata_interrupcao_com escalonador a irq).1 false =
      com_erro (so_trata_interrupcao_com escalonador (com_erro a false) irq).1 false ∧
    (a.erro_interno = true →
      (so_trata_interrupcao_com escalonador a irq).1.erro_interno = true) := by
  cases he : a.erro_interno with
  | false =>
    have e : com_erro a false = a := by
      cases a
      dsimp only at he
      subst he
      rfl
    rw [e]
    exact ⟨rfl, rfl, fun h => by cases h⟩
  | true =>
    have e : a = com_erro (com_erro a false) true := by
      cases a
      dsimp only at he
      subst he
      rfl
    have r := so_trata_interrupcao_com_erro escalonador (com_erro a false) irq
    rw [← e] at r
    rw [r]
    exact ⟨rfl, rfl, fun _ => rfl⟩

/-! ## Round-robin among processes that use up their quantum -/

/-- Round-robin keeps a current process that is RUNNING or READY while the quantum
is positive: only the two steps before the policy act. -/
theorem so_escalona_mantem (x : so_t) (c : Nat) (hc : x.processo_corrente = some c)
    (he : estado_em x.processos c = some ESTADO_INICIALIZANDO ∨
      estado_em x.processos c = some ESTADO_PRONTO)
    (hq : 0 < x.quantum_proc) :
    so_escalona x 2 = atualiza_prioridade (atualiza_estado_processo_corrente x) := by
  obtain ⟨q1, _, _, q4, _⟩ := antes_da_politica_quadro x
  have t := antes_da_politica_tabela x c
  rw [if_pos hc] at t
  have hest : estado_em (atualiza_prioridade
      (atualiza_estado_processo_corrente x)).processos c = some ESTADO_INICIALIZANDO := by
    unfold estado_em
    rw [t]
    rcases he with he | he
    · obtain ⟨p, hp, hpe⟩ := estado_em_some he
      rw [hp]
      simp only [Option.map_some', Option.some.injEq]
      rw [if_neg (by rw [hpe]; decide)]
      exact hpe
    · obtain ⟨p, hp, hpe⟩ := estado_em_some he
      rw [hp]
      simp only [Option.map_some', Option.some.injEq]
      rw [if_pos hpe]
  have ce : corrente_executando
      (atualiza_prioridade (atualiza_estado_processo_corrente x)) = true :=
    (corrente_executando_iff _).mpr ⟨c, q1.trans hc, hest⟩
  unfold so_escalona
  dsimp only
  rw [if_neg (by decide), if_pos rfl]
  unfold escalonador_round_robin
  rw [if_pos]
  rw [ce, q4]
  simpa using hq

/-- Round-robin when the current process is RUNNING and its quantum is spent: it
goes to the tail of the ready queue and the head of the queue is put to run. -/
theorem so_escalona_troca_esgotado (x : so_t) (c h : Nat) (resto : List Nat)
    (hc : x.processo_corrente = some c)
    (he : estado_em x.processos c = some ESTADO_INICIALIZANDO)
    (hq : x.quantum_proc ≤ 0) (hf : x.fila_prontos = h :: resto) :
    so_escalona x 2 =
      so_executa_proc
        { atualiza_prioridade (atualiza_estado_processo_corrente x) with
          fila_prontos := resto ++ [c] } (some h) := by
  obtain ⟨q1, _, q3, q4, q5⟩ := antes_da_politica_quadro x
  obtain ⟨p, hp, hpe⟩ := estado_em_some he
  obtain ⟨p1, hp1, _, hp3, _⟩ := q5 c p hp
  have hest : estado_em (atualiza_prioridade
      (atualiza_estado_processo_corrente x)).processos c = some ESTADO_INICIALIZANDO := by
    unfold estado_em
    rw [hp1]
    simp [hp3 hpe]
  have ce : corrente_executando
      (atualiza_prioridade (atualiza_estado_processo_corrente x)) = true :=
    (corrente_executando_iff _).mpr ⟨c, q1.trans hc, hest⟩
  unfold so_escalona
  dsimp only
  rw [if_neg (by decide), if_pos rfl]
  generalize atualiza_prioridade (atualiza_estado_processo_corrente x) = a at q1 q3 q4 ce ⊢
  unfold escalonador_round_robin
  rw [if_neg (by rw [ce, q4]; simpa using hq)]
  dsimp only
  unfold reinsere_corrente
  rw [if_pos ce, q1.trans hc]
  dsimp only
  unfold insere_na_fila_prontos
  dsimp only
  rw [q3, hf]
  have k := q1.trans hc
  simp only [k]
  rfl

/-- Round-robin when the current process is BLOCKED: the head of the ready queue is
put to run and the queue loses it. -/
theorem so_escalona_troca_bloqueado (x : so_t) (c h : Nat) (resto : List Nat)
    (hc : x.processo_corrente = some c)
    (he : estado_em x.processos c = some ESTADO_BLOQUEADO)
    (hf : x.fila_prontos = h :: resto) :
    so_escalona x 2 =
      so_executa_proc
        { atualiza_prioridade (atualiza_estado_processo_corrente x) with
          fila_prontos := resto } (some h) := by
  obtain ⟨q1, _, q3, q4, _⟩ := antes_da_politica_quadro x
  have t := antes_da_politica_tabela x c
  rw [if_pos hc] at t
  obtain ⟨p, hp, hpe⟩ := estado_em_some he
  have hest : estado_em (atualiza_prioridade
      (atualiza_estado_processo_corrente x)).processos c = some ESTADO_BLOQUEADO := by
    unfold estado_em
    rw [t, hp]
    simp only [Option.map_some', Option.some.injEq]
    rw [if_neg (by rw [hpe]; decide)]
    exact hpe
  have ce : corrente_executando
      (atualiza_prioridade (atualiza_estado_processo_corrente x)) = false := by
    cases hk : corrente_executando
        (atualiza_prioridade (atualiza_estado_processo_corrente x)) with
    | false => rfl
    | true =>
      obtain ⟨c1, k1, k2⟩ := (corrente_executando_iff _).mp hk
      rw [q1, hc] at k1
      cases k1
      rw [hest] at k2
      cases k2
  unfold so_escalona
  dsimp only
  rw [if_neg (by decide), if_pos rfl]
  generalize atualiza_prioridade (atualiza_estado_processo_corrente x) = a at q1 q3 q4 ce ⊢
  unfold escalonador_round_robin
  rw [if_neg (by rw [ce]; simp)]
  dsimp only
  unfold reinsere_corrente
  rw [if_neg (by rw [ce]; simp), q3, hf]
  rfl

/-- The global preemption counter after `so_executa_proc`: one more when the
previous current process is RUNNING and is not the one chosen, unchanged when the
previous current process is not RUNNING. -/
theorem so_executa_proc_preempcoes (x : so_t) (c h : Nat) (hc : x.processo_corrente = some c) :
    (estado_em x.processos c = some ESTADO_INICIALIZANDO → c ≠ h →
      (so_executa_proc x (some h)).metricas.num_preempcoes = x.metricas.num_preempcoes + 1) ∧
    (estado_em x.processos c ≠ some ESTADO_INICIALIZANDO →
      (so_executa_proc x (some h)).metricas.num_preempcoes = x.metricas.num_preempcoes) := by
  have e1 : (so_executa_proc x (some h)).metricas =
      (so_executa_proc_preempcao x (some h)).metricas := by
    show (so_executa_proc_inicio (so_executa_proc_preempcao x (some h)) (some h)).metricas = _
    unfold so_executa_proc_inicio
    dsimp only
    split
    · split <;> rfl
    · rfl
  rw [e1]
  unfold so_executa_proc_preempcao
  constructor
  · intro he hne
    obtain ⟨p, hp, hpe⟩ := estado_em_some he
    rw [(corrente_eq_some x c p).mpr ⟨hc, hp⟩]
    dsimp only
    rw [if_pos ⟨fun e => hne (by cases e; rfl), hpe⟩]
  · intro he
    cases hk : corrente x with
    | none => rfl
    | some cp =>
      obtain ⟨c1, p⟩ := cp
      obtain ⟨k1, k2⟩ := (corrente_eq_some x c1 p).mp hk
      rw [hc] at k1
      cases k1
      dsimp only
      rw [if_neg]
      intro hh
      apply he
      unfold estado_em
      rw [k2]
      simp [hh.2]

theorem desperta_falso_de_estado (x : so_t) (i : Nat)
    (h : estado_em x.processos i ≠ some ESTADO_BLOQUEADO) : desperta x i = false := by
  unfold desperta
  cases hp : x.processos[i]? with
  | none => rfl
  | some p =>
    dsimp only
    have : p.estado ≠ ESTADO_BLOQUEADO := by
      intro e
      apply h
      unfold estado_em
      rw [hp, ← e]
      rfl
    simp [this]

/-- The sweep changes neither the table nor the ready queue when no descriptor is
woken. -/
theorem so_trata_pendencias_sem_despertar (x : so_t) (h : ∀ i, desperta x i = false) :
    (so_trata_pendencias x).processos = x.processos ∧
    (so_trata_pendencias x).fila_prontos = x.fila_prontos := by
  obtain ⟨s1, s2⟩ := so_trata_pendencias_exato x
  constructor
  · rw [s1]
    apply List.ext_getElem?
    intro j
    rw [List.getElem?_map]
    cases hp : x.processos[j]? with
    | none => rfl
    | some p =>
      show some (marca_pronto x p) = some p
      rw [(desperta_marca x j p hp).2 (h j)]
  · rw [s2]
    have e : (List.range x.processos.length).filter (desperta x) = [] := by
      rw [List.filter_eq_nil_iff]
      intro a _
      rw [h a]
      decide
    rw [e, List.append_nil]

/-- A TIMER entry under round-robin while a process is current and RUNNING and the
ready queue is not empty: with more than one tick of quantum left the process keeps
the CPU and one tick is taken; with one tick left it is preempted, the head of the
queue gets a full quantum and the global preemption counter goes up by one. -/
theorem entrada_relogio_rodizio (s : so_t) (t : trap_t) (ht : t.irq = IRQ_RELOGIO)
    (hb : inv_base_saida s) (hf : fila_boa s) (hcor : s.processo_corrente ≠ none)
    (hfila : s.fila_prontos ≠ []) (hq : 1 ≤ s.quantum_proc) :
    (entrada 2 s t).1.processo_corrente ≠ none ∧ (entrada 2 s t).1.fila_prontos ≠ [] ∧
    (1 < s.quantum_proc →
      (entrada 2 s t).1.quantum_proc = s.quantum_proc - 1 ∧
      (entrada 2 s t).1.metricas.num_preempcoes = s.metricas.num_preempcoes) ∧
    (s.quantum_proc = 1 →
      (entrada 2 s t).1.quantum_proc = QUANTUM ∧
      (entrada 2 s t).1.metricas.num_preempcoes = s.metricas.num_preempcoes + 1) := by
  obtain ⟨c, hc1⟩ := Option.ne_none_iff_exists'.mp hcor
  have hc2 : estado_em s.processos c = some ESTADO_INICIALIZANDO := hb.2 c hc1
  have ee : entrada 2 s t = so_trata_interrupcao_com 2 (na_entrada s t) IRQ_RELOGIO := by
    unfold entrada
    rw [ht]
  rw [ee]
  have f0 := so_trata_interrupcao_com_forma 2 (na_entrada s t) IRQ_RELOGIO
  obtain ⟨_, f1, f2, f3⟩ := fim_da_entrada_quadro _ _ f0
  obtain ⟨f4, _⟩ := fim_da_entrada_metricas _ _ f0
  generalize so_trata_interrupcao_com 2 (na_entrada s t) IRQ_RELOGIO = res at f1 f2 f3 f4 ⊢
  clear f0
  obtain ⟨p1, p2, p3, p4, p5, p6⟩ := prepara_entrada_quadro (na_entrada s t) IRQ_RELOGIO
  have p7 := (prepara_entrada_preempcoes (na_entrada s t) IRQ_RELOGIO).1
  have p8 : estado_em (prepara_entrada (na_entrada s t) IRQ_RELOGIO).processos c =
      some ESTADO_INICIALIZANDO := by
    rw [estado_em_de_pids_estados p1 c]
    exact hc2
  obtain ⟨t1, t2⟩ := saida_transfere s (prepara_entrada (na_entrada s t) IRQ_RELOGIO)
    p1 p2 p3 p4 p5
  obtain ⟨_, m2⟩ := so_trata_irq_meio (prepara_entrada (na_entrada s t) IRQ_RELOGIO)
    IRQ_RELOGIO (by decide) (t1 hb)
  have m3 := so_trata_pendencias_fila _ (m2 (t2 hf))
  generalize prepara_entrada (na_entrada s t) IRQ_RELOGIO = P at p2 p3 p6 p7 p8 f1 f2 f3 f4 m3
  -- the handler
  have r1 : (so_trata_irq P IRQ_RELOGIO).processos = P.processos ∧
      (so_trata_irq P IRQ_RELOGIO).processo_corrente = P.processo_corrente ∧
      (so_trata_irq P IRQ_RELOGIO).metricas = P.metricas ∧
      (so_trata_irq P IRQ_RELOGIO).quantum_proc = P.quantum_proc - 1 ∧
      (so_trata_irq P IRQ_RELOGIO).fila_prontos = P.fila_prontos := by
    have er : so_trata_irq P IRQ_RELOGIO = so_trata_irq_relogio P := rfl
    rw [er]
    have hq1 : P.quantum_proc > 0 := by
      rw [p6]
      show 0 < s.quantum_proc
      omega
    unfold so_trata_irq_relogio
    dsimp only
    split_ifs
    all_goals exact ⟨rfl, rfl, rfl, rfl, rfl⟩
  obtain ⟨r1a, r1b, r1c, r1d, r1f⟩ := r1
  have r1e : estado_em (so_trata_irq P IRQ_RELOGIO).processos c = some ESTADO_INICIALIZANDO := by
    rw [r1a]
    exact p8
  generalize so_trata_irq P IRQ_RELOGIO = H at r1b r1c r1d r1e r1f f1 f2 f3 f4 m3
  -- the sweep
  obtain ⟨s1, s2, s3, _, _, _⟩ := so_trata_pendencias_quadro H
  have s4 := so_trata_pendencias_executando H c r1e
  have s5 := (so_trata_pendencias_exato H).2
  have s6 : c ∉ (so_trata_pendencias H).fila_prontos :=
    m3.2.1 c (by rw [s1, r1b, p3]; exact hc1)
  generalize so_trata_pendencias H = S at s1 s2 s3 s4 s5 s6 f1 f2 f3 f4
  have hSc : S.processo_corrente = some c := by
    rw [s1, r1b, p3]
    exact hc1
  have hSq : S.quantum_proc = s.quantum_proc - 1 := by
    rw [s3, r1d, p6]
    rfl
  have hSm : S.metricas.num_preempcoes = s.metricas.num_preempcoes := by
    rw [s2, r1c, p7]
    rfl
  have hSf : S.fila_prontos ≠ [] := by
    rw [s5, r1f, p2]
    intro e
    exact hfila (List.append_eq_nil.mp e).1
  obtain ⟨a1, a2, a3, a4, a5⟩ := antes_da_politica_quadro S
  by_cases hq2 : 1 < s.quantum_proc
  · have e1 := so_escalona_mantem S c hSc (Or.inl s4) (by rw [hSq]; omega)
    rw [e1] at f1 f2 f3 f4
    refine ⟨?_, ?_, fun _ => ⟨?_, ?_⟩, fun h => absurd h (by omega)⟩
    · rw [f2, a1, hSc]
      exact Option.some_ne_none c
    · rw [f1, a3]
      exact hSf
    · rw [f3, a4, hSq]
    · rw [f4, a2, hSm]
  · have hq3 : s.quantum_proc = 1 := by omega
    obtain ⟨h, resto, hhr⟩ := List.exists_cons_of_ne_nil hSf
    have e1 := so_escalona_troca_esgotado S c h resto hSc s4 (by rw [hSq]; omega) hhr
    rw [e1] at f1 f2 f3 f4
    obtain ⟨g1, g2, g3⟩ := so_executa_proc_fila
      { atualiza_prioridade (atualiza_estado_processo_corrente S) with
        fila_prontos := resto ++ [c] } (some h)
    obtain ⟨q, hq4, hq5⟩ := estado_em_some s4
    obtain ⟨q1, hq6, _, hq7, _⟩ := a5 c q hq4
    have a6 : estado_em (atualiza_prioridade (atualiza_estado_processo_corrente S)).processos c =
        some ESTADO_INICIALIZANDO := by
      unfold estado_em
      rw [hq6]
      simp [hq7 hq5]
    have hne : c ≠ h := by
      intro e
      apply s6
      rw [hhr, e]
      exact List.mem_cons_self h resto
    have g4 := (so_executa_proc_preempcoes
      { atualiza_prioridade (atualiza_estado_processo_corrente S) with
        fila_prontos := resto ++ [c] } c h (a1.trans hSc)).1 a6 hne
    refine ⟨?_, ?_, fun h1 => absurd h1 hq2, fun _ => ⟨?_, ?_⟩⟩
    · rw [f2, g3]
      exact Option.some_ne_none h
    · rw [f1, g1]
      simp
    · rw [f3, g2]
    · rw [f4, g4]
      show (atualiza_prioridade (atualiza_estado_processo_corrente S)).metricas.num_preempcoes
        + 1 = _
      rw [a2, hSm]

/-- A run of TIMER traps under round-robin from a state in which a process is
current and the ready queue is not empty: five TIMER traps per preemption. -/
theorem executa_relogios_rodizio : ∀ (ts : List trap_t) (s : so_t) (n : Nat),
    (∀ t ∈ ts, t.irq = IRQ_RELOGIO) → inv_rodizio s n →
    inv_rodizio (executa 2 s ts) (n + ts.length) := by
  intro ts
  induction ts with
  | nil => intro s n _ h; exact h
  | cons t ts ih =>
    intro s n hts h
    obtain ⟨hb, hf, hc, hfila, hq1, hq5, hn⟩ := h
    have ht := hts t (List.mem_cons_self t ts)
    obtain ⟨i1, i2⟩ := entrada_saida 2 s t (Or.inr (Or.inl rfl)) (by rw [ht]; decide) hb
      (fun _ => hf)
    obtain ⟨e1, e2, e3, e4⟩ := entrada_relogio_rodizio s t ht hb hf hc hfila hq1
    have k : inv_rodizio (entrada 2 s t).1 (n + 1) := by
      refine ⟨i1, i2 (by decide), e1, e2, ?_⟩
      have hQ : QUANTUM = 5 := rfl
      rw [hQ] at hq5 hn ⊢
      by_cases hq2 : 1 < s.quantum_proc
      · obtain ⟨u1, u2⟩ := e3 hq2
        rw [u1, u2]
        refine ⟨by omega, by omega, ?_⟩
        push_cast
        omega
      · obtain ⟨u1, u2⟩ := e4 (by omega)
        rw [u1, u2, hQ]
        refine ⟨by omega, by omega, ?_⟩
        push_cast
        omega
    have r := ih (entrada 2 s t).1 (n + 1) (fun u hu => hts u (List.mem_cons_of_mem t hu)) k
    have el : n + (t :: ts).length = n + 1 + ts.length := by
      simp only [List.length_cons]
      omega
    rw [el]
    exact r

/-! ## Scenario S3: the boot, the SPAWNs and the WAIT -/

theorem altera_corrente_programas (s : so_t) (f : processo_t → processo_t) :
    (altera_corrente s f).programas = s.programas := by
  unfold altera_corrente
  split <;> rfl

theorem so_trata_pendencias_programas (x : so_t) :
    (so_trata_pendencias x).programas = x.programas := by
  refine foldl_preserva (fun s => s.programas = x.programas)
    so_trata_pendencias_proc ?_ _ x rfl
  intro a b h
  obtain ⟨l, e | ⟨proc, _, _, _, e⟩⟩ := so_trata_pendencias_proc_casos a b
  · rw [e]
    exact h
  · rw [e]
    exact h

theorem fim_da_entrada_programas (x : so_t) (res : so_t × Int)
    (h : res = so_despacha x ∨ res = finaliza_sistema x) :
    res.1.programas = x.programas := by
  rcases h with h | h
  · rw [h]
    unfold so_despacha
    split <;> rfl
  · rw [h]
    unfold finaliza_sistema
    dsimp only
    split <;> rfl

theorem altera_corrente_ativos (s : so_t) (f : processo_t → processo_t)
    (hf : ∀ p, (p.estado = ESTADO_INICIALIZANDO ∨ p.estado = ESTADO_PRONTO) →
      ((f p).estado = ESTADO_INICIALIZANDO ∨ (f p).estado = ESTADO_PRONTO))
    (h : todos_ativos s) : todos_ativos (altera_corrente s f) := by
  intro j e he
  have k := (altera_corrente_resto s f).2.2.2.2.2.2.2.2.2 j
  unfold estado_em at he
  rw [k] at he
  split at he
  · cases hp : s.processos[j]? with
    | none =>
      rw [hp] at he
      cases he
    | some p =>
      rw [hp] at he
      simp only [Option.map_some', Option.some.injEq] at he
      rw [← he]
      apply hf
      apply h j
      unfold estado_em
      rw [hp]
      rfl
  · exact h j e he

theorem antes_da_politica_ativos (x : so_t) (h : todos_ativos x) :
    todos_ativos (atualiza_prioridade (atualiza_estado_processo_corrente x)) ∧
    (atualiza_prioridade (atualiza_estado_processo_corrente x)).programas = x.programas ∧
    (atualiza_prioridade (atualiza_estado_processo_corrente x)).processos.length =
      x.processos.length := by
  refine ⟨?_, ?_, ?_⟩
  · show todos_ativos (altera_corrente _ _)
    refine altera_corrente_ativos _ _ (fun p hp => ?_) ?_
    · exact hp
    · show todos_ativos (altera_corrente _ _)
      refine altera_corrente_ativos _ _ (fun p hp => ?_) h
      dsimp only
      split
      · exact Or.inl rfl
      · exact hp
  · show (altera_corrente _ _).programas = _
    rw [altera_corrente_programas]
    show (altera_corrente _ _).programas = _
    rw [altera_corrente_programas]
  · show (altera_corrente _ _).processos.length = _
    rw [(altera_corrente_resto _ _).2.2.2.2.2.2.2.2.1]
    show (altera_corrente _ _).processos.length = _
    rw [(altera_corrente_resto _ _).2.2.2.2.2.2.2.2.1]

theorem so_trata_pendencias_ativos (x : so_t) (h : todos_ativos x) :
    (so_trata_pendencias x).processos = x.processos ∧
    (so_trata_pendencias x).fila_prontos = x.fila_prontos :=
  so_trata_pendencias_sem_despertar x (fun i => desperta_falso_de_estado x i (fun e => by
    rcases h i _ e with k | k <;> cases k))

/-- A SPAWN that succeeds: the new descriptor, READY, is appended to the table and
its position to the ready queue, and the caller gets the new pid in its saved
register A. -/
theorem so_chamada_cria_proc_sucede (x : so_t) (nome : nome_t)
    (hn : copia_str_da_mem 100 x.mem x.mem.X = some nome)
    (hc : carrega_bem x.programas x.mem nome) :
    ∃ (m : mem_t) (pc : Int), so_chamada_cria_proc x =
      altera_corrente
        { x with mem := m, pid_atual := x.pid_atual + 1,
                 numero_processos := x.numero_processos + 1,
                 processos := x.processos ++ [inicializa_processo x.pid_atual pc],
                 fila_prontos := x.fila_prontos ++ [x.processos.length] }
        (fun p => { p with reg0 := x.pid_atual }) := by
  obtain ⟨prog, h1, h2, h3⟩ := hc
  unfold so_chamada_cria_proc
  have e1 : mem_le x.mem IRQ_END_X = some x.mem.X := rfl
  rw [e1]
  dsimp only
  rw [hn]
  dsimp only
  unfold so_cria_processo so_carrega_programa
  rw [h1]
  dsimp only
  cases hk : carrega_palavras x.mem prog.end_carga prog.dados with
  | mk m b =>
    rw [hk] at h2
    dsimp only at h2
    subst h2
    dsimp only
    rw [if_neg h3]
    exact ⟨m, prog.end_carga, rfl⟩

theorem so_chamada_cria_proc_ativos (x : so_t) (nome : nome_t)
    (hn : copia_str_da_mem 100 x.mem x.mem.X = some nome)
    (hc : carrega_bem x.programas x.mem nome) (ha : todos_ativos x) :
    (so_chamada_cria_proc x).processo_corrente = x.processo_corrente ∧
    (so_chamada_cria_proc x).metricas = x.metricas ∧
    (so_chamada_cria_proc x).fila_prontos = x.fila_prontos ++ [x.processos.length] ∧
    (so_chamada_cria_proc x).quantum_proc = x.quantum_proc ∧
    (so_chamada_cria_proc x).programas = x.programas ∧
    (so_chamada_cria_proc x).processos.length = x.processos.length + 1 ∧
    todos_ativos (so_chamada_cria_proc x) := by
  obtain ⟨m, pc, e⟩ := so_chamada_cria_proc_sucede x nome hn hc
  rw [e]
  obtain ⟨r1, r2, r3, r4, _, _, _, _, r9, _⟩ := altera_corrente_resto
    { x with mem := m, pid_atual := x.pid_atual + 1,
             numero_processos := x.numero_processos + 1,
             processos := x.processos ++ [inicializa_processo x.pid_atual pc],
             fila_prontos := x.fila_prontos ++ [x.processos.length] }
    (fun p => { p with reg0 := x.pid_atual })
  refine ⟨r1, r2, r3, r4, altera_corrente_programas _ _, ?_, ?_⟩
  · rw [r9]
    simp
  · refine altera_corrente_ativos _ _ (fun p hp => ?_) ?_
    · exact hp
    intro j e he
    show e = ESTADO_INICIALIZANDO ∨ e = ESTADO_PRONTO
    have he1 : estado_em (x.processos ++ [inicializa_processo x.pid_atual pc]) j = some e := he
    by_cases hj : j < x.processos.length
    · apply ha j e
      unfold estado_em at he1 ⊢
      rw [List.getElem?_append_left hj] at he1
      exact he1
    · unfold estado_em at he1
      rw [List.getElem?_append_right (by omega)] at he1
      generalize j - x.processos.length = d0 at he1
      cases d0 with
      | zero =>
        simp only [List.getElem?_cons_zero, Option.map_some', Option.some.injEq] at he1
        rw [← he1]
        exact Or.inr rfl
      | succ n => simp at he1

theorem so_trata_irq_chamada_cria (x : so_t) (h : x.mem.A = SO_CRIA_PROC) :
    so_trata_irq x IRQ_SISTEMA = so_chamada_cria_proc x := by
  show so_trata_irq_chamada_sistema x = _
  unfold so_trata_irq_chamada_sistema
  have e1 : mem_le x.mem IRQ_END_A = some x.mem.A := rfl
  rw [e1, h]
  rfl

theorem so_trata_irq_chamada_espera (x : so_t) (h : x.mem.A = SO_ESPERA_PROC) :
    so_trata_irq x IRQ_SISTEMA = so_chamada_espera_proc x := by
  show so_trata_irq_chamada_sistema x = _
  unfold so_trata_irq_chamada_sistema
  have e1 : mem_le x.mem IRQ_END_A = some x.mem.A := rfl
  rw [e1, h]
  rfl

/-- A SPAWN by init that succeeds, in scenario S3 before the WAIT: init keeps the
CPU and one more child is READY in the ready queue. -/
theorem entrada_cria_s3 (programas : nome_t → Option programa_t) (k : Nat) (s : so_t)
    (t : trap_t) (h : inv_s3 programas k s) (ht : trap_cria programas t) :
    inv_s3 programas (k + 1) (entrada 2 s t).1 := by
  obtain ⟨hb, hf, hc, hq1, hq5, hm, ha, hp, hl, hfl⟩ := h
  obtain ⟨ht1, ht2, nome, hn, hg⟩ := ht
  obtain ⟨i1, i2⟩ := entrada_saida 2 s t (Or.inr (Or.inl rfl)) (by rw [ht1]; decide) hb
    (fun _ => hf)
  have i3 := i2 (by decide)
  have ee : entrada 2 s t = so_trata_interrupcao_com 2 (na_entrada s t) IRQ_SISTEMA := by
    unfold entrada
    rw [ht1]
  rw [ee] at i1 i3 ⊢
  have f0 := so_trata_interrupcao_com_forma 2 (na_entrada s t) IRQ_SISTEMA
  obtain ⟨f1, f2, f3, f4⟩ := fim_da_entrada_quadro _ _ f0
  obtain ⟨f5, _⟩ := fim_da_entrada_metricas _ _ f0
  have f6 := fim_da_entrada_programas _ _ f0
  generalize so_trata_interrupcao_com 2 (na_entrada s t) IRQ_SISTEMA = res
    at f1 f2 f3 f4 f5 f6 i1 i3 ⊢
  clear f0
  obtain ⟨p1, p2, p3, _, _, p6⟩ := prepara_entrada_quadro (na_entrada s t) IRQ_SISTEMA
  have p7 := (prepara_entrada_preempcoes (na_entrada s t) IRQ_SISTEMA).1
  obtain ⟨p8, _, p9⟩ := prepara_entrada_mem (na_entrada s t) IRQ_SISTEMA
  have pa : todos_ativos (prepara_entrada (na_entrada s t) IRQ_SISTEMA) := by
    intro j e he
    rw [estado_em_de_pids_estados p1 j] at he
    exact ha j e he
  have pl : (prepara_entrada (na_entrada s t) IRQ_SISTEMA).processos.length =
      s.processos.length := by
    have := congrArg List.length p1
    simpa [pids_estados] using this
  generalize prepara_entrada (na_entrada s t) IRQ_SISTEMA = P
    at p2 p3 p6 p7 p8 p9 pa pl f1 f2 f3 f4 f5 f6
  have hA : P.mem.A = SO_CRIA_PROC := by
    rw [p8]
    exact ht2
  rw [so_trata_irq_chamada_cria P hA] at f1 f2 f3 f4 f5 f6
  obtain ⟨r1, r2, r3, r4, r5, r6, r7⟩ := so_chamada_cria_proc_ativos P nome
    (by rw [p8]; exact hn)
    (by
      rw [p8, p9]
      show carrega_bem s.programas t.mem nome
      rw [hp]
      exact hg) pa
  generalize so_chamada_cria_proc P = H at r1 r2 r3 r4 r5 r6 r7 f1 f2 f3 f4 f5 f6
  obtain ⟨s1, s2, s3, _, _, _⟩ := so_trata_pendencias_quadro H
  obtain ⟨s4, s5⟩ := so_trata_pendencias_ativos H r7
  have s6 := so_trata_pendencias_programas H
  generalize so_trata_pendencias H = S at s1 s2 s3 s4 s5 s6 f1 f2 f3 f4 f5 f6
  have hSa : todos_ativos S := by
    unfold todos_ativos
    rw [s4]
    exact r7
  have hSc : S.processo_corrente = some 0 := by
    rw [s1, r1, p3]
    exact hc
  have hSl : S.processos.length = k + 2 := by
    rw [s4, r6, pl, hl]
  have hSq : S.quantum_proc = s.quantum_proc := by
    rw [s3, r4, p6]
    rfl
  have hS0 : estado_em S.processos 0 = some ESTADO_INICIALIZANDO ∨
      estado_em S.processos 0 = some ESTADO_PRONTO := by
    have hlt : 0 < S.processos.length := by omega
    have e0 : estado_em S.processos 0 = some (S.processos[0]).estado := by
      unfold estado_em
      rw [List.getElem?_eq_getElem hlt]
      rfl
    rcases hSa 0 _ e0 with k1 | k1
    · exact Or.inl (by rw [e0, k1])
    · exact Or.inr (by rw [e0, k1])
  have e1 := so_escalona_mantem S 0 hSc hS0 (by rw [hSq]; omega)
  rw [e1] at f1 f2 f3 f4 f5 f6
  obtain ⟨a1, a2, a3, a4, _⟩ := antes_da_politica_quadro S
  obtain ⟨b1, b2, b3⟩ := antes_da_politica_ativos S hSa
  refine ⟨i1, i3, ?_, ?_, ?_, ?_, ?_, ?_, ?_, ?_⟩
  · rw [f3, a1, hSc]
  · rw [f4, a4, hSq]
    exact hq1
  · rw [f4, a4, hSq]
    exact hq5
  · rw [f5, a2, s2, r2, p7]
    exact hm
  · unfold todos_ativos
    rw [f1]
    exact b1
  · rw [f6, b2, s6, r5, p9]
    exact hp
  · rw [f1, b3, hSl]
  · rw [f2, a3, s5, r3, p2]
    simp only [List.length_append, List.length_singleton]
    show s.fila_prontos.length + 1 = k + 1
    rw [hfl]

theorem so_trata_irq_reset_programas (x : so_t) :
    (so_trata_irq_reset x).programas = x.programas := by
  unfold so_trata_irq_reset
  obtain ⟨m, h | ⟨pc, h⟩⟩ := so_cria_processo_casos x nome_init
  · rw [h]
  · rw [h]

/-- The boot of scenario S3: after the RESET entry that loads init, init is current
and RUNNING, alone in the table, and no preemption has been counted. -/
theorem entrada_boot_s3 (IRQ_END_TRATADOR : Int) (mem : mem_t) (es : es_t)
    (programas : nome_t → Option programa_t) (s0 : so_t) (t : trap_t)
    (h : so_cria IRQ_END_TRATADOR mem es programas = some s0) (ht : t.irq = IRQ_RESET)
    (hg : carrega_bem programas t.mem nome_init) :
    inv_s3 programas 0 (entrada 2 s0 t).1 := by
  have h0 := so_cria_recem_criado _ _ _ _ _ h
  obtain ⟨_, _, _, hq⟩ := so_cria_inicio _ _ _ _ _ h
  have hp := so_cria_programas _ _ _ _ _ h
  have hm := so_cria_preempcoes _ _ _ _ _ h
  obtain ⟨z1, z2, z3, z4, z5⟩ := h0
  obtain ⟨i1, i2⟩ := entrada_reset_saida 2 s0 t (Or.inr (Or.inl rfl)) ht ⟨z1, z2, z3, z4, z5⟩
  have i3 := i2 (by decide)
  obtain ⟨prog, g1, g2, g3⟩ := hg
  have ee : entrada 2 s0 t = so_trata_interrupcao_com 2 (na_entrada s0 t) IRQ_RESET := by
    unfold entrada
    rw [ht]
  rw [ee] at i1 i3 ⊢
  have f0 := so_trata_interrupcao_com_forma 2 (na_entrada s0 t) IRQ_RESET
  obtain ⟨f1, f2, f3, f4⟩ := fim_da_entrada_quadro _ _ f0
  obtain ⟨f5, _⟩ := fim_da_entrada_metricas _ _ f0
  have f6 := fim_da_entrada_programas _ _ f0
  generalize so_trata_interrupcao_com 2 (na_entrada s0 t) IRQ_RESET = res
    at f1 f2 f3 f4 f5 f6 i1 i3 ⊢
  clear f0
  obtain ⟨_, p2, _, _, _, p6⟩ := prepara_entrada_quadro (na_entrada s0 t) IRQ_RESET
  have p7 := (prepara_entrada_preempcoes (na_entrada s0 t) IRQ_RESET).1
  obtain ⟨p8, _, p9⟩ := prepara_entrada_mem (na_entrada s0 t) IRQ_RESET
  generalize prepara_entrada (na_entrada s0 t) IRQ_RESET = P
    at p2 p6 p7 p8 p9 f1 f2 f3 f4 f5 f6
  have er : so_trata_irq P IRQ_RESET = so_trata_irq_reset P := rfl
  rw [er] at f1 f2 f3 f4 f5 f6
  obtain ⟨r1, r2, r3, _, r5, _⟩ := so_trata_irq_reset_efeito P prog
    (by rw [p9]; show s0.programas nome_init = some prog; rw [hp]; exact g1)
    (by rw [p8]; exact g2) g3
  have r6 := (so_trata_irq_reset_contadores P).2
  have r7 := so_trata_irq_reset_programas P
  have r8 : todos_ativos (so_trata_irq_reset P) := by
    intro j e he
    rw [r1] at he
    unfold estado_em at he
    cases j with
    | zero =>
      simp only [List.getElem?_cons_zero, Option.map_some', Option.some.injEq] at he
      rw [← he]
      exact Or.inr rfl
    | succ n => simp at he
  generalize so_trata_irq_reset P = H at r1 r2 r3 r5 r6 r7 r8 f1 f2 f3 f4 f5 f6
  obtain ⟨s1, s2, s3, _, _, _⟩ := so_trata_pendencias_quadro H
  obtain ⟨s4, s5⟩ := so_trata_pendencias_ativos H r8
  have s6 := so_trata_pendencias_programas H
  generalize so_trata_pendencias H = S at s1 s2 s3 s4 s5 s6 f1 f2 f3 f4 f5 f6
  have hSa : todos_ativos S := by
    unfold todos_ativos
    rw [s4]
    exact r8
  have hSc : S.processo_corrente = some 0 := by
    rw [s1, r2]
  have hSq : S.quantum_proc = QUANTUM := by
    rw [s3, r5, p6]
    exact hq
  have hS0 : estado_em S.processos 0 = some ESTADO_PRONTO := by
    rw [s4, r1]
    rfl
  have e1 := so_escalona_mantem S 0 hSc (Or.inr hS0) (by rw [hSq]; decide)
  rw [e1] at f1 f2 f3 f4 f5 f6
  obtain ⟨a1, a2, a3, a4, _⟩ := antes_da_politica_quadro S
  obtain ⟨b1, b2, b3⟩ := antes_da_politica_ativos S hSa
  refine ⟨i1, i3, ?_, ?_, ?_, ?_, ?_, ?_, ?_, ?_⟩
  · rw [f3, a1, hSc]
  · rw [f4, a4, hSq]
    decide
  · rw [f4, a4, hSq]
  · rw [f5, a2, s2, r6, p7]
    exact hm
  · unfold todos_ativos
    rw [f1]
    exact b1
  · rw [f6, b2, s6, r7, p9]
    exact hp
  · rw [f1, b3, s4, r1]
    rfl
  · rw [f2, a3, s5, r3, p2]
    show s0.fila_prontos.length = 0
    rw [z2]
    rfl

theorem antes_da_politica_bloqueado (x : so_t) (c : Nat)
    (hc : x.processo_corrente = some c)
    (he : estado_em x.processos c = some ESTADO_BLOQUEADO) :
    estado_em (atualiza_prioridade (atualiza_estado_processo_corrente x)).processos c =
      some ESTADO_BLOQUEADO := by
  have t := antes_da_politica_tabela x c
  rw [if_pos hc] at t
  obtain ⟨p, hp, hpe⟩ := estado_em_some he
  unfold estado_em
  rw [t, hp]
  simp only [Option.map_some', Option.some.injEq]
  rw [if_neg (by rw [hpe]; decide)]
  exact hpe

/-- A WAIT whose target is another process of the table, not TERMINATED: the caller
is BLOCKED with reason `BLOQUEIO_POR_ESPERA_DE_PROC`. -/
theorem so_chamada_espera_proc_bloqueia (x : so_t) (c : Nat) (p : processo_t)
    (hc : x.processo_corrente = some c) (hp : x.processos[c]? = some p)
    (hne : p.reg1 ≠ p.pid)
    (hex : ∃ (j : Nat) (q : processo_t), x.processos[j]? = some q ∧ q.pid = p.reg1)
    (hnt : ∀ (j : Nat) (q : processo_t), x.processos[j]? = some q →
      q.estado ≠ ESTADO_TERMINADO) :
    so_chamada_espera_proc x =
      { x with
        processos := altera_processo x.processos c (fun q =>
          { proc_muda_estado q ESTADO_BLOQUEADO with
            motivo_bloqueio := BLOQUEIO_POR_ESPERA_DE_PROC, reg0 := p.reg1 }),
        mem := mem_escreve_ign x.mem IRQ_END_A 0 } := by
  unfold so_chamada_espera_proc
  rw [(corrente_eq_some x c p).mpr ⟨hc, hp⟩]
  dsimp only
  rw [if_neg hne]
  cases he : encontra_processo_por_pid x.processos p.reg1 with
  | none =>
    obtain ⟨j, q, hq, hqp⟩ := hex
    exact absurd hqp (encontra_processo_por_pid_none _ _ he j q hq)
  | some e =>
    obtain ⟨q, hq, _, _⟩ := encontra_processo_por_pid_some _ _ e he
    dsimp only
    rw [hq]
    dsimp only
    rw [if_neg (hnt e q hq)]

/-- The sweep wakes no descriptor that waits for a process while no descriptor of
the table is TERMINATED. -/
theorem desperta_falso_sem_terminado (x : so_t) (i : Nat)
    (hnt : ∀ (j : Nat) (q : processo_t), x.processos[j]? = some q →
      q.estado ≠ ESTADO_TERMINADO)
    (hm : ∀ p, x.processos[i]? = some p → p.estado = ESTADO_BLOQUEADO →
      p.motivo_bloqueio = BLOQUEIO_POR_ESPERA_DE_PROC) : desperta x i = false := by
  unfold desperta
  cases hp : x.processos[i]? with
  | none => rfl
  | some p =>
    dsimp only
    by_cases hb : p.estado = ESTADO_BLOQUEADO
    · have hmo := hm p hp hb
      have ha : acorda x.es x.processos p = false := by
        unfold acorda
        rw [hmo]
        dsimp only
        cases hk : esperado_terminou x.processos p.reg0 with
        | false => rfl
        | true =>
          obtain ⟨j, q, hq, _, hqe⟩ := (esperado_terminou_iff _ _).mp hk
          exact absurd hqe (hnt j q hq)
      rw [ha]
      simp
    · simp [hb]

/-- The WAIT of scenario S3: init is BLOCKED, the child at the head of the ready
queue is dispatched with a full quantum, and no preemption is counted. -/
theorem entrada_espera_s3 (programas : nome_t → Option programa_t) (k : Nat) (s : so_t)
    (t : trap_t) (h : inv_s3 programas k s) (hk : 2 ≤ k) (ht1 : t.irq = IRQ_SISTEMA)
    (ht2 : t.mem.A = SO_ESPERA_PROC) (ht3 : 2 ≤ t.mem.X) (ht4 : t.mem.X ≤ (k : Int) + 1) :
    inv_rodizio (entrada 2 s t).1 0 := by
  obtain ⟨hb, hf, hc, hq1, hq5, hm, ha, hp, hl, hfl⟩ := h
  obtain ⟨i1, i2⟩ := entrada_saida 2 s t (Or.inr (Or.inl rfl)) (by rw [ht1]; decide) hb
    (fun _ => hf)
  have i3 := i2 (by decide)
  have ee : entrada 2 s t = so_trata_interrupcao_com 2 (na_entrada s t) IRQ_SISTEMA := by
    unfold entrada
    rw [ht1]
  rw [ee] at i1 i3 ⊢
  have f0 := so_trata_interrupcao_com_forma 2 (na_entrada s t) IRQ_SISTEMA
  obtain ⟨_, f2, f3, f4⟩ := fim_da_entrada_quadro _ _ f0
  obtain ⟨f5, _⟩ := fim_da_entrada_metricas _ _ f0
  generalize so_trata_interrupcao_com 2 (na_entrada s t) IRQ_SISTEMA = res
    at f2 f3 f4 f5 i1 i3 ⊢
  clear f0
  -- the caller and the target before the handler
  have hlt0 : 0 < s.processos.length := by omega
  have hp0 : s.processos[0]? = some s.processos[0] := List.getElem?_eq_getElem hlt0
  have hpid0 : (s.processos[0]).pid = 1 := by
    have := hb.1.1 0 _ hp0
    simpa using this
  obtain ⟨p1, c1, _, c3, _, c5⟩ := prepara_entrada_chamador (na_entrada s t) IRQ_SISTEMA 0
    s.processos[0] hc hp0
  have c6 : p1.reg1 = t.mem.X := c5
  obtain ⟨p1a, p2, p3, _, _, p6⟩ := prepara_entrada_quadro (na_entrada s t) IRQ_SISTEMA
  have p7 := (prepara_entrada_preempcoes (na_entrada s t) IRQ_SISTEMA).1
  obtain ⟨p8, _, _⟩ := prepara_entrada_mem (na_entrada s t) IRQ_SISTEMA
  have pa : todos_ativos (prepara_entrada (na_entrada s t) IRQ_SISTEMA) := by
    intro j e he
    rw [estado_em_de_pids_estados p1a j] at he
    exact ha j e he
  have pl : (prepara_entrada (na_entrada s t) IRQ_SISTEMA).processos.length =
      s.processos.length := by
    have := congrArg List.length p1a
    simpa [pids_estados] using this
  have ppid : ∀ (j : Nat) (q : processo_t),
      (prepara_entrada (na_entrada s t) IRQ_SISTEMA).processos[j]? = some q →
        q.pid = (j : Int) + 1 := by
    intro j q hq
    have e := congrArg (fun l => (l[j]?).map (fun x => x.1)) p1a
    simp only [pids_estados, List.getElem?_map, Option.map_map, Function.comp_def, hq,
      Option.map_some'] at e
    cases hs : (na_entrada s t).processos[j]? with
    | none =>
      rw [hs] at e
      cases e
    | some q0 =>
      rw [hs] at e
      simp only [Option.map_some', Option.some.injEq] at e
      rw [e]
      exact hb.1.1 j q0 hs
  generalize prepara_entrada (na_entrada s t) IRQ_SISTEMA = P
    at c1 p2 p3 p6 p7 p8 pa pl ppid f2 f3 f4 f5
  have hA : P.mem.A = SO_ESPERA_PROC := by
    rw [p8]
    exact ht2
  rw [so_trata_irq_chamada_espera P hA] at f2 f3 f4 f5
  have pnt : ∀ (j : Nat) (q : processo_t), P.processos[j]? = some q →
      q.estado ≠ ESTADO_TERMINADO := by
    intro j q hq e
    have : estado_em P.processos j = some ESTADO_TERMINADO := by
      unfold estado_em
      rw [hq, ← e]
      rfl
    rcases pa j _ this with u | u <;> cases u
  have hPc : P.processo_corrente = some 0 := by
    rw [p3]
    exact hc
  have hex : ∃ (j : Nat) (q : processo_t), P.processos[j]? = some q ∧ q.pid = p1.reg1 := by
    have hj : (t.mem.X - 1).toNat < P.processos.length := by
      rw [pl, hl]
      omega
    refine ⟨(t.mem.X - 1).toNat, P.processos[(t.mem.X - 1).toNat],
      List.getElem?_eq_getElem hj, ?_⟩
    rw [ppid _ _ (List.getElem?_eq_getElem hj), c6]
    omega
  have eH := so_chamada_espera_proc_bloqueia P 0 p1 hPc c1
    (by rw [c6, c3, hpid0]; omega) hex pnt
  rw [eH] at f2 f3 f4 f5
  clear eH
  -- the sweep
  have hH0 : (altera_processo P.processos 0 (fun q =>
        { proc_muda_estado q ESTADO_BLOQUEADO with
          motivo_bloqueio := BLOQUEIO_POR_ESPERA_DE_PROC, reg0 := p1.reg1 }))[0]? =
      some { proc_muda_estado p1 ESTADO_BLOQUEADO with
          motivo_bloqueio := BLOQUEIO_POR_ESPERA_DE_PROC, reg0 := p1.reg1 } := by
    rw [getElem?_altera_processo, if_pos rfl, c1]
    rfl
  have hHj : ∀ j, j ≠ 0 → (altera_processo P.processos 0 (fun q =>
        { proc_muda_estado q ESTADO_BLOQUEADO with
          motivo_bloqueio := BLOQUEIO_POR_ESPERA_DE_PROC, reg0 := p1.reg1 }))[j]? =
      P.processos[j]? := by
    intro j hj
    rw [getElem?_altera_processo, if_neg hj]
  generalize hHdef : ({ P with
        processos := altera_processo P.processos 0 (fun q =>
          { proc_muda_estado q ESTADO_BLOQUEADO with
            motivo_bloqueio := BLOQUEIO_POR_ESPERA_DE_PROC, reg0 := p1.reg1 }),
        mem := mem_escreve_ign P.mem IRQ_END_A 0 } : so_t) = H at f2 f3 f4 f5
  have h0 : H.processos[0]? = some { proc_muda_estado p1 ESTADO_BLOQUEADO with
          motivo_bloqueio := BLOQUEIO_POR_ESPERA_DE_PROC, reg0 := p1.reg1 } := by
    rw [← hHdef]
    exact hH0
  have hj : ∀ j, j ≠ 0 → H.processos[j]? = P.processos[j]? := by
    intro j hj
    rw [← hHdef]
    exact hHj j hj
  have hHc : H.processo_corrente = some 0 := by
    rw [← hHdef]
    exact hPc
  have hHf : H.fila_prontos = s.fila_prontos := by
    rw [← hHdef]
    exact p2
  have hHm : H.metricas.num_preempcoes = 0 := by
    rw [← hHdef]
    show P.metricas.num_preempcoes = 0
    rw [p7]
    exact hm
  have hnt : ∀ (j : Nat) (q : processo_t), H.processos[j]? = some q →
      q.estado ≠ ESTADO_TERMINADO := by
    intro j q hq
    by_cases e : j = 0
    · subst e
      rw [h0] at hq
      cases hq
      intro e
      cases e
    · rw [hj j e] at hq
      exact pnt j q hq
  have hnd : ∀ i, desperta H i = false := by
    intro i
    apply desperta_falso_sem_terminado H i hnt
    intro q hq hqb
    by_cases e : i = 0
    · subst e
      rw [h0] at hq
      cases hq
      rfl
    · rw [hj i e] at hq
      have : estado_em P.processos i = some ESTADO_BLOQUEADO := by
        unfold estado_em
        rw [hq, ← hqb]
        rfl
      rcases pa i _ this with u | u <;> cases u
  obtain ⟨s4, s5⟩ := so_trata_pendencias_sem_despertar H hnd
  obtain ⟨s1, s2, _, _, _, _⟩ := so_trata_pendencias_quadro H
  generalize so_trata_pendencias H = S at s1 s2 s4 s5 f2 f3 f4 f5
  have hSc : S.processo_corrente = some 0 := by
    rw [s1, hHc]
  have hS0 : estado_em S.processos 0 = some ESTADO_BLOQUEADO := by
    unfold estado_em
    rw [s4, h0]
    rfl
  have hSf : S.fila_prontos = s.fila_prontos := by
    rw [s5, hHf]
  obtain ⟨hd, resto, hhr⟩ : ∃ hd resto, s.fila_prontos = hd :: resto := by
    cases hs : s.fila_prontos with
    | nil =>
      rw [hs] at hfl
      simp at hfl
      omega
    | cons a l => exact ⟨a, l, rfl⟩
  have hresto : resto ≠ [] := by
    intro e
    rw [hhr, e] at hfl
    simp at hfl
    omega
  have e1 := so_escalona_troca_bloqueado S 0 hd resto hSc hS0 (hSf.trans hhr)
  rw [e1] at f2 f3 f4 f5
  obtain ⟨a1, a2, _, _, _⟩ := antes_da_politica_quadro S
  obtain ⟨g1, g2, g3⟩ := so_executa_proc_fila
    { atualiza_prioridade (atualiza_estado_processo_corrente S) with
      fila_prontos := resto } (some hd)
  have g4 := (so_executa_proc_preempcoes
    { atualiza_prioridade (atualiza_estado_processo_corrente S) with
      fila_prontos := resto } 0 hd (a1.trans hSc)).2
    (by
      show estado_em (atualiza_prioridade (atualiza_estado_processo_corrente S)).processos 0 ≠
        some ESTADO_INICIALIZANDO
      rw [antes_da_politica_bloqueado S 0 hSc hS0]
      decide)
  refine ⟨i1, i3, ?_, ?_, ?_, ?_, ?_⟩
  · rw [f3, g3]
    exact Option.some_ne_none hd
  · rw [f2, g1]
    exact hresto
  · rw [f4, g2]
    decide
  · rw [f4, g2]
  · rw [f4, g2, f5, g4]
    show QUANTUM *
      (atualiza_prioridade (atualiza_estado_processo_corrente S)).metricas.num_preempcoes +
        (QUANTUM - QUANTUM) = ((0 : Nat) : Int)
    rw [a2, s2, hHm]
    decide
/-! ## The claims -/

set_option maxRecDepth 100000 in
/-- C1 (the code breaks it). On the example machine, after the boot RESET, a
successful SPAWN by init and a CPU_ERROR trap, the kernel exit leaves two
descriptors in state RUNNING (`ESTADO_INICIALIZANDO`): the faulting init, to which
the CPU_ERROR handler assigned the enumerator `BLOQUEIO_POR_LEITURA`, whose value
is that of `ESTADO_INICIALIZANDO`, and the child the scheduler then dispatched. -/
theorem erro_cpu_deixa_dois_executando :
    (so_cria 10 (exemplo_mem 0 0) exemplo_es exemplo_programas).map (fun s0 =>
      estados (executa ESCALONADOR s0
        [exemplo_trap IRQ_RESET 0 0, exemplo_trap IRQ_SISTEMA 7 50,
         exemplo_trap IRQ_ERR_CPU 0 0])) =
      some [ESTADO_INICIALIZANDO, ESTADO_INICIALIZANDO] := by
  decide

/-- C2. Under the priority policy and under round-robin, at every kernel exit of a
run that starts with the boot RESET on a freshly created kernel and goes on with
traps other than RESET (a system call only while a process is current), every
entry of the ready queue is a descriptor in state READY, none is RUNNING, none is
the current process, and no descriptor is in the queue twice. -/
theorem fila_de_prontos_so_tem_prontos (escalonador : Int)
    (hpol : escalonador = 1 ∨ escalonador = 2)
    (s0 : so_t) (h0 : recem_criado s0) (t0 : trap_t) (hreset : t0.irq = IRQ_RESET)
    (ts : List trap_t) (hadm : admissivel escalonador (entrada escalonador s0 t0).1 ts) :
    (∀ i ∈ (executa escalonador s0 (t0 :: ts)).fila_prontos,
      estado_em (executa escalonador s0 (t0 :: ts)).processos i = some ESTADO_PRONTO) ∧
    (∀ i ∈ (executa escalonador s0 (t0 :: ts)).fila_prontos,
      estado_em (executa escalonador s0 (t0 :: ts)).processos i ≠ some ESTADO_INICIALIZANDO) ∧
    (∀ i ∈ (executa escalonador s0 (t0 :: ts)).fila_prontos,
      (executa escalonador s0 (t0 :: ts)).processo_corrente ≠ some i) ∧
    (executa escalonador s0 (t0 :: ts)).fila_prontos.Nodup := by
  have hpol3 : escalonador = 1 ∨ escalonador = 2 ∨ escalonador = 3 := by
    rcases hpol with e | e
    · exact Or.inl e
    · exact Or.inr (Or.inl e)
  have hne : escalonador ≠ 3 := by
    rcases hpol with e | e <;> rw [e] <;> decide
  obtain ⟨⟨_, hce⟩, hf⟩ := alcancavel_saida escalonador hpol3 s0 h0 t0 ts hreset
    (admissivel_sem_reset escalonador ts _ hadm)
  obtain ⟨hnd, hpr⟩ := hf hne
  refine ⟨hpr, ?_, ?_, hnd⟩
  · intro i hi h
    rw [hpr i hi] at h
    cases h
  · intro i hi h
    have e := hce i h
    rw [hpr i hi] at e
    cases e

set_option maxRecDepth 100000 in
/-- C2, on the example machine under round-robin: boot, a SPAWN, five timer
interrupts (the quantum of init runs out) and one more. -/
theorem fila_de_prontos_so_tem_prontos_exemplo :
    recem_criado exemplo_inicial ∧
    admissivel 2 (entrada 2 exemplo_inicial (exemplo_trap IRQ_RESET 0 0)).1
      [exemplo_trap IRQ_SISTEMA 7 50, exemplo_trap IRQ_RELOGIO 0 0,
       exemplo_trap IRQ_RELOGIO 0 0, exemplo_trap IRQ_RELOGIO 0 0,
       exemplo_trap IRQ_RELOGIO 0 0, exemplo_trap IRQ_RELOGIO 0 0] ∧
    (executa 2 exemplo_inicial
      [exemplo_trap IRQ_RESET 0 0,
       exemplo_trap IRQ_SISTEMA 7 50, exemplo_trap IRQ_RELOGIO 0 0,
       exemplo_trap IRQ_RELOGIO 0 0, exemplo_trap IRQ_RELOGIO 0 0,
       exemplo_trap IRQ_RELOGIO 0 0, exemplo_trap IRQ_RELOGIO 0 0]).fila_prontos.Nodup :=
  ⟨⟨rfl, rfl, rfl, rfl, rfl⟩, by decide,
    (fila_de_prontos_so_tem_prontos 2 (Or.inr rfl) exemplo_inicial ⟨rfl, rfl, rfl, rfl, rfl⟩
      (exemplo_trap IRQ_RESET 0 0) rfl _ (by decide)).2.2.2⟩

set_option maxRecDepth 100000 in
/-- C3 (the code breaks it). On the example machine under round-robin, after the
boot RESET, a SPAWN by init, WAIT(2) by init (init blocks, the child runs) and a
CPU_ERROR trap taken in the child, the kernel exit leaves init in state READY
while the ready queue is empty and no process is current: the CPU_ERROR handler
(`verifica_processos_em_espera`) made init READY without putting it in the queue. -/
theorem erro_cpu_deixa_pronto_fora_da_fila :
    (so_cria 10 (exemplo_mem 0 0) exemplo_es exemplo_programas).map (fun s0 =>
      (estado_em (executa ESCALONADOR s0
          [exemplo_trap IRQ_RESET 0 0, exemplo_trap IRQ_SISTEMA 7 50,
           exemplo_trap IRQ_SISTEMA 9 2, exemplo_trap IRQ_ERR_CPU 0 0]).processos 0,
       (executa ESCALONADOR s0
          [exemplo_trap IRQ_RESET 0 0, exemplo_trap IRQ_SISTEMA 7 50,
           exemplo_trap IRQ_SISTEMA 9 2, exemplo_trap IRQ_ERR_CPU 0 0]).fila_prontos,
       (executa ESCALONADOR s0
          [exemplo_trap IRQ_RESET 0 0, exemplo_trap IRQ_SISTEMA 7 50,
           exemplo_trap IRQ_SISTEMA 9 2, exemplo_trap IRQ_ERR_CPU 0 0]).processo_corrente)) =
      some (some ESTADO_PRONTO, [], none) := by
  decide

set_option maxRecDepth 100000 in
/-- C4 as stated fails under the simple policy (policy 3). On the example machine:
init spawns A (pid 2) and waits for it; A spawns B (pid 3) and waits for it; B
kills itself; A, woken by the sweep and queued a second time, kills itself. At
that kernel exit the ready queue still holds A (position 1 of the table), which
is TERMINATED. -/
theorem politica_simples_deixa_terminado_na_fila :
    (so_cria 10 (exemplo_mem 0 0) exemplo_es exemplo_programas).map (fun s0 =>
      ((executa 3 s0
          [exemplo_trap IRQ_RESET 0 0, exemplo_trap IRQ_SISTEMA 7 50,
           exemplo_trap IRQ_SISTEMA 9 2, exemplo_trap IRQ_SISTEMA 7 50,
           exemplo_trap IRQ_SISTEMA 9 3, exemplo_trap IRQ_SISTEMA 8 0,
           exemplo_trap IRQ_SISTEMA 8 0]).fila_prontos,
       estado_em (executa 3 s0
          [exemplo_trap IRQ_RESET 0 0, exemplo_trap IRQ_SISTEMA 7 50,
           exemplo_trap IRQ_SISTEMA 9 2, exemplo_trap IRQ_SISTEMA 7 50,
           exemplo_trap IRQ_SISTEMA 9 3, exemplo_trap IRQ_SISTEMA 8 0,
           exemplo_trap IRQ_SISTEMA 8 0]).processos 1)) =
      some ([1, 0], some ESTADO_TERMINADO) := by
  decide

/-- C4, amended. At every kernel exit of a run that starts with the boot RESET on
a freshly created kernel and goes on with traps other than RESET (a system call
only while a process is current): under the priority policy and under
round-robin no TERMINATED descriptor is in the ready queue; under each of the
three policies the current descriptor is in the table and is not TERMINATED, and
every descriptor that was in the process table at an earlier kernel exit of the
run is still in it, at the same position and with the same pid. -/
theorem terminados_fora_da_fila_e_tabela_conservada (escalonador : Int)
    (hpol : escalonador = 1 ∨ escalonador = 2 ∨ escalonador = 3)
    (s0 : so_t) (h0 : recem_criado s0) (t0 : trap_t) (hreset : t0.irq = IRQ_RESET)
    (ts1 ts2 : List trap_t)
    (hadm : admissivel escalonador (entrada escalonador s0 t0).1 (ts1 ++ ts2)) :
    (escalonador ≠ 3 →
      ∀ i ∈ (executa escalonador s0 (t0 :: (ts1 ++ ts2))).fila_prontos,
        estado_em (executa escalonador s0 (t0 :: (ts1 ++ ts2))).processos i ≠
          some ESTADO_TERMINADO) ∧
    (∀ c, (executa escalonador s0 (t0 :: (ts1 ++ ts2))).processo_corrente = some c →
      ∃ p, (executa escalonador s0 (t0 :: (ts1 ++ ts2))).processos[c]? = some p ∧
        p.estado ≠ ESTADO_TERMINADO) ∧
    (∀ (i : Nat) (p : processo_t),
      (executa escalonador s0 (t0 :: ts1)).processos[i]? = some p →
      ∃ q, (executa escalonador s0 (t0 :: (ts1 ++ ts2))).processos[i]? = some q ∧
        q.pid = p.pid) := by
  have hsr : sem_reset (ts1 ++ ts2) := admissivel_sem_reset escalonador _ _ hadm
  have hsr1 : sem_reset ts1 := fun t ht => hsr t (List.mem_append_left ts2 ht)
  have hsr2 : sem_reset ts2 := fun t ht => hsr t (List.mem_append_right ts1 ht)
  obtain ⟨⟨hp, hce⟩, hf⟩ := alcancavel_saida escalonador hpol s0 h0 t0 (ts1 ++ ts2) hreset hsr
  obtain ⟨⟨hp1, _⟩, _⟩ := alcancavel_saida escalonador hpol s0 h0 t0 ts1 hreset hsr1
  refine ⟨?_, ?_, ?_⟩
  · intro hne i hi h
    rw [(hf hne).2 i hi] at h
    cases h
  · intro c hc
    obtain ⟨p, hp2, hp3⟩ := estado_em_some (hce c hc)
    exact ⟨p, hp2, by rw [hp3]; decide⟩
  · intro i p hi
    have hfin : executa escalonador s0 (t0 :: (ts1 ++ ts2)) =
        executa escalonador (executa escalonador s0 (t0 :: ts1)) ts2 :=
      executa_append escalonador (t0 :: ts1) ts2 s0
    have hmono := executa_pid_atual escalonador ts2 (executa escalonador s0 (t0 :: ts1)) hsr2
    rw [← hfin, hp.2.1, hp1.2.1] at hmono
    have hi1 : i < (executa escalonador s0 (t0 :: ts1)).processos.length :=
      (List.getElem?_eq_some_iff.mp hi).1
    have hi2 : i < (executa escalonador s0 (t0 :: (ts1 ++ ts2))).processos.length := by
      omega
    refine ⟨_, List.getElem?_eq_getElem hi2, ?_⟩
    rw [hp.1 i _ (List.getElem?_eq_getElem hi2), hp1.1 i p hi]

set_option maxRecDepth 100000 in
/-- C4 amended, on the example machine under the simple policy, with the run of
the counterexample cut after the third trap. -/
theorem terminados_fora_da_fila_e_tabela_conservada_exemplo :
    recem_criado exemplo_inicial ∧
    admissivel 3 (entrada 3 exemplo_inicial (exemplo_trap IRQ_RESET 0 0)).1
      ([exemplo_trap IRQ_SISTEMA 7 50, exemplo_trap IRQ_SISTEMA 9 2] ++
       [exemplo_trap IRQ_SISTEMA 7 50, exemplo_trap IRQ_SISTEMA 9 3,
        exemplo_trap IRQ_SISTEMA 8 0, exemplo_trap IRQ_SISTEMA 8 0]) ∧
    (∀ c, (executa 3 exemplo_inicial (exemplo_trap IRQ_RESET 0 0 ::
        ([exemplo_trap IRQ_SISTEMA 7 50, exemplo_trap IRQ_SISTEMA 9 2] ++
         [exemplo_trap IRQ_SISTEMA 7 50, exemplo_trap IRQ_SISTEMA 9 3,
          exemplo_trap IRQ_SISTEMA 8 0, exemplo_trap IRQ_SISTEMA 8 0]))).processo_corrente =
          some c →
      ∃ p, (executa 3 exemplo_inicial (exemplo_trap IRQ_RESET 0 0 ::
        ([exemplo_trap IRQ_SISTEMA 7 50, exemplo_trap IRQ_SISTEMA 9 2] ++
         [exemplo_trap IRQ_SISTEMA 7 50, exemplo_trap IRQ_SISTEMA 9 3,
          exemplo_trap IRQ_SISTEMA 8 0, exemplo_trap IRQ_SISTEMA 8 0]))).processos[c]? =
          some p ∧ p.estado ≠ ESTADO_TERMINADO) :=
  ⟨⟨rfl, rfl, rfl, rfl, rfl⟩, by decide,
    (terminados_fora_da_fila_e_tabela_conservada 3 (Or.inr (Or.inr rfl)) exemplo_inicial
      ⟨rfl, rfl, rfl, rfl, rfl⟩ (exemplo_trap IRQ_RESET 0 0) rfl _ _ (by decide)).2.1⟩

/-- C5. In every state reached from a freshly created kernel by the boot RESET
followed by any sequence of traps other than RESET, under any of the three
policies, the pids of the process table are pairwise distinct, strictly
increasing in table (creation) order, the first one is 1 (the descriptor at
position `i` has pid `i + 1`), and all are strictly smaller than `pid_atual`. -/
theorem pids_unicos_e_em_ordem (escalonador : Int)
    (hpol : escalonador = 1 ∨ escalonador = 2 ∨ escalonador = 3)
    (s0 : so_t) (h0 : recem_criado s0) (t0 : trap_t) (hreset : t0.irq = IRQ_RESET)
    (ts : List trap_t) (hts : sem_reset ts) :
    (pids (executa escalonador s0 (t0 :: ts))).Nodup ∧
    (pids (executa escalonador s0 (t0 :: ts))).Pairwise (fun a b => a < b) ∧
    (∀ (i : Nat) (p : processo_t),
      (executa escalonador s0 (t0 :: ts)).processos[i]? = some p → p.pid = (i : Int) + 1) ∧
    (∀ p ∈ (executa escalonador s0 (t0 :: ts)).processos,
      p.pid < (executa escalonador s0 (t0 :: ts)).pid_atual) := by
  obtain ⟨⟨⟨hp1, hp2, _⟩, _⟩, _⟩ := alcancavel_saida escalonador hpol s0 h0 t0 ts hreset hts
  generalize executa escalonador s0 (t0 :: ts) = s at hp1 hp2 ⊢
  have hpw : (pids s).Pairwise (fun a b => a < b) := by
    unfold pids
    rw [List.pairwise_iff_getElem]
    intro i j hi hj hij
    simp only [List.length_map] at hi hj
    simp only [List.getElem_map]
    rw [hp1 i _ (List.getElem?_eq_getElem hi), hp1 j _ (List.getElem?_eq_getElem hj)]
    omega
  refine ⟨hpw.imp (fun h => ne_of_lt h), hpw, hp1, ?_⟩
  intro p hp
  obtain ⟨i, hi⟩ := List.mem_iff_getElem?.mp hp
  rw [hp1 i p hi, hp2]
  have := (List.getElem?_eq_some_iff.mp hi).1
  omega

set_option maxRecDepth 100000 in
/-- C5, on the example machine under round-robin: boot and two SPAWNs. -/
theorem pids_unicos_e_em_ordem_exemplo :
    recem_criado exemplo_inicial ∧
    sem_reset [exemplo_trap IRQ_SISTEMA 7 50, exemplo_trap IRQ_SISTEMA 7 50] ∧
    (pids (executa 2 exemplo_inicial [exemplo_trap IRQ_RESET 0 0,
      exemplo_trap IRQ_SISTEMA 7 50, exemplo_trap IRQ_SISTEMA 7 50])).Nodup :=
  ⟨⟨rfl, rfl, rfl, rfl, rfl⟩, by unfold sem_reset; decide,
    (pids_unicos_e_em_ordem 2 (Or.inr (Or.inl rfl)) exemplo_inicial ⟨rfl, rfl, rfl, rfl, rfl⟩
      (exemplo_trap IRQ_RESET 0 0) rfl _ (by unfold sem_reset; decide)).1⟩

/-- C6. WAIT on self is rejected: when the saved X of the current process `c`
is its own pid, `so_chamada_espera_proc` writes -1 to ADDR_A and leaves the
process table (so the state, block reason and saved registers of `c`), the
ready queue and the current process unchanged. -/
theorem espera_por_si_mesmo_rejeitada (self : so_t) (i : Nat) (c : processo_t)
    (hcor : corrente self = some (i, c)) (hx : c.reg1 = c.pid) :
    (so_chamada_espera_proc self).mem.A = -1 ∧
    (so_chamada_espera_proc self).processos = self.processos ∧
    (so_chamada_espera_proc self).fila_prontos = self.fila_prontos ∧
    (so_chamada_espera_proc self).processo_corrente = self.processo_corrente := by
  simp [so_chamada_espera_proc, hcor, hx, mem_escreve_ign, mem_escreve]

/-- C6, on the example machine: init (pid 1) calls WAIT(1). -/
theorem espera_por_si_mesmo_rejeitada_exemplo :
    corrente (exemplo_so [exemplo_proc 1 ESTADO_INICIALIZANDO 9 1] [] (some 0) 9 1) =
      some (0, exemplo_proc 1 ESTADO_INICIALIZANDO 9 1) ∧
    (exemplo_proc 1 ESTADO_INICIALIZANDO 9 1).reg1 =
      (exemplo_proc 1 ESTADO_INICIALIZANDO 9 1).pid ∧
    (so_chamada_espera_proc
      (exemplo_so [exemplo_proc 1 ESTADO_INICIALIZANDO 9 1] [] (some 0) 9 1)).mem.A = -1 :=
  ⟨rfl, rfl,
    (espera_por_si_mesmo_rejeitada
      (exemplo_so [exemplo_proc 1 ESTADO_INICIALIZANDO 9 1] [] (some 0) 9 1) 0
      (exemplo_proc 1 ESTADO_INICIALIZANDO 9 1) rfl rfl).1⟩

set_option maxRecDepth 100000 in
/-- C7 (the code breaks it). Scenario S6 on the example machine: after the boot
RESET entry, the SYSCALL entry with A=9 (WAIT) and X=1 returns 0 with init still
RUNNING and current, but the trap-frame word ADDR_A holds 9, not -1: the
dispatcher rewrites ADDR_A with the saved register A of init, which still holds
the call number, over the -1 the handler wrote. -/
theorem espera_por_si_mesmo_retorno_sobrescrito :
    (so_cria 10 (exemplo_mem 0 0) exemplo_es exemplo_programas).map (fun s0 =>
      ((entrada ESCALONADOR (entrada ESCALONADOR s0 (exemplo_trap IRQ_RESET 0 0)).1
          (exemplo_trap IRQ_SISTEMA 9 1)).2,
       (entrada ESCALONADOR (entrada ESCALONADOR s0 (exemplo_trap IRQ_RESET 0 0)).1
          (exemplo_trap IRQ_SISTEMA 9 1)).1.mem.A,
       (entrada ESCALONADOR (entrada ESCALONADOR s0 (exemplo_trap IRQ_RESET 0 0)).1
          (exemplo_trap IRQ_SISTEMA 9 1)).1.processo_corrente,
       estados (entrada ESCALONADOR (entrada ESCALONADOR s0 (exemplo_trap IRQ_RESET 0 0)).1
          (exemplo_trap IRQ_SISTEMA 9 1)).1)) =
      some (0, 9, some 0, [ESTADO_INICIALIZANDO]) := by
  decide

/-- C8. The WAIT handler, on a table whose pids are pairwise distinct, with current
process `c` and saved X = `c.reg1`. When X differs from the pid of `c` and the
table holds a descriptor with pid X that is not TERMINATED, `c` is blocked: its
state is BLOCKED, its block reason WAIT_PID, its `reg[0]` is X, and ADDR_A is 0.
Otherwise the table is unchanged, and ADDR_A is -1 when X is the pid of `c` or no
descriptor has pid X, and 0 when X is not the pid of `c` and the descriptor with
pid X is TERMINATED. The ready queue and the current process are unchanged in
every case. -/
theorem so_chamada_espera_proc_caracterizacao (self : so_t) (i : Nat) (c : processo_t)
    (hcor : corrente self = some (i, c))
    (hpids : (self.processos.map (fun p => p.pid)).Nodup) :
    ((c.reg1 ≠ c.pid ∧ ∃ d ∈ self.processos, d.pid = c.reg1 ∧ d.estado ≠ ESTADO_TERMINADO) →
      (∃ c1, (so_chamada_espera_proc self).processos[i]? = some c1 ∧
        c1.estado = ESTADO_BLOQUEADO ∧ c1.motivo_bloqueio = BLOQUEIO_POR_ESPERA_DE_PROC ∧
        c1.reg0 = c.reg1) ∧
      (so_chamada_espera_proc self).mem.A = 0 ∧
      ∀ k, k ≠ i → (so_chamada_espera_proc self).processos[k]? = self.processos[k]?) ∧
    (¬ (c.reg1 ≠ c.pid ∧
        ∃ d ∈ self.processos, d.pid = c.reg1 ∧ d.estado ≠ ESTADO_TERMINADO) →
      (so_chamada_espera_proc self).processos = self.processos ∧
      ((c.reg1 = c.pid ∨ ∀ d ∈ self.processos, d.pid ≠ c.reg1) →
        (so_chamada_espera_proc self).mem.A = -1) ∧
      ((c.reg1 ≠ c.pid ∧
          ∃ d ∈ self.processos, d.pid = c.reg1 ∧ d.estado = ESTADO_TERMINADO) →
        (so_chamada_espera_proc self).mem.A = 0)) ∧
    (so_chamada_espera_proc self).fila_prontos = self.fila_prontos ∧
    (so_chamada_espera_proc self).processo_corrente = self.processo_corrente := by
  obtain ⟨hc1, hc2⟩ := (corrente_eq_some self i c).mp hcor
  unfold so_chamada_espera_proc
  rw [hcor]
  dsimp only
  by_cases h0 : c.reg1 = c.pid
  · rw [if_pos h0]
    refine ⟨fun h => absurd h0 h.1, fun _ => ⟨rfl, fun _ => ?_, fun h => absurd h0 h.1⟩, rfl, rfl⟩
    simp [mem_escreve_ign, mem_escreve]
  · rw [if_neg h0]
    cases he : encontra_processo_por_pid self.processos c.reg1 with
    | none =>
      have hnone : ∀ d ∈ self.processos, d.pid ≠ c.reg1 := by
        intro d hd
        obtain ⟨k, hk⟩ := List.mem_iff_getElem?.mp hd
        exact encontra_processo_por_pid_none _ _ he k d hk
      dsimp only
      refine ⟨?_, fun _ => ⟨rfl, fun _ => ?_, ?_⟩, rfl, rfl⟩
      · rintro ⟨_, d, hd, hd1, _⟩
        exact absurd hd1 (hnone d hd)
      · simp [mem_escreve_ign, mem_escreve]
      · rintro ⟨_, d, hd, hd1, _⟩
        exact absurd hd1 (hnone d hd)
    | some e =>
      obtain ⟨pe, hpe1, hpe2, _⟩ := encontra_processo_por_pid_some _ _ e he
      have hmem : pe ∈ self.processos := List.mem_iff_getElem?.mpr ⟨e, hpe1⟩
      have huniq : ∀ d ∈ self.processos, d.pid = c.reg1 → d = pe := by
        intro d hd hd1
        exact List.inj_on_of_nodup_map hpids hd hmem (by rw [hd1, hpe2])
      dsimp only
      rw [hpe1]
      dsimp only
      by_cases ht : pe.estado = ESTADO_TERMINADO
      · rw [if_pos ht]
        refine ⟨?_, fun _ => ⟨rfl, ?_, fun _ => ?_⟩, rfl, rfl⟩
        · rintro ⟨_, d, hd, hd1, hd2⟩
          rw [huniq d hd hd1] at hd2
          exact absurd ht hd2
        · rintro (h | h)
          · exact absurd h h0
          · exact absurd hpe2 (h pe hmem)
        · simp [mem_escreve_ign, mem_escreve]
      · rw [if_neg ht]
        refine ⟨fun _ => ⟨⟨{ proc_muda_estado c ESTADO_BLOQUEADO with
            motivo_bloqueio := BLOQUEIO_POR_ESPERA_DE_PROC, reg0 := c.reg1 },
          ?_, rfl, rfl, rfl⟩, ?_, ?_⟩, fun h => ?_, rfl, rfl⟩
        · dsimp only
          rw [getElem?_altera_processo, if_pos rfl, hc2]
          rfl
        · simp [mem_escreve_ign, mem_escreve]
        · intro k hk
          dsimp only
          rw [getElem?_altera_processo, if_neg hk]
        · exact absurd ⟨h0, pe, hmem, hpe2, ht⟩ h

/-- C8, on the example machine: init (pid 1) calls WAIT(2) while the process with
pid 2 is READY, and is blocked. -/
theorem so_chamada_espera_proc_caracterizacao_exemplo :
    corrente (exemplo_so [exemplo_proc 1 ESTADO_INICIALIZANDO 9 2,
        exemplo_proc 2 ESTADO_PRONTO 0 0] [1] (some 0) 9 2) =
      some (0, exemplo_proc 1 ESTADO_INICIALIZANDO 9 2) ∧
    ((exemplo_so [exemplo_proc 1 ESTADO_INICIALIZANDO 9 2,
        exemplo_proc 2 ESTADO_PRONTO 0 0] [1] (some 0) 9 2).processos.map
      (fun p => p.pid)).Nodup ∧
    (so_chamada_espera_proc (exemplo_so [exemplo_proc 1 ESTADO_INICIALIZANDO 9 2,
        exemplo_proc 2 ESTADO_PRONTO 0 0] [1] (some 0) 9 2)).mem.A = 0 :=
  ⟨rfl, by decide,
    ((so_chamada_espera_proc_caracterizacao
      (exemplo_so [exemplo_proc 1 ESTADO_INICIALIZANDO 9 2,
        exemplo_proc 2 ESTADO_PRONTO 0 0] [1] (some 0) 9 2) 0
      (exemplo_proc 1 ESTADO_INICIALIZANDO 9 2) rfl (by decide)).1
      ⟨by decide, exemplo_proc 2 ESTADO_PRONTO 0 0, by simp [exemplo_so],
        rfl, by decide⟩).2.1⟩

set_option maxRecDepth 100000 in
/-- C9 (the code breaks it). On the example machine under round-robin: boot, SPAWN
by init (child pid 2), WAIT(2) by init, KILL(0) by the child. The sweep of the
KILL entry makes init READY and queues it, the scheduler dispatches it in that
same entry (return value 0, init current and RUNNING), and the value the
dispatcher writes to ADDR_A for init is 2, the awaited pid the WAIT handler
stored in `reg[0]`, not 0. -/
theorem espera_retorna_pid_esperado :
    (so_cria 10 (exemplo_mem 0 0) exemplo_es exemplo_programas).map (fun s0 =>
      ((entrada ESCALONADOR (executa ESCALONADOR s0
          [exemplo_trap IRQ_RESET 0 0, exemplo_trap IRQ_SISTEMA 7 50,
           exemplo_trap IRQ_SISTEMA 9 2]) (exemplo_trap IRQ_SISTEMA 8 0)).2,
       (entrada ESCALONADOR (executa ESCALONADOR s0
          [exemplo_trap IRQ_RESET 0 0, exemplo_trap IRQ_SISTEMA 7 50,
           exemplo_trap IRQ_SISTEMA 9 2]) (exemplo_trap IRQ_SISTEMA 8 0)).1.processo_corrente,
       estados (entrada ESCALONADOR (executa ESCALONADOR s0
          [exemplo_trap IRQ_RESET 0 0, exemplo_trap IRQ_SISTEMA 7 50,
           exemplo_trap IRQ_SISTEMA 9 2]) (exemplo_trap IRQ_SISTEMA 8 0)).1,
       (entrada ESCALONADOR (executa ESCALONADOR s0
          [exemplo_trap IRQ_RESET 0 0, exemplo_trap IRQ_SISTEMA 7 50,
           exemplo_trap IRQ_SISTEMA 9 2]) (exemplo_trap IRQ_SISTEMA 8 0)).1.mem.A)) =
      some (0, some 0, [ESTADO_INICIALIZANDO, ESTADO_TERMINADO], 2) := by
  decide

set_option maxRecDepth 100000 in
/-- C10 as stated fails for the ready queue. On the example machine under the simple
policy (policy 3), in the state the KILL handler receives when A (pid 2, position
1 of the table), queued twice, kills itself (saved X = 0): the ready queue is
[1, 1] before the handler; afterwards A is TERMINATED and the ready queue is [1],
so A is still in the ready queue. -/
theorem mata_proc_deixa_o_alvo_na_fila :
    exemplo_fila_repetida.processo_corrente = some 1 ∧
    pids exemplo_fila_repetida = [1, 2, 3] ∧
    exemplo_fila_repetida.mem.X = 0 ∧
    exemplo_fila_repetida.fila_prontos = [1, 1] ∧
    estado_em (so_chamada_mata_proc exemplo_fila_repetida).processos 1 =
      some ESTADO_TERMINADO ∧
    (so_chamada_mata_proc exemplo_fila_repetida).fila_prontos = [1] ∧
    1 ∈ (so_chamada_mata_proc exemplo_fila_repetida).fila_prontos := by
  decide

/-- C10, amended. The KILL handler, on a table whose pids are pairwise distinct,
with current process `c` and target pid `t` (the pid of `c` when the saved X is 0,
the saved X otherwise). If the descriptor at position `j` has pid `t`, then
afterwards it is TERMINATED (it is the old descriptor moved to TERMINATED), the
ready queue is the old one without its first entry for `j`, so that `j` is not in
the ready queue when the old queue held no descriptor twice, ADDR_A is 0, the
current process is absent when `t` is the pid of `c` and is still `c` otherwise,
and every other descriptor is unchanged. If no descriptor has pid `t`, ADDR_A is
-1 and the table, the ready queue and the current process are unchanged. -/
theorem so_chamada_mata_proc_caracterizacao (self : so_t) (i : Nat) (c : processo_t) (t : Int)
    (hcor : corrente self = some (i, c))
    (ht : t = if c.reg1 = 0 then c.pid else c.reg1)
    (hpids : (self.processos.map (fun p => p.pid)).Nodup) :
    (∀ (j : Nat) (d : processo_t), self.processos[j]? = some d → d.pid = t →
      (so_chamada_mata_proc self).processos[j]? = some (proc_muda_estado d ESTADO_TERMINADO) ∧
      (proc_muda_estado d ESTADO_TERMINADO).estado = ESTADO_TERMINADO ∧
      ((so_chamada_mata_proc self).fila_prontos = self.fila_prontos.erase j ∧
        (self.fila_prontos.Nodup → j ∉ (so_chamada_mata_proc self).fila_prontos)) ∧
      (so_chamada_mata_proc self).mem.A = 0 ∧
      (t = c.pid → (so_chamada_mata_proc self).processo_corrente = none) ∧
      (t ≠ c.pid → (so_chamada_mata_proc self).processo_corrente = some i) ∧
      (∀ k, k ≠ j → (so_chamada_mata_proc self).processos[k]? = self.processos[k]?)) ∧
    ((∀ d ∈ self.processos, d.pid ≠ t) →
      (so_chamada_mata_proc self).mem.A = -1 ∧
      (so_chamada_mata_proc self).processos = self.processos ∧
      (so_chamada_mata_proc self).fila_prontos = self.fila_prontos ∧
      (so_chamada_mata_proc self).processo_corrente = self.processo_corrente) := by
  obtain ⟨hc1, hc2⟩ := (corrente_eq_some self i c).mp hcor
  constructor
  · intro j d hj hd
    have he : encontra_processo_por_pid self.processos
        (if c.reg1 = 0 then c.pid else c.reg1) = some j := by
      rw [← ht, ← hd]
      exact encontra_processo_por_pid_unico _ hpids j d hj
    rw [so_chamada_mata_proc_achou self i c j hcor he, ← ht]
    have huniq : ∀ a, ((altera_processo self.processos j
        (fun p => proc_muda_estado p ESTADO_TERMINADO))[a]?).map (fun p => p.pid) = some t ↔
        a = j := by
      intro a
      rw [getElem?_altera_processo]
      constructor
      · intro h
        by_cases e : a = j
        · exact e
        · rw [if_neg e] at h
          cases ha : self.processos[a]? with
          | none => rw [ha] at h; cases h
          | some q =>
            rw [ha] at h
            simp only [Option.map_some', Option.some.injEq] at h
            exact nodup_pids_inj _ hpids a j q d ha hj (by rw [h, hd])
      · intro e
        rw [if_pos e, hj]
        simp [proc_muda_estado, hd]
    refine ⟨?_, rfl, ⟨?_, ?_⟩, ?_, ?_, ?_, ?_⟩
    · dsimp only
      rw [getElem?_altera_processo, if_pos rfl, hj]
      rfl
    · dsimp only
      exact remove_da_fila_erase _ t j huniq _
    · intro hfila
      dsimp only
      rw [remove_da_fila_erase _ t j huniq]
      intro hm
      exact ((List.Nodup.mem_erase_iff hfila).mp hm).1 rfl
    · simp [mem_escreve_ign, mem_escreve]
    · intro e
      dsimp only
      rw [if_pos e.symm]
    · intro e
      dsimp only
      rw [if_neg (fun h => e h.symm)]
      exact hc1
    · intro k hk
      dsimp only
      rw [getElem?_altera_processo, if_neg hk]
  · intro hnone
    have he : encontra_processo_por_pid self.processos
        (if c.reg1 = 0 then c.pid else c.reg1) = none := by
      rw [← ht]
      exact encontra_processo_por_pid_ausente _ _ hnone
    unfold so_chamada_mata_proc
    rw [hcor]
    dsimp only
    rw [he]
    refine ⟨?_, rfl, rfl, rfl⟩
    simp [mem_escreve_ign, mem_escreve]

/-- C10 amended, on the example machine: init (pid 1) kills the process with pid 2,
which is READY and once in the ready queue. -/
theorem so_chamada_mata_proc_caracterizacao_exemplo :
    corrente (exemplo_so [exemplo_proc 1 ESTADO_INICIALIZANDO 8 2,
        exemplo_proc 2 ESTADO_PRONTO 0 0] [1] (some 0) 8 2) =
      some (0, exemplo_proc 1 ESTADO_INICIALIZANDO 8 2) ∧
    (2 : Int) = (if (exemplo_proc 1 ESTADO_INICIALIZANDO 8 2).reg1 = 0
      then (exemplo_proc 1 ESTADO_INICIALIZANDO 8 2).pid
      else (exemplo_proc 1 ESTADO_INICIALIZANDO 8 2).reg1) ∧
    ((exemplo_so [exemplo_proc 1 ESTADO_INICIALIZANDO 8 2,
        exemplo_proc 2 ESTADO_PRONTO 0 0] [1] (some 0) 8 2).processos.map
      (fun p => p.pid)).Nodup ∧
    (exemplo_so [exemplo_proc 1 ESTADO_INICIALIZANDO 8 2,
        exemplo_proc 2 ESTADO_PRONTO 0 0] [1] (some 0) 8 2).fila_prontos.Nodup ∧
    1 ∉ (so_chamada_mata_proc (exemplo_so [exemplo_proc 1 ESTADO_INICIALIZANDO 8 2,
        exemplo_proc 2 ESTADO_PRONTO 0 0] [1] (some 0) 8 2)).fila_prontos :=
  ⟨rfl, by decide, by decide, by decide,
    ((so_chamada_mata_proc_caracterizacao
      (exemplo_so [exemplo_proc 1 ESTADO_INICIALIZANDO 8 2,
        exemplo_proc 2 ESTADO_PRONTO 0 0] [1] (some 0) 8 2) 0
      (exemplo_proc 1 ESTADO_INICIALIZANDO 8 2) 2 rfl (by decide) (by decide)).1
      1 (exemplo_proc 2 ESTADO_PRONTO 0 0) rfl rfl).2.2.1.2 (by decide)⟩

set_option maxRecDepth 100000 in
/-- C11 (the code breaks it). On the example machine under round-robin, a system
call with the unknown number 5. With X = 7, a pid no descriptor has, issued by
init right after the boot: the handler `so_trata_irq_chamada_sistema` leaves init
RUNNING and current and writes -1 to ADDR_A, and at the kernel exit init is still
RUNNING and current. With X = 2, issued by init after it spawned the process with
pid 2: at the kernel exit the process with pid 2 is TERMINATED, and init, the
caller, is still RUNNING and current. The default branch calls the KILL handler,
which kills the pid in X and not the caller. -/
theorem chamada_desconhecida_nao_mata_o_chamador :
    (so_cria 10 (exemplo_mem 0 0) exemplo_es exemplo_programas).map (fun s0 =>
      (estados (so_trata_irq_chamada_sistema (salva_estado_cpu_no_processo
          (na_entrada (executa ESCALONADOR s0 [exemplo_trap IRQ_RESET 0 0])
            (exemplo_trap IRQ_SISTEMA 5 7)))),
       (so_trata_irq_chamada_sistema (salva_estado_cpu_no_processo
          (na_entrada (executa ESCALONADOR s0 [exemplo_trap IRQ_RESET 0 0])
            (exemplo_trap IRQ_SISTEMA 5 7)))).processo_corrente,
       (so_trata_irq_chamada_sistema (salva_estado_cpu_no_processo
          (na_entrada (executa ESCALONADOR s0 [exemplo_trap IRQ_RESET 0 0])
            (exemplo_trap IRQ_SISTEMA 5 7)))).mem.A)) =
      some ([ESTADO_INICIALIZANDO], some 0, -1) ∧
    (so_cria 10 (exemplo_mem 0 0) exemplo_es exemplo_programas).map (fun s0 =>
      (estados (executa ESCALONADOR s0
          [exemplo_trap IRQ_RESET 0 0, exemplo_trap IRQ_SISTEMA 5 7]),
       (executa ESCALONADOR s0
          [exemplo_trap IRQ_RESET 0 0, exemplo_trap IRQ_SISTEMA 5 7]).processo_corrente,
       estados (executa ESCALONADOR s0
          [exemplo_trap IRQ_RESET 0 0, exemplo_trap IRQ_SISTEMA 7 50,
           exemplo_trap IRQ_SISTEMA 5 2]),
       (executa ESCALONADOR s0
          [exemplo_trap IRQ_RESET 0 0, exemplo_trap IRQ_SISTEMA 7 50,
           exemplo_trap IRQ_SISTEMA 5 2]).processo_corrente)) =
      some ([ESTADO_INICIALIZANDO], some 0,
            [ESTADO_INICIALIZANDO, ESTADO_TERMINADO], some 0) := by
  decide

/-- C12. SPAWN success. With current process `c` at position `i` of the table,
when the file name is copied (`nome`) and the loader does not return -1, the
program reader knows `nome` and `so_chamada_cria_proc` leaves the table as it was
with one descriptor `d` added at its end, all earlier entries in place and
unchanged but for `reg[0]` of `c`, which holds the pid of `d`; `d` has the
previous value of `pid_atual` as pid, state READY, priority 1/2 and the load
address as pc; the ready queue is the old one with `d` added at its end;
`pid_atual` and the process count grow by one; the current process is still `c`. -/
theorem so_chamada_cria_proc_sucesso (self : so_t) (i : Nat) (c : processo_t) (nome : nome_t)
    (hcor : corrente self = some (i, c))
    (hnome : copia_str_da_mem 100 self.mem self.mem.X = some nome)
    (hcarga : (so_carrega_programa self nome).2 ≠ -1) :
    ∃ (prog : programa_t) (d : processo_t),
      self.programas nome = some prog ∧
      d.pid = self.pid_atual ∧ d.estado = ESTADO_PRONTO ∧ d.prioridade = 1 / 2 ∧
      d.pc = prog.end_carga ∧
      (so_chamada_cria_proc self).processos =
        self.processos.set i { c with reg0 := d.pid } ++ [d] ∧
      (so_chamada_cria_proc self).processos.length = self.processos.length + 1 ∧
      (so_chamada_cria_proc self).processos.getLast? = some d ∧
      (so_chamada_cria_proc self).processos[self.processos.length]? = some d ∧
      (so_chamada_cria_proc self).processos[i]? = some { c with reg0 := d.pid } ∧
      (∀ k, k ≠ i → k < self.processos.length →
        (so_chamada_cria_proc self).processos[k]? = self.processos[k]?) ∧
      (so_chamada_cria_proc self).fila_prontos =
        self.fila_prontos ++ [self.processos.length] ∧
      (so_chamada_cria_proc self).pid_atual = self.pid_atual + 1 ∧
      (so_chamada_cria_proc self).numero_processos = self.numero_processos + 1 ∧
      (so_chamada_cria_proc self).processo_corrente = some i := by
  obtain ⟨hc1, hc2⟩ := (corrente_eq_some self i c).mp hcor
  have hi : i < self.processos.length := (List.getElem?_eq_some_iff.mp hc2).1
  cases hp : self.programas nome with
  | none =>
    exfalso
    apply hcarga
    simp [so_carrega_programa, hp]
  | some prog =>
    cases hl : carrega_palavras self.mem prog.end_carga prog.dados with
    | mk mem1 ok =>
      have hok : ok = true := by
        cases ok with
        | true => rfl
        | false =>
          exfalso
          apply hcarga
          simp [so_carrega_programa, hp, hl]
      subst hok
      have hpc : (so_carrega_programa self nome).2 = prog.end_carga := by
        simp [so_carrega_programa, hp, hl]
      have hne : prog.end_carga ≠ -1 := by
        rw [← hpc]
        exact hcarga
      have hres : (so_chamada_cria_proc self).processos =
            self.processos.set i { c with reg0 := self.pid_atual } ++
              [inicializa_processo self.pid_atual prog.end_carga] ∧
          (so_chamada_cria_proc self).fila_prontos =
            self.fila_prontos ++ [self.processos.length] ∧
          (so_chamada_cria_proc self).pid_atual = self.pid_atual + 1 ∧
          (so_chamada_cria_proc self).numero_processos = self.numero_processos + 1 ∧
          (so_chamada_cria_proc self).processo_corrente = some i := by
        have hx : mem_le self.mem IRQ_END_X = some self.mem.X := rfl
        have hset : altera_processo
              (self.processos ++ [inicializa_processo self.pid_atual prog.end_carga]) i
              (fun p => { p with reg0 := self.pid_atual }) =
            self.processos.set i { c with reg0 := self.pid_atual } ++
              [inicializa_processo self.pid_atual prog.end_carga] := by
          unfold altera_processo
          rw [List.getElem?_append_left hi, hc2]
          dsimp only
          rw [List.set_append_left _ _ hi]
        have key : so_chamada_cria_proc self =
            { self with
              mem := mem1, pid_atual := self.pid_atual + 1,
              numero_processos := self.numero_processos + 1,
              processos := altera_processo
                (self.processos ++ [inicializa_processo self.pid_atual prog.end_carga]) i
                (fun p => { p with reg0 := self.pid_atual }),
              fila_prontos := self.fila_prontos ++ [self.processos.length] } := by
          unfold so_chamada_cria_proc
          rw [hx]
          dsimp only
          rw [hnome]
          dsimp only
          simp only [so_cria_processo, so_carrega_programa, hp, hl, if_neg hne,
            adiciona_processo_na_lista, insere_na_fila_prontos, altera_corrente, hc1]
          rfl
        rw [key]
        exact ⟨hset, rfl, rfl, rfl, hc1⟩
      obtain ⟨r1, r2, r3, r4, r5⟩ := hres
      refine ⟨prog, inicializa_processo self.pid_atual prog.end_carga, rfl, rfl, rfl, rfl, rfl,
        r1, ?_, ?_, ?_, ?_, ?_, r2, r3, r4, r5⟩
      · rw [r1]
        simp
      · rw [r1]
        simp
      · rw [r1]
        rw [List.getElem?_append_right (by simp)]
        simp
      · rw [r1]
        rw [List.getElem?_append_left (by simpa using hi)]
        simp [hi]
        rfl
      · intro k hk hkl
        rw [r1]
        rw [List.getElem?_append_left (by simpa using hkl)]
        rw [List.getElem?_set_ne (fun h => hk h.symm)]

/-- C12, on the example machine: init (pid 1) spawns the program "a", whose name is
at address 50; the new descriptor gets pid 2 and `pid_atual` becomes 3. -/
theorem so_chamada_cria_proc_sucesso_exemplo :
    corrente (exemplo_so [exemplo_proc 1 ESTADO_INICIALIZANDO 7 50] [] (some 0) 7 50) =
      some (0, exemplo_proc 1 ESTADO_INICIALIZANDO 7 50) ∧
    copia_str_da_mem 100
      (exemplo_so [exemplo_proc 1 ESTADO_INICIALIZANDO 7 50] [] (some 0) 7 50).mem
      (exemplo_so [exemplo_proc 1 ESTADO_INICIALIZANDO 7 50] [] (some 0) 7 50).mem.X =
      some [97] ∧
    (so_carrega_programa
      (exemplo_so [exemplo_proc 1 ESTADO_INICIALIZANDO 7 50] [] (some 0) 7 50) [97]).2 ≠ -1 ∧
    (so_chamada_cria_proc
      (exemplo_so [exemplo_proc 1 ESTADO_INICIALIZANDO 7 50] [] (some 0) 7 50)).fila_prontos =
      [] ++ [1] ∧
    (so_chamada_cria_proc
      (exemplo_so [exemplo_proc 1 ESTADO_INICIALIZANDO 7 50] [] (some 0) 7 50)).pid_atual =
      2 + 1 :=
  ⟨rfl, by decide, by decide,
    (so_chamada_cria_proc_sucesso
      (exemplo_so [exemplo_proc 1 ESTADO_INICIALIZANDO 7 50] [] (some 0) 7 50) 0
      (exemplo_proc 1 ESTADO_INICIALIZANDO 7 50) [97] rfl (by decide) (by decide)).elim
      (fun _ h => h.elim (fun _ h1 => ⟨h1.2.2.2.2.2.2.2.2.2.2.2.1, h1.2.2.2.2.2.2.2.2.2.2.2.2.1⟩))⟩

/-- C13. SPAWN failure. When the file name cannot be copied from the address in
the trap-frame word X (after `k` bytes between 1 and 255 the 100 bytes of the
buffer are used up, or the next word cannot be read, or it is not a byte; or, in
general, `copia_str_da_mem` fails), or it is copied and the loader returns -1 for
it, `so_chamada_cria_proc` writes -1 to ADDR_A and leaves the process table (so
the descriptor of the caller), the process count, the ready queue, `pid_atual`
and the current process unchanged. -/
theorem so_chamada_cria_proc_falha (self : so_t)
    (hfalha :
      (∃ k : Nat, k ≤ 100 ∧
        (∀ j : Nat, j < k →
          ∃ v, mem_le self.mem (outro (self.mem.X + (j : Int))) = some v ∧ 0 < v ∧ v ≤ 255) ∧
        (k = 100 ∨ mem_le self.mem (outro (self.mem.X + (k : Int))) = none ∨
          ∃ v, mem_le self.mem (outro (self.mem.X + (k : Int))) = some v ∧
            (v < 0 ∨ 255 < v))) ∨
      copia_str_da_mem 100 self.mem self.mem.X = none ∨
      ∃ nome, copia_str_da_mem 100 self.mem self.mem.X = some nome ∧
        (so_carrega_programa self nome).2 = -1) :
    (so_chamada_cria_proc self).mem.A = -1 ∧
    (so_chamada_cria_proc self).processos = self.processos ∧
    (so_chamada_cria_proc self).numero_processos = self.numero_processos ∧
    (so_chamada_cria_proc self).fila_prontos = self.fila_prontos ∧
    (so_chamada_cria_proc self).pid_atual = self.pid_atual ∧
    (so_chamada_cria_proc self).processo_corrente = self.processo_corrente := by
  have hx : mem_le self.mem IRQ_END_X = some self.mem.X := rfl
  have hnone : copia_str_da_mem 100 self.mem self.mem.X = none →
      (so_chamada_cria_proc self).mem.A = -1 ∧
      (so_chamada_cria_proc self).processos = self.processos ∧
      (so_chamada_cria_proc self).numero_processos = self.numero_processos ∧
      (so_chamada_cria_proc self).fila_prontos = self.fila_prontos ∧
      (so_chamada_cria_proc self).pid_atual = self.pid_atual ∧
      (so_chamada_cria_proc self).processo_corrente = self.processo_corrente := by
    intro h
    unfold so_chamada_cria_proc
    rw [hx]
    dsimp only
    rw [h]
    exact ⟨rfl, rfl, rfl, rfl, rfl, rfl⟩
  rcases hfalha with ⟨k, hk, hpre, hcausa⟩ | h | ⟨nome, h, hpc⟩
  · apply hnone
    have e : ∀ j : Nat, self.mem.X + 0 + (j : Int) = self.mem.X + (j : Int) := by
      intro j
      ring
    exact copia_str_da_mem_laco_falha self.mem self.mem.X 100 0 k hk
      (fun j hj => by rw [e j]; exact hpre j hj) (by rw [e k]; exact hcausa)
  · exact hnone h
  · obtain ⟨m, pc, hm⟩ := so_carrega_programa_casos self nome
    rw [hm] at hpc
    have hpc1 : pc = -1 := hpc
    subst hpc1
    unfold so_chamada_cria_proc
    rw [hx]
    dsimp only
    rw [h]
    dsimp only
    unfold so_cria_processo
    rw [hm]
    exact ⟨rfl, rfl, rfl, rfl, rfl, rfl⟩

/-- C13, on the example machine: init asks for the program whose name is at address
60, the empty name, which the program reader does not know. -/
theorem so_chamada_cria_proc_falha_exemplo :
    (∃ nome, copia_str_da_mem 100
        (exemplo_so [exemplo_proc 1 ESTADO_INICIALIZANDO 7 60] [] (some 0) 7 60).mem
        (exemplo_so [exemplo_proc 1 ESTADO_INICIALIZANDO 7 60] [] (some 0) 7 60).mem.X =
          some nome ∧
      (so_carrega_programa
        (exemplo_so [exemplo_proc 1 ESTADO_INICIALIZANDO 7 60] [] (some 0) 7 60) nome).2 =
          -1) ∧
    (so_chamada_cria_proc
      (exemplo_so [exemplo_proc 1 ESTADO_INICIALIZANDO 7 60] [] (some 0) 7 60)).mem.A = -1 ∧
    (so_chamada_cria_proc
      (exemplo_so [exemplo_proc 1 ESTADO_INICIALIZANDO 7 60] [] (some 0) 7 60)).pid_atual = 2 :=
  ⟨⟨[], by decide, by decide⟩,
    (so_chamada_cria_proc_falha
      (exemplo_so [exemplo_proc 1 ESTADO_INICIALIZANDO 7 60] [] (some 0) 7 60)
      (Or.inr (Or.inr ⟨[], by decide, by decide⟩))).1,
    (so_chamada_cria_proc_falha
      (exemplo_so [exemplo_proc 1 ESTADO_INICIALIZANDO 7 60] [] (some 0) 7 60)
      (Or.inr (Or.inr ⟨[], by decide, by decide⟩))).2.2.2.2.1⟩

set_option maxRecDepth 100000 in
/-- C15 (the code breaks it). Scenario S2 on the example machine under round-robin:
boot, SPAWN by init (child pid 2, terminal 1), WAIT(2) by init (the child runs),
READ by the child while its keyboard-ready register reads 0, then a timer trap at
which the register reads 1 and the keyboard-data register holds 81. After the
READ entry the child is BLOCKED with reason WAIT_READ and nothing is current. At
the timer entry the sweep makes the child READY and the scheduler dispatches it
(return value 0, the child current and RUNNING), but the value the dispatcher
writes to ADDR_A for it is 1, the call number saved in `reg[0]`, not 81: the sweep
never reads the keyboard-data register. -/
theorem leitura_desbloqueada_nao_recebe_o_dado :
    (so_cria 10 (exemplo_mem 0 0) exemplo_es exemplo_programas).map (fun s0 =>
      (estados (executa ESCALONADOR s0
          [exemplo_trap IRQ_RESET 0 0, exemplo_trap IRQ_SISTEMA 7 50,
           exemplo_trap IRQ_SISTEMA 9 2, exemplo_trap_teclado IRQ_SISTEMA 1 0 0 0]),
       ((executa ESCALONADOR s0
          [exemplo_trap IRQ_RESET 0 0, exemplo_trap IRQ_SISTEMA 7 50,
           exemplo_trap IRQ_SISTEMA 9 2,
           exemplo_trap_teclado IRQ_SISTEMA 1 0 0 0]).processos.map
         (fun p => p.motivo_bloqueio)),
       (executa ESCALONADOR s0
          [exemplo_trap IRQ_RESET 0 0, exemplo_trap IRQ_SISTEMA 7 50,
           exemplo_trap IRQ_SISTEMA 9 2,
           exemplo_trap_teclado IRQ_SISTEMA 1 0 0 0]).processo_corrente)) =
      some ([ESTADO_BLOQUEADO, ESTADO_BLOQUEADO],
            [BLOQUEIO_POR_ESPERA_DE_PROC, BLOQUEIO_POR_LEITURA], none) ∧
    (so_cria 10 (exemplo_mem 0 0) exemplo_es exemplo_programas).map (fun s0 =>
      ((entrada ESCALONADOR (executa ESCALONADOR s0
          [exemplo_trap IRQ_RESET 0 0, exemplo_trap IRQ_SISTEMA 7 50,
           exemplo_trap IRQ_SISTEMA 9 2, exemplo_trap_teclado IRQ_SISTEMA 1 0 0 0])
          (exemplo_trap_teclado IRQ_RELOGIO 0 0 1 81)).2,
       (entrada ESCALONADOR (executa ESCALONADOR s0
          [exemplo_trap IRQ_RESET 0 0, exemplo_trap IRQ_SISTEMA 7 50,
           exemplo_trap IRQ_SISTEMA 9 2, exemplo_trap_teclado IRQ_SISTEMA 1 0 0 0])
          (exemplo_trap_teclado IRQ_RELOGIO 0 0 1 81)).1.processo_corrente,
       estados (entrada ESCALONADOR (executa ESCALONADOR s0
          [exemplo_trap IRQ_RESET 0 0, exemplo_trap IRQ_SISTEMA 7 50,
           exemplo_trap IRQ_SISTEMA 9 2, exemplo_trap_teclado IRQ_SISTEMA 1 0 0 0])
          (exemplo_trap_teclado IRQ_RELOGIO 0 0 1 81)).1,
       (entrada ESCALONADOR (executa ESCALONADOR s0
          [exemplo_trap IRQ_RESET 0 0, exemplo_trap IRQ_SISTEMA 7 50,
           exemplo_trap IRQ_SISTEMA 9 2, exemplo_trap_teclado IRQ_SISTEMA 1 0 0 0])
          (exemplo_trap_teclado IRQ_RELOGIO 0 0 1 81)).1.mem.A)) =
      some (0, some 1, [ESTADO_BLOQUEADO, ESTADO_INICIALIZANDO], 1) := by
  decide

set_option maxRecDepth 100000 in
/-- C17 as stated fails. On the example machine under the priority policy: init
spawns A (pid 2) and B (pid 3) and runs until its quantum is spent (five timer
traps); the scheduler then dispatches A. At that kernel exit init and B are READY
with priorities 2 and 1/2, so B is READY and has a priority strictly smaller than
that of every other READY descriptor, and A is RUNNING with a fresh quantum. The
next run of the scheduler (alone, or in the entry of the next timer trap) keeps A
as the current process and leaves B READY: a RUNNING current process with quantum
left is kept, whatever the priorities in the ready queue. -/
theorem prioridade_mantem_corrente_com_quantum :
    (so_cria 10 (exemplo_mem 0 0) exemplo_es exemplo_programas).map (fun s0 =>
      (estados (executa 1 s0
          [exemplo_trap IRQ_RESET 0 0, exemplo_trap IRQ_SISTEMA 7 50,
           exemplo_trap IRQ_SISTEMA 7 50, exemplo_trap IRQ_RELOGIO 0 0,
           exemplo_trap IRQ_RELOGIO 0 0, exemplo_trap IRQ_RELOGIO 0 0,
           exemplo_trap IRQ_RELOGIO 0 0, exemplo_trap IRQ_RELOGIO 0 0]),
       prioridades (executa 1 s0
          [exemplo_trap IRQ_RESET 0 0, exemplo_trap IRQ_SISTEMA 7 50,
           exemplo_trap IRQ_SISTEMA 7 50, exemplo_trap IRQ_RELOGIO 0 0,
           exemplo_trap IRQ_RELOGIO 0 0, exemplo_trap IRQ_RELOGIO 0 0,
           exemplo_trap IRQ_RELOGIO 0 0, exemplo_trap IRQ_RELOGIO 0 0]),
       (executa 1 s0
          [exemplo_trap IRQ_RESET 0 0, exemplo_trap IRQ_SISTEMA 7 50,
           exemplo_trap IRQ_SISTEMA 7 50, exemplo_trap IRQ_RELOGIO 0 0,
           exemplo_trap IRQ_RELOGIO 0 0, exemplo_trap IRQ_RELOGIO 0 0,
           exemplo_trap IRQ_RELOGIO 0 0, exemplo_trap IRQ_RELOGIO 0 0]).fila_prontos,
       (executa 1 s0
          [exemplo_trap IRQ_RESET 0 0, exemplo_trap IRQ_SISTEMA 7 50,
           exemplo_trap IRQ_SISTEMA 7 50, exemplo_trap IRQ_RELOGIO 0 0,
           exemplo_trap IRQ_RELOGIO 0 0, exemplo_trap IRQ_RELOGIO 0 0,
           exemplo_trap IRQ_RELOGIO 0 0, exemplo_trap IRQ_RELOGIO 0 0]).processo_corrente)) =
      some ([ESTADO_PRONTO, ESTADO_INICIALIZANDO, ESTADO_PRONTO], [2, 1 / 2, 1 / 2],
            [2, 0], some 1) ∧
    (so_cria 10 (exemplo_mem 0 0) exemplo_es exemplo_programas).map (fun s0 =>
      ((so_escalona (executa 1 s0
          [exemplo_trap IRQ_RESET 0 0, exemplo_trap IRQ_SISTEMA 7 50,
           exemplo_trap IRQ_SISTEMA 7 50, exemplo_trap IRQ_RELOGIO 0 0,
           exemplo_trap IRQ_RELOGIO 0 0, exemplo_trap IRQ_RELOGIO 0 0,
           exemplo_trap IRQ_RELOGIO 0 0, exemplo_trap IRQ_RELOGIO 0 0]) 1).processo_corrente,
       estados (so_escalona (executa 1 s0
          [exemplo_trap IRQ_RESET 0 0, exemplo_trap IRQ_SISTEMA 7 50,
           exemplo_trap IRQ_SISTEMA 7 50, exemplo_trap IRQ_RELOGIO 0 0,
           exemplo_trap IRQ_RELOGIO 0 0, exemplo_trap IRQ_RELOGIO 0 0,
           exemplo_trap IRQ_RELOGIO 0 0, exemplo_trap IRQ_RELOGIO 0 0]) 1),
       (executa 1 s0
          [exemplo_trap IRQ_RESET 0 0, exemplo_trap IRQ_SISTEMA 7 50,
           exemplo_trap IRQ_SISTEMA 7 50, exemplo_trap IRQ_RELOGIO 0 0,
           exemplo_trap IRQ_RELOGIO 0 0, exemplo_trap IRQ_RELOGIO 0 0,
           exemplo_trap IRQ_RELOGIO 0 0, exemplo_trap IRQ_RELOGIO 0 0,
           exemplo_trap IRQ_RELOGIO 0 0]).processo_corrente,
       estados (executa 1 s0
          [exemplo_trap IRQ_RESET 0 0, exemplo_trap IRQ_SISTEMA 7 50,
           exemplo_trap IRQ_SISTEMA 7 50, exemplo_trap IRQ_RELOGIO 0 0,
           exemplo_trap IRQ_RELOGIO 0 0, exemplo_trap IRQ_RELOGIO 0 0,
           exemplo_trap IRQ_RELOGIO 0 0, exemplo_trap IRQ_RELOGIO 0 0,
           exemplo_trap IRQ_RELOGIO 0 0]))) =
      some (some 1, [ESTADO_PRONTO, ESTADO_INICIALIZANDO, ESTADO_PRONTO],
            some 1, [ESTADO_PRONTO, ESTADO_INICIALIZANDO, ESTADO_PRONTO]) := by
  decide!

/-- C17, amended. Under the priority policy, if the descriptor `p` (at position `j`
of the table) is READY and in the ready queue, its priority is strictly smaller
than that of every other entry of the ready queue, the current process is not in
the queue, and the current process, if it is RUNNING or READY, has spent its
quantum and has, after the priority update of the scheduler, a priority not
smaller than that of `p`, then `so_escalona` with policy 1 selects `p`: afterwards
`p` is the current descriptor and is RUNNING. -/
theorem escalonador_prioridade_escolhe_o_menor_da_fila (self : so_t) (j : Nat) (p : processo_t)
    (hp : self.processos[j]? = some p) (_hpronto : p.estado = ESTADO_PRONTO)
    (hfila : j ∈ self.fila_prontos)
    (hfora : corrente_fora_da_fila self)
    (hmenor : ∀ i ∈ self.fila_prontos, i ≠ j → p.prioridade < prioridade_de self.processos i)
    (hcede : ∀ c q, self.processo_corrente = some c → self.processos[c]? = some q →
      (q.estado = ESTADO_INICIALIZANDO ∨ q.estado = ESTADO_PRONTO) →
      self.quantum_proc ≤ 0 ∧
      p.prioridade ≤ float_soma q.prioridade (acrescimo_de_prioridade self.quantum_proc)) :
    (so_escalona self 1).processo_corrente = some j ∧
    estado_em (so_escalona self 1).processos j = some ESTADO_INICIALIZANDO := by
  obtain ⟨q1, _, q3, q4, _⟩ := antes_da_politica_quadro self
  have htab := antes_da_politica_tabela self
  have hnc : ∀ i ∈ self.fila_prontos, self.processo_corrente ≠ some i :=
    fun i hi h => hfora i h hi
  have hprio : ∀ i ∈ self.fila_prontos,
      prioridade_de (atualiza_prioridade (atualiza_estado_processo_corrente self)).processos i =
        prioridade_de self.processos i := by
    intro i hi
    unfold prioridade_de
    rw [htab i, if_neg (hnc i hi)]
  have hj1 : (atualiza_prioridade (atualiza_estado_processo_corrente self)).processos[j]? =
      some p := by
    rw [htab j, if_neg (hnc j hfila)]
    exact hp
  have hpj : prioridade_de self.processos j = p.prioridade := by
    unfold prioridade_de
    rw [hp]
  obtain ⟨a, b, hab, hja⟩ := List.eq_append_cons_of_mem hfila
  have hmem : ∀ i, i ∈ a ∨ i ∈ b → i ∈ self.fila_prontos := by
    intro i hi
    rw [hab]
    rcases hi with h | h
    · exact List.mem_append_left _ h
    · exact List.mem_append_right _ (List.mem_cons_of_mem _ h)
  have hsched : so_escalona self 1 =
      escalonador_prioridade (atualiza_prioridade (atualiza_estado_processo_corrente self)) := by
    unfold so_escalona
    dsimp only
    rw [if_pos rfl]
  rw [hsched]
  apply escalonador_prioridade_toma_o_menor _ j p a b hj1 (by rw [q3]; exact hab)
  · intro i hi
    rw [hprio i (hmem i (Or.inl hi)), hprio j hfila, hpj]
    exact hmenor i (hmem i (Or.inl hi)) (fun e => hja (e ▸ hi))
  · intro i hi
    rw [hprio i (hmem i (Or.inr hi)), hprio j hfila, hpj]
    by_cases e : i = j
    · rw [e, hpj]
    · exact le_of_lt (hmenor i (hmem i (Or.inr hi)) e)
  · intro he
    obtain ⟨c, hc, hce⟩ := (corrente_executando_iff _).mp he
    rw [q1] at hc
    obtain ⟨qc, hqc, hqe⟩ := estado_em_some hce
    rw [htab c, if_pos hc] at hqc
    cases hq : self.processos[c]? with
    | none =>
      rw [hq] at hqc
      cases hqc
    | some q =>
      rw [hq] at hqc
      simp only [Option.map_some', Option.some.injEq] at hqc
      have hest : q.estado = ESTADO_INICIALIZANDO ∨ q.estado = ESTADO_PRONTO := by
        by_cases h : q.estado = ESTADO_PRONTO
        · exact Or.inr h
        · left
          rw [← hqc, if_neg h] at hqe
          exact hqe
      obtain ⟨k1, k2⟩ := hcede c q hc hq hest
      rw [q4]
      refine ⟨k1, fun c1 hc1 => ?_⟩
      rw [q1, hc] at hc1
      cases hc1
      rw [hprio j hfila, hpj]
      unfold prioridade_de
      rw [htab c, if_pos hc, hq]
      simp only [Option.map_some']
      split <;> exact k2

/-- C17 amended, on the example machine: init is current and BLOCKED, the ready
queue holds the processes with pids 2 and 3, of priorities 2 and 1/2; the
scheduler selects the process with pid 3. -/
theorem escalonador_prioridade_escolhe_o_menor_da_fila_exemplo :
    exemplo_prioridade.processos[2]? = some (exemplo_proc 3 ESTADO_PRONTO 0 0) ∧
    (exemplo_proc 3 ESTADO_PRONTO 0 0).estado = ESTADO_PRONTO ∧
    2 ∈ exemplo_prioridade.fila_prontos ∧
    corrente_fora_da_fila exemplo_prioridade ∧
    (∀ i ∈ exemplo_prioridade.fila_prontos, i ≠ 2 →
      (exemplo_proc 3 ESTADO_PRONTO 0 0).prioridade <
        prioridade_de exemplo_prioridade.processos i) ∧
    (so_escalona exemplo_prioridade 1).processo_corrente = some 2 ∧
    estado_em (so_escalona exemplo_prioridade 1).processos 2 = some ESTADO_INICIALIZANDO :=
  ⟨rfl, rfl, by decide,
    fun c hc => by cases hc; decide,
    by decide!,
    escalonador_prioridade_escolhe_o_menor_da_fila exemplo_prioridade 2
      (exemplo_proc 3 ESTADO_PRONTO 0 0) rfl rfl (by decide)
      (fun c hc => by cases hc; decide)
      (by decide!)
      (fun c q hc hq he => by
        cases hc
        have e : q = exemplo_proc 1 ESTADO_BLOQUEADO 9 2 := (Option.some.inj hq).symm
        rw [e] at he
        rcases he with h | h <;> cases h)⟩

/-- C18. No starvation under round-robin. In a run that starts from the kernel
`so_cria` returns with the boot RESET and goes on with traps other than RESET (a
system call only while a process is current), take a kernel exit at which the
descriptor `r` is in the ready queue with `k` nodes ahead of it (so `k + 1` is at
most the length the queue had when `r` was appended: nodes are only added at the
tail and taken from the head or by KILL). Whatever traps follow, either `r` is
made the current process and RUNNING, or is killed (TERMINATED), at a point
reached by handling at most `QUANTUM * (k + 1)` further TIMER traps, or fewer than
`QUANTUM * (k + 1)` TIMER traps have been handled so far and `r` still waits in
the queue. So once `QUANTUM * (k + 1)` further TIMER traps have been handled, `r`
has been dispatched unless it was killed. -/
theorem sem_inanicao_no_round_robin (IRQ_END_TRATADOR : Int) (mem : mem_t) (es : es_t)
    (programas : nome_t → Option programa_t) (s0 : so_t)
    (hcria : so_cria IRQ_END_TRATADOR mem es programas = some s0)
    (t0 : trap_t) (hreset : t0.irq = IRQ_RESET) (antes depois : List trap_t)
    (hadm : admissivel 2 (entrada 2 s0 t0).1 (antes ++ depois))
    (r k : Nat) (hk : (executa 2 s0 (t0 :: antes)).fila_prontos[k]? = some r) :
    (∃ ts1 ts2, depois = ts1 ++ ts2 ∧
      (conta_relogio ts1 : Int) ≤ QUANTUM * ((k : Int) + 1) ∧
      (((executa 2 s0 (t0 :: (antes ++ ts1))).processo_corrente = some r ∧
          estado_em (executa 2 s0 (t0 :: (antes ++ ts1))).processos r =
            some ESTADO_INICIALIZANDO) ∨
        estado_em (executa 2 s0 (t0 :: (antes ++ ts1))).processos r =
          some ESTADO_TERMINADO)) ∨
    ((conta_relogio depois : Int) < QUANTUM * ((k : Int) + 1) ∧
      r ∈ (executa 2 s0 (t0 :: (antes ++ depois))).fila_prontos) := by
  have h0 := so_cria_recem_criado _ _ _ _ _ hcria
  obtain ⟨_, _, _, hq0⟩ := so_cria_inicio _ _ _ _ _ hcria
  have hsr : sem_reset (antes ++ depois) := admissivel_sem_reset 2 _ _ hadm
  have hsr1 : sem_reset antes := fun t ht => hsr t (List.mem_append_left _ ht)
  have hsr2 : sem_reset depois := fun t ht => hsr t (List.mem_append_right _ ht)
  obtain ⟨hb, hf⟩ := alcancavel_saida 2 (Or.inr (Or.inl rfl)) s0 h0 t0 antes hreset hsr1
  have hq : inv_quantum (executa 2 s0 (t0 :: antes)) :=
    executa_quantum antes _ (entrada_quantum s0 t0 (by rw [hq0]; decide) (by rw [hq0]))
  obtain ⟨hr, hfr⟩ := a_frente_getElem r _ k hk
  have hlim : espera_restante (executa 2 s0 (t0 :: antes)) r ≤ QUANTUM * ((k : Int) + 1) := by
    have q5 := hq.2.1
    have c1 : (a_frente r (executa 2 s0 (t0 :: antes)).fila_prontos : Int) ≤ (k : Int) := by
      exact_mod_cast hfr
    unfold espera_restante
    unfold QUANTUM at q5 ⊢
    omega
  have hap : ∀ ts, executa 2 s0 (t0 :: (antes ++ ts)) =
      executa 2 (executa 2 s0 (t0 :: antes)) ts :=
    fun ts => executa_append 2 (t0 :: antes) ts s0
  rcases executa_espera r depois _ hsr2 hb (hf (by decide)) hq hr with
    ⟨ts1, ts2, e, hc, hg⟩ | ⟨hc, hw⟩
  · refine Or.inl ⟨ts1, ts2, e, le_trans hc hlim, ?_⟩
    rw [hap ts1]
    exact hg
  · refine Or.inr ⟨lt_of_lt_of_le hc hlim, ?_⟩
    rw [hap depois]
    exact hw

set_option maxRecDepth 100000 in
/-- C18, on the example machine: after the boot and a SPAWN by init the child
(position 1 of the table) is alone in the ready queue; five timer traps follow. -/
theorem sem_inanicao_no_round_robin_exemplo :
    so_cria 10 (exemplo_mem 0 0) exemplo_es exemplo_programas = some exemplo_criado ∧
    (exemplo_trap IRQ_RESET 0 0).irq = IRQ_RESET ∧
    admissivel 2 (entrada 2 exemplo_criado (exemplo_trap IRQ_RESET 0 0)).1
      ([exemplo_trap IRQ_SISTEMA 7 50] ++
       [exemplo_trap IRQ_RELOGIO 0 0, exemplo_trap IRQ_RELOGIO 0 0,
        exemplo_trap IRQ_RELOGIO 0 0, exemplo_trap IRQ_RELOGIO 0 0,
        exemplo_trap IRQ_RELOGIO 0 0]) ∧
    (executa 2 exemplo_criado
      (exemplo_trap IRQ_RESET 0 0 :: [exemplo_trap IRQ_SISTEMA 7 50])).fila_prontos[0]? =
      some 1 ∧
    ((∃ ts1 ts2,
        [exemplo_trap IRQ_RELOGIO 0 0, exemplo_trap IRQ_RELOGIO 0 0,
         exemplo_trap IRQ_RELOGIO 0 0, exemplo_trap IRQ_RELOGIO 0 0,
         exemplo_trap IRQ_RELOGIO 0 0] = ts1 ++ ts2 ∧
        (conta_relogio ts1 : Int) ≤ QUANTUM * (((0 : Nat) : Int) + 1) ∧
        (((executa 2 exemplo_criado (exemplo_trap IRQ_RESET 0 0 ::
              ([exemplo_trap IRQ_SISTEMA 7 50] ++ ts1))).processo_corrente = some 1 ∧
            estado_em (executa 2 exemplo_criado (exemplo_trap IRQ_RESET 0 0 ::
              ([exemplo_trap IRQ_SISTEMA 7 50] ++ ts1))).processos 1 =
              some ESTADO_INICIALIZANDO) ∨
          estado_em (executa 2 exemplo_criado (exemplo_trap IRQ_RESET 0 0 ::
            ([exemplo_trap IRQ_SISTEMA 7 50] ++ ts1))).processos 1 =
            some ESTADO_TERMINADO)) ∨
      ((conta_relogio
          [exemplo_trap IRQ_RELOGIO 0 0, exemplo_trap IRQ_RELOGIO 0 0,
           exemplo_trap IRQ_RELOGIO 0 0, exemplo_trap IRQ_RELOGIO 0 0,
           exemplo_trap IRQ_RELOGIO 0 0] : Int) < QUANTUM * (((0 : Nat) : Int) + 1) ∧
        1 ∈ (executa 2 exemplo_criado (exemplo_trap IRQ_RESET 0 0 ::
          ([exemplo_trap IRQ_SISTEMA 7 50] ++
           [exemplo_trap IRQ_RELOGIO 0 0, exemplo_trap IRQ_RELOGIO 0 0,
            exemplo_trap IRQ_RELOGIO 0 0, exemplo_trap IRQ_RELOGIO 0 0,
            exemplo_trap IRQ_RELOGIO 0 0]))).fila_prontos)) :=
  ⟨rfl, rfl, by decide, by decide,
    sem_inanicao_no_round_robin 10 (exemplo_mem 0 0) exemplo_es exemplo_programas
      exemplo_criado rfl (exemplo_trap IRQ_RESET 0 0) rfl
      [exemplo_trap IRQ_SISTEMA 7 50]
      [exemplo_trap IRQ_RELOGIO 0 0, exemplo_trap IRQ_RELOGIO 0 0,
       exemplo_trap IRQ_RELOGIO 0 0, exemplo_trap IRQ_RELOGIO 0 0,
       exemplo_trap IRQ_RELOGIO 0 0]
      (by decide) 1 0 (by decide)⟩

/-- C19. `proc_muda_estado p s` adds one to the preemption counter of `p` when `p`
is RUNNING and `s` is READY, and leaves the counter as it is in every other case.
In a kernel entry other than the RESET (handler, sweep, scheduler, then
dispatch or shutdown, on the state `s1` whose table has the pids and states found
at the entry): the handler makes no RUNNING descriptor READY, the sweep leaves
every RUNNING descriptor RUNNING, dispatch and shutdown leave the table as the
scheduler left it, and a descriptor that is RUNNING before the scheduler and READY
after it was the current process before the scheduler, is not the current process
after it, has its preemption counter one higher, and the global preemption counter
is one higher: it is the transition `so_executa_proc` makes on the outgoing
current. -/
theorem preempcao_so_de_executando_para_pronto :
    (∀ (p : processo_t) (s : estado_processo_t),
      (proc_muda_estado p s).metricas.quantidade_preempcoes =
        p.metricas.quantidade_preempcoes +
          (if p.estado = ESTADO_INICIALIZANDO ∧ s = ESTADO_PRONTO then 1 else 0)) ∧
    (∀ (escalonador : Int) (self : so_t) (irq : irq_t), irq ≠ IRQ_RESET →
      ∃ s1 : so_t,
        pids_estados s1.processos = pids_estados self.processos ∧
        s1.processo_corrente = self.processo_corrente ∧
        (so_trata_interrupcao_com escalonador self irq).1.processos =
          (so_escalona (so_trata_pendencias (so_trata_irq s1 irq)) escalonador).processos ∧
        (∀ i, estado_em s1.processos i = some ESTADO_INICIALIZANDO →
          estado_em (so_trata_irq s1 irq).processos i ≠ some ESTADO_PRONTO) ∧
        (∀ i, estado_em (so_trata_irq s1 irq).processos i = some ESTADO_INICIALIZANDO →
          estado_em (so_trata_pendencias (so_trata_irq s1 irq)).processos i =
            some ESTADO_INICIALIZANDO) ∧
        (∀ i,
          estado_em (so_trata_pendencias (so_trata_irq s1 irq)).processos i =
            some ESTADO_INICIALIZANDO →
          estado_em (so_escalona (so_trata_pendencias (so_trata_irq s1 irq))
            escalonador).processos i = some ESTADO_PRONTO →
          (so_trata_pendencias (so_trata_irq s1 irq)).processo_corrente = some i ∧
          (so_escalona (so_trata_pendencias (so_trata_irq s1 irq))
            escalonador).processo_corrente ≠ some i ∧
          (∃ p q, (so_trata_pendencias (so_trata_irq s1 irq)).processos[i]? = some p ∧
            (so_escalona (so_trata_pendencias (so_trata_irq s1 irq))
              escalonador).processos[i]? = some q ∧
            q.metricas.quantidade_preempcoes = p.metricas.quantidade_preempcoes + 1) ∧
          (so_escalona (so_trata_pendencias (so_trata_irq s1 irq))
            escalonador).metricas.num_preempcoes =
            (so_trata_pendencias (so_trata_irq s1 irq)).metricas.num_preempcoes + 1)) := by
  constructor
  · intro p s
    unfold proc_muda_estado preemptiu
    by_cases h : p.estado = ESTADO_INICIALIZANDO ∧ s = ESTADO_PRONTO
    · simp [h.1, h.2]
    · rw [if_neg h]
      have hb : (decide (p.estado = ESTADO_INICIALIZANDO) && decide (s = ESTADO_PRONTO)) =
          false := by
        simpa using h
      simp [hb]
  · intro escalonador self irq hirq
    obtain ⟨s1, h1, _, h3, _, _, h6⟩ := so_trata_interrupcao_com_eq escalonador self irq
    refine ⟨s1, h1, h3, ?_, fun i hi => so_trata_irq_executando s1 irq i hirq hi,
      fun i hi => so_trata_pendencias_executando _ i hi,
      fun i hi hp => so_escalona_para_pronto _ escalonador i hi hp⟩
    rcases h6 with e | e
    · rw [e]
      exact (so_despacha_quadro _).1
    · rw [e]
      exact (finaliza_sistema_quadro _).1

set_option maxRecDepth 100000 in
/-- C19, on the example machine: init, RUNNING, is moved to READY and its counter
goes from 0 to 1; and the entry of a timer trap with init current. -/
theorem preempcao_so_de_executando_para_pronto_exemplo :
    (proc_muda_estado (exemplo_proc 1 ESTADO_INICIALIZANDO 0 0)
      ESTADO_PRONTO).metricas.quantidade_preempcoes =
      (exemplo_proc 1 ESTADO_INICIALIZANDO 0 0).metricas.quantidade_preempcoes +
        (if (exemplo_proc 1 ESTADO_INICIALIZANDO 0 0).estado = ESTADO_INICIALIZANDO ∧
            ESTADO_PRONTO = ESTADO_PRONTO then 1 else 0) ∧
    IRQ_RELOGIO ≠ IRQ_RESET ∧
    ∃ s1 : so_t,
      s1.processo_corrente =
        (exemplo_so [exemplo_proc 1 ESTADO_INICIALIZANDO 0 0, exemplo_proc 2 ESTADO_PRONTO 0 0]
          [1] (some 0) 0 0).processo_corrente :=
  ⟨preempcao_so_de_executando_para_pronto.1 (exemplo_proc 1 ESTADO_INICIALIZANDO 0 0)
      ESTADO_PRONTO,
    by decide,
    (preempcao_so_de_executando_para_pronto.2 2
      (exemplo_so [exemplo_proc 1 ESTADO_INICIALIZANDO 0 0, exemplo_proc 2 ESTADO_PRONTO 0 0]
        [1] (some 0) 0 0) IRQ_RELOGIO (by decide)).imp (fun _ h => h.2.1)⟩

/-- C20. Tick accounting. A kernel entry (any trap, any policy) at which the
previous clock reading kept by the kernel is valid (not -1) and the instruction
clock reads `r` adds the delta `r - relogio_atual` to the total ticks, adds the
same delta to the idle ticks when no process was current at the entry, and
leaves the idle ticks unchanged otherwise. In every state reached from the kernel
`so_cria` returns by traps along which the instruction clock does not run
backwards, the idle ticks are between 0 and the total ticks. -/
theorem contabilidade_de_tempo :
    (∀ (escalonador : Int) (s : so_t) (t : trap_t) (r : Int),
      s.relogio_atual ≠ -1 → t.le s.es.D_RELOGIO_INSTRUCOES = some r →
      (entrada escalonador s t).1.metricas.tempo_total_execucao =
        s.metricas.tempo_total_execucao + (r - s.relogio_atual) ∧
      (s.processo_corrente = none →
        (entrada escalonador s t).1.metricas.tempo_total_ocioso =
          s.metricas.tempo_total_ocioso + (r - s.relogio_atual)) ∧
      (s.processo_corrente ≠ none →
        (entrada escalonador s t).1.metricas.tempo_total_ocioso =
          s.metricas.tempo_total_ocioso)) ∧
    (∀ (escalonador : Int) (IRQ_END_TRATADOR : Int) (mem : mem_t) (es : es_t)
        (programas : nome_t → Option programa_t) (s0 : so_t) (ts : List trap_t),
      so_cria IRQ_END_TRATADOR mem es programas = some s0 →
      relogio_monotono s0.es.D_RELOGIO_INSTRUCOES (-1) ts →
      0 ≤ (executa escalonador s0 ts).metricas.tempo_total_ocioso ∧
      (executa escalonador s0 ts).metricas.tempo_total_ocioso ≤
        (executa escalonador s0 ts).metricas.tempo_total_execucao) := by
  constructor
  · intro escalonador s t r hv hle
    exact ((entrada_tempos escalonador s t).2.2 r hle).2.2 hv
  · intro escalonador v mem es programas s0 ts h0 hm
    obtain ⟨z1, z2, z3, _⟩ := so_cria_inicio v mem es programas s0 h0
    apply executa_tempos escalonador ts s0
    · rw [z2]
    · rw [z2, z1]
    · rw [z3]
      exact hm

set_option maxRecDepth 100000 in
/-- C20, on the example machine under round-robin: the boot RESET with the clock
at 5, then a timer trap with the clock at 25, taken while init is current (the
total ticks grow by 20); and the run of the two traps from the created kernel. -/
theorem contabilidade_de_tempo_exemplo :
    (entrada 2 exemplo_criado (exemplo_trap_relogio IRQ_RESET 0 0 5)).1.relogio_atual ≠ -1 ∧
    (exemplo_trap_relogio IRQ_RELOGIO 0 0 25).le
      (entrada 2 exemplo_criado
        (exemplo_trap_relogio IRQ_RESET 0 0 5)).1.es.D_RELOGIO_INSTRUCOES = some 25 ∧
    (entrada 2 (entrada 2 exemplo_criado (exemplo_trap_relogio IRQ_RESET 0 0 5)).1
      (exemplo_trap_relogio IRQ_RELOGIO 0 0 25)).1.metricas.tempo_total_execucao =
      (entrada 2 exemplo_criado
        (exemplo_trap_relogio IRQ_RESET 0 0 5)).1.metricas.tempo_total_execucao +
      (25 - (entrada 2 exemplo_criado (exemplo_trap_relogio IRQ_RESET 0 0 5)).1.relogio_atual) ∧
    so_cria 10 (exemplo_mem 0 0) exemplo_es exemplo_programas = some exemplo_criado ∧
    relogio_monotono exemplo_criado.es.D_RELOGIO_INSTRUCOES (-1)
      [exemplo_trap_relogio IRQ_RESET 0 0 5, exemplo_trap_relogio IRQ_RELOGIO 0 0 25] ∧
    (executa 2 exemplo_criado
      [exemplo_trap_relogio IRQ_RESET 0 0 5,
       exemplo_trap_relogio IRQ_RELOGIO 0 0 25]).metricas.tempo_total_ocioso ≤
    (executa 2 exemplo_criado
      [exemplo_trap_relogio IRQ_RESET 0 0 5,
       exemplo_trap_relogio IRQ_RELOGIO 0 0 25]).metricas.tempo_total_execucao :=
  ⟨by decide, rfl,
    (contabilidade_de_tempo.1 2
      (entrada 2 exemplo_criado (exemplo_trap_relogio IRQ_RESET 0 0 5)).1
      (exemplo_trap_relogio IRQ_RELOGIO 0 0 25) 25 (by decide) rfl).1,
    rfl, ⟨by decide, by decide, trivial⟩,
    (contabilidade_de_tempo.2 2 10 (exemplo_mem 0 0) exemplo_es exemplo_programas
      exemplo_criado
      [exemplo_trap_relogio IRQ_RESET 0 0 5, exemplo_trap_relogio IRQ_RELOGIO 0 0 25]
      rfl ⟨by decide, by decide, trivial⟩).2⟩


/-- C21. Scenario S1 under round-robin. From the kernel `so_cria` returns, on any
machine whose `init.maq` loads at the boot (the program exists, its words are
written without error and its load address is not -1): the RESET entry returns 0;
after the RESET entry and then the SYSCALL entry with A = 8 (KILL) and X = 0 the
table holds exactly one descriptor, with pid 1, TERMINATED, whose preemption
counter is 0; the second entry returns 1 and is the shutdown: it writes 0 to the
timer register and then 0 to the interrupt-signal register (each write is recorded
when the bus accepts it) and nothing else. -/
theorem s1_boot_e_kill (IRQ_END_TRATADOR : Int) (mem : mem_t) (es : es_t)
    (programas : nome_t → Option programa_t) (s0 : so_t) (prog : programa_t) (t1 t2 : trap_t)
    (h0 : so_cria IRQ_END_TRATADOR mem es programas = some s0)
    (hprog : programas nome_init = some prog)
    (hcar : (carrega_palavras t1.mem prog.end_carga prog.dados).2 = true)
    (hend : prog.end_carga ≠ -1)
    (h1 : t1.irq = IRQ_RESET) (h2 : t2.irq = IRQ_SISTEMA)
    (hA : t2.mem.A = 8) (hX : t2.mem.X = 0) :
    (entrada 2 s0 t1).2 = 0 ∧
    (∃ p : processo_t, (executa 2 s0 [t1, t2]).processos = [p] ∧ p.pid = 1 ∧
      p.estado = ESTADO_TERMINADO ∧ p.metricas.quantidade_preempcoes = 0) ∧
    (entrada 2 (entrada 2 s0 t1).1 t2).2 = 1 ∧
    (executa 2 s0 [t1, t2]).es.escritas = (entrada 2 s0 t1).1.es.escritas ++
      (if t2.escreve_ok (entrada 2 s0 t1).1.es.D_RELOGIO_TIMER 0 = true
        then [((entrada 2 s0 t1).1.es.D_RELOGIO_TIMER, 0)] else []) ++
      (if t2.escreve_ok (entrada 2 s0 t1).1.es.D_RELOGIO_INTERRUPCAO 0 = true
        then [((entrada 2 s0 t1).1.es.D_RELOGIO_INTERRUPCAO, 0)] else []) := by
  have hp := so_cria_programas IRQ_END_TRATADOR mem es programas s0 h0
  obtain ⟨⟨p, b1, b2, _, b4⟩, b5, b6, b7, b8⟩ := entrada_boot s0 t1 prog
    (so_cria_recem_criado IRQ_END_TRATADOR mem es programas s0 h0)
    (so_cria_inicio IRQ_END_TRATADOR mem es programas s0 h0).2.2.2 h1
    (by rw [hp]; exact hprog) hcar hend
  obtain ⟨⟨q, k1, k2, k3, k4⟩, k5, k6⟩ := entrada_mata_unico (entrada 2 s0 t1).1 t2 p
    b1 b5 b6 b7 h2 hA hX
  exact ⟨b8, ⟨q, k1, k2.trans b2, k3, k4.trans (by rw [b4]; rfl)⟩, k5, k6⟩

set_option maxRecDepth 100000 in
/-- C21, on the example machine: after the boot RESET and KILL(0) by init the table
holds the descriptor of pid 1 alone, TERMINATED and never preempted; the entry of
the KILL returns 1, and the device writes of the run are the one that armed the
timer at creation (register 18) and the two writes of 0 of the shutdown (timer
register 18, interrupt-signal register 19). -/
theorem s1_boot_e_kill_exemplo :
    (∃ p : processo_t,
      (executa 2 exemplo_criado
        [exemplo_trap IRQ_RESET 0 0, exemplo_trap IRQ_SISTEMA 8 0]).processos = [p] ∧
      p.pid = 1 ∧ p.estado = ESTADO_TERMINADO ∧ p.metricas.quantidade_preempcoes = 0) ∧
    (entrada 2 (entrada 2 exemplo_criado (exemplo_trap IRQ_RESET 0 0)).1
      (exemplo_trap IRQ_SISTEMA 8 0)).2 = 1 ∧
    (executa 2 exemplo_criado
      [exemplo_trap IRQ_RESET 0 0, exemplo_trap IRQ_SISTEMA 8 0]).es.escritas =
      [(18, 20), (18, 0), (19, 0)] := by
  have h := s1_boot_e_kill 10 (exemplo_mem 0 0) exemplo_es exemplo_programas exemplo_criado
    { end_carga := 100, dados := [0] } (exemplo_trap IRQ_RESET 0 0) (exemplo_trap IRQ_SISTEMA 8 0)
    rfl rfl (by decide) (by decide) rfl rfl rfl rfl
  refine ⟨h.2.1, h.2.2.1, ?_⟩
  rw [h.2.2.2]
  decide

set_option maxRecDepth 100000 in
/-- C22 as stated fails. Scenario S3 on the example machine under round-robin: after
the boot RESET, three successful SPAWNs by init, WAIT(2) by init and three TIMER
traps, the global preemption counter is 0, not 2 or more: the child dispatched at
the WAIT has a quantum of `QUANTUM = 5` TIMER traps, of which two are left, and is
still current; the other two children are in the ready queue. -/
theorem s3_sem_preempcao_em_tres_relogios :
    (so_cria 10 (exemplo_mem 0 0) exemplo_es exemplo_programas).map (fun s0 =>
      ((executa ESCALONADOR s0 (exemplo_s3 ++ exemplo_relogios 3)).metricas.num_preempcoes,
       (executa ESCALONADOR s0 (exemplo_s3 ++ exemplo_relogios 3)).processo_corrente,
       (executa ESCALONADOR s0 (exemplo_s3 ++ exemplo_relogios 3)).quantum_proc,
       (executa ESCALONADOR s0 (exemplo_s3 ++ exemplo_relogios 3)).fila_prontos)) =
      some (0, some 1, 2, [2, 3]) := by
  decide

/-- C22, amended. Scenario S3 under round-robin with `QUANTUM = 5`, on every
machine: after the boot RESET that loads init, three SPAWN traps by init that
succeed, a WAIT trap by init on one of the children (pid 2, 3 or 4) and then `n`
TIMER traps, the global preemption counter is `n / 5` rounded down, one preemption
at every fifth TIMER trap. So the counter is 0 after the third TIMER trap, and it
is at least 2 exactly when at least ten TIMER traps have been taken. -/
theorem s3_uma_preempcao_a_cada_quantum (IRQ_END_TRATADOR : Int) (mem : mem_t) (es : es_t)
    (programas : nome_t → Option programa_t) (s0 : so_t) (t0 t1 t2 t3 t4 : trap_t)
    (ts : List trap_t)
    (h : so_cria IRQ_END_TRATADOR mem es programas = some s0)
    (h0 : t0.irq = IRQ_RESET ∧ carrega_bem programas t0.mem nome_init)
    (h1 : trap_cria programas t1) (h2 : trap_cria programas t2) (h3 : trap_cria programas t3)
    (h4 : t4.irq = IRQ_SISTEMA ∧ t4.mem.A = SO_ESPERA_PROC ∧ 2 ≤ t4.mem.X ∧ t4.mem.X ≤ 4)
    (hts : ∀ t ∈ ts, t.irq = IRQ_RELOGIO) :
    (executa ESCALONADOR s0 (t0 :: t1 :: t2 :: t3 :: t4 :: ts)).metricas.num_preempcoes =
      ((ts.length / 5 : Nat) : Int) ∧
    (ts.length = 3 →
      (executa ESCALONADOR s0 (t0 :: t1 :: t2 :: t3 :: t4 :: ts)).metricas.num_preempcoes = 0) ∧
    (2 ≤ (executa ESCALONADOR s0 (t0 :: t1 :: t2 :: t3 :: t4 :: ts)).metricas.num_preempcoes ↔
      10 ≤ ts.length) := by
  obtain ⟨h0a, h0b⟩ := h0
  obtain ⟨h4a, h4b, h4c, h4d⟩ := h4
  have k0 := entrada_boot_s3 _ _ _ programas s0 t0 h h0a h0b
  have k1 := entrada_cria_s3 programas 0 _ t1 k0 h1
  have k2 := entrada_cria_s3 programas 1 _ t2 k1 h2
  have k3 := entrada_cria_s3 programas 2 _ t3 k2 h3
  have k4 := entrada_espera_s3 programas 3 _ t4 k3 (by decide) h4a h4b h4c
    (by push_cast; omega)
  obtain ⟨_, _, _, _, q1, q5, qn⟩ := executa_relogios_rodizio ts _ 0 hts k4
  have e : executa ESCALONADOR s0 (t0 :: t1 :: t2 :: t3 :: t4 :: ts) =
      executa 2 (entrada 2 (entrada 2 (entrada 2 (entrada 2 (entrada 2 s0 t0).1 t1).1 t2).1
        t3).1 t4).1 ts := rfl
  rw [e]
  generalize executa 2 (entrada 2 (entrada 2 (entrada 2 (entrada 2 (entrada 2 s0 t0).1 t1).1
    t2).1 t3).1 t4).1 ts = r at q1 q5 qn
  have hQ : QUANTUM = 5 := rfl
  rw [hQ] at q5 qn
  push_cast at qn
  refine ⟨?_, fun h3 => ?_, ?_⟩
  · omega
  · omega
  · constructor
    · intro h2
      omega
    · intro h10
      omega

set_option maxRecDepth 100000 in
/-- C22 amended, on the example machine: after the boot RESET, three SPAWNs,
WAIT(2) and ten TIMER traps the global preemption counter is 2. -/
theorem s3_uma_preempcao_a_cada_quantum_exemplo :
    (executa ESCALONADOR exemplo_criado
      (exemplo_s3 ++ exemplo_relogios 10)).metricas.num_preempcoes = 2 :=
  (s3_uma_preempcao_a_cada_quantum 10 (exemplo_mem 0 0) exemplo_es exemplo_programas
    exemplo_criado (exemplo_trap IRQ_RESET 0 0) (exemplo_trap IRQ_SISTEMA 7 50)
    (exemplo_trap IRQ_SISTEMA 7 50) (exemplo_trap IRQ_SISTEMA 7 50)
    (exemplo_trap IRQ_SISTEMA 9 2) (exemplo_relogios 10) rfl
    ⟨rfl, { end_carga := 100, dados := [0] }, rfl, by decide, by decide⟩
    ⟨rfl, rfl, [97], by decide, { end_carga := 200, dados := [0] }, rfl, by decide,
      by decide⟩
    ⟨rfl, rfl, [97], by decide, { end_carga := 200, dados := [0] }, rfl, by decide,
      by decide⟩
    ⟨rfl, rfl, [97], by decide, { end_carga := 200, dados := [0] }, rfl, by decide,
      by decide⟩
    ⟨rfl, rfl, by decide, by decide⟩
    (by decide)).1

/-- C23. The dispatcher. For every kernel state: when no process is current,
`so_despacha` returns 1 and leaves the whole state, memory included, as it was;
when the descriptor `p` is current, it returns 0, the words `IRQ_END_PC`,
`IRQ_END_A` and `IRQ_END_X` of the trap frame then hold `p.pc`, `p.reg[0]` and
`p.reg[1]`, no other word of the memory is written, and nothing but the memory
changes (in particular no descriptor does). -/
theorem so_despacha_caracterizacao (self : so_t) :
    (self.processo_corrente = none → so_despacha self = (self, 1)) ∧
    (∀ (c : Nat) (p : processo_t),
      self.processo_corrente = some c → self.processos[c]? = some p →
      (so_despacha self).2 = 0 ∧
      mem_le (so_despacha self).1.mem IRQ_END_PC = some p.pc ∧
      mem_le (so_despacha self).1.mem IRQ_END_A = some p.reg0 ∧
      mem_le (so_despacha self).1.mem IRQ_END_X = some p.reg1 ∧
      (so_despacha self).1.mem.erro = self.mem.erro ∧
      (so_despacha self).1.mem.resto = self.mem.resto ∧
      (so_despacha self).1.processos = self.processos ∧
      (so_despacha self).1 = { self with mem := (so_despacha self).1.mem }) := by
  refine ⟨?_, ?_⟩
  · intro h
    unfold so_despacha corrente
    rw [h]
  · intro c p hc hp
    have e : corrente self = some (c, p) := by
      unfold corrente
      rw [hc]
      dsimp only
      rw [hp]
    unfold so_despacha
    rw [e]
    exact ⟨rfl, rfl, rfl, rfl, rfl, rfl, rfl, rfl⟩

set_option maxRecDepth 100000 in
/-- C23, on the example machine: init (pid 1, pc 100) is current with 7 and 50 in
its saved registers, and the trap frame holds other values. -/
theorem so_despacha_caracterizacao_exemplo :
    (so_despacha (exemplo_so [exemplo_proc 1 ESTADO_INICIALIZANDO 7 50] [] (some 0) 3 4)).2 = 0 ∧
    mem_le (so_despacha
      (exemplo_so [exemplo_proc 1 ESTADO_INICIALIZANDO 7 50] [] (some 0) 3 4)).1.mem
      IRQ_END_A = some 7 ∧
    so_despacha (exemplo_so [] [] none 3 4) = (exemplo_so [] [] none 3 4, 1) := by
  have h := so_despacha_caracterizacao
    (exemplo_so [exemplo_proc 1 ESTADO_INICIALIZANDO 7 50] [] (some 0) 3 4)
  have h1 := h.2 0 (exemplo_proc 1 ESTADO_INICIALIZANDO 7 50) rfl rfl
  exact ⟨h1.1, h1.2.2.1, (so_despacha_caracterizacao (exemplo_so [] [] none 3 4)).1 rfl⟩

/-- C24. Shutdown on exhaustion. Take any kernel entry, and let the state after
its scheduling step be one in which the process count is the length of the table
and the current process, if any, is in the table (both hold at every entry of a
run that starts with the boot: `apos_escalonar_de_saida`). When every descriptor of the table is TERMINATED in that
state, the entry is the shutdown: it returns 1 and writes 0 to the timer register
and then 0 to the interrupt-signal register (each write is recorded when the bus
accepts it). When some descriptor is not TERMINATED, the entry is the dispatch:
it returns 0 exactly when a process is current after scheduling and 1 otherwise,
and it writes to no device, so the timer is not disabled. -/
theorem desligamento_quando_todos_terminaram (escalonador : Int) (self : so_t) (irq : irq_t)
    (hn : (apos_escalonar escalonador self irq).numero_processos =
      ((apos_escalonar escalonador self irq).processos.length : Int))
    (hv : ∀ c, (apos_escalonar escalonador self irq).processo_corrente = some c →
      c < (apos_escalonar escalonador self irq).processos.length) :
    ((∀ p ∈ (apos_escalonar escalonador self irq).processos, p.estado = ESTADO_TERMINADO) →
      so_trata_interrupcao_com escalonador self irq =
        finaliza_sistema (apos_escalonar escalonador self irq) ∧
      (so_trata_interrupcao_com escalonador self irq).2 = 1 ∧
      (so_trata_interrupcao_com escalonador self irq).1.es.escritas =
        (apos_escalonar escalonador self irq).es.escritas ++
        (if (apos_escalonar escalonador self irq).es.escreve_ok
            (apos_escalonar escalonador self irq).es.D_RELOGIO_TIMER 0 = true
          then [((apos_escalonar escalonador self irq).es.D_RELOGIO_TIMER, 0)] else []) ++
        (if (apos_escalonar escalonador self irq).es.escreve_ok
            (apos_escalonar escalonador self irq).es.D_RELOGIO_INTERRUPCAO 0 = true
          then [((apos_escalonar escalonador self irq).es.D_RELOGIO_INTERRUPCAO, 0)]
          else [])) ∧
    ((∃ p ∈ (apos_escalonar escalonador self irq).processos, p.estado ≠ ESTADO_TERMINADO) →
      so_trata_interrupcao_com escalonador self irq =
        so_despacha (apos_escalonar escalonador self irq) ∧
      ((so_trata_interrupcao_com escalonador self irq).2 = 0 ↔
        (apos_escalonar escalonador self irq).processo_corrente ≠ none) ∧
      ((apos_escalonar escalonador self irq).processo_corrente = none →
        (so_trata_interrupcao_com escalonador self irq).2 = 1) ∧
      (so_trata_interrupcao_com escalonador self irq).1.es =
        (apos_escalonar escalonador self irq).es) := by
  have hf := so_trata_interrupcao_com_fim escalonador self irq
  generalize apos_escalonar escalonador self irq = x at hn hv hf ⊢
  have ht : x.processos.take x.numero_processos.toNat = x.processos := by
    rw [hn]
    simp
  rw [ht] at hf
  refine ⟨?_, ?_⟩
  · intro hall
    have hany : ¬ (x.processos.any (fun p => p.estado ≠ ESTADO_TERMINADO) = true) := by
      intro h
      obtain ⟨p, hp, hpe⟩ := List.any_eq_true.mp h
      simp only [ne_eq, decide_not, Bool.not_eq_eq_eq_not, Bool.not_true,
        decide_eq_false_iff_not] at hpe
      exact hpe (hall p hp)
    rw [if_neg hany] at hf
    obtain ⟨q1, q2, _⟩ := finaliza_sistema_efeito x
    rw [hf]
    exact ⟨rfl, q1, q2⟩
  · intro ⟨p, hp, hpe⟩
    have hany : x.processos.any (fun p => p.estado ≠ ESTADO_TERMINADO) = true :=
      List.any_eq_true.mpr ⟨p, hp, by simpa using hpe⟩
    rw [if_pos hany] at hf
    rw [hf]
    refine ⟨rfl, ?_, ?_, ?_⟩
    · cases hc : x.processo_corrente with
      | none =>
        have e : corrente x = none := by unfold corrente; rw [hc]
        unfold so_despacha
        rw [e]
        simp
      | some c =>
        obtain ⟨q, hq⟩ : ∃ q, x.processos[c]? = some q :=
          ⟨_, List.getElem?_eq_getElem (hv c hc)⟩
        have e : corrente x = some (c, q) := (corrente_eq_some x c q).mpr ⟨hc, hq⟩
        unfold so_despacha
        rw [e]
        simp
    · intro hc
      have e : corrente x = none := by unfold corrente; rw [hc]
      unfold so_despacha
      rw [e]
    · unfold so_despacha
      split <;> rfl

set_option maxRecDepth 100000 in
/-- C24, on the example machine under round-robin. The entry of KILL(0) by init,
the only process: every descriptor is TERMINATED after scheduling, the entry
returns 1 and the two writes of 0 (timer register 18, interrupt-signal register 19)
follow the write that armed the timer. The entry of a TIMER trap after the boot:
init is alive and current, the entry returns 0 and writes only what the TIMER
handler wrote. -/
theorem desligamento_quando_todos_terminaram_exemplo :
    ((so_trata_interrupcao_com 2
        (na_entrada exemplo_apos_boot (exemplo_trap IRQ_SISTEMA 8 0)) IRQ_SISTEMA).2 = 1 ∧
      (so_trata_interrupcao_com 2
        (na_entrada exemplo_apos_boot (exemplo_trap IRQ_SISTEMA 8 0)) IRQ_SISTEMA).1.es.escritas =
        [(18, 20), (18, 0), (19, 0)]) ∧
    ((so_trata_interrupcao_com 2
        (na_entrada exemplo_apos_boot (exemplo_trap IRQ_RELOGIO 0 0)) IRQ_RELOGIO).2 = 0 ∧
      (so_trata_interrupcao_com 2
        (na_entrada exemplo_apos_boot (exemplo_trap IRQ_RELOGIO 0 0)) IRQ_RELOGIO).1.es.escritas =
        [(18, 20), (19, 0), (18, 20)]) := by
  have h1 := (desligamento_quando_todos_terminaram 2
    (na_entrada exemplo_apos_boot (exemplo_trap IRQ_SISTEMA 8 0)) IRQ_SISTEMA (by decide)
    (fun c hc => by
      have e : (apos_escalonar 2 (na_entrada exemplo_apos_boot (exemplo_trap IRQ_SISTEMA 8 0))
        IRQ_SISTEMA).processo_corrente = none := by decide
      rw [e] at hc
      cases hc)).1 (by decide)
  have h2 := (desligamento_quando_todos_terminaram 2
    (na_entrada exemplo_apos_boot (exemplo_trap IRQ_RELOGIO 0 0)) IRQ_RELOGIO (by decide)
    (fun c hc => by
      have e : (apos_escalonar 2 (na_entrada exemplo_apos_boot (exemplo_trap IRQ_RELOGIO 0 0))
        IRQ_RELOGIO).processo_corrente = some 0 := by decide
      rw [e] at hc
      cases hc
      decide)).2 (by decide)
  refine ⟨⟨h1.2.1, ?_⟩, ⟨h2.2.1.mpr (by decide), ?_⟩⟩
  · rw [h1.2.2]
    decide
  · rw [h2.2.2.2]
    decide

/-- C25 (the code breaks it). For every kernel state with a current descriptor
`c`, after `so_trata_irq_err_cpu` the internal-error flag is set and no process is
current, but `c` is RUNNING (`ESTADO_INICIALIZANDO`), not BLOCKED, and its block
reason is the one it had: the handler stores the enumerator
`BLOQUEIO_POR_LEITURA` in the state field, where its value is that of
`ESTADO_INICIALIZANDO`, and does not write the block reason. -/
theorem so_trata_irq_err_cpu_deixa_executando (self : so_t) (c : Nat) (p : processo_t)
    (hc : self.processo_corrente = some c) (hp : self.processos[c]? = some p) :
    ∃ q : processo_t, (so_trata_irq_err_cpu self).processos[c]? = some q ∧
      q.estado = ESTADO_INICIALIZANDO ∧ q.estado ≠ ESTADO_BLOQUEADO ∧
      q.motivo_bloqueio = p.motivo_bloqueio ∧
      (so_trata_irq_err_cpu self).erro_interno = true ∧
      (so_trata_irq_err_cpu self).processo_corrente = none := by
  have e : corrente self = some (c, p) := (corrente_eq_some self c p).mpr ⟨hc, hp⟩
  unfold so_trata_irq_err_cpu
  rw [e]
  unfold verifica_processos_em_espera
  dsimp only
  rw [List.getElem?_map, getElem?_altera_processo, if_pos rfl, hp]
  refine ⟨_, rfl, ?_, ?_, ?_, rfl, rfl⟩
  · rfl
  · show ESTADO_INICIALIZANDO ≠ ESTADO_BLOQUEADO
    decide
  · rfl

/-- C25, on the example machine: init is current and RUNNING, with the block
reason an earlier WAIT left; after the handler it is RUNNING, and the block reason
is still that of the WAIT, not that of a READ. -/
theorem so_trata_irq_err_cpu_deixa_executando_exemplo :
    ∃ q : processo_t, (so_trata_irq_err_cpu exemplo_erro_cpu).processos[0]? = some q ∧
      q.estado = ESTADO_INICIALIZANDO ∧ q.estado ≠ ESTADO_BLOQUEADO ∧
      q.motivo_bloqueio = BLOQUEIO_POR_ESPERA_DE_PROC ∧
      (so_trata_irq_err_cpu exemplo_erro_cpu).erro_interno = true ∧
      (so_trata_irq_err_cpu exemplo_erro_cpu).processo_corrente = none :=
  so_trata_irq_err_cpu_deixa_executando exemplo_erro_cpu 0
    { exemplo_proc 1 ESTADO_INICIALIZANDO 0 0 with
      motivo_bloqueio := BLOQUEIO_POR_ESPERA_DE_PROC } rfl rfl

/-- C26 (the code breaks it). For every CPU_ERROR entry, under any policy, taken
while the descriptor `c` of the table (one of the `numero_processos` descriptors
the kernel counts) is current: at the kernel exit the internal-error flag is set, but `c` is
RUNNING (`ESTADO_INICIALIZANDO`), not TERMINATED, and the entry ends with the
dispatch, never with the shutdown, whatever the other descriptors are: it writes
nothing to the timer register nor to the interrupt-signal register after the
scheduling step. -/
theorem erro_cpu_nao_termina_nem_desliga (escalonador : Int) (self : so_t) (c : Nat)
    (hc : self.processo_corrente = some c) (hv : c < self.processos.length)
    (hn : (c : Int) < self.numero_processos) :
    estado_em (so_trata_interrupcao_com escalonador self IRQ_ERR_CPU).1.processos c =
      some ESTADO_INICIALIZANDO ∧
    so_trata_interrupcao_com escalonador self IRQ_ERR_CPU =
      so_despacha (apos_escalonar escalonador self IRQ_ERR_CPU) ∧
    (so_trata_interrupcao_com escalonador self IRQ_ERR_CPU).1.es =
      (apos_escalonar escalonador self IRQ_ERR_CPU).es ∧
    (so_trata_interrupcao_com escalonador self IRQ_ERR_CPU).1.erro_interno = true := by
  have hf := so_trata_interrupcao_com_fim escalonador self IRQ_ERR_CPU
  obtain ⟨p, hp⟩ : ∃ p, self.processos[c]? = some p := ⟨_, List.getElem?_eq_getElem hv⟩
  -- the state the handler receives
  obtain ⟨p1, _, p3, _, p5, _⟩ := prepara_entrada_quadro self IRQ_ERR_CPU
  have p6 : estado_em (prepara_entrada self IRQ_ERR_CPU).processos c = some p.estado := by
    rw [estado_em_de_pids_estados p1 c]
    unfold estado_em
    rw [hp]
    rfl
  obtain ⟨p0, hp0, _⟩ := estado_em_some p6
  -- the handler
  obtain ⟨⟨q, hq1, hq2, _⟩, r2, r3, r4⟩ := so_trata_irq_err_cpu_efeito
    (prepara_entrada self IRQ_ERR_CPU) c p0 (p3.trans hc) hp0
  have r1 : estado_em (so_trata_irq_err_cpu (prepara_entrada self IRQ_ERR_CPU)).processos c =
      some ESTADO_INICIALIZANDO := by
    unfold estado_em
    rw [hq1]
    simp [hq2]
  -- the sweep
  obtain ⟨s1, _, _, s4, s5, _⟩ := so_trata_pendencias_quadro
    (so_trata_irq_err_cpu (prepara_entrada self IRQ_ERR_CPU))
  have s6 := so_trata_pendencias_executando _ c r1
  -- the scheduler
  have x1 := so_escalona_sem_corrente _ escalonador c (s1.trans r3) s6
  obtain ⟨x2, x3⟩ := so_escalona_numero
    (so_trata_pendencias (so_trata_irq_err_cpu (prepara_entrada self IRQ_ERR_CPU))) escalonador
  have x4 := x3 (s4.trans r2)
  have x5 : (apos_escalonar escalonador self IRQ_ERR_CPU).numero_processos =
      self.numero_processos := x2.trans (s5.trans (r4.trans p5))
  have x6 : estado_em (apos_escalonar escalonador self IRQ_ERR_CPU).processos c =
      some ESTADO_INICIALIZANDO := x1
  have x7 : (apos_escalonar escalonador self IRQ_ERR_CPU).erro_interno = true := x4
  generalize apos_escalonar escalonador self IRQ_ERR_CPU = x at hf x5 x6 x7 ⊢
  obtain ⟨y, hy1, hy2⟩ := estado_em_some x6
  have hany : (x.processos.take x.numero_processos.toNat).any
      (fun p => p.estado ≠ ESTADO_TERMINADO) = true := by
    refine List.any_eq_true.mpr ⟨y, ?_, ?_⟩
    · have hlt : c < x.numero_processos.toNat := by
        rw [x5]
        omega
      have hg : (x.processos.take x.numero_processos.toNat)[c]? = some y := by
        rw [List.getElem?_take_of_lt hlt]
        exact hy1
      exact List.mem_iff_getElem?.mpr ⟨c, hg⟩
    · rw [hy2]
      decide
  rw [if_pos hany] at hf
  rw [hf]
  have d1 : (so_despacha x).1.processos = x.processos ∧ (so_despacha x).1.es = x.es ∧
      (so_despacha x).1.erro_interno = x.erro_interno := by
    unfold so_despacha
    split <;> exact ⟨rfl, rfl, rfl⟩
  rw [d1.1, d1.2.1, d1.2.2]
  exact ⟨x6, rfl, rfl, x7⟩

set_option maxRecDepth 100000 in
/-- C26, on the example machine under round-robin: a CPU_ERROR trap after the boot,
while init, the only process, is current. At the kernel exit init is RUNNING, the
entry returns 1 because no process is current, and the only device write of the
run is the one that armed the timer at creation: no shutdown. -/
theorem erro_cpu_nao_termina_nem_desliga_exemplo :
    estado_em (so_trata_interrupcao_com 2
      (na_entrada exemplo_apos_boot (exemplo_trap IRQ_ERR_CPU 0 0)) IRQ_ERR_CPU).1.processos 0 =
      some ESTADO_INICIALIZANDO ∧
    (so_trata_interrupcao_com 2
      (na_entrada exemplo_apos_boot (exemplo_trap IRQ_ERR_CPU 0 0)) IRQ_ERR_CPU).1.erro_interno =
      true ∧
    (so_trata_interrupcao_com 2
      (na_entrada exemplo_apos_boot (exemplo_trap IRQ_ERR_CPU 0 0)) IRQ_ERR_CPU).2 = 1 ∧
    (so_trata_interrupcao_com 2
      (na_entrada exemplo_apos_boot (exemplo_trap IRQ_ERR_CPU 0 0)) IRQ_ERR_CPU).1.es.escritas =
      [(18, 20)] := by
  have h := erro_cpu_nao_termina_nem_desliga 2
    (na_entrada exemplo_apos_boot (exemplo_trap IRQ_ERR_CPU 0 0)) 0
    (by decide) (by decide) (by decide)
  exact ⟨h.1, h.2.2.2, by decide, by decide⟩

/-- C27. The string copy. For every memory, start address `ender` and buffer size
`tam`: `copia_str_da_mem` succeeds exactly when there is a `k < tam` such that the
words at `ender`, ..., `ender + k - 1` are readable and between 1 and 255 and the
word at `ender + k` is readable and 0; it returns the list `l` exactly when `l` is
shorter than `tam`, its entries are those words, in order, and the word after them
is 0 (the buffer then holds these bytes followed by the NUL). In particular, with
a buffer of 100, 99 bytes between 1 and 255 followed by a 0 are accepted and all 99
are copied, and 100 bytes between 1 and 255 are rejected. -/
theorem copia_str_da_mem_caracterizacao (tam : Nat) (mem : mem_t) (ender : Int) :
    ((copia_str_da_mem tam mem ender).isSome = true ↔
      ∃ k : Nat, k < tam ∧
        (∀ i : Nat, i < k →
          ∃ v, mem_le mem (outro (ender + (i : Int))) = some v ∧ 1 ≤ v ∧ v ≤ 255) ∧
        mem_le mem (outro (ender + (k : Int))) = some 0) ∧
    (∀ l : nome_t, copia_str_da_mem tam mem ender = some l ↔
      (l.length < tam ∧
        (∀ (i : Nat) (v : Int), l[i]? = some v →
          mem_le mem (outro (ender + (i : Int))) = some v ∧ 1 ≤ v ∧ v ≤ 255) ∧
        mem_le mem (outro (ender + (l.length : Int))) = some 0)) ∧
    ((∀ i : Nat, i < 99 →
        ∃ v, mem_le mem (outro (ender + (i : Int))) = some v ∧ 1 ≤ v ∧ v ≤ 255) →
      mem_le mem (outro (ender + 99)) = some 0 →
      ∃ l : nome_t, copia_str_da_mem 100 mem ender = some l ∧ l.length = 99) ∧
    ((∀ i : Nat, i < 100 →
        ∃ v, mem_le mem (outro (ender + (i : Int))) = some v ∧ 1 ≤ v ∧ v ≤ 255) →
      copia_str_da_mem 100 mem ender = none) := by
  have key : ∀ (n : Nat) (l : nome_t), copia_str_da_mem n mem ender = some l ↔
      (l.length < n ∧
        (∀ (i : Nat) (v : Int), l[i]? = some v →
          mem_le mem (outro (ender + (i : Int))) = some v ∧ 1 ≤ v ∧ v ≤ 255) ∧
        mem_le mem (outro (ender + (l.length : Int))) = some 0) := by
    intro n l
    unfold copia_str_da_mem
    rw [copia_str_da_mem_laco_iff]
    simp only [add_zero]
  have ida : ∀ (n : Nat) (l : nome_t), copia_str_da_mem n mem ender = some l →
      ∃ k : Nat, k < n ∧
        (∀ i : Nat, i < k →
          ∃ v, mem_le mem (outro (ender + (i : Int))) = some v ∧ 1 ≤ v ∧ v ≤ 255) ∧
        mem_le mem (outro (ender + (k : Int))) = some 0 := by
    intro n l hl
    obtain ⟨h1, h2, h3⟩ := (key n l).mp hl
    refine ⟨l.length, h1, ?_, h3⟩
    intro i hi
    exact ⟨l[i], h2 i l[i] (List.getElem?_eq_getElem hi)⟩
  refine ⟨?_, key tam, ?_, ?_⟩
  · constructor
    · intro h
      obtain ⟨l, hl⟩ := Option.isSome_iff_exists.mp h
      exact ida tam l hl
    · intro ⟨k, hk, hb, hz⟩
      obtain ⟨l, hl, _⟩ := copia_str_da_mem_sucede tam mem ender k hk hb hz
      rw [hl]
      rfl
  · intro hb hz
    exact copia_str_da_mem_sucede 100 mem ender 99 (by decide) hb hz
  · intro hb
    cases hc : copia_str_da_mem 100 mem ender with
    | none => rfl
    | some l =>
      exfalso
      obtain ⟨k, hk, _, hz⟩ := ida 100 l hc
      obtain ⟨v, hv, h1, _⟩ := hb k hk
      rw [hv] at hz
      simp only [Option.some.injEq] at hz
      omega

/-- C27, on the example machine: the memory holds the name "a" (the byte 97 and a
0) at address 50, and the copy into a buffer of 100 returns it; from a memory all
of whose words are 65 the copy into a buffer of 100 fails. -/
theorem copia_str_da_mem_caracterizacao_exemplo :
    copia_str_da_mem 100 (exemplo_mem 0 0) 50 = some [97] ∧
    copia_str_da_mem 100 { exemplo_mem 0 0 with resto := fun _ => some 65 } 50 = none := by
  refine ⟨((copia_str_da_mem_caracterizacao 100 (exemplo_mem 0 0) 50).2.1 [97]).mpr
    ⟨by decide, ?_, by decide⟩,
    (copia_str_da_mem_caracterizacao 100
      { exemplo_mem 0 0 with resto := fun _ => some 65 } 50).2.2.2
      (fun i _ => ⟨65, rfl, by decide, by decide⟩)⟩
  intro i v h
  cases i with
  | zero =>
    simp only [List.getElem?_cons_zero, Option.some.injEq] at h
    subst h
    decide
  | succ i => simp at h

/-- C28. Terminal binding. For every pid of at least 1, `obter_terminal_por_pid`
returns `(pid - 1) mod 4`, a value among 0, 1, 2, 3, and the pids `pid` and
`pid + 4` have the same terminal. For every device base `b` and every terminal,
`calcular_endereco_dispositivo` returns `b + 4 * terminal` as an `int`: the
integer `b + 4 * terminal` itself whenever neither `terminal * 4` nor
`b + 4 * terminal` leaves the range of `int` (so for every base of a device
register and every terminal of the machine), and that integer reduced modulo
2^32 in all cases; and the four registers of a terminal, whose bases are `b0`,
`b0 + 1`, `b0 + 2`, `b0 + 3`, are mapped to pairwise distinct addresses over the
four terminals, whatever `b0` is: two of these addresses are equal only for the
same register and the same terminal. -/
theorem terminal_e_endereco_do_dispositivo (pid : Int) (h : 1 ≤ pid) :
    obter_terminal_por_pid pid = (pid - 1) % 4 ∧
    0 ≤ obter_terminal_por_pid pid ∧ obter_terminal_por_pid pid < 4 ∧
    obter_terminal_por_pid (pid + 4) = obter_terminal_por_pid pid ∧
    (∀ b terminal : Int, -2147483648 ≤ terminal * 4 → terminal * 4 ≤ 2147483647 →
      -2147483648 ≤ b + 4 * terminal → b + 4 * terminal ≤ 2147483647 →
      calcular_endereco_dispositivo b terminal = b + 4 * terminal) ∧
    (∀ b0 i j t u : Int, 0 ≤ i → i < 4 → 0 ≤ j → j < 4 → 0 ≤ t → t < 4 → 0 ≤ u → u < 4 →
      calcular_endereco_dispositivo (b0 + i) t = calcular_endereco_dispositivo (b0 + j) u →
      i = j ∧ t = u) ∧
    (∀ b terminal : Int,
      calcular_endereco_dispositivo b terminal = int32 (b + 4 * terminal)) := by
  have h1 := obter_terminal_por_pid_positivo pid (by omega)
  have h2 := obter_terminal_por_pid_positivo (pid + 4) (by omega)
  refine ⟨h1, ?_, ?_, ?_, ?_, ?_, ?_⟩
  · rw [h1]; omega
  · rw [h1]; omega
  · rw [h1, h2]; omega
  · intro b terminal a1 a2 a3 a4
    unfold calcular_endereco_dispositivo int32
    omega
  · intro b0 i j t u hi0 hi hj0 hj ht0 ht hu0 hu e
    unfold calcular_endereco_dispositivo int32 at e
    omega
  · intro b terminal
    unfold calcular_endereco_dispositivo int32
    omega

/-- C28, for pid 6: its terminal is 1, the terminal of pid 10 as well, and the
register of base 2 of that terminal has address 6. -/
theorem terminal_e_endereco_do_dispositivo_exemplo :
    obter_terminal_por_pid 6 = 1 ∧ obter_terminal_por_pid (6 + 4) = 1 ∧
    calcular_endereco_dispositivo 2 1 = 2 + 4 * 1 := by
  have h := terminal_e_endereco_do_dispositivo 6 (by decide)
  refine ⟨?_, ?_, ?_⟩
  · rw [h.1]; decide
  · rw [h.2.2.2.1, h.1]; decide
  · exact h.2.2.2.2.1 2 1 (by decide) (by decide) (by decide) (by decide)

/-- C29. The round-robin step. For every kernel state `s`: (a) when the current
process is RUNNING and has quantum left, `escalonador_round_robin` changes
nothing. Otherwise, (b) with `fila1` the ready queue with the current process
appended at its tail when that process is RUNNING, and the ready queue itself when
it is not: (c) when `fila1` is `h :: resto`, the result is the execution
transition `so_executa_proc` on `h` in the state whose queue is `resto`, so that
afterwards the queue is `resto` (the old queue, plus the outgoing current process
at the tail if appended, minus its head, in unchanged order), `h` is current and
the quantum is full; (d) when `fila1` is empty, the result is `s` with no current
process, no descriptor changed. -/
theorem escalonador_round_robin_passo (s : so_t) (fila1 : List Nat)
    (hf : fila1 = if corrente_executando s = true then
      s.fila_prontos ++ s.processo_corrente.toList else s.fila_prontos) :
    (corrente_executando s = true → 0 < s.quantum_proc → escalonador_round_robin s = s) ∧
    (¬ (corrente_executando s = true ∧ 0 < s.quantum_proc) →
      (∀ (h : Nat) (resto : List Nat), fila1 = h :: resto →
        escalonador_round_robin s =
          so_executa_proc { s with fila_prontos := resto } (some h) ∧
        (escalonador_round_robin s).fila_prontos = resto ∧
        (escalonador_round_robin s).processo_corrente = some h ∧
        (escalonador_round_robin s).quantum_proc = QUANTUM) ∧
      (fila1 = [] →
        escalonador_round_robin s = { s with processo_corrente := none } ∧
        (escalonador_round_robin s).processos = s.processos)) := by
  refine ⟨?_, ?_⟩
  · intro hc hq
    unfold escalonador_round_robin
    rw [if_pos (by simp [hc, hq])]
  · intro hn
    have hk : ¬ ((corrente_executando s && decide (s.quantum_proc > 0)) = true) := by
      intro hk
      simp only [Bool.and_eq_true, decide_eq_true_eq] at hk
      exact hn ⟨hk.1, hk.2⟩
    have e1 : (reinsere_corrente s).fila_prontos = fila1 ∧
        reinsere_corrente s = { s with fila_prontos := fila1 } := by
      rcases reinsere_corrente_casos s with ⟨h1, h2⟩ | ⟨c, h1, h2, h3⟩
      · rw [h1] at hf
        simp only [Bool.false_eq_true, if_false] at hf
        rw [h2, hf]
        exact ⟨rfl, rfl⟩
      · have h4 : corrente_executando s = true := (corrente_executando_iff s).mpr ⟨c, h1, h2⟩
        rw [h4, h1] at hf
        simp only [if_true, Option.toList] at hf
        rw [h3, hf]
        exact ⟨rfl, rfl⟩
    have e2 : escalonador_round_robin s =
        match remove_primeiro_processo_fila fila1 with
        | some (proximo_processo, resto) =>
          so_executa_proc { s with fila_prontos := resto } (some proximo_processo)
        | none => { s with fila_prontos := fila1, processo_corrente := none } := by
      unfold escalonador_round_robin
      rw [if_neg hk]
      dsimp only
      rw [e1.2]
    refine ⟨?_, ?_⟩
    · intro h resto hh
      have e3 : escalonador_round_robin s =
          so_executa_proc { s with fila_prontos := resto } (some h) := by
        rw [e2, hh]
        rfl
      have q := so_executa_proc_fila { s with fila_prontos := resto } (some h)
      rw [e3]
      exact ⟨rfl, q.1, q.2.2, q.2.1⟩
    · intro hh
      have e3 : escalonador_round_robin s = { s with processo_corrente := none } := by
        rw [e2, hh]
        have e4 : s.fila_prontos = [] := by
          by_cases hc : corrente_executando s = true
          · rw [if_pos hc, hh] at hf
            have := congrArg List.length hf
            obtain ⟨c, h1, _⟩ := (corrente_executando_iff s).mp hc
            rw [h1] at this
            simp at this
          · rw [if_neg hc, hh] at hf
            exact hf.symm
        show ({ s with fila_prontos := [], processo_corrente := none } : so_t) = _
        rw [← e4]
      rw [e3]
      exact ⟨rfl, rfl⟩

set_option maxRecDepth 100000 in
/-- C29, on the example machine: init is RUNNING with its quantum spent and the
process with pid 2 is alone in the ready queue. Init is appended, the head (pid 2)
is taken and made current, and the queue left holds init alone. -/
theorem escalonador_round_robin_passo_exemplo :
    escalonador_round_robin exemplo_quantum_esgotado =
      so_executa_proc { exemplo_quantum_esgotado with fila_prontos := [0] } (some 1) ∧
    (escalonador_round_robin exemplo_quantum_esgotado).fila_prontos = [0] ∧
    (escalonador_round_robin exemplo_quantum_esgotado).processo_corrente = some 1 ∧
    (escalonador_round_robin exemplo_quantum_esgotado).quantum_proc = QUANTUM :=
  ((escalonador_round_robin_passo exemplo_quantum_esgotado [1, 0] (by decide)).2
    (by decide)).1 1 [0] rfl

/-- C30. Removal of the entry of smallest priority value. For every non-empty
ready queue, `remover_processo_maior_prioridade` returns the descriptor `j` whose
priority is numerically smallest in the queue, the one nearest the head among
equals: the queue is `a ++ j :: b`, every entry of `a` has a strictly larger
priority than `j` and no entry of `b` a smaller one. The queue left is `a ++ b`:
the original sequence without exactly that entry, the order of the others
unchanged. On an empty queue nothing is returned. -/
theorem remover_processo_maior_prioridade_caracterizacao (ps : List processo_t)
    (fila : List Nat) :
    (fila = [] → remover_processo_maior_prioridade ps fila = none) ∧
    (fila ≠ [] → ∃ (a : List Nat) (j : Nat) (b : List Nat), fila = a ++ j :: b ∧
      remover_processo_maior_prioridade ps fila = some (j, a ++ b) ∧
      (∀ x ∈ a, prioridade_de ps j < prioridade_de ps x) ∧
      (∀ x ∈ b, prioridade_de ps j ≤ prioridade_de ps x)) := by
  refine ⟨?_, ?_⟩
  · intro h
    rw [h]
    rfl
  · intro h
    obtain ⟨a, j, b, e, ha, hb⟩ := primeiro_minimo (prioridade_de ps) fila h
    refine ⟨a, j, b, e, ?_, ha, hb⟩
    rw [e]
    exact remover_processo_maior_prioridade_escolhe ps j a b ha hb

/-- C30, on the example state of the priority policy: the queue holds the
descriptors at positions 1 and 2, of priorities 2 and 1/2; the one at position 2 is
removed and the one at position 1 is left. -/
theorem remover_processo_maior_prioridade_caracterizacao_exemplo :
    (∃ (a : List Nat) (j : Nat) (b : List Nat), [1, 2] = a ++ j :: b ∧
      remover_processo_maior_prioridade exemplo_prioridade.processos [1, 2] =
        some (j, a ++ b) ∧
      (∀ x ∈ a, prioridade_de exemplo_prioridade.processos j <
        prioridade_de exemplo_prioridade.processos x) ∧
      (∀ x ∈ b, prioridade_de exemplo_prioridade.processos j ≤
        prioridade_de exemplo_prioridade.processos x)) ∧
    remover_processo_maior_prioridade exemplo_prioridade.processos [1, 2] = some (2, [1]) ∧
    remover_processo_maior_prioridade exemplo_prioridade.processos [] = none :=
  ⟨(remover_processo_maior_prioridade_caracterizacao exemplo_prioridade.processos [1, 2]).2
      (by decide),
    by decide!, rfl⟩

set_option maxRecDepth 100000 in
/-- C31 as stated fails: the amount is added in binary32, not exactly. On the
example machine under round-robin, after the boot RESET and one TIMER trap the
quantum left is 4 and the priority of init, 1/2 before, is 5033165/8388608 (the
float 0.6), not 1/2 + (5 - 4)/5/2 = 3/5: the priority has grown by
838861/8388608, not by 1/10. The same value results from `so_escalona` on the
state after the boot with 4 ticks of quantum left. -/
theorem prioridade_somada_em_float :
    (so_cria 10 (exemplo_mem 0 0) exemplo_es exemplo_programas).map (fun s0 =>
      prioridades (executa 2 s0 (exemplo_trap IRQ_RESET 0 0 :: exemplo_relogios 1))) =
      some [5033165 / 8388608] ∧
    prioridades exemplo_apos_boot = [1 / 2] ∧
    prioridades (so_escalona { exemplo_apos_boot with quantum_proc := 4 } 2) =
      [5033165 / 8388608] ∧
    (5033165 / 8388608 : ℚ) - 1 / 2 ≠ ((QUANTUM - 4 : Int) : ℚ) / ((QUANTUM : Int) : ℚ) / 2 := by
  refine ⟨by decide!, by decide!, by decide!, ?_⟩
  norm_num [QUANTUM]

/-- C31, amended. The priority update in binary32. For every kernel state `self`
whose remaining quantum `q` is an `int` for which `QUANTUM - q` does not overflow,
and every policy value: after the first two steps of `so_escalona` (before any
policy runs), and also after the whole of `so_escalona`, the priority of the
current descriptor is the float sum of its old priority and
`acrescimo_de_prioridade q`, and the priority of every other descriptor is
unchanged. `acrescimo_de_prioridade q` is `(QUANTUM - q) / (float)QUANTUM / 2`
with the difference converted to float and both divisions made in float (not
integer divisions); it is at least 0 when `q ≤ QUANTUM`, at most 1/2 when
`0 ≤ q`, 0 for `q = QUANTUM` and 1/2 for `q = 0`, and for q = 0, ..., 5 it is
1/2, the floats 0.4, 0.3, 0.2, 0.1, and 0. In every run that starts from the
kernel `so_cria` returns, whatever the traps and the policy, the quantum is
between 0 and `QUANTUM` at every kernel exit and whenever the scheduler runs, so
that the amount it adds lies between 0 and 1/2. -/
theorem atualizacao_da_prioridade (escalonador IRQ_END_TRATADOR : Int) (mem : mem_t)
    (es : es_t) (programas : nome_t → Option programa_t) (s0 : so_t)
    (h : so_cria IRQ_END_TRATADOR mem es programas = some s0) :
    (∀ (self : so_t) (j : Nat),
      -2147483642 ≤ self.quantum_proc → self.quantum_proc ≤ 2147483647 →
      ((atualiza_prioridade (atualiza_estado_processo_corrente self)).processos[j]?).map
          (fun p => p.prioridade) =
        (if self.processo_corrente = some j then
          (self.processos[j]?).map
            (fun p => float_soma p.prioridade (acrescimo_de_prioridade self.quantum_proc))
        else (self.processos[j]?).map (fun p => p.prioridade)) ∧
      ((so_escalona self escalonador).processos[j]?).map (fun p => p.prioridade) =
        (if self.processo_corrente = some j then
          (self.processos[j]?).map
            (fun p => float_soma p.prioridade (acrescimo_de_prioridade self.quantum_proc))
        else (self.processos[j]?).map (fun p => p.prioridade))) ∧
    (∀ q : Int,
      acrescimo_de_prioridade q =
        float_div (float_div (float_de_int (QUANTUM - q)) (float_de_int QUANTUM)) 2 ∧
      (q ≤ QUANTUM → 0 ≤ acrescimo_de_prioridade q) ∧
      (0 ≤ q → acrescimo_de_prioridade q ≤ 1 / 2) ∧
      acrescimo_de_prioridade QUANTUM = 0 ∧ acrescimo_de_prioridade 0 = 1 / 2) ∧
    (acrescimo_de_prioridade 1 = 13421773 / 33554432 ∧
      acrescimo_de_prioridade 2 = 5033165 / 16777216 ∧
      acrescimo_de_prioridade 3 = 13421773 / 67108864 ∧
      acrescimo_de_prioridade 4 = 13421773 / 134217728) ∧
    (∀ (ts : List trap_t) (t : trap_t),
      0 ≤ (executa escalonador s0 ts).quantum_proc ∧
      (executa escalonador s0 ts).quantum_proc ≤ QUANTUM ∧
      0 ≤ (so_trata_pendencias (so_trata_irq
        (prepara_entrada (na_entrada (executa escalonador s0 ts) t) t.irq)
        t.irq)).quantum_proc ∧
      (so_trata_pendencias (so_trata_irq
        (prepara_entrada (na_entrada (executa escalonador s0 ts) t) t.irq)
        t.irq)).quantum_proc ≤ QUANTUM ∧
      0 ≤ acrescimo_de_prioridade (so_trata_pendencias (so_trata_irq
        (prepara_entrada (na_entrada (executa escalonador s0 ts) t) t.irq)
        t.irq)).quantum_proc ∧
      acrescimo_de_prioridade (so_trata_pendencias (so_trata_irq
        (prepara_entrada (na_entrada (executa escalonador s0 ts) t) t.irq)
        t.irq)).quantum_proc ≤ 1 / 2) := by
  have hq := (so_cria_inicio IRQ_END_TRATADOR mem es programas s0 h).2.2.2
  refine ⟨fun self j _ _ => ⟨antes_da_politica_prioridade self j,
    so_escalona_prioridade self escalonador j⟩,
    fun q => ⟨rfl, acrescimo_de_prioridade_limites q⟩,
    ⟨by decide!, by decide!, by decide!, by decide!⟩, ?_⟩
  intro ts t
  obtain ⟨e0, e5⟩ := executa_limites escalonador ts s0 (by rw [hq]; decide) (by rw [hq])
  obtain ⟨a0, a5⟩ := antes_de_escalonar_limites
    (na_entrada (executa escalonador s0 ts) t) t.irq e0 e5
  exact ⟨e0, e5, a0, a5, (acrescimo_de_prioridade_limites _).1 a5,
    (acrescimo_de_prioridade_limites _).2.1 a0⟩

set_option maxRecDepth 100000 in
/-- C31 amended, on the example machine under round-robin: with init current and 4
ticks of quantum left the scheduler stores the float sum of its priority 1/2 and
the float 0.1, which is the float 0.6 (an integer division would add 0). -/
theorem atualizacao_da_prioridade_exemplo :
    acrescimo_de_prioridade 4 = 13421773 / 134217728 ∧
    ((so_escalona { exemplo_apos_boot with quantum_proc := 4 } 2).processos[0]?).map
        (fun p => p.prioridade) = some (float_soma (1 / 2) (acrescimo_de_prioridade 4)) ∧
    float_soma (1 / 2) (acrescimo_de_prioridade 4) = 5033165 / 8388608 := by
  have h := atualizacao_da_prioridade 2 10 (exemplo_mem 0 0) exemplo_es exemplo_programas
    exemplo_criado rfl
  refine ⟨h.2.2.1.2.2.2, ?_, by decide!⟩
  rw [(h.1 { exemplo_apos_boot with quantum_proc := 4 } 0 (by decide) (by decide)).2]
  decide!

set_option maxRecDepth 100000 in
/-- C32 as stated fails. On the example machine, under round-robin and under the
priority policy alike, after the boot RESET and three TIMER traps the priority of
init is 9227469/8388608 (the float 1.1), above 1: at each kernel entry the
scheduler adds the float amount for the quantum then left (the floats 0.1, 0.2
and 0.3 here) to the priority of the current process, and nothing ever takes
anything off. -/
theorem prioridade_passa_de_um :
    (so_cria 10 (exemplo_mem 0 0) exemplo_es exemplo_programas).map (fun s0 =>
      (prioridades (executa 2 s0 (exemplo_trap IRQ_RESET 0 0 :: exemplo_relogios 3)),
       prioridades (executa 1 s0 (exemplo_trap IRQ_RESET 0 0 :: exemplo_relogios 3)))) =
      some ([9227469 / 8388608], [9227469 / 8388608]) ∧
    (1 : ℚ) < 9227469 / 8388608 := by
  refine ⟨by decide!, by norm_num⟩

/-- C32, amended. The dynamic priority stays between 1/2 and 2^24: in every state
of a run that starts from the kernel `so_cria` returns, whatever the traps are and
under any policy value, every descriptor's priority `p` satisfies
`1/2 ≤ p ≤ 16777216`. -/
theorem prioridade_entre_meio_e_o_teto (escalonador IRQ_END_TRATADOR : Int) (mem : mem_t)
    (es : es_t) (programas : nome_t → Option programa_t) (s0 : so_t)
    (h : so_cria IRQ_END_TRATADOR mem es programas = some s0) :
    ∀ (ts : List trap_t), ∀ r ∈ prioridades (executa escalonador s0 ts),
      1 / 2 ≤ r ∧ r ≤ 16777216 := by
  have hq := (so_cria_inicio IRQ_END_TRATADOR mem es programas s0 h).2.2.2
  have hv := (so_cria_recem_criado IRQ_END_TRATADOR mem es programas s0 h).1
  have geral : ∀ (ts : List trap_t) (s : so_t),
      (0 ≤ s.quantum_proc ∧ s.quantum_proc ≤ QUANTUM ∧
        ∀ r ∈ prioridades s, 1 / 2 ≤ r ∧ r ≤ 16777216) →
      ∀ r ∈ prioridades (executa escalonador s ts), 1 / 2 ≤ r ∧ r ≤ 16777216 := by
    intro ts
    induction ts with
    | nil => intro s hs; exact hs.2.2
    | cons t ts ih =>
      intro s hs
      obtain ⟨l0, l5, _⟩ := entrada_limites escalonador s t hs.1 hs.2.1
      exact ih _ ⟨l0, l5, entrada_prioridades_limitadas escalonador s t hs.1 hs.2.1 hs.2.2⟩
  intro ts
  refine geral ts s0 ⟨by rw [hq]; decide, by rw [hq], ?_⟩
  intro r hr
  unfold prioridades at hr
  rw [hv] at hr
  cases hr

set_option maxRecDepth 100000 in
/-- C32 amended, on the example machine under round-robin: after the boot, a
SPAWN and three TIMER traps the priorities are 9227469/8388608 and 1/2. -/
theorem prioridade_entre_meio_e_o_teto_exemplo :
    prioridades (executa 2 exemplo_criado
      (exemplo_trap IRQ_RESET 0 0 :: exemplo_trap IRQ_SISTEMA 7 50 :: exemplo_relogios 3)) =
      [9227469 / 8388608, 1 / 2] ∧
    ((1 : ℚ) / 2 ≤ 9227469 / 8388608 ∧ (9227469 / 8388608 : ℚ) ≤ 16777216) := by
  have e : prioridades (executa 2 exemplo_criado
      (exemplo_trap IRQ_RESET 0 0 :: exemplo_trap IRQ_SISTEMA 7 50 :: exemplo_relogios 3)) =
      [9227469 / 8388608, 1 / 2] := by decide!
  refine ⟨e, ?_⟩
  exact prioridade_entre_meio_e_o_teto 2 10 (exemplo_mem 0 0) exemplo_es exemplo_programas
    exemplo_criado rfl
    (exemplo_trap IRQ_RESET 0 0 :: exemplo_trap IRQ_SISTEMA 7 50 :: exemplo_relogios 3)
    (9227469 / 8388608) (by rw [e]; simp)

/-- C33. The execution transition. For every kernel state and chosen descriptor `h`
of the table (`ph` before the call), after `so_executa_proc`: (a) the previous
current descriptor, when it exists, is not `h` and is RUNNING, is the result of
`proc_muda_estado` to READY on it, and exactly in that case the global preemption
counter is one higher (otherwise that descriptor and the counter are unchanged);
(b) `h` is the result of `proc_muda_estado` to RUNNING on `ph`, which makes it
RUNNING and adds one to its RUNNING entry counter, when `ph` is not RUNNING, and is
`ph` unchanged when it is; (c) `h` is current, the quantum is `QUANTUM`, and every
other descriptor of the table is unchanged. -/
theorem so_executa_proc_caracterizacao (self : so_t) (h : Nat) (ph : processo_t)
    (hh : self.processos[h]? = some ph) :
    (∀ j, (so_executa_proc self (some h)).processos[j]? =
      if j = h then
        some (if ph.estado ≠ ESTADO_INICIALIZANDO then proc_muda_estado ph ESTADO_INICIALIZANDO
          else ph)
      else if self.processo_corrente = some j then
        (self.processos[j]?).map (fun pc =>
          if pc.estado = ESTADO_INICIALIZANDO then proc_muda_estado pc ESTADO_PRONTO else pc)
      else self.processos[j]?) ∧
    ((∃ c pc, self.processo_corrente = some c ∧ self.processos[c]? = some pc ∧ c ≠ h ∧
        pc.estado = ESTADO_INICIALIZANDO) →
      (so_executa_proc self (some h)).metricas.num_preempcoes =
        self.metricas.num_preempcoes + 1) ∧
    (¬ (∃ c pc, self.processo_corrente = some c ∧ self.processos[c]? = some pc ∧ c ≠ h ∧
        pc.estado = ESTADO_INICIALIZANDO) →
      (so_executa_proc self (some h)).metricas.num_preempcoes =
        self.metricas.num_preempcoes) ∧
    (∀ p : processo_t,
      (proc_muda_estado p ESTADO_INICIALIZANDO).estado = ESTADO_INICIALIZANDO ∧
      ((proc_muda_estado p ESTADO_INICIALIZANDO).metricas.estados
          ESTADO_INICIALIZANDO).quantidade =
        (p.metricas.estados ESTADO_INICIALIZANDO).quantidade + 1 ∧
      (proc_muda_estado p ESTADO_PRONTO).estado = ESTADO_PRONTO) ∧
    (so_executa_proc self (some h)).processo_corrente = some h ∧
    (so_executa_proc self (some h)).quantum_proc = QUANTUM := by
  refine ⟨?_, ?_, ?_, ?_, rfl, rfl⟩
  · intro j
    show (so_executa_proc_inicio (so_executa_proc_preempcao self (some h)) (some h)).processos[j]? = _
    rw [so_executa_proc_inicio_tabela, (so_executa_proc_preempcao_tabela self (some h) j).1]
    by_cases hj : j = h
    · subst hj
      rw [if_pos rfl, if_pos rfl, if_neg (fun hk => hk.2 rfl), hh]
      rfl
    · rw [if_neg hj, if_neg hj]
      by_cases hc : self.processo_corrente = some j
      · rw [if_pos ⟨hc, by simpa using hj⟩, if_pos hc]
      · rw [if_neg (fun hk => hc hk.1), if_neg hc]
  · rintro ⟨c, pc, h1, h2, h3, h4⟩
    have e : corrente self = some (c, pc) := (corrente_eq_some self c pc).mpr ⟨h1, h2⟩
    have hm : ∀ z : so_t, (so_executa_proc_inicio z (some h)).metricas = z.metricas := by
      intro z
      unfold so_executa_proc_inicio
      dsimp only
      split
      · split <;> rfl
      · rfl
    show (so_executa_proc_inicio (so_executa_proc_preempcao self (some h))
      (some h)).metricas.num_preempcoes = _
    rw [hm]
    unfold so_executa_proc_preempcao
    rw [e]
    dsimp only
    rw [if_pos ⟨by simpa using h3, h4⟩]
  · intro hn
    have hm : ∀ z : so_t, (so_executa_proc_inicio z (some h)).metricas = z.metricas := by
      intro z
      unfold so_executa_proc_inicio
      dsimp only
      split
      · split <;> rfl
      · rfl
    show (so_executa_proc_inicio (so_executa_proc_preempcao self (some h))
      (some h)).metricas.num_preempcoes = _
    rw [hm]
    unfold so_executa_proc_preempcao
    cases e : corrente self with
    | none => rfl
    | some cp =>
      obtain ⟨c, pc⟩ := cp
      obtain ⟨h1, h2⟩ := (corrente_eq_some self c pc).mp e
      dsimp only
      rw [if_neg (fun hk => hn ⟨c, pc, h1, h2, by simpa using hk.1, hk.2⟩)]
  · intro p
    refine ⟨rfl, ?_, rfl⟩
    unfold proc_muda_estado
    simp [preemptiu]

set_option maxRecDepth 100000 in
/-- C33, on the example machine: init is current and RUNNING, the process with pid 2
is READY and is chosen. Init is preempted (the global counter goes from 0 to 1)
and the chosen process is current with a full quantum. -/
theorem so_executa_proc_caracterizacao_exemplo :
    (so_executa_proc exemplo_quantum_esgotado (some 1)).metricas.num_preempcoes = 0 + 1 ∧
    (so_executa_proc exemplo_quantum_esgotado (some 1)).processo_corrente = some 1 ∧
    (so_executa_proc exemplo_quantum_esgotado (some 1)).quantum_proc = QUANTUM ∧
    estados (so_executa_proc exemplo_quantum_esgotado (some 1)) =
      [ESTADO_PRONTO, ESTADO_INICIALIZANDO] :=
  have h := so_executa_proc_caracterizacao exemplo_quantum_esgotado 1
    (exemplo_proc 2 ESTADO_PRONTO 0 0) rfl
  ⟨h.2.1 ⟨0, exemplo_proc 1 ESTADO_INICIALIZANDO 0 0, rfl, rfl, by decide, rfl⟩,
    h.2.2.2.2.1, h.2.2.2.2.2, by decide⟩

/-- C34. The sweep. For every kernel state, after `so_trata_pendencias`: the table
is the old one with `marca_pronto` applied to every descriptor and the ready queue
is the old one followed by the positions `i` with `desperta i`, in table order,
each once. A descriptor `b` that was BLOCKED with reason WAIT_PID is READY
afterwards if and only if the table holds a TERMINATED descriptor whose pid is
`b.reg[0]`; the positions appended to the queue are exactly those of the
descriptors that were BLOCKED and are READY afterwards; a descriptor that was not
BLOCKED is unchanged, and the entries the queue already had stay where they
were. -/
theorem varredura_de_pendencias (self : so_t) :
    (so_trata_pendencias self).processos = self.processos.map (marca_pronto self) ∧
    (so_trata_pendencias self).fila_prontos =
      self.fila_prontos ++ (List.range self.processos.length).filter (desperta self) ∧
    ((List.range self.processos.length).filter (desperta self)).Pairwise (fun a b => a < b) ∧
    (∀ (i : Nat) (b : processo_t), self.processos[i]? = some b →
      b.estado = ESTADO_BLOQUEADO → b.motivo_bloqueio = BLOQUEIO_POR_ESPERA_DE_PROC →
      (estado_em (so_trata_pendencias self).processos i = some ESTADO_PRONTO ↔
        ∃ (j : Nat) (q : processo_t), self.processos[j]? = some q ∧ q.pid = b.reg0 ∧
          q.estado = ESTADO_TERMINADO)) ∧
    (∀ (i : Nat) (p : processo_t), self.processos[i]? = some p →
      (desperta self i = true ↔
        (p.estado = ESTADO_BLOQUEADO ∧
          estado_em (so_trata_pendencias self).processos i = some ESTADO_PRONTO))) ∧
    (∀ (i : Nat) (p : processo_t), self.processos[i]? = some p →
      p.estado ≠ ESTADO_BLOQUEADO → (so_trata_pendencias self).processos[i]? = some p) := by
  obtain ⟨h1, h2⟩ := so_trata_pendencias_exato self
  have hest : ∀ (i : Nat) (p : processo_t), self.processos[i]? = some p →
      estado_em (so_trata_pendencias self).processos i = some (marca_pronto self p).estado := by
    intro i p hp
    unfold estado_em
    rw [h1, List.getElem?_map, hp]
    rfl
  have hdesp : ∀ (i : Nat) (p : processo_t), self.processos[i]? = some p →
      (desperta self i = true ↔
        (p.estado = ESTADO_BLOQUEADO ∧
          estado_em (so_trata_pendencias self).processos i = some ESTADO_PRONTO)) := by
    intro i p hp
    rw [hest i p hp]
    constructor
    · intro hd
      obtain ⟨e1, e2⟩ := (desperta_marca self i p hp).1 hd
      rw [e1]
      exact ⟨e2, rfl⟩
    · rintro ⟨hb, hr⟩
      cases hd : desperta self i with
      | true => rfl
      | false =>
        rw [(desperta_marca self i p hp).2 hd, hb] at hr
        cases hr
  refine ⟨h1, h2, ?_, ?_, hdesp, ?_⟩
  · exact List.Pairwise.filter _ (List.pairwise_lt_range _)
  · intro i b hb hbl hm
    rw [← esperado_terminou_iff]
    have e : desperta self i = esperado_terminou self.processos b.reg0 := by
      unfold desperta acorda
      rw [hb]
      dsimp only
      rw [hm]
      simp [hbl]
    rw [← e]
    constructor
    · intro hr
      exact (hdesp i b hb).mpr ⟨hbl, hr⟩
    · intro hd
      exact ((hdesp i b hb).mp hd).2
  · intro i p hp hn
    rw [h1, List.getElem?_map, hp]
    have e : marca_pronto self p = p := by
      unfold marca_pronto
      rw [if_neg (fun hh => hn hh.1)]
    show some (marca_pronto self p) = some p
    rw [e]

set_option maxRecDepth 100000 in
/-- C34, on the example machine: init is BLOCKED waiting for pid 2, which is
TERMINATED; the sweep makes init READY and puts it in the ready queue, and leaves
the TERMINATED descriptor as it was. -/
theorem varredura_de_pendencias_exemplo :
    estado_em (so_trata_pendencias exemplo_espera).processos 0 = some ESTADO_PRONTO ∧
    (so_trata_pendencias exemplo_espera).fila_prontos = [0] ∧
    (so_trata_pendencias exemplo_espera).processos[1]? = some (exemplo_proc 2 ESTADO_TERMINADO 0 0) := by
  have h := varredura_de_pendencias exemplo_espera
  refine ⟨(h.2.2.2.1 0 _ rfl rfl rfl).mpr ⟨1, _, rfl, rfl, rfl⟩, ?_, ?_⟩
  · rw [h.2.1]
    decide
  · exact h.2.2.2.2.2 1 _ rfl (by decide)

/-- C35 (the code breaks it). On every machine on which `so_cria` returns a kernel
and `init.maq` loads at the boot, after the boot RESET entry init (pid 1) is
RUNNING (`ESTADO_INICIALIZANDO`) and current, yet its RUNNING entry counter is 0,
and its four entry counters add up to 1, although it has undergone one state
transition (READY to RUNNING) since it was created: `so_escalona` made it RUNNING
through `atualiza_estado_processo_corrente`, which writes the state field without
`proc_muda_estado`. -/
theorem boot_nao_conta_a_entrada_em_execucao (IRQ_END_TRATADOR : Int) (mem : mem_t)
    (es : es_t) (programas : nome_t → Option programa_t) (s0 : so_t) (prog : programa_t)
    (t1 : trap_t)
    (h0 : so_cria IRQ_END_TRATADOR mem es programas = some s0)
    (hprog : programas nome_init = some prog)
    (hcar : (carrega_palavras t1.mem prog.end_carga prog.dados).2 = true)
    (hend : prog.end_carga ≠ -1) (h1 : t1.irq = IRQ_RESET) :
    ∃ p : processo_t, (entrada ESCALONADOR s0 t1).1.processos = [p] ∧ p.pid = 1 ∧
      (entrada ESCALONADOR s0 t1).1.processo_corrente = some 0 ∧
      p.estado = ESTADO_INICIALIZANDO ∧
      (p.metricas.estados ESTADO_INICIALIZANDO).quantidade = 0 ∧
      (p.metricas.estados ESTADO_INICIALIZANDO).quantidade +
        (p.metricas.estados ESTADO_PRONTO).quantidade +
        (p.metricas.estados ESTADO_BLOQUEADO).quantidade +
        (p.metricas.estados ESTADO_TERMINADO).quantidade = 1 := by
  have hp := so_cria_programas IRQ_END_TRATADOR mem es programas s0 h0
  obtain ⟨⟨p, b1, b2, b3, b4⟩, b5, _, _, _⟩ := entrada_boot s0 t1 prog
    (so_cria_recem_criado IRQ_END_TRATADOR mem es programas s0 h0)
    (so_cria_inicio IRQ_END_TRATADOR mem es programas s0 h0).2.2.2 h1
    (by rw [hp]; exact hprog) hcar hend
  refine ⟨p, b1, b2, b5, b3, ?_, ?_⟩
  · rw [b4]
    rfl
  · rw [b4]
    rfl

set_option maxRecDepth 100000 in
/-- C35, on the example machine: after the boot RESET init is RUNNING and its entry
counters for RUNNING, READY, BLOCKED and TERMINATED are 0, 1, 0 and 0. -/
theorem boot_nao_conta_a_entrada_em_execucao_exemplo :
    ∃ p : processo_t, exemplo_apos_boot.processos = [p] ∧ p.pid = 1 ∧
      exemplo_apos_boot.processo_corrente = some 0 ∧
      p.estado = ESTADO_INICIALIZANDO ∧
      (p.metricas.estados ESTADO_INICIALIZANDO).quantidade = 0 ∧
      (p.metricas.estados ESTADO_INICIALIZANDO).quantidade +
        (p.metricas.estados ESTADO_PRONTO).quantidade +
        (p.metricas.estados ESTADO_BLOQUEADO).quantidade +
        (p.metricas.estados ESTADO_TERMINADO).quantidade = 1 :=
  boot_nao_conta_a_entrada_em_execucao 10 (exemplo_mem 0 0) exemplo_es exemplo_programas
    exemplo_criado { end_carga := 100, dados := [0] } (exemplo_trap IRQ_RESET 0 0)
    rfl rfl (by decide) (by decide) rfl

/-- C36. A process unblocked by the current interrupt is dispatched by the same
kernel entry. Under round-robin, for every kernel entry with the timer IRQ or an
unknown IRQ at which no process is current, the ready queue is empty and `b`, at
position `i` among the first `numero_processos` descriptors, is BLOCKED and
satisfies its wake condition on the devices of this entry while no descriptor
before it is woken: the entry returns 0, `b` is the current process and is
RUNNING, with its pid, pc, reg[0] and reg[1] unchanged, and the trap frame holds
the pc, reg[0] and reg[1] of `b`. -/
theorem desbloqueado_e_despachado_na_mesma_entrada (self : so_t) (irq : irq_t) (i : Nat)
    (b : processo_t)
    (h1 : irq ≠ IRQ_RESET) (h2 : irq ≠ IRQ_SISTEMA) (h3 : irq ≠ IRQ_ERR_CPU)
    (hc : self.processo_corrente = none) (hf : self.fila_prontos = [])
    (hn : (i : Int) < self.numero_processos)
    (hb : self.processos[i]? = some b) (hbl : b.estado = ESTADO_BLOQUEADO)
    (ha : acorda self.es self.processos b = true)
    (hp : ∀ j, j < i → desperta self j = false) :
    (so_trata_interrupcao_com 2 self irq).2 = 0 ∧
    (so_trata_interrupcao_com 2 self irq).1.processo_corrente = some i ∧
    (∃ b1, (so_trata_interrupcao_com 2 self irq).1.processos[i]? = some b1 ∧
      b1.estado = ESTADO_INICIALIZANDO ∧ b1.pid = b.pid ∧ b1.pc = b.pc ∧
      b1.reg0 = b.reg0 ∧ b1.reg1 = b.reg1) ∧
    mem_le (so_trata_interrupcao_com 2 self irq).1.mem IRQ_END_PC = some b.pc ∧
    mem_le (so_trata_interrupcao_com 2 self irq).1.mem IRQ_END_A = some b.reg0 ∧
    mem_le (so_trata_interrupcao_com 2 self irq).1.mem IRQ_END_X = some b.reg1 := by
  obtain ⟨a1, a2, b1, a3, a4, a5, a6, a7, a8⟩ :=
    apos_escalonar_desperta self irq i b h1 h2 h3 hc hf hb hbl ha hp
  rw [so_trata_interrupcao_com_fim]
  generalize apos_escalonar 2 self irq = X at a1 a2 a3 ⊢
  have hv : (X.processos.take X.numero_processos.toNat).any
      (fun p => p.estado ≠ ESTADO_TERMINADO) = true := by
    rw [List.any_eq_true]
    refine ⟨b1, ?_, ?_⟩
    · rw [List.mem_iff_getElem?]
      refine ⟨i, ?_⟩
      rw [List.getElem?_take_of_lt (by omega)]
      exact a3
    · rw [a4]
      decide
  rw [if_pos hv]
  have hcor : corrente X = some (i, b1) := (corrente_eq_some X i b1).mpr ⟨a1, a3⟩
  unfold so_despacha
  rw [hcor]
  dsimp only
  refine ⟨rfl, a1, ⟨b1, a3, a4, a5, a6, a7, a8⟩, ?_, ?_, ?_⟩
  · rw [← a6]; rfl
  · rw [← a7]; rfl
  · rw [← a8]; rfl

theorem desbloqueado_e_despachado_na_mesma_entrada_exemplo :
    (so_trata_interrupcao_com 2 exemplo_espera IRQ_RELOGIO).2 = 0 ∧
    (so_trata_interrupcao_com 2 exemplo_espera IRQ_RELOGIO).1.processo_corrente = some 0 ∧
    mem_le (so_trata_interrupcao_com 2 exemplo_espera IRQ_RELOGIO).1.mem IRQ_END_A = some 2 :=
  have h := desbloqueado_e_despachado_na_mesma_entrada exemplo_espera IRQ_RELOGIO 0
    { exemplo_proc 1 ESTADO_BLOQUEADO 2 2 with motivo_bloqueio := BLOQUEIO_POR_ESPERA_DE_PROC }
    (by decide) (by decide) (by decide) rfl rfl (by decide) rfl rfl (by decide)
    (fun j hj => absurd hj (Nat.not_lt_zero j))
  ⟨h.1, h.2.1, h.2.2.2.2.1⟩

/-- C37. The result a system call writes to A is overwritten at dispatch. For every
system-call entry under round-robin whose caller `p`, at position `c` among the
first `numero_processos` descriptors, is current and RUNNING with a positive
quantum: (1) if after the entry the caller is still current, RUNNING and among the
first `numero_processos` descriptors (as at every exit of a run), the entry
returns 0 and the word A of the trap frame is the reg[0] of the descriptor of the
caller; (2) for READ with a ready keyboard, WRITE with a ready screen, KILL of
another process, a WAIT that does not block (own pid, pid not found, or target
TERMINATED) and a SPAWN that fails (name not copied, or loader returning -1), the
entry returns 0, the caller is still current and the word A at the exit is the
call number A held at the entry, whereas the handler had left in A the datum
read, 0 after a write the device accepted, 0 or -1 for KILL and WAIT, and -1 for
the failed SPAWN. -/
theorem resultado_da_chamada_sobrescrito_no_despacho (self : so_t) (c : Nat) (p : processo_t)
    (hc : self.processo_corrente = some c) (hp : self.processos[c]? = some p)
    (he : p.estado = ESTADO_INICIALIZANDO) (hn : (c : Int) < self.numero_processos)
    (hq : 0 < self.quantum_proc) :
    ((so_trata_interrupcao_com 2 self IRQ_SISTEMA).1.processo_corrente = some c →
      estado_em (so_trata_interrupcao_com 2 self IRQ_SISTEMA).1.processos c =
        some ESTADO_INICIALIZANDO →
      (c : Int) < (so_trata_interrupcao_com 2 self IRQ_SISTEMA).1.numero_processos →
      (so_trata_interrupcao_com 2 self IRQ_SISTEMA).2 = 0 ∧
      mem_le (so_trata_interrupcao_com 2 self IRQ_SISTEMA).1.mem IRQ_END_A =
        ((so_trata_interrupcao_com 2 self IRQ_SISTEMA).1.processos[c]?).map
          (fun q => q.reg0)) ∧
    (∀ e dado, self.mem.A = SO_LE →
      es_le self.es (calcular_endereco_dispositivo self.es.D_TERM_A_TECLADO_OK
        (obter_terminal_por_pid p.pid)) = some e → e ≠ 0 →
      es_le self.es (calcular_endereco_dispositivo self.es.D_TERM_A_TECLADO
        (obter_terminal_por_pid p.pid)) = some dado →
      escrito_pelo_tratador self = some dado ∧
      (so_trata_interrupcao_com 2 self IRQ_SISTEMA).2 = 0 ∧
      (so_trata_interrupcao_com 2 self IRQ_SISTEMA).1.processo_corrente = some c ∧
      mem_le (so_trata_interrupcao_com 2 self IRQ_SISTEMA).1.mem IRQ_END_A = some SO_LE) ∧
    (∀ e, self.mem.A = SO_ESCR →
      es_le self.es (calcular_endereco_dispositivo self.es.D_TERM_A_TELA_OK
        (obter_terminal_por_pid p.pid)) = some e → e ≠ 0 →
      (self.es.escreve_ok (calcular_endereco_dispositivo self.es.D_TERM_A_TELA
          (obter_terminal_por_pid p.pid)) self.mem.X = true →
        escrito_pelo_tratador self = some 0) ∧
      (so_trata_interrupcao_com 2 self IRQ_SISTEMA).2 = 0 ∧
      (so_trata_interrupcao_com 2 self IRQ_SISTEMA).1.processo_corrente = some c ∧
      mem_le (so_trata_interrupcao_com 2 self IRQ_SISTEMA).1.mem IRQ_END_A = some SO_ESCR) ∧
    (self.mem.A = SO_MATA_PROC → self.mem.X ≠ 0 → self.mem.X ≠ p.pid →
      (escrito_pelo_tratador self = some 0 ∨ escrito_pelo_tratador self = some (-1)) ∧
      (so_trata_interrupcao_com 2 self IRQ_SISTEMA).2 = 0 ∧
      (so_trata_interrupcao_com 2 self IRQ_SISTEMA).1.processo_corrente = some c ∧
      mem_le (so_trata_interrupcao_com 2 self IRQ_SISTEMA).1.mem IRQ_END_A =
        some SO_MATA_PROC) ∧
    (self.mem.A = SO_ESPERA_PROC →
      (self.mem.X = p.pid ∨ encontra_processo_por_pid self.processos self.mem.X = none ∨
        ∃ k, encontra_processo_por_pid self.processos self.mem.X = some k ∧
          estado_em self.processos k = some ESTADO_TERMINADO) →
      (escrito_pelo_tratador self = some 0 ∨ escrito_pelo_tratador self = some (-1)) ∧
      (so_trata_interrupcao_com 2 self IRQ_SISTEMA).2 = 0 ∧
      (so_trata_interrupcao_com 2 self IRQ_SISTEMA).1.processo_corrente = some c ∧
      mem_le (so_trata_interrupcao_com 2 self IRQ_SISTEMA).1.mem IRQ_END_A =
        some SO_ESPERA_PROC) ∧
    (self.mem.A = SO_CRIA_PROC →
      (copia_str_da_mem 100 self.mem self.mem.X = none ∨
        ∃ nome, copia_str_da_mem 100 self.mem self.mem.X = some nome ∧
          (so_carrega_programa self nome).2 = -1) →
      escrito_pelo_tratador self = some (-1) ∧
      (so_trata_interrupcao_com 2 self IRQ_SISTEMA).2 = 0 ∧
      (so_trata_interrupcao_com 2 self IRQ_SISTEMA).1.processo_corrente = some c ∧
      mem_le (so_trata_interrupcao_com 2 self IRQ_SISTEMA).1.mem IRQ_END_A =
        some SO_CRIA_PROC) := by
  obtain ⟨p1, k1, _, k3, _, k5⟩ := prepara_entrada_chamador self IRQ_SISTEMA c p hc hp
  obtain ⟨p0, _, p3, _, _, _⟩ := prepara_entrada_quadro self IRQ_SISTEMA
  obtain ⟨m1, m2, m3⟩ := prepara_entrada_mem self IRQ_SISTEMA
  have hcor : corrente (prepara_entrada self IRQ_SISTEMA) = some (c, p1) :=
    (corrente_eq_some _ c p1).mpr ⟨p3.trans hc, k1⟩
  have hA : (prepara_entrada self IRQ_SISTEMA).mem.A = self.mem.A := by rw [m1]
  have hX : (prepara_entrada self IRQ_SISTEMA).mem.X = self.mem.X := by rw [m1]
  obtain ⟨d1, d2, d3, d4, d5⟩ := so_trata_irq_chamada (prepara_entrada self IRQ_SISTEMA)
  have fecho := entrada_com_chamador_intacto self c p hc hp he hn hq
  refine ⟨?_, ?_, ?_, ?_, ?_, ?_⟩
  · intro h1 h2 h3
    rcases so_trata_interrupcao_com_forma 2 self IRQ_SISTEMA with f | f
    · obtain ⟨q, hq1, hq2⟩ := estado_em_some h2
      obtain ⟨g1, _, g3, _, g5⟩ := so_despacha_quadro
        (so_escalona (so_trata_pendencias
          (so_trata_irq (prepara_entrada self IRQ_SISTEMA) IRQ_SISTEMA)) 2)
      rw [f] at h1 h3 hq1
      rw [g3] at h1
      rw [g5] at h3
      rw [g1] at hq1
      have := fim_com_corrente_vivo _ c q h1 hq1 (by rw [hq2]; decide) h3
      rw [so_trata_interrupcao_com_fim]
      unfold apos_escalonar
      rw [this]
      refine ⟨rfl, ?_⟩
      dsimp only
      rw [hq1]
      rfl
    · obtain ⟨q, hq1, hq2⟩ := estado_em_some h2
      obtain ⟨g1, _, g3, _, g5⟩ := finaliza_sistema_quadro
        (so_escalona (so_trata_pendencias
          (so_trata_irq (prepara_entrada self IRQ_SISTEMA) IRQ_SISTEMA)) 2)
      rw [f] at h1 h3 hq1
      rw [g3] at h1
      rw [g5] at h3
      rw [g1] at hq1
      have := fim_com_corrente_vivo _ c q h1 hq1 (by rw [hq2]; decide) h3
      rw [so_trata_interrupcao_com_fim]
      unfold apos_escalonar
      rw [this]
      refine ⟨rfl, ?_⟩
      dsimp only
      rw [hq1]
      rfl
  · intro e dado h hok hne hdado
    have r := so_chamada_le_pronto (prepara_entrada self IRQ_SISTEMA) c p1 e hcor
      (by rw [m2, k3]; exact hok) hne
    rw [← d1 (hA.trans h)] at r
    refine ⟨?_, ?_⟩
    · exact r.2 dado (by rw [m2, k3]; exact hdado)
    · rw [← h]
      exact fecho r.1
  · intro e h hok hne
    have r := so_chamada_escr_pronto (prepara_entrada self IRQ_SISTEMA) c p1 e hcor
      (by rw [m2, k3]; exact hok) hne
    rw [← d2 (hA.trans h)] at r
    refine ⟨?_, ?_⟩
    · intro hw
      exact r.2 (by rw [m2, k3, hX]; exact hw)
    · rw [← h]
      exact fecho r.1
  · intro h h0 hne
    have r := so_chamada_mata_proc_outro (prepara_entrada self IRQ_SISTEMA) c p1 hcor
      (by rw [k5]; exact h0) (by rw [k5, k3]; exact hne)
    rw [← d4 (hA.trans h)] at r
    refine ⟨r.2, ?_⟩
    rw [← h]
    exact fecho r.1
  · intro h hcaso
    have epid : encontra_processo_por_pid (prepara_entrada self IRQ_SISTEMA).processos
        self.mem.X = encontra_processo_por_pid self.processos self.mem.X :=
      encontra_processo_por_pid_de_pids _ _ _ (pids_de_pids_estados p0)
    have r := so_chamada_espera_proc_sem_bloqueio (prepara_entrada self IRQ_SISTEMA) c p1 hcor
      (by
        rw [k5, k3, epid]
        rcases hcaso with a | a | ⟨k, a, b⟩
        · exact Or.inl a
        · exact Or.inr (Or.inl a)
        · exact Or.inr (Or.inr ⟨k, a, by rw [estado_em_de_pids_estados p0]; exact b⟩))
    rw [← d5 (hA.trans h)] at r
    refine ⟨r.2, ?_⟩
    rw [← h]
    exact fecho r.1
  · intro h hcaso
    have r := so_chamada_cria_proc_sem_efeito (prepara_entrada self IRQ_SISTEMA) c
      (by
        rw [hX, m1]
        rcases hcaso with a | ⟨nome, a, b⟩
        · exact Or.inl a
        · exact Or.inr ⟨nome, a, by
            rw [so_carrega_programa_de_mem _ self nome m1 m3]; exact b⟩)
    rw [← d3 (hA.trans h)] at r
    refine ⟨r.2, ?_⟩
    rw [← h]
    exact fecho r.1

theorem resultado_da_chamada_sobrescrito_no_despacho_exemplo :
    escrito_pelo_tratador exemplo_chamada_mata = some 0 ∧
    (so_trata_interrupcao_com 2 exemplo_chamada_mata IRQ_SISTEMA).2 = 0 ∧
    (so_trata_interrupcao_com 2 exemplo_chamada_mata IRQ_SISTEMA).1.processo_corrente = some 0 ∧
    mem_le (so_trata_interrupcao_com 2 exemplo_chamada_mata IRQ_SISTEMA).1.mem IRQ_END_A =
      some SO_MATA_PROC :=
  have h := (resultado_da_chamada_sobrescrito_no_despacho exemplo_chamada_mata 0
    (exemplo_proc 1 ESTADO_INICIALIZANDO 0 0) rfl rfl rfl (by decide) (by decide)).2.2.2.1
    rfl (by decide) (by decide)
  ⟨by decide, h.2⟩

/-- C38. The global preemption counter is the sum of the preemption counters of
the descriptors. In every state of a run that starts from the kernel `so_cria`
returns with a first trap (the boot RESET; the equality does not depend on which
trap it is) and goes on with any traps other than RESET (SYSCALL, CPU_ERROR,
TIMER, unknown IRQ), under any policy value, `metricas.num_preempcoes` is the sum
over the table of `metricas.quantidade_preempcoes`. -/
theorem contador_global_e_soma_dos_contadores (escalonador IRQ_END_TRATADOR : Int)
    (mem : mem_t) (es : es_t) (programas : nome_t → Option programa_t) (s0 : so_t)
    (t0 : trap_t) (ts : List trap_t)
    (h : so_cria IRQ_END_TRATADOR mem es programas = some s0) (hts : sem_reset ts) :
    (executa escalonador s0 (t0 :: ts)).metricas.num_preempcoes =
      soma_preempcoes (executa escalonador s0 (t0 :: ts)).processos := by
  have hv := (so_cria_recem_criado IRQ_END_TRATADOR mem es programas s0 h).1
  have hz := so_cria_preempcoes IRQ_END_TRATADOR mem es programas s0 h
  have h1 := entrada_saldo escalonador s0 t0 (Or.inr hv)
  have h2 := executa_saldo escalonador ts (entrada escalonador s0 t0).1 hts
  have h3 : (executa escalonador s0 (t0 :: ts)).metricas.num_preempcoes -
      soma_preempcoes (executa escalonador s0 (t0 :: ts)).processos = 0 := by
    show (executa escalonador (entrada escalonador s0 t0).1 ts).metricas.num_preempcoes -
      soma_preempcoes (executa escalonador (entrada escalonador s0 t0).1 ts).processos = 0
    rw [h2, h1, hz, hv]
    rfl
  omega

set_option maxRecDepth 100000 in
/-- C38, on the example machine under round-robin: after the boot, three SPAWNs,
WAIT(2) and twelve TIMER traps two children have been preempted once each, and the
global counter is 2. -/
theorem contador_global_e_soma_dos_contadores_exemplo :
    (executa 2 exemplo_criado (exemplo_s3 ++ exemplo_relogios 12)).metricas.num_preempcoes = 2 ∧
    (executa 2 exemplo_criado (exemplo_s3 ++ exemplo_relogios 12)).metricas.num_preempcoes =
      soma_preempcoes (executa 2 exemplo_criado (exemplo_s3 ++ exemplo_relogios 12)).processos :=
  ⟨by decide,
    contador_global_e_soma_dos_contadores 2 10 (exemplo_mem 0 0) exemplo_es exemplo_programas
      exemplo_criado (exemplo_trap IRQ_RESET 0 0)
      ([exemplo_trap IRQ_SISTEMA 7 50, exemplo_trap IRQ_SISTEMA 7 50,
        exemplo_trap IRQ_SISTEMA 7 50, exemplo_trap IRQ_SISTEMA 9 2] ++ exemplo_relogios 12)
      rfl (by unfold sem_reset; decide)⟩

/-- C39. The bounds of the quantum. In every state of a run that starts from the
kernel `so_cria` returns, whatever the traps are and under any policy value, the
remaining quantum is between 0 and `QUANTUM`; under round-robin (2) and under
priority (1), whenever a current descriptor exists in such a state, which is a
kernel exit, the remaining quantum is at least 1. -/
theorem limites_do_quantum (escalonador IRQ_END_TRATADOR : Int) (mem : mem_t) (es : es_t)
    (programas : nome_t → Option programa_t) (s0 : so_t)
    (h : so_cria IRQ_END_TRATADOR mem es programas = some s0) :
    ∀ ts : List trap_t,
      0 ≤ (executa escalonador s0 ts).quantum_proc ∧
      (executa escalonador s0 ts).quantum_proc ≤ QUANTUM ∧
      ((escalonador = 1 ∨ escalonador = 2) →
        (executa escalonador s0 ts).processo_corrente ≠ none →
        1 ≤ (executa escalonador s0 ts).quantum_proc) := by
  have hq := (so_cria_inicio IRQ_END_TRATADOR mem es programas s0 h).2.2.2
  have hc := (so_cria_recem_criado IRQ_END_TRATADOR mem es programas s0 h).2.2.1
  have geral : ∀ (ts : List trap_t) (s : so_t),
      (0 ≤ s.quantum_proc ∧ s.quantum_proc ≤ QUANTUM ∧
        ((escalonador = 1 ∨ escalonador = 2) → s.processo_corrente ≠ none →
          1 ≤ s.quantum_proc)) →
      (0 ≤ (executa escalonador s ts).quantum_proc ∧
        (executa escalonador s ts).quantum_proc ≤ QUANTUM ∧
        ((escalonador = 1 ∨ escalonador = 2) →
          (executa escalonador s ts).processo_corrente ≠ none →
          1 ≤ (executa escalonador s ts).quantum_proc)) := by
    intro ts
    induction ts with
    | nil => intro s hs; exact hs
    | cons t ts ih =>
      intro s hs
      exact ih _ (entrada_limites escalonador s t hs.1 hs.2.1)
  intro ts
  refine geral ts s0 ⟨?_, ?_, fun _ hn => absurd hc hn⟩
  · rw [hq]; decide
  · rw [hq]

set_option maxRecDepth 100000 in
/-- C39, on the example machine under round-robin: after the boot, three SPAWNs,
WAIT(2) and seven TIMER traps the second child is current and the quantum left
is 3. -/
theorem limites_do_quantum_exemplo :
    (executa 2 exemplo_criado (exemplo_s3 ++ exemplo_relogios 7)).processo_corrente = some 2 ∧
    (executa 2 exemplo_criado (exemplo_s3 ++ exemplo_relogios 7)).quantum_proc = 3 ∧
    1 ≤ (executa 2 exemplo_criado (exemplo_s3 ++ exemplo_relogios 7)).quantum_proc ∧
    (executa 2 exemplo_criado (exemplo_s3 ++ exemplo_relogios 7)).quantum_proc ≤ QUANTUM :=
  have h := limites_do_quantum 2 10 (exemplo_mem 0 0) exemplo_es exemplo_programas
    exemplo_criado rfl (exemplo_s3 ++ exemplo_relogios 7)
  ⟨by decide, by decide, h.2.2 (Or.inr rfl) (by decide), h.2.1⟩

/-- C40. The internal-error flag does not influence a kernel entry. For every
scheduling policy (`so_trata_interrupcao` is the entry with `ESCALONADOR`), every
IRQ and every two kernel states `a` and `b` that differ at most in
`erro_interno`: the two entries return the same value and leave states that
again differ at most in `erro_interno`, so with the same process table, ready
queue, current process, quantum, metrics, memory and devices (the writes recorded
included); and an entry on a state with the flag set leaves the flag set. -/
theorem erro_interno_nao_influencia_a_entrada (escalonador : Int) (a b : so_t) (irq : irq_t)
    (h : com_erro a false = com_erro b false) :
    (so_trata_interrupcao_com escalonador a irq).2 =
      (so_trata_interrupcao_com escalonador b irq).2 ∧
    com_erro (so_trata_interrupcao_com escalonador a irq).1 false =
      com_erro (so_trata_interrupcao_com escalonador b irq).1 false ∧
    (so_trata_interrupcao_com escalonador a irq).1.processos =
      (so_trata_interrupcao_com escalonador b irq).1.processos ∧
    (so_trata_interrupcao_com escalonador a irq).1.fila_prontos =
      (so_trata_interrupcao_com escalonador b irq).1.fila_prontos ∧
    (so_trata_interrupcao_com escalonador a irq).1.processo_corrente =
      (so_trata_interrupcao_com escalonador b irq).1.processo_corrente ∧
    (so_trata_interrupcao_com escalonador a irq).1.quantum_proc =
      (so_trata_interrupcao_com escalonador b irq).1.quantum_proc ∧
    (so_trata_interrupcao_com escalonador a irq).1.metricas =
      (so_trata_interrupcao_com escalonador b irq).1.metricas ∧
    (so_trata_interrupcao_com escalonador a irq).1.mem =
      (so_trata_interrupcao_com escalonador b irq).1.mem ∧
    (so_trata_interrupcao_com escalonador a irq).1.es =
      (so_trata_interrupcao_com escalonador b irq).1.es ∧
    (a.erro_interno = true →
      (so_trata_interrupcao_com escalonador a irq).1.erro_interno = true) ∧
    (b.erro_interno = true →
      (so_trata_interrupcao_com escalonador b irq).1.erro_interno = true) ∧
    so_trata_interrupcao a irq = so_trata_interrupcao_com ESCALONADOR a irq := by
  obtain ⟨a1, a2, a3⟩ := so_trata_interrupcao_sem_erro escalonador a irq
  obtain ⟨b1, b2, b3⟩ := so_trata_interrupcao_sem_erro escalonador b irq
  rw [← h] at b1 b2
  have e := a2.trans b2.symm
  have c1 := congrArg (fun s : so_t => s.processos) e
  have c2 := congrArg (fun s : so_t => s.fila_prontos) e
  have c3 := congrArg (fun s : so_t => s.processo_corrente) e
  have c4 := congrArg (fun s : so_t => s.quantum_proc) e
  have c5 := congrArg (fun s : so_t => s.metricas) e
  have c6 := congrArg (fun s : so_t => s.mem) e
  have c7 := congrArg (fun s : so_t => s.es) e
  exact ⟨a1.trans b1.symm, e, c1, c2, c3, c4, c5, c6, c7, a3, b3, rfl⟩

theorem erro_interno_nao_influencia_a_entrada_exemplo :
    (so_trata_interrupcao_com 2 exemplo_apos_boot IRQ_RESERVADA_4).2 =
      (so_trata_interrupcao_com 2 (com_erro exemplo_apos_boot true) IRQ_RESERVADA_4).2 ∧
    (so_trata_interrupcao_com 2 exemplo_apos_boot IRQ_RESERVADA_4).1.processos =
      (so_trata_interrupcao_com 2 (com_erro exemplo_apos_boot true) IRQ_RESERVADA_4).1.processos ∧
    (so_trata_interrupcao_com 2 (com_erro exemplo_apos_boot true)
      IRQ_RESERVADA_4).1.erro_interno = true :=
  have h := erro_interno_nao_influencia_a_entrada 2 exemplo_apos_boot
    (com_erro exemplo_apos_boot true) IRQ_RESERVADA_4 rfl
  ⟨h.1, h.2.2.1, h.2.2.2.2.2.2.2.2.2.2.1 rfl⟩
end So24b
